import Mathlib

/-!
Kiali traffic-graph construction: node identity and traffic accumulation.

A shallow embedding of `graph/types.go` (node identity, node construction), of
`graph/telemetry/istio/istio.go` (registration of nodes, accumulation and
de-duplication of metric rows on edges), of the security-policy appender
(`graph/telemetry/istio/appender/security_policy.go`), of the mTLS status
(`util/mtls/status.go`), of `UseRemoteCreds` (`kubernetes/client.go`) and of two
configuration checkers (`business/checkers/virtualservices/single_host_checker.go`,
`business/checkers/destinationrules/multi_match_checker.go`), followed by the properties
proved of them.

Conventions of the embedding.
* Go strings are `String`; `fmt.Sprintf` with `%s`/`%v` verbs on strings is `++`.
* A Go `panic` is the `Except.error` result, tagged with the head of the panic message.
* A Go map that is only looked up is a function to `Option`; a Go map that is ranged over
  is the list of its entries.
-/

namespace graph

/-! ## Constants of `graph/types.go` -/

def BlackHoleCluster : String := "BlackHoleCluster"
def GraphTypeApp : String := "app"
def GraphTypeService : String := "service"
def GraphTypeVersionedApp : String := "versionedApp"
def GraphTypeWorkload : String := "workload"
def GraphTypePod : String := "pod"
def NodeTypeAggregate : String := "aggregate"
def NodeTypeApp : String := "app"
def NodeTypeBox : String := "box"
def NodeTypeService : String := "service"
def NodeTypeUnknown : String := "unknown"
def NodeTypeWorkload : String := "workload"
def NodeTypePod : String := "pod"
def PassthroughCluster : String := "PassthroughCluster"
def Unknown : String := "unknown"

/-- Modelled from the spec: `graph.IsOK` is called by `Id`, `NewNode` and `addNode` but its
body is not among the sources. The specification reads a label as usable ("OK", "set/valid")
when it is non-empty and not the Istio value "unknown". -/
def IsOK (telemetryVal : String) : Bool :=
  telemetryVal != "" && telemetryVal != Unknown

/-- The preferred namespace of `Id`, `NewNode` and `addNode`: the workload namespace when it
is OK, the service namespace otherwise (`types.go` lines 187-190, 97-100). -/
def preferredNamespace (serviceNamespace workloadNamespace : String) : String :=
  if !IsOK workloadNamespace then serviceNamespace else workloadNamespace

/-- The part of `graph.Id` after the sentinels and the pod-graph block (`types.go` lines
221-264): the two `panic` guards, the workload/service graph types, then the app and
versionedApp graph types. `namespace_` is the preferred namespace computed by `Id`. -/
def IdGeneral (IsOKVersion : String → Bool)
    (cluster namespace_ service workload app version graphType : String) :
    Except String (String × String) :=
  let workloadOk := IsOK workload
  let appOk := IsOK app
  let serviceOk := IsOK service
  if !workloadOk && !appOk && !serviceOk then
    .error "Failed ID gen1"
  -- handle workload graph nodes (service graphs are initially processed as workload graphs)
  else if graphType = GraphTypeWorkload ∨ graphType = GraphTypeService then
    -- workload graph nodes are type workload or service
    if !workloadOk && !serviceOk then
      .error "Failed ID gen2"
    else if !workloadOk then
      .ok ("svc_" ++ cluster ++ "_" ++ namespace_ ++ "_" ++ service, NodeTypeService)
    else
      .ok ("wl_" ++ cluster ++ "_" ++ namespace_ ++ "_" ++ workload, NodeTypeWorkload)
  else
    -- handle app and versionedApp graphs
    let versionOk := IsOKVersion version
    if appOk then
      if graphType = GraphTypeVersionedApp ∧ workloadOk then
        .ok ("vapp_" ++ cluster ++ "_" ++ namespace_ ++ "_" ++ workload, NodeTypeApp)
      else if graphType = GraphTypeVersionedApp ∧ versionOk then
        .ok ("vapp_" ++ cluster ++ "_" ++ namespace_ ++ "_" ++ app ++ "_" ++ version, NodeTypeApp)
      else
        .ok ("app_" ++ cluster ++ "_" ++ namespace_ ++ "_" ++ app, NodeTypeApp)
    -- fall back to workload if applicable
    else if workloadOk then
      .ok ("wl_" ++ cluster ++ "_" ++ namespace_ ++ "_" ++ workload, NodeTypeWorkload)
    -- fall back to service as a last resort in the app graph
    else
      .ok ("svc_" ++ cluster ++ "_" ++ namespace_ ++ "_" ++ service, NodeTypeService)

/-- Embedding of `graph.Id` (`types.go` lines 185-264). The result is `(id, nodeType)`; the
two `panic` calls are the `error` results. `IsOKVersion` stands for `graph.IsOKVersion`,
whose body is not among the sources: it is a parameter of the embedding. A pod graph whose
sample has no pod, comes from the "ingress-nginx" workload namespace and has no usable
workload falls through to the general part, as in the source. -/
def Id (IsOKVersion : String → Bool)
    (cluster serviceNamespace service workloadNamespace workload app version graphType pod : String) :
    Except String (String × String) :=
  -- prefer the workload namespace
  let namespace_ := preferredNamespace serviceNamespace workloadNamespace
  -- first, check for the special-case "unknown" source node
  if Unknown = namespace_ ∧ Unknown = workload ∧ Unknown = app ∧ service = "" then
    .ok (cluster ++ "_unknown_source", NodeTypeUnknown)
  -- one unknown service per namespace, to reflect requests to unknown destinations
  else if Unknown = workload ∧ Unknown = app ∧ Unknown = service then
    .ok ("svc_" ++ cluster ++ "_" ++ namespace_ ++ "_unknown", NodeTypeService)
  else
    let general := IdGeneral IsOKVersion cluster namespace_ service workload app version graphType
    if graphType = GraphTypePod then
      if IsOK pod then
        .ok ("pod_" ++ cluster ++ "_" ++ namespace_ ++ "_" ++ pod, NodeTypePod)
      else if workloadNamespace = "ingress-nginx" then
        if IsOK workload then
          .ok ("vapp_" ++ cluster ++ "_" ++ namespace_ ++ "_" ++ workload, NodeTypeApp)
        else
          general
      else
        .ok ("svc_" ++ cluster ++ "_" ++ namespace_ ++ "_" ++ service, NodeTypeService)
    else
      general

/-- The two "unknown" sentinels of `Id` (`types.go` lines 193 and 201), as one predicate on
the label tuple: the tuple is the unknown source node or an unknown destination service. -/
def matchesSentinel (serviceNamespace service workloadNamespace workload app : String) : Prop :=
  (Unknown = preferredNamespace serviceNamespace workloadNamespace ∧ Unknown = workload ∧
      Unknown = app ∧ service = "") ∨
    (Unknown = workload ∧ Unknown = app ∧ Unknown = service)

/-! ## Data model (`graph/types.go`)

Pointers are modelled by the keys of the traffic map: a `*Node` obtained from the map is the
key it is stored under, and the `Dest` of an edge, which the code only reads through
`e.Dest.ID`, is that id. The `Source` of an edge is the node that owns it. A traffic map is a
finite map from ids to nodes, taken extensionally as a function to `Option Node`. -/

/-- Rates are `float64` in the source; the embedding takes them in exact arithmetic. -/
abbrev Val := ℚ

/-- `graph.ServiceName`. -/
structure ServiceName where
  Cluster : String
  Namespace : String
  Name : String
deriving DecidableEq

/-- `ServiceName.Key`. -/
def ServiceName.Key (s : ServiceName) : String :=
  s.Cluster ++ " " ++ s.Namespace ++ " " ++ s.Name

/-- The argument position of a metadata map in a call of `graph.AddToMetadata`. -/
inductive MetadataRole where
  | source
  | dest
  | edge
deriving DecidableEq

/-- One call `graph.AddToMetadata(protocol, val, code, flags, host, ...)` as recorded on one
of the three metadata maps it was given. -/
structure Applied where
  role : MetadataRole
  protocol : String
  val : Val
  code : String
  flags : String
  host : String
deriving DecidableEq

/-- `graph.Metadata` (`map[MetadataKey]interface{}`), restricted to the keys the embedded code
reads or writes: "tsHash" (nodes), "tsHashMap" and the protocol key (edges), the destination
services and the egress-cluster flag (nodes), and the keys `graph.IsMTLS`,
`graph.SourcePrincipal` and `graph.DestPrincipal` that the security-policy appender writes on
edges. `none` is an absent key. The keys written by `graph.AddToMetadata`, whose body is not
among the sources, are represented by `applied`: the calls made on this map, oldest first. -/
structure Metadata where
  tsHash : Option String := none
  tsHashMap : Option (List String) := none
  protocol : Option String := none
  destServices : Option (List (String × ServiceName)) := none
  isEgressCluster : Option Bool := none
  applied : List Applied := []
  isMTLS : Option Val := none
  sourcePrincipal : Option String := none
  destPrincipal : Option String := none
deriving DecidableEq

/-- `graph.NewMetadata()`: the empty map. -/
def NewMetadata : Metadata := {}

/-- `graph.Edge`; `Dest` is the id of the destination node. -/
structure Edge where
  Dest : String
  Metadata : Metadata
deriving DecidableEq

/-- `graph.Node`. -/
structure Node where
  ID : String
  NodeType : String
  Cluster : String
  Namespace : String
  Workload : String
  App : String
  Version : String
  Service : String
  Pod : String
  Arch : String := ""
  Edges : List Edge
  Metadata : Metadata
deriving DecidableEq

/-- `graph.TrafficMap` (`map[string]*Node`). -/
abbrev TrafficMap := String → Option Node

/-- `graph.NewTrafficMap()`. -/
def NewTrafficMap : TrafficMap := fun _ => none

/-- Embedding of `graph.NewNodeExplicit` (`types.go` lines 105-161). -/
def NewNodeExplicit (id cluster namespace_ workload app version service nodeType graphType pod : String) :
    Node :=
  let metadata := NewMetadata
  -- trim unnecessary fields
  if nodeType = NodeTypeApp then
    { ID := id, NodeType := nodeType, Cluster := cluster, Namespace := namespace_,
      Workload := if graphType ≠ GraphTypeVersionedApp then "" else workload,
      App := app,
      Version := if graphType ≠ GraphTypeVersionedApp then "" else version,
      Service := "", Pod := pod, Edges := [], Metadata := metadata }
  else if nodeType = NodeTypeService then
    { ID := id, NodeType := nodeType, Cluster := cluster, Namespace := namespace_,
      Workload := "", App := "", Version := "", Service := service, Pod := pod, Edges := [],
      Metadata :=
        if service = PassthroughCluster ∨ service = BlackHoleCluster then
          { metadata with isEgressCluster := some true }
        else metadata }
  else if nodeType = NodeTypeWorkload then
    { ID := id, NodeType := nodeType, Cluster := cluster, Namespace := namespace_,
      Workload := workload,
      App := if app = Unknown then "" else app,
      Version := if version = Unknown then "" else version,
      Service := "", Pod := pod, Edges := [], Metadata := metadata }
  else if nodeType = NodeTypePod then
    { ID := id, NodeType := nodeType, Cluster := cluster, Namespace := namespace_,
      Workload :=
        if graphType = GraphTypePod then
          (if namespace_ ≠ "ingress-nginx" then "" else workload)
        else workload,
      App := app,
      Version := if graphType = GraphTypePod then "" else version,
      Service := "", Pod := pod, Edges := [], Metadata := metadata }
  else
    { ID := id, NodeType := nodeType, Cluster := cluster, Namespace := namespace_,
      Workload := workload, App := app, Version := version, Service := service, Pod := pod,
      Edges := [], Metadata := metadata }

/-- `graph.NewEdge` for a destination node with id `destID`. -/
def NewEdge (destID : String) : Edge :=
  { Dest := destID, Metadata := NewMetadata }

/-- Embedding of `Node.AddEdge` (`types.go` lines 163-168): the new edge goes last. -/
def Node.AddEdge (s : Node) (destID : String) : Node :=
  { s with Edges := s.Edges ++ [NewEdge destID] }

end graph



namespace istio

open graph

/-! ## Building the traffic map (`graph/telemetry/istio/istio.go`) -/

/-- What the embedded code takes from outside the sources: `graph.IsOKVersion`, the
hexadecimal MD5 digest `fmt.Sprintf("%x", md5.Sum([]byte(s)))` of the Go library, and the
constants and helpers of `populateTrafficMap` that are declared in other packages. All are
parameters; no property of any of them is assumed. -/
structure Env where
  IsOKVersion : String → Bool
  md5Hex : String → String
  /-- `grpcMetric.MatchString` for the regular expression "istio_.*_messages". -/
  grpcMetric : String → Bool
  /-- The protocol names `graph.GRPC.Name`, `graph.HTTP.Name`, `graph.TCP.Name`. -/
  GRPC : String
  HTTP : String
  TCP : String
  /-- The rate selector `graph.RateRequests`. -/
  RateRequests : String
  /-- The rate selectors `graph.RateNone`, `graph.RateReceived`, `graph.RateSent` and
  `graph.RateTotal`. -/
  RateNone : String
  RateReceived : String
  RateSent : String
  RateTotal : String
  /-- `util.HandleClusters (lSourceCluster, sourceClusterOk, lDestCluster, destClusterOk)`. -/
  HandleClusters : String → Bool → String → Bool → String × String
  /-- `util.IsBadSourceTelemetry (cluster, clusterOk, wlNs, wl, app)`. -/
  IsBadSourceTelemetry : String → Bool → String → String → String → Bool
  /-- `util.HandleDestination (sourceCluster, sourceWlNs, sourceWl, destCluster, destSvcNs,
  destSvc, destSvcName, destWlNs, destWl, destApp, destVer)`, without its last result, which
  the caller drops: `(destCluster, destSvcNs, destSvcName, destWlNs, destWl, destApp, destVer)`. -/
  HandleDestination : String → String → String → String → String → String → String → String →
    String → String → String → String × String × String × String × String × String × String
  /-- `util.IsBadDestTelemetry (cluster, clusterOk, svcNs, svc, svcName, wl)`. -/
  IsBadDestTelemetry : String → Bool → String → String → String → String → Bool
  /-- `util.HandleResponseCode (protocol, code, grpcOk, grpcStatus)`. -/
  HandleResponseCode : String → String → Bool → String → String

/-- The fields of `graph.TelemetryOptions` (declared outside the sources) that
`populateTrafficMap`, `addTraffic` and `buildNodeTrafficMap` read. `NamespaceDuration` is
`int(o.Namespaces[namespace].Duration.Seconds())` as a function of the namespace. A field
that is not given has the zero value of Go. -/
structure TelemetryOptions where
  GraphType : String
  InjectServiceNodes : Bool
  RatesHttp : String
  RatesGrpc : String
  RatesTcp : String
  IncludeIdleEdges : Bool := false
  QueryTime : Int := 0
  NamespaceDuration : String → Int := fun _ => 0

/-- The text `fmt.Sprintf` prints with the `%s` verb for a metadata value that holds a
string, or for an absent key (a nil interface). -/
def sprintS (v : Option String) : String :=
  match v with
  | some x => x
  | none => "%!s(<nil>)"

/-- Embedding of `timeSeriesHash` (`istio.go` lines 464-466). -/
def timeSeriesHash (env : Env)
    (cluster serviceNs service workloadNs workload app version pod : String) : String :=
  env.md5Hex (cluster ++ ":" ++ serviceNs ++ ":" ++ service ++ ":" ++ workloadNs ++ ":" ++
    workload ++ ":" ++ app ++ ":" ++ version ++ ":" ++ pod)

/-- The edge fingerprint of `addTraffic` (`istio.go` lines 364, 368 and 374), from the
"tsHash" metadata values of the two end nodes. -/
def edgeTSHashOf (env : Env) (metric : String) (sourceTsHash destTsHash : Option String)
    (code flags host : String) : String :=
  env.md5Hex (metric ++ ":" ++ sprintS sourceTsHash ++ ":" ++ sprintS destTsHash ++ ":" ++
    code ++ ":" ++ flags ++ ":" ++ host)

/-- Assignment `m[k] = v` on a Go map kept as an association list. -/
def mapSet {β : Type} (m : List (String × β)) (k : String) (v : β) : List (String × β) :=
  match m with
  | [] => [(k, v)]
  | (k0, v0) :: rest => if k0 = k then (k, v) :: rest else (k0, v0) :: mapSet rest k v

/-- Embedding of `addToDestServices` (`istio.go` lines 432-443) on one metadata map. -/
def addToDestServices (md : Metadata) (cluster namespace_ service : String) : Metadata :=
  if !IsOK service then md
  else
    let destServices := md.destServices.getD []
    let destService : ServiceName := { Cluster := cluster, Namespace := namespace_, Name := service }
    { md with destServices := some (mapSet destServices destService.Key destService) }

/-- A write through a node pointer: the node stored under `key` is replaced by `f` of it. A
key that is not in the map stands for no node and nothing is written. -/
def updateNode (trafficMap : TrafficMap) (key : String) (f : Node → Node) : TrafficMap :=
  fun k => if k = key then (trafficMap k).map f else trafficMap k

/-- The statement `addToDestServices(node.Metadata, ...)` on a node. -/
def addToDestServicesNode (cluster namespace_ service : String) (node : Node) : Node :=
  { node with Metadata := addToDestServices node.Metadata cluster namespace_ service }

/-- The statement `addToDestServices(node.Metadata, ...)` for the node stored under `key`. -/
def addToDestServicesAt (trafficMap : TrafficMap) (key cluster namespace_ service : String) :
    TrafficMap :=
  updateNode trafficMap key (addToDestServicesNode cluster namespace_ service)

/-- The assignment `node.Metadata["tsHash"] = h`. -/
def setTsHash (h : String) (node : Node) : Node :=
  { node with Metadata := { node.Metadata with tsHash := some h } }

/-- Embedding of `addNode` (`istio.go` lines 445-462). The result is the traffic map after
the call, the returned node (its key; `none` for the nil node) and the `found` flag. A panic
of `Id` is passed on. -/
def addNode (env : Env) (o : TelemetryOptions) (trafficMap : TrafficMap)
    (cluster serviceNs service workloadNs workload app version pod : String) :
    Except String (TrafficMap × Option String × Bool) :=
  if serviceNs = "unknown" ∧ workloadNs = "unknown" ∧ service ≠ "" then
    .ok (trafficMap, none, false)
  else
    match Id env.IsOKVersion cluster serviceNs service workloadNs workload app version
        o.GraphType pod with
    | .error e => .error e
    | .ok (id, nodeType) =>
      let found := (trafficMap id).isSome
      let trafficMap1 : TrafficMap :=
        if found then trafficMap
        else
          let namespace_ := if !IsOK workloadNs then serviceNs else workloadNs
          Function.update trafficMap id
            (some (NewNodeExplicit id cluster namespace_ workload app version service nodeType
              o.GraphType pod))
      .ok (updateNode trafficMap1 id
          (setTsHash (timeSeriesHash env cluster serviceNs service workloadNs workload app
            version pod)),
        some id, found)

/-- The loop condition of `addEdgeTraffic` (`istio.go` line 401): the edge leads to the node
with id `destID` and holds `protocol` under the protocol key. -/
def edgeMatches (destID protocol : String) (e : Edge) : Bool :=
  destID == e.Dest && e.Metadata.protocol == some protocol

/-- In-place update of the first edge that `edgeMatches`; the other edges are kept. -/
def modifyFirstEdge (destID protocol : String) (f : Edge → Edge) : List Edge → List Edge
  | [] => []
  | e :: rest =>
    if edgeMatches destID protocol e then f e :: rest
    else e :: modifyFirstEdge destID protocol f rest

/-- The record of one `graph.AddToMetadata` call on a metadata map. -/
def recordApplied (role : MetadataRole) (protocol : String) (val : Val) (code flags host : String)
    (md : Metadata) : Metadata :=
  { md with applied := md.applied ++
      [{ role := role, protocol := protocol, val := val, code := code, flags := flags,
         host := host }] }

/-- The record of one `graph.AddToMetadata` call on the metadata of a node. -/
def recordOnNode (role : MetadataRole) (protocol : String) (val : Val) (code flags host : String)
    (n : Node) : Node :=
  { n with Metadata := recordApplied role protocol val code flags host n.Metadata }

/-- The record of one `graph.AddToMetadata` call on the metadata of an edge. -/
def recordOnEdge (protocol : String) (val : Val) (code flags host : String) (e : Edge) : Edge :=
  { e with Metadata := recordApplied .edge protocol val code flags host e.Metadata }

/-- The same record on the selected edge of a source node. -/
def recordOnSelectedEdge (destID protocol : String) (val : Val) (code flags host : String)
    (n : Node) : Node :=
  { n with
    Edges := modifyFirstEdge destID protocol (recordOnEdge protocol val code flags host) n.Edges }

/-- Modelled from the spec: `graph.AddToMetadata` is not among the sources. The spec has it
record the row's rate on the edge and on its two end nodes; the embedding records the call
itself on each of the three maps it is given (`source.Metadata`, `dest.Metadata`,
`edge.Metadata`, in this order), so that "the value was applied n times" reads as "n
records". The edge is the one `addEdgeTraffic` selected: the first edge of the source node
for `destID` and `protocol`. The source and the destination may be one node. -/
def AddToMetadata (trafficMap : TrafficMap) (protocol : String) (val : Val)
    (code flags host source dest destID : String) : TrafficMap :=
  let onSource := updateNode trafficMap source
    (recordOnNode .source protocol val code flags host)
  let onDest := updateNode onSource dest (recordOnNode .dest protocol val code flags host)
  updateNode onDest source (recordOnSelectedEdge destID protocol val code flags host)

/-- The first part of `addEdgeTraffic` (`istio.go` lines 399-410) on the source node: when no
edge of the node leads to `destID` with `protocol`, `AddEdge` adds one, with the protocol and
an empty "tsHashMap". -/
def ensureEdge (destID protocol : String) (sourceNode : Node) : Node :=
  match sourceNode.Edges.find? (edgeMatches destID protocol) with
  | some _ => sourceNode
  | none =>
    { sourceNode with Edges := sourceNode.Edges ++
        [{ Dest := destID,
           Metadata := { NewMetadata with protocol := some protocol, tsHashMap := some [] } }] }

/-- The assignment `edge.Metadata[tsHashMap].(map[string]bool)[edgeTSHash] = true` on an
edge. It is reached after the type assertion on "tsHashMap" has succeeded and the fingerprint
was found absent: the set of fingerprints gains `edgeTSHash`. -/
def markEdge (edgeTSHash : String) (e : Edge) : Edge :=
  { e with Metadata := { e.Metadata with
      tsHashMap := some ((e.Metadata.tsHashMap.getD []) ++ [edgeTSHash]) } }

/-- The same assignment on the selected edge of the source node. -/
def markApplied (destID protocol edgeTSHash : String) (sourceNode : Node) : Node :=
  { sourceNode with
    Edges := modifyFirstEdge destID protocol (markEdge edgeTSHash) sourceNode.Edges }

/-- Embedding of `addEdgeTraffic` (`istio.go` lines 397-430). `source` and `dest` are the
keys of the two nodes. The result is the traffic map after the call and the returned flag: true
when the value was applied, false when the row was taken for a duplicate. Dereferencing a
node that is not there, and the type assertion on an absent "tsHashMap", are panics. -/
def addEdgeTraffic (o : TelemetryOptions) (trafficMap : TrafficMap) (val : Val)
    (protocol code flags host source dest edgeTSHash : String) :
    Except String (TrafficMap × Bool) :=
  match trafficMap source, trafficMap dest with
  | some sourceNode, some destNode =>
    -- select the edge, adding one when no edge has this destination and protocol
    let trafficMap1 := updateNode trafficMap source (ensureEdge destNode.ID protocol)
    match (ensureEdge destNode.ID protocol sourceNode).Edges.find?
        (edgeMatches destNode.ID protocol) with
    | none => .error "nil pointer dereference"
    | some edge =>
      match edge.Metadata.tsHashMap with
      | none => .error "interface conversion: interface is nil, not map[string]bool"
      | some hashes =>
        if o.GraphType = GraphTypePod then
          if edgeTSHash ∉ hashes then
            .ok (AddToMetadata
                (updateNode trafficMap1 source (markApplied destNode.ID protocol edgeTSHash))
                protocol val code flags host source dest destNode.ID, true)
          else if sourceNode.App = "ingress-nginx" then
            .ok (AddToMetadata trafficMap1 protocol val code flags host source dest destNode.ID,
              true)
          else
            .ok (trafficMap1, false)
        else if edgeTSHash ∉ hashes then
          .ok (AddToMetadata
              (updateNode trafficMap1 source (markApplied destNode.ID protocol edgeTSHash))
              protocol val code flags host source dest destNode.ID, true)
        else
          .ok (trafficMap1, false)
  | _, _ => .error "nil pointer dereference"

/-- The value `node.Metadata[tsHash]` of the node stored under `key`. -/
def tsHashAt (trafficMap : TrafficMap) (key : String) : Option String :=
  match trafficMap key with
  | some node => node.Metadata.tsHash
  | none => none

/-- The statement `injectedService, _ := addNode(trafficMap, destCluster, destSvcNs,
destSvcName, "", "", "", "", "", o)` of `addTraffic` (`istio.go` lines 367, 373, 380), with
the nil node excluded: every later statement dereferences `injectedService`. -/
def addInjectedService (env : Env) (o : TelemetryOptions) (trafficMap : TrafficMap)
    (destCluster destSvcNs destSvcName : String) : Except String (TrafficMap × String) :=
  match addNode env o trafficMap destCluster destSvcNs destSvcName "" "" "" "" "" with
  | .error e => .error e
  | .ok (_, none, _) => .error "nil pointer dereference"
  | .ok (trafficMap1, some injectedService, _) => .ok (trafficMap1, injectedService)

/-- First block of the pod-graph branch of `addTraffic` (`istio.go` lines 366-371): the edge
from the injected service node to the destination pod. -/
def addTrafficPodDest (env : Env) (o : TelemetryOptions) (trafficMap : TrafficMap)
    (metric : String) (val : Val)
    (protocol code flags host destCluster destSvcNs destSvcName dest : String) :
    Except String TrafficMap :=
  match addInjectedService env o trafficMap destCluster destSvcNs destSvcName with
  | .error e => .error e
  | .ok (trafficMap1, injectedService) =>
    let edgeTSHash := edgeTSHashOf env metric (tsHashAt trafficMap1 injectedService)
      (tsHashAt trafficMap1 dest) code flags host
    match addEdgeTraffic o trafficMap1 val protocol code flags host injectedService dest
        edgeTSHash with
    | .error e => .error e
    | .ok (trafficMap2, _) =>
      .ok (addToDestServicesAt trafficMap2 dest destCluster destSvcNs destSvcName)

/-- Second block of the pod-graph branch of `addTraffic` (`istio.go` lines 373-376): the
edge from the source to the injected service node. -/
def addTrafficPodSource (env : Env) (o : TelemetryOptions) (trafficMap : TrafficMap)
    (metric : String) (val : Val)
    (protocol code flags host destCluster destSvcNs destSvcName source : String) :
    Except String TrafficMap :=
  match addInjectedService env o trafficMap destCluster destSvcNs destSvcName with
  | .error e => .error e
  | .ok (trafficMap1, injectedService) =>
    let edgeTSHash := edgeTSHashOf env metric (tsHashAt trafficMap1 source)
      (tsHashAt trafficMap1 injectedService) code flags host
    match addEdgeTraffic o trafficMap1 val protocol code flags host source injectedService
        edgeTSHash with
    | .error e => .error e
    | .ok (trafficMap2, _) =>
      .ok (addToDestServicesAt trafficMap2 injectedService destCluster destSvcNs destSvcName)

/-- The branch of `addTraffic` with service injection on a graph type other than pod
(`istio.go` lines 380-386). -/
def addTrafficInjected (env : Env) (o : TelemetryOptions) (trafficMap : TrafficMap) (val : Val)
    (protocol code flags host destCluster destSvcNs destSvcName source dest edgeTSHash : String) :
    Except String TrafficMap :=
  match addInjectedService env o trafficMap destCluster destSvcNs destSvcName with
  | .error e => .error e
  | .ok (trafficMap1, injectedService) =>
    match addEdgeTraffic o trafficMap1 val protocol code flags host source injectedService
        edgeTSHash with
    | .error e => .error e
    | .ok (trafficMap2, false) => .ok trafficMap2
    | .ok (trafficMap2, true) =>
      let trafficMap3 :=
        addToDestServicesAt trafficMap2 injectedService destCluster destSvcNs destSvcName
      match addEdgeTraffic o trafficMap3 val protocol code flags host injectedService dest
          edgeTSHash with
      | .error e => .error e
      | .ok (trafficMap4, _) =>
        .ok (addToDestServicesAt trafficMap4 dest destCluster destSvcNs destSvcName)

/-- The branch of `addTraffic` without service injection on a graph type other than pod
(`istio.go` lines 388-390). -/
def addTrafficDirect (o : TelemetryOptions) (trafficMap : TrafficMap) (val : Val)
    (protocol code flags host destCluster destSvcNs destSvcName source dest edgeTSHash : String) :
    Except String TrafficMap :=
  match addEdgeTraffic o trafficMap val protocol code flags host source dest edgeTSHash with
  | .error e => .error e
  | .ok (trafficMap1, false) => .ok trafficMap1
  | .ok (trafficMap1, true) =>
    .ok (addToDestServicesAt trafficMap1 dest destCluster destSvcNs destSvcName)

/-- Embedding of `addTraffic` (`istio.go` lines 353-393). The result is the traffic map
after the call; a panic (of `Id`, or the dereference of a nil source node) is the `error`
result. -/
def addTraffic (env : Env) (o : TelemetryOptions) (trafficMap : TrafficMap) (metric : String)
    (inject : Bool) (val : Val)
    (protocol code flags host sourceCluster sourceNs sourceSvc sourceWl sourceApp sourceVer
      destCluster destSvcNs destSvcName destWlNs destWl destApp destVer
      sourcepod destinationpod : String) : Except String TrafficMap :=
  match addNode env o trafficMap sourceCluster sourceNs sourceSvc sourceNs sourceWl sourceApp
      sourceVer sourcepod with
  | .error e => .error e
  | .ok (trafficMap1, source, _) =>
    match addNode env o trafficMap1 destCluster destSvcNs destSvcName destWlNs destWl destApp
        destVer destinationpod with
    | .error e => .error e
    | .ok (trafficMap2, none, _) => .ok trafficMap2
    | .ok (trafficMap2, some dest, _) =>
      match source with
      | none => .error "nil pointer dereference"
      | some source =>
        let edgeTSHash := edgeTSHashOf env metric (tsHashAt trafficMap2 source)
          (tsHashAt trafficMap2 dest) code flags host
        if o.GraphType = GraphTypePod then
          let afterDest : Except String TrafficMap :=
            if destinationpod ≠ "" then
              addTrafficPodDest env o trafficMap2 metric val protocol code flags host
                destCluster destSvcNs destSvcName dest
            else .ok trafficMap2
          match afterDest with
          | .error e => .error e
          | .ok trafficMap3 =>
            if (sourcepod ≠ "" ∨ sourceNs = "ingress-nginx" ∨ sourceNs = "unknown") ∧
                destSvcNs ≠ "unknown" then
              addTrafficPodSource env o trafficMap3 metric val protocol code flags host
                destCluster destSvcNs destSvcName source
            else .ok trafficMap3
        else if inject then
          addTrafficInjected env o trafficMap2 val protocol code flags host
            destCluster destSvcNs destSvcName source dest edgeTSHash
        else
          addTrafficDirect o trafficMap2 val protocol code flags host
            destCluster destSvcNs destSvcName source dest edgeTSHash

/-- One sample of a Prometheus result vector: its label set and its value. -/
structure Sample where
  Metric : List (String × String)
  Value : Val

/-- The value of a label, the empty string when the label is absent (`string(m[name])`). -/
def labelValue (m : List (String × String)) (name : String) : String :=
  (m.lookup name).getD ""

/-- The second result of the lookup `m[name]`: the label is present. -/
def hasLabel (m : List (String × String)) (name : String) : Bool :=
  (m.lookup name).isSome

/-- `strings.HasPrefix`. -/
def hasPrefix (s pre : String) : Bool :=
  pre.data.isPrefixOf s.data

/-- The labels every row must carry (`istio.go` line 281). -/
def requiredLabels : List String :=
  ["source_workload_namespace", "source_workload", "source_canonical_service",
   "source_canonical_revision", "destination_service_namespace", "destination_service",
   "destination_service_name", "destination_workload_namespace", "destination_workload",
   "destination_canonical_service", "destination_canonical_revision"]

/-- The body of the loop of `populateTrafficMap` (`istio.go` lines 253-350) for one sample.
A `continue` leaves the traffic map as it is. -/
def populateRow (env : Env) (o : TelemetryOptions) (trafficMap : TrafficMap) (metric : String)
    (s : Sample) : Except String TrafficMap :=
  let isGrpcMessages := env.grpcMetric metric
  let isTcp := hasPrefix metric "istio_tcp"
  let isRequests := !isGrpcMessages && !isTcp
  let protocol0 := if isGrpcMessages then env.GRPC else if isTcp then env.TCP else ""
  let skipRequestsGrpc := isRequests && o.RatesGrpc != env.RateRequests
  let skipRequestsHttp := isRequests && o.RatesHttp != env.RateRequests
  let val := s.Value
  let m := s.Metric
  let podName := labelValue m "pod"
  let reportor := labelValue m "reporter"
  let sourceSvc := labelValue m "source_service_name"
  let sourcePod := if reportor = "source" then podName else ""
  let destinationPod :=
    if reportor = "source" then "" else if reportor = "destination" then podName else ""
  if requiredLabels.any (fun l => !hasLabel m l) then .ok trafficMap
  else
    let sourceWlNs := labelValue m "source_workload_namespace"
    let sourceWl := labelValue m "source_workload"
    let sourceApp := labelValue m "source_canonical_service"
    let sourceVer := labelValue m "source_canonical_revision"
    let destSvc := labelValue m "destination_service"
    let needsFlags := isRequests || protocol0 == env.TCP
    if needsFlags && !hasLabel m "response_flags" then .ok trafficMap
    else
      let flags := if needsFlags then labelValue m "response_flags" else ""
      let sourceClusterOk := hasLabel m "source_cluster"
      let destClusterOk := hasLabel m "destination_cluster"
      let clusters := env.HandleClusters (labelValue m "source_cluster") sourceClusterOk
        (labelValue m "destination_cluster") destClusterOk
      let sourceCluster := clusters.1
      if env.IsBadSourceTelemetry sourceCluster sourceClusterOk sourceWlNs sourceWl sourceApp then
        .ok trafficMap
      else
        -- handle unusual destinations
        match env.HandleDestination sourceCluster sourceWlNs sourceWl clusters.2
            (labelValue m "destination_service_namespace") destSvc
            (labelValue m "destination_service_name")
            (labelValue m "destination_workload_namespace") (labelValue m "destination_workload")
            (labelValue m "destination_canonical_service")
            (labelValue m "destination_canonical_revision") with
        | (destCluster, destSvcNs, destSvcName, destWlNs, destWl, destApp, destVer) =>
          if env.IsBadDestTelemetry destCluster destClusterOk destSvcNs destSvc destSvcName
              destWl then
            .ok trafficMap
          else if isRequests && (!hasLabel m "request_protocol" || !hasLabel m "response_code")
              then
            .ok trafficMap
          else
            let protocol := if isRequests then labelValue m "request_protocol" else protocol0
            if isRequests && (skipRequestsGrpc && protocol == env.GRPC ||
                skipRequestsHttp && protocol == env.HTTP) then
              .ok trafficMap
            else
              -- set response code in a backward compatible way
              let code :=
                if isRequests then
                  env.HandleResponseCode protocol (labelValue m "response_code")
                    (hasLabel m "grpc_response_status") (labelValue m "grpc_response_status")
                else ""
              let host := destSvc
              -- don't inject a service node if destSvcName is not set, is PassthroughCluster,
              -- or the dest node is already a service node
              let injectResult : Except String Bool :=
                if o.InjectServiceNodes && IsOK destSvcName &&
                    destSvcName != PassthroughCluster then
                  match Id env.IsOKVersion destCluster destSvcNs destSvcName destWlNs destWl
                      destApp destVer o.GraphType destinationPod with
                  | .error e => .error e
                  | .ok (_, destNodeType) => .ok (NodeTypeService != destNodeType)
                else .ok false
              match injectResult with
              | .error e => .error e
              | .ok inject =>
                addTraffic env o trafficMap metric inject val protocol code flags host
                  sourceCluster sourceWlNs sourceSvc sourceWl sourceApp sourceVer
                  destCluster destSvcNs destSvcName destWlNs destWl destApp destVer
                  sourcePod destinationPod

/-- The arguments of the call of `addTraffic` at the end of the loop body of
`populateTrafficMap` (`istio.go` lines 348-349), the inject flag apart. -/
structure RowCall where
  val : Val
  protocol : String
  code : String
  flags : String
  host : String
  sourceCluster : String
  sourceWlNs : String
  sourceSvc : String
  sourceWl : String
  sourceApp : String
  sourceVer : String
  destCluster : String
  destSvcNs : String
  destSvcName : String
  destWlNs : String
  destWl : String
  destApp : String
  destVer : String
  sourcePod : String
  destinationPod : String

/-- The loop body of `populateTrafficMap` up to the injection decision (`istio.go` lines
253-337): `none` when the row is skipped by one of the `continue` statements, and the
arguments that `addTraffic` will get when the row is accepted. -/
def rowCall (env : Env) (o : TelemetryOptions) (metric : String) (s : Sample) : Option RowCall :=
  let isGrpcMessages := env.grpcMetric metric
  let isTcp := hasPrefix metric "istio_tcp"
  let isRequests := !isGrpcMessages && !isTcp
  let protocol0 := if isGrpcMessages then env.GRPC else if isTcp then env.TCP else ""
  let skipRequestsGrpc := isRequests && o.RatesGrpc != env.RateRequests
  let skipRequestsHttp := isRequests && o.RatesHttp != env.RateRequests
  let m := s.Metric
  let podName := labelValue m "pod"
  let reportor := labelValue m "reporter"
  let sourcePod := if reportor = "source" then podName else ""
  let destinationPod :=
    if reportor = "source" then "" else if reportor = "destination" then podName else ""
  if requiredLabels.any (fun l => !hasLabel m l) then none
  else
    let sourceWlNs := labelValue m "source_workload_namespace"
    let sourceWl := labelValue m "source_workload"
    let sourceApp := labelValue m "source_canonical_service"
    let destSvc := labelValue m "destination_service"
    let needsFlags := isRequests || protocol0 == env.TCP
    if needsFlags && !hasLabel m "response_flags" then none
    else
      let sourceClusterOk := hasLabel m "source_cluster"
      let destClusterOk := hasLabel m "destination_cluster"
      let clusters := env.HandleClusters (labelValue m "source_cluster") sourceClusterOk
        (labelValue m "destination_cluster") destClusterOk
      if env.IsBadSourceTelemetry clusters.1 sourceClusterOk sourceWlNs sourceWl sourceApp then
        none
      else
        match env.HandleDestination clusters.1 sourceWlNs sourceWl clusters.2
            (labelValue m "destination_service_namespace") destSvc
            (labelValue m "destination_service_name")
            (labelValue m "destination_workload_namespace") (labelValue m "destination_workload")
            (labelValue m "destination_canonical_service")
            (labelValue m "destination_canonical_revision") with
        | (destCluster, destSvcNs, destSvcName, destWlNs, destWl, destApp, destVer) =>
          if env.IsBadDestTelemetry destCluster destClusterOk destSvcNs destSvc destSvcName
              destWl then
            none
          else if isRequests && (!hasLabel m "request_protocol" || !hasLabel m "response_code")
              then
            none
          else
            let protocol := if isRequests then labelValue m "request_protocol" else protocol0
            if isRequests && (skipRequestsGrpc && protocol == env.GRPC ||
                skipRequestsHttp && protocol == env.HTTP) then
              none
            else
              some
                { val := s.Value, protocol := protocol,
                  code :=
                    if isRequests then
                      env.HandleResponseCode protocol (labelValue m "response_code")
                        (hasLabel m "grpc_response_status")
                        (labelValue m "grpc_response_status")
                    else "",
                  flags := if needsFlags then labelValue m "response_flags" else "",
                  host := destSvc, sourceCluster := clusters.1, sourceWlNs := sourceWlNs,
                  sourceSvc := labelValue m "source_service_name", sourceWl := sourceWl,
                  sourceApp := sourceApp,
                  sourceVer := labelValue m "source_canonical_revision",
                  destCluster := destCluster, destSvcNs := destSvcNs,
                  destSvcName := destSvcName, destWlNs := destWlNs, destWl := destWl,
                  destApp := destApp, destVer := destVer, sourcePod := sourcePod,
                  destinationPod := destinationPod }

/-- The injection decision of `populateTrafficMap` (`istio.go` lines 339-347): `inject`, or
the panic of `Id`. -/
def injectDecision (env : Env) (o : TelemetryOptions)
    (destCluster destSvcNs destSvcName destWlNs destWl destApp destVer destinationPod : String) :
    Except String Bool :=
  if o.InjectServiceNodes && IsOK destSvcName && destSvcName != PassthroughCluster then
    match Id env.IsOKVersion destCluster destSvcNs destSvcName destWlNs destWl destApp destVer
        o.GraphType destinationPod with
    | .error e => .error e
    | .ok (_, destNodeType) => .ok (NodeTypeService != destNodeType)
  else .ok false

/-- The defective rows of the specification, for the given metric: a row is defective when it
lacks one of the eleven source and destination labels; or, for the request and TCP metrics,
"response_flags"; or, for the request metric, "request_protocol" or "response_code". The
metric families are those of the `switch` at the head of `populateTrafficMap`: a gRPC message
metric matches the `grpcMetric` expression, a TCP metric is another one with the prefix
"istio_tcp", and every other metric is a request metric. This definition follows the words of
the specification, not the code. -/
def defectiveRow (env : Env) (metric : String) (s : Sample) : Bool :=
  let isGrpcMessages := env.grpcMetric metric
  let isTcp := !isGrpcMessages && hasPrefix metric "istio_tcp"
  let isRequests := !isGrpcMessages && !hasPrefix metric "istio_tcp"
  ["source_workload_namespace", "source_workload", "source_canonical_service",
    "source_canonical_revision", "destination_service_namespace", "destination_service",
    "destination_service_name", "destination_workload_namespace", "destination_workload",
    "destination_canonical_service", "destination_canonical_revision"].any
      (fun l => !hasLabel s.Metric l) ||
  ((isRequests || isTcp) && !hasLabel s.Metric "response_flags") ||
  (isRequests &&
    (!hasLabel s.Metric "request_protocol" || !hasLabel s.Metric "response_code"))

/-- Embedding of `populateTrafficMap` (`istio.go` lines 239-351): the rows of the vector in
order; a panic ends the build. -/
def populateTrafficMap (env : Env) (o : TelemetryOptions) (trafficMap : TrafficMap)
    (vector : List Sample) (metric : String) : Except String TrafficMap :=
  match vector with
  | [] => .ok trafficMap
  | s :: rest =>
    match populateRow env o trafficMap metric s with
    | .error e => .error e
    | .ok trafficMap1 => populateTrafficMap env o trafficMap1 rest metric

/-! ### The traffic map of one node (`buildNodeTrafficMap`) -/

/-- The Prometheus API of the client, as far as `promQuery` uses it: the result of
`api.Query(ctx, query, queryTime)` as an instant vector. A failed query
(`graph.CheckUnavailable`) and a value that is not a vector end the request: they are the
`error` results. -/
structure PromAPI where
  Query : String → Int → Except String (List Sample)

/-- Embedding of `promQuery` (`istio.go` lines 923-950): no query is made for the empty
query text. -/
def promQuery (query : String) (queryTime : Int) (api : PromAPI) :
    Except String (List Sample) :=
  if query = "" then .ok []
  else
    -- wrap with a round() to be in line with metrics api
    api.Query ("round(" ++ query ++ ",0.001)") queryTime

/-- Modelled from the spec: `graph.Error` is not among the sources. The spec has a request
for a node kind the builder cannot query end as a request error, fatal for that request: the
call ends the build with the `error` result that carries the message. -/
def graphError {α : Type} (message : String) : Except String α :=
  .error message

/-- The format of every query of `buildNodeTrafficMap`:
"sum(rate(<metric>\x7b<selector>\x7d [<seconds>s])) by (<groupBy>) <idleCondition>". -/
def rateQuery (metric selector seconds groupBy idleCondition : String) : String :=
  "sum(rate(" ++ metric ++ "\x7b" ++ selector ++ "\x7d [" ++ seconds ++ "s])) by (" ++
    groupBy ++ ") " ++ idleCondition

/-- The `switch n.NodeType` that sets the query for incoming traffic (`istio.go` lines
531-581, 651-694 and 760-803; for a service node it is query 1.b of the first of them): the
query text, or the `graph.Error` of the default case. -/
def incomingQuery (metric destCluster namespace_ : String) (n : Node)
    (seconds groupBy idleCondition : String) : Except String String :=
  if n.NodeType = NodeTypeWorkload then
    .ok (rateQuery metric
      ("reporter=\"destination\"" ++ destCluster ++ ",destination_workload_namespace=\"" ++
        namespace_ ++ "\",destination_workload=\"" ++ n.Workload ++ "\"")
      seconds groupBy idleCondition)
  else if n.NodeType = NodeTypeApp then
    if IsOK n.Version then
      .ok (rateQuery metric
        ("reporter=\"destination\"" ++ destCluster ++ ",destination_service_namespace=\"" ++
          namespace_ ++ "\",destination_canonical_service=\"" ++ n.App ++
          "\",destination_canonical_revision=\"" ++ n.Version ++ "\"")
        seconds groupBy idleCondition)
    else
      .ok (rateQuery metric
        ("reporter=\"destination\"" ++ destCluster ++ ",destination_service_namespace=\"" ++
          namespace_ ++ "\",destination_canonical_service=\"" ++ n.App ++ "\"")
        seconds groupBy idleCondition)
  else if n.NodeType = NodeTypeService then
    .ok (rateQuery metric
      ("reporter=\"destination\"" ++ destCluster ++ ",destination_service_namespace=\"" ++
        namespace_ ++ "\",destination_service=~\"^" ++ n.Service ++ "\\\\." ++ namespace_ ++
        "\\\\..*$\"")
      seconds groupBy idleCondition)
  else graphError ("NodeType [" ++ n.NodeType ++ "] not supported")

/-- The `switch n.NodeType` that sets the query for outbound traffic (`istio.go` lines
586-619, 699-732 and 808-841): the query text, empty for a service node, or the `graph.Error`
of the default case. -/
def outgoingQuery (metric sourceCluster namespace_ : String) (n : Node)
    (seconds groupBy idleCondition : String) : Except String String :=
  if n.NodeType = NodeTypeWorkload then
    .ok (rateQuery metric
      ("reporter=\"source\"" ++ sourceCluster ++ ",source_workload_namespace=\"" ++
        namespace_ ++ "\",source_workload=\"" ++ n.Workload ++ "\"")
      seconds groupBy idleCondition)
  else if n.NodeType = NodeTypeApp then
    if IsOK n.Version then
      .ok (rateQuery metric
        ("reporter=\"source\"" ++ sourceCluster ++ ",source_workload_namespace=\"" ++
          namespace_ ++ "\",source_canonical_service=\"" ++ n.App ++
          "\",source_canonical_revision=\"" ++ n.Version ++ "\"")
        seconds groupBy idleCondition)
    else
      .ok (rateQuery metric
        ("reporter=\"source\"" ++ sourceCluster ++ ",source_workload_namespace=\"" ++
          namespace_ ++ "\",source_canonical_service=\"" ++ n.App ++ "\"")
        seconds groupBy idleCondition)
  else if n.NodeType = NodeTypeService then .ok ""
  else graphError ("NodeType [" ++ n.NodeType ++ "] not supported")

/-- The statements `vector := promQuery(query, time.Unix(o.QueryTime, 0), client.API())` and
`populateTrafficMap(trafficMap, &vector, metric, o)`. -/
def queryAndPopulate (env : Env) (o : TelemetryOptions) (client : PromAPI)
    (trafficMap : TrafficMap) (query metric : String) : Except String TrafficMap :=
  match promQuery query o.QueryTime client with
  | .error e => .error e
  | .ok vector => populateTrafficMap env o trafficMap vector metric

/-- Query 1.a of the HTTP/GRPC block for a service node (`istio.go` lines 558-569): source
telemetry for requests to the service that could not be serviced. Other node types have no
such query. -/
def unservicedRequests (env : Env) (o : TelemetryOptions) (client : PromAPI)
    (trafficMap : TrafficMap) (metric destCluster namespace_ : String) (n : Node)
    (seconds groupBy idleCondition : String) : Except String TrafficMap :=
  if n.NodeType ≠ NodeTypeWorkload ∧ n.NodeType ≠ NodeTypeApp ∧
      n.NodeType = NodeTypeService then
    queryAndPopulate env o client trafficMap
      (rateQuery metric
        ("reporter=\"source\"" ++ destCluster ++
          ",destination_workload=\"unknown\",destination_service=~\"^" ++ n.Service ++
          "\\\\." ++ namespace_ ++ "\\\\..*$\"")
        seconds groupBy idleCondition)
      metric
  else .ok trafficMap

/-- The traffic of one metric (`istio.go` lines 527-623, and the loop bodies of lines 648-736
and 757-845): the incoming query and its rows, then the outbound query and its rows. Only the
HTTP/GRPC block has the extra query for a service node (`requests`). -/
def metricTraffic (env : Env) (o : TelemetryOptions) (client : PromAPI)
    (trafficMap : TrafficMap) (requests : Bool)
    (metric sourceCluster destCluster namespace_ : String) (n : Node)
    (seconds groupBy idleCondition : String) : Except String TrafficMap :=
  match incomingQuery metric destCluster namespace_ n seconds groupBy idleCondition with
  | .error e => .error e
  | .ok query =>
    let afterUnserviced :=
      if requests then
        unservicedRequests env o client trafficMap metric destCluster namespace_ n seconds
          groupBy idleCondition
      else .ok trafficMap
    match afterUnserviced with
    | .error e => .error e
    | .ok trafficMap1 =>
      match queryAndPopulate env o client trafficMap1 query metric with
      | .error e => .error e
      | .ok trafficMap2 =>
        -- 2) query for outbound traffic
        match outgoingQuery metric sourceCluster namespace_ n seconds groupBy
            idleCondition with
        | .error e => .error e
        | .ok query2 => queryAndPopulate env o client trafficMap2 query2 metric

/-- The loops `for _, metric := range metrics` of the gRPC message block and of the TCP
block. -/
def metricsTraffic (env : Env) (o : TelemetryOptions) (client : PromAPI)
    (trafficMap : TrafficMap) (metrics : List String)
    (sourceCluster destCluster namespace_ : String) (n : Node)
    (seconds groupBy idleCondition : String) : Except String TrafficMap :=
  match metrics with
  | [] => .ok trafficMap
  | metric :: rest =>
    match metricTraffic env o client trafficMap false metric sourceCluster destCluster
        namespace_ n seconds groupBy idleCondition with
    | .error e => .error e
    | .ok trafficMap1 =>
      metricsTraffic env o client trafficMap1 rest sourceCluster destCluster namespace_ n
        seconds groupBy idleCondition

/-- The metrics of the gRPC message block (`istio.go` lines 637-646). -/
def grpcMessageMetrics (env : Env) (o : TelemetryOptions) : List String :=
  if o.RatesGrpc = env.RateReceived then ["istio_response_messages_total"]
  else if o.RatesGrpc = env.RateSent then ["istio_request_messages_total"]
  else if o.RatesGrpc = env.RateTotal then
    ["istio_request_messages_total", "istio_response_messages_total"]
  else []

/-- The metrics of the TCP block (`istio.go` lines 746-755). -/
def tcpMetrics (env : Env) (o : TelemetryOptions) : List String :=
  if o.RatesTcp = env.RateReceived then ["istio_tcp_received_bytes_total"]
  else if o.RatesTcp = env.RateSent then ["istio_tcp_sent_bytes_total"]
  else if o.RatesTcp = env.RateTotal then
    ["istio_tcp_sent_bytes_total", "istio_tcp_received_bytes_total"]
  else []

/-- The labels the three blocks group by, before the labels of the block. -/
def baseGroupBy : String :=
  "source_cluster,source_workload_namespace,source_workload,source_canonical_service," ++
  "source_canonical_revision,destination_cluster,destination_service_namespace," ++
  "destination_service,destination_service_name,destination_workload_namespace," ++
  "destination_workload,destination_canonical_service,destination_canonical_revision"

/-- Embedding of `buildNodeTrafficMap` (`istio.go` lines 506-851): the HTTP/GRPC requests
block, the gRPC message block and the TCP block, each under its condition on the requested
rates. The result is the traffic map, or the request error or panic that ends the build. -/
def buildNodeTrafficMap (env : Env) (o : TelemetryOptions) (client : PromAPI)
    (cluster namespace_ : String) (n : Node) : Except String TrafficMap :=
  -- create map to aggregate traffic by protocol and response code
  let trafficMap := NewTrafficMap
  let seconds := toString (o.NamespaceDuration namespace_)
  let idleCondition := if o.IncludeIdleEdges then "" else "> 0"
  -- only narrow by cluster if it is set on the target node
  let sourceCluster := if cluster ≠ Unknown then ",source_cluster=" ++ cluster else ""
  let destCluster := if cluster ≠ Unknown then ",destination_cluster=" ++ cluster else ""
  -- HTTP/GRPC Traffic
  let afterRequests :=
    if o.RatesHttp = env.RateRequests ∨ o.RatesGrpc = env.RateRequests then
      metricTraffic env o client trafficMap true "istio_requests_total" sourceCluster
        destCluster namespace_ n seconds
        (baseGroupBy ++ ",request_protocol,response_code,grpc_response_status,response_flags")
        idleCondition
    else .ok trafficMap
  match afterRequests with
  | .error e => .error e
  | .ok trafficMap1 =>
    -- gRPC message traffic
    let afterMessages :=
      if o.RatesGrpc ≠ env.RateNone ∧ o.RatesGrpc ≠ env.RateRequests then
        metricsTraffic env o client trafficMap1 (grpcMessageMetrics env o) sourceCluster
          destCluster namespace_ n seconds baseGroupBy idleCondition
      else .ok trafficMap1
    match afterMessages with
    | .error e => .error e
    | .ok trafficMap2 =>
      -- TCP byte traffic
      if o.RatesTcp ≠ env.RateNone then
        metricsTraffic env o client trafficMap2 (tcpMetrics env o) sourceCluster destCluster
          namespace_ n seconds (baseGroupBy ++ ",response_flags") idleCondition
      else .ok trafficMap2

/-- The edge of the node stored under `source` that `addEdgeTraffic` selects for the
destination id `destID` and `protocol`: the first one that matches. -/
def edgeAt (trafficMap : TrafficMap) (source destID protocol : String) : Option Edge :=
  match trafficMap source with
  | some node => node.Edges.find? (edgeMatches destID protocol)
  | none => none

/-- The values applied (by `graph.AddToMetadata`) to an edge, oldest first. -/
def edgeValues (e : Edge) : List Val :=
  e.Metadata.applied.map (fun a => a.val)

/-- The rate an edge has accumulated: the sum of the values applied to it. -/
def edgeRate (e : Edge) : Val :=
  (edgeValues e).sum
/-! ### Example inputs -/

/-- Example options: a graph of the given type, with service injection. -/
def exampleOptions (graphType : String) : TelemetryOptions :=
  { GraphType := graphType, InjectServiceNodes := true, RatesHttp := "requests",
    RatesGrpc := "requests", RatesTcp := "sent" }

/-- An example traffic map of two nodes: the ingress controller (App "ingress-nginx"), whose
one edge leads to the node "svc_east_bookinfo_productpage" with protocol "http", holds the
fingerprint "fp" and has had the value 3 applied; and that service node. -/
def heldExampleMap : TrafficMap := fun k =>
  if k = "ingress" then
    some { ID := "ingress", NodeType := NodeTypeApp, Cluster := "east",
           Namespace := "ingress-nginx", Workload := "ingress-nginx-controller",
           App := "ingress-nginx", Version := "", Service := "", Pod := "",
           Edges := [{ Dest := "svc_east_bookinfo_productpage",
                       Metadata := { protocol := some "http", tsHashMap := some ["fp"],
                                     applied := [{ role := .edge, protocol := "http", val := 3,
                                                   code := "200", flags := "-",
                                                   host := "productpage" }] } }],
           Metadata := {} }
  else if k = "svc_east_bookinfo_productpage" then
    some (NewNodeExplicit "svc_east_bookinfo_productpage" "east" "bookinfo" "" "" ""
      "productpage" NodeTypeService GraphTypePod "")
  else none

/-- An example environment: the fingerprint function is the identity (no two texts
collide), a version is OK when it is non-empty and not "unknown", and the helpers of
`populateTrafficMap` leave the labels of an ordinary row as they are. -/
def exampleEnv : Env where
  IsOKVersion := fun v => IsOK v
  md5Hex := fun x => x
  grpcMetric := fun m =>
    m == "istio_request_messages_total" || m == "istio_response_messages_total"
  GRPC := "grpc"
  HTTP := "http"
  TCP := "tcp"
  RateRequests := "requests"
  RateNone := "none"
  RateReceived := "received"
  RateSent := "sent"
  RateTotal := "total"
  HandleClusters := fun sc _ dc _ => (sc, dc)
  IsBadSourceTelemetry := fun _ _ _ _ _ => false
  HandleDestination := fun _ _ _ dc dns _ dsn dwns dw da dver => (dc, dns, dsn, dwns, dw, da, dver)
  IsBadDestTelemetry := fun _ _ _ _ _ _ => false
  HandleResponseCode := fun _ code _ _ => code

/-- The example row: 5 requests per second over HTTP (code 200) from workload "reviews-v1" to
workload "ratings-v1" of service "ratings", both in namespace "bookinfo" of cluster "east",
applied to `trafficMap` with the given source and destination pods. -/
def addExampleRow (o : TelemetryOptions) (trafficMap : TrafficMap) (inject : Bool)
    (sourcepod destinationpod : String) : Except String TrafficMap :=
  addTraffic exampleEnv o trafficMap "istio_requests_total" inject 5 "http" "200" "-"
    "ratings.bookinfo.svc.cluster.local" "east" "bookinfo" "" "reviews-v1" "reviews" "v1"
    "east" "bookinfo" "ratings" "bookinfo" "ratings-v1" "ratings" "v1" sourcepod destinationpod

/-- The example row as a sample of the query result: value 5, with the given pod and
reporter labels. -/
def exampleSample (pod reporter : String) : Sample :=
  { Value := 5,
    Metric := [("source_cluster", "east"), ("source_workload_namespace", "bookinfo"),
      ("source_workload", "reviews-v1"), ("source_canonical_service", "reviews"),
      ("source_canonical_revision", "v1"), ("destination_cluster", "east"),
      ("destination_service_namespace", "bookinfo"),
      ("destination_service", "ratings.bookinfo.svc.cluster.local"),
      ("destination_service_name", "ratings"),
      ("destination_workload_namespace", "bookinfo"), ("destination_workload", "ratings-v1"),
      ("destination_canonical_service", "ratings"), ("destination_canonical_revision", "v1"),
      ("request_protocol", "http"), ("response_code", "200"), ("response_flags", "-"),
      ("pod", pod), ("reporter", reporter)] }

/-- Example options without service injection. -/
def exampleOptionsDirect (graphType : String) : TelemetryOptions :=
  { GraphType := graphType, InjectServiceNodes := false, RatesHttp := "requests",
    RatesGrpc := "requests", RatesTcp := "sent" }

/-- The traffic map of a result of `addNode`, the empty map for a panic. -/
def registeredMap (r : Except String (TrafficMap × Option String × Bool)) : TrafficMap :=
  match r with
  | .ok (tm, _, _) => tm
  | .error _ => NewTrafficMap

/-- The traffic map of a result of `addEdgeTraffic`, the empty map for a panic. -/
def appliedMap (r : Except String (TrafficMap × Bool)) : TrafficMap :=
  match r with
  | .ok (tm, _) => tm
  | .error _ => NewTrafficMap

/-- The arguments with which the example sample, reported by the source without a pod
label value, reaches `addTraffic`. -/
def exampleRowCall : RowCall :=
  { val := 5, protocol := "http", code := "200", flags := "-",
    host := "ratings.bookinfo.svc.cluster.local", sourceCluster := "east",
    sourceWlNs := "bookinfo", sourceSvc := "", sourceWl := "reviews-v1",
    sourceApp := "reviews", sourceVer := "v1", destCluster := "east",
    destSvcNs := "bookinfo", destSvcName := "ratings", destWlNs := "bookinfo",
    destWl := "ratings-v1", destApp := "ratings", destVer := "v1", sourcePod := "",
    destinationPod := "" }

/-- Example options of a workload graph with the given rates. -/
def exampleRates (http grpc tcp : String) : TelemetryOptions :=
  { GraphType := GraphTypeWorkload, InjectServiceNodes := true, RatesHttp := http,
    RatesGrpc := grpc, RatesTcp := tcp }

/-- An example client whose every query gives the empty vector. -/
def exampleClient : PromAPI :=
  { Query := fun _ _ => .ok [] }

/-- The unknown-source node of cluster "east", as a target node: its node type is
"unknown". -/
def unknownSourceNode : Node :=
  NewNodeExplicit "east_unknown_source" "east" "unknown" "unknown" "unknown" "" ""
    NodeTypeUnknown GraphTypeWorkload ""

/-- The traffic map of a result, the empty map for a panic. -/
def resultMap (r : Except String TrafficMap) : TrafficMap :=
  match r with
  | .ok tm => tm
  | .error _ => NewTrafficMap

/-! ### Notions used to state and prove the properties of the traffic map -/

/-- The selected edge of `source` for `destID` and `protocol` exists and holds the
fingerprint `h` in its "tsHashMap". -/
def edgeHolds (trafficMap : TrafficMap) (source destID protocol h : String) : Prop :=
  ∃ e hs, edgeAt trafficMap source destID protocol = some e ∧
    e.Metadata.tsHashMap = some hs ∧ h ∈ hs

/-- Edge `e2` is edge `e1` after some writes of `addEdgeTraffic`: same destination and
protocol, and every fingerprint of `e1` is still held. -/
def EdgeGrow (e1 e2 : Edge) : Prop :=
  e2.Dest = e1.Dest ∧ e2.Metadata.protocol = e1.Metadata.protocol ∧
    ∀ hs, e1.Metadata.tsHashMap = some hs →
      ∃ hs2, e2.Metadata.tsHashMap = some hs2 ∧ ∀ x ∈ hs, x ∈ hs2

/-- Every edge selected in `l1` is selected, possibly grown, in `l2`. -/
def EdgesExt (l1 l2 : List Edge) : Prop :=
  ∀ destID protocol e, l1.find? (edgeMatches destID protocol) = some e →
    ∃ e2, l2.find? (edgeMatches destID protocol) = some e2 ∧ EdgeGrow e e2

/-- Node `n2` is node `n1` after some writes of the builder: the identity fields read by
`addEdgeTraffic` are kept and the edges are extended. -/
def NodeExt (n1 n2 : Node) : Prop :=
  n2.ID = n1.ID ∧ n2.App = n1.App ∧ EdgesExt n1.Edges n2.Edges

/-- Traffic map `t2` extends `t1`: every node of `t1` is in `t2`, extended. -/
def Ext (t1 t2 : TrafficMap) : Prop :=
  ∀ k n, t1 k = some n → ∃ n2, t2 k = some n2 ∧ NodeExt n n2

/-- A node function of `addEdgeTraffic`: it extends the node and leaves its "tsHash" and its
destination services alone. -/
def KeepsNode (f : Node → Node) : Prop :=
  ∀ n, NodeExt n (f n) ∧ (f n).Metadata.tsHash = n.Metadata.tsHash ∧
    (f n).Metadata.destServices = n.Metadata.destServices

/-- Traffic map `t2` is `t1` after writes that add no node, extend every node and leave the
"tsHash" and the destination services of every node alone. -/
def TrafficStep (t1 t2 : TrafficMap) : Prop :=
  ∀ k, (t1 k = none → t2 k = none) ∧
    ∀ n, t1 k = some n → ∃ n2, t2 k = some n2 ∧ NodeExt n n2 ∧
      n2.Metadata.tsHash = n.Metadata.tsHash ∧
      n2.Metadata.destServices = n.Metadata.destServices

/-- The condition under which `addNode` returns the nil node (`istio.go` line 446). -/
def nilNode (serviceNs service workloadNs : String) : Prop :=
  serviceNs = "unknown" ∧ workloadNs = "unknown" ∧ service ≠ ""

/-- The node stored under `key`, if there is one, does not have the App "ingress-nginx". -/
def appNotIngressAt (trafficMap : TrafficMap) (key : String) : Prop :=
  ∀ n, trafficMap key = some n → n.App ≠ "ingress-nginx"

/-- Every node of the traffic map is stored under its own id, no node has two edges to the
same destination, and every edge has protocol `p`, has had exactly the value `v` applied,
once, and is the edge of one of the `hops` (source key, destination id). -/
def EdgesOnce (v : Val) (p : String) (hops : List (String × String)) (trafficMap : TrafficMap) :
    Prop :=
  ∀ k n, trafficMap k = some n →
    n.ID = k ∧ n.Edges.Pairwise (fun e1 e2 => e1.Dest ≠ e2.Dest) ∧
    ∀ e ∈ n.Edges, edgeValues e = [v] ∧ e.Metadata.protocol = some p ∧ (k, e.Dest) ∈ hops

/-- The hops that `addTraffic` feeds for a row whose source, destination and injected
service node are stored under `s`, `d` and `i`: in a pod graph the injected service to the
destination pod (when the row has a destination pod) and the source to the injected service
(under the condition of `istio.go` line 372); otherwise source to injected service to
destination with injection, and source to destination without. -/
def hopsOf (o : TelemetryOptions) (inject : Bool) (s d i sourceNs destSvcNs sourcepod
    destinationpod : String) : List (String × String) :=
  if o.GraphType = GraphTypePod then
    (if destinationpod ≠ "" then [(i, d)] else []) ++
      (if (sourcepod ≠ "" ∨ sourceNs = "ingress-nginx" ∨ sourceNs = "unknown") ∧
          destSvcNs ≠ "unknown" then [(s, i)] else [])
  else if inject then [(s, i), (i, d)]
  else [(s, d)]

/-- The values applied to the selected edge of `source` for `destID` and `protocol`, oldest
first; no value when there is no such edge. -/
def valuesAt (trafficMap : TrafficMap) (source destID protocol : String) : List Val :=
  match edgeAt trafficMap source destID protocol with
  | some e => edgeValues e
  | none => []

/-- Every node of the traffic map is stored under its own id, as `addNode` stores it
(`trafficMap[id] = node`). -/
def keyedByID (trafficMap : TrafficMap) : Prop :=
  ∀ k n, trafficMap k = some n → n.ID = k

/-- The fingerprint `edgeTSHash` that `addTraffic` computes for a row (`istio.go` line 364)
whose source and destination nodes are stored under `s` and `d`: the "tsHash" of the source
node is read after `addNode` has written the destination's, so it is the destination's when
the two are one node. -/
def rowEdgeTSHash (env : Env) (metric code flags host s d sourceTsHash destTsHash : String) :
    String :=
  edgeTSHashOf env metric (some (if s = d then destTsHash else sourceTsHash))
    (some destTsHash) code flags host

/-- The fingerprint that the first block of the pod-graph branch of `addTraffic` computes
(`istio.go` line 368) for the edge from the injected service node `i` to the destination `d`:
the "tsHash" of the destination is read after `addNode` has written the service node's, so it
is the service node's when the two are one node. -/
def podDestEdgeTSHash (env : Env) (metric code flags host d i injectedTsHash destTsHash : String) :
    String :=
  edgeTSHashOf env metric (some injectedTsHash)
    (some (if d = i then injectedTsHash else destTsHash)) code flags host

/-- The fingerprint that the second block of the pod-graph branch of `addTraffic` computes
(`istio.go` line 374) for the edge from the source `s` to the injected service node `i`: the
"tsHash" of the source is the last one written on its node, by the registration of the
service node, of the destination `d` or of the source. -/
def podSourceEdgeTSHash (env : Env) (metric code flags host s d i sourceTsHash destTsHash
    injectedTsHash : String) : String :=
  edgeTSHashOf env metric
    (some (if s = i then injectedTsHash else if s = d then destTsHash else sourceTsHash))
    (some injectedTsHash) code flags host

/-- The identity of an edge among the edges of its source node: the id of its destination and
the value under its protocol key. -/
def edgeKey (e : Edge) : String × Option String :=
  (e.Dest, e.Metadata.protocol)

/-- No two edges of the list have both the same destination id and the same protocol. -/
def distinctEdges (l : List Edge) : Prop :=
  l.Pairwise (fun e1 e2 => ¬ (e1.Dest = e2.Dest ∧ e1.Metadata.protocol = e2.Metadata.protocol))

/-- The requested rates make `buildNodeTrafficMap` go through the `switch` on the node type
at least once: the HTTP or the gRPC rate is "requests" (first block), or the gRPC rate enters
the second block and is one of received, sent, total, or the TCP rate enters the third block
and is one of received, sent, total. -/
def nodeQueriesRequested (env : Env) (o : TelemetryOptions) : Prop :=
  (o.RatesHttp = env.RateRequests ∨ o.RatesGrpc = env.RateRequests) ∨
  (o.RatesGrpc ≠ env.RateNone ∧ o.RatesGrpc ≠ env.RateRequests ∧
    (o.RatesGrpc = env.RateReceived ∨ o.RatesGrpc = env.RateSent ∨
      o.RatesGrpc = env.RateTotal)) ∨
  (o.RatesTcp ≠ env.RateNone ∧
    (o.RatesTcp = env.RateReceived ∨ o.RatesTcp = env.RateSent ∨ o.RatesTcp = env.RateTotal))

/-- A node without its "tsHash". -/
def eraseTs (n : Node) : Node :=
  { n with Metadata := { n.Metadata with tsHash := none } }

/-- The node stored under `key` has the id `id`. -/
def hasID (trafficMap : TrafficMap) (key id : String) : Prop :=
  ∃ n, trafficMap key = some n ∧ n.ID = id

/-- The destination service `(cluster, namespace_, service)` is already recorded on the node
stored under `key`: `addToDestServices` would change nothing there. -/
def dsDoneAt (trafficMap : TrafficMap) (key cluster namespace_ service : String) : Prop :=
  ∀ n, trafficMap key = some n →
    (addToDestServices n.Metadata cluster namespace_ service).destServices =
      n.Metadata.destServices

/-- Traffic map `t2` is `t1` after writes of the builder for a row whose destination service
is `(cluster, namespace_, service)`: it extends `t1`, and a node of `t1` on which that
destination service was recorded still has it recorded. -/
def RowStep (cluster namespace_ service : String) (t1 t2 : TrafficMap) : Prop :=
  Ext t1 t2 ∧
    ∀ k, (t1 k).isSome → dsDoneAt t1 k cluster namespace_ service →
      dsDoneAt t2 k cluster namespace_ service

/-- The traffic maps of the builder for the options `o`: every traffic map starts as
`graph.NewTrafficMap()` (`istio.go` lines 84, 508 and 888) and is written by `addTraffic`
only, one completed call for each row. -/
inductive Built (env : Env) (o : TelemetryOptions) : TrafficMap → Prop where
  | empty : Built env o NewTrafficMap
  | row {tm tm1 : TrafficMap} {metric : String} {inject : Bool} {v : Val}
      {p c f h sc sns ssv sw sa sver dc dns dsn dwns dw da dver sp dp : String} :
      Built env o tm →
      addTraffic env o tm metric inject v p c f h sc sns ssv sw sa sver
        dc dns dsn dwns dw da dver sp dp = .ok tm1 →
      Built env o tm1

end istio

namespace appender

open graph istio

/-! ## The security-policy appender (`graph/telemetry/istio/appender/security_policy.go`) -/

/-- The constant `policyMTLS`. -/
def policyMTLS : String := "mutual_tls"

/-- The fields of `SecurityPolicyAppender` that the embedded code reads. -/
structure SecurityPolicyAppender where
  GraphType : String
  InjectServiceNodes : Bool

/-- `PolicyRates` (`map[string]float64`): the entries of the map, in the order in which the
`range` loop of `applySecurityPolicy` visits them. The keys of a Go map are distinct. -/
abbrev PolicyRates := List (String × Val)

/-- The inner map of the principal table (`map[graph.MetadataKey]string`), restricted to the
two keys that are read; `none` is an absent key. -/
structure Principals where
  SourcePrincipal : Option String := none
  DestPrincipal : Option String := none
deriving DecidableEq

/-- The injection decision of `populateSecurityPolicyMap` (`security_policy.go` lines
258-262): `inject`, or the panic of `Id`. -/
def injectDecision (a : SecurityPolicyAppender) (IsOKVersion : String → Bool)
    (destCluster destSvcNs destSvcName destWlNs destWl destApp destVer destinationPod : String) :
    Except String Bool :=
  if a.InjectServiceNodes && IsOK destSvcName && destSvcName != PassthroughCluster then
    match Id IsOKVersion destCluster destSvcNs destSvcName destWlNs destWl destApp destVer
        a.GraphType destinationPod with
    | .error e => .error e
    | .ok (_, destNodeType) => .ok (NodeTypeService != destNodeType)
  else .ok false

/-- One step of the loop over `policyRates` (`security_policy.go` lines 307-313) on the pair
`(mtls, other)`. -/
def rateStep (acc : Val × Val) (entry : String × Val) : Val × Val :=
  if entry.1 = policyMTLS then (entry.2, acc.2) else (acc.1, acc.2 + entry.2)

/-- The loop over `policyRates` (`security_policy.go` lines 305-313): the final
`(mtls, other)`. -/
def sumRates (policyRates : PolicyRates) : Val × Val :=
  policyRates.foldl rateStep (0, 0)

/-- The body of the inner loop of `applySecurityPolicy` (`security_policy.go` lines 303-321)
for an edge `e` of the node with id `sourceID`. A missing key of the inner principal map reads
as the empty string. -/
def applyToEdge (securityPolicyMap : String → Option PolicyRates)
    (principalMap : String → Option Principals) (sourceID : String) (e : Edge) : Edge :=
  let key := sourceID ++ " " ++ e.Dest
  let e1 : Edge :=
    match securityPolicyMap key with
    | some policyRates =>
      if 0 < (sumRates policyRates).1 then
        { e with Metadata := { e.Metadata with
            isMTLS := some ((sumRates policyRates).1 /
              ((sumRates policyRates).1 + (sumRates policyRates).2) * 100) } }
      else e
    | none => e
  match principalMap key with
  | some kPrincipalMap =>
    { e1 with Metadata := { e1.Metadata with
        sourcePrincipal := some (kPrincipalMap.SourcePrincipal.getD ""),
        destPrincipal := some (kPrincipalMap.DestPrincipal.getD "") } }
  | none => e1

/-- Embedding of `applySecurityPolicy` (`security_policy.go` lines 300-324): every edge of
every node of the traffic map goes through the loop body. -/
def applySecurityPolicy (trafficMap : TrafficMap)
    (securityPolicyMap : String → Option PolicyRates)
    (principalMap : String → Option Principals) : TrafficMap :=
  fun k => (trafficMap k).map (fun s =>
    { s with Edges := s.Edges.map (applyToEdge securityPolicyMap principalMap s.ID) })

/-- Embedding of `addSecurityPolicy` (`security_policy.go` lines 286-298): the table after
the call. The rates of a key that is not in the table yet start as the empty map; the
assignment `policyRates[csp] = val` replaces the rate of the class or adds it. A panic of `Id`
is passed on. -/
def addSecurityPolicy (a : SecurityPolicyAppender) (IsOKVersion : String → Bool)
    (securityPolicyMap : String → Option PolicyRates) (csp : String) (val : Val)
    (sourceCluster sourceNs sourceSvc sourceWl sourceApp sourceVer destCluster destSvcNs destSvc
      destWlNs destWl destApp destVer sourcePod destinationPod : String) :
    Except String (String → Option PolicyRates) :=
  match Id IsOKVersion sourceCluster sourceNs sourceSvc sourceNs sourceWl sourceApp sourceVer
      a.GraphType sourcePod with
  | .error e => .error e
  | .ok (sourceId, _) =>
    match Id IsOKVersion destCluster destSvcNs destSvc destWlNs destWl destApp destVer
        a.GraphType destinationPod with
    | .error e => .error e
    | .ok (destId, _) =>
      let key := sourceId ++ " " ++ destId
      let policyRates : PolicyRates := (securityPolicyMap key).getD []
      .ok (Function.update securityPolicyMap key (some (mapSet policyRates csp val)))

/-- Embedding of `addPrincipal` (`security_policy.go` lines 326-337): the table after the
call. Both ids are computed with the empty pod; a key that is in the table already keeps its
principals. -/
def addPrincipal (a : SecurityPolicyAppender) (IsOKVersion : String → Bool)
    (principalMap : String → Option Principals)
    (sourceCluster sourceNs sourceSvc sourceWl sourceApp sourceVer sourcePrincipal destCluster
      destSvcNs destSvc destWlNs destWl destApp destVer destPrincipal : String) :
    Except String (String → Option Principals) :=
  match Id IsOKVersion sourceCluster sourceNs sourceSvc sourceNs sourceWl sourceApp sourceVer
      a.GraphType "" with
  | .error e => .error e
  | .ok (sourceID, _) =>
    match Id IsOKVersion destCluster destSvcNs destSvc destWlNs destWl destApp destVer
        a.GraphType "" with
    | .error e => .error e
    | .ok (destID, _) =>
      let key := sourceID ++ " " ++ destID
      if (principalMap key).isSome then .ok principalMap
      else
        .ok (Function.update principalMap key
          (some { SourcePrincipal := some sourcePrincipal,
                  DestPrincipal := some destPrincipal }))

/-- The two tables that `populateSecurityPolicyMap` fills: the security-policy table and the
principal table. -/
abbrev PolicyTables := (String → Option PolicyRates) × (String → Option Principals)

/-- The labels without which `populateSecurityPolicyMap` skips a row (`security_policy.go`
line 227). -/
def requiredPolicyLabels : List String :=
  ["source_workload_namespace", "source_workload", "source_canonical_service",
   "source_canonical_revision", "destination_service_namespace", "destination_service_name",
   "destination_workload_namespace", "destination_workload", "destination_canonical_service",
   "destination_canonical_revision", "source_principal", "destination_principal"]

/-- The body of the loop of `populateSecurityPolicyMap` (`security_policy.go` lines 197-282)
for one sample: the two tables after the row. A row without one of the required labels is
skipped; a panic of `Id` is passed on. -/
def populateSecurityPolicyRow (a : SecurityPolicyAppender) (env : Env) (tables : PolicyTables)
    (s : Sample) : Except String PolicyTables :=
  let m := s.Metric
  let podok := hasLabel m "pod"
  let reporter := labelValue m "reporter"
  let sourcePod := if podok ∧ reporter = "source" then labelValue m "pod" else ""
  let destinationPod := if podok ∧ reporter ≠ "source" then labelValue m "pod" else ""
  if requiredPolicyLabels.any (fun l => !hasLabel m l) then .ok tables
  else
    let sourceWlNs := labelValue m "source_workload_namespace"
    let sourceWl := labelValue m "source_workload"
    let sourceApp := labelValue m "source_canonical_service"
    let sourceVer := labelValue m "source_canonical_revision"
    let sourcePrincipal := labelValue m "source_principal"
    let destSvcNs := labelValue m "destination_service_namespace"
    let destSvcName := labelValue m "destination_service_name"
    let destWlNs := labelValue m "destination_workload_namespace"
    let destWl := labelValue m "destination_workload"
    let destApp := labelValue m "destination_canonical_service"
    let destVer := labelValue m "destination_canonical_revision"
    let destPrincipal := labelValue m "destination_principal"
    let csp :=
      if hasLabel m "connection_security_policy" then labelValue m "connection_security_policy"
      else Unknown
    let val := s.Value
    let clusters := env.HandleClusters (labelValue m "source_cluster")
      (hasLabel m "source_cluster") (labelValue m "destination_cluster")
      (hasLabel m "destination_cluster")
    let sourceCluster := clusters.1
    let destCluster := clusters.2
    match injectDecision a env.IsOKVersion destCluster destSvcNs destSvcName destWlNs destWl
        destApp destVer destinationPod with
    | .error e => .error e
    | .ok inject =>
      if a.GraphType = GraphTypePod then do
        let tables1 ←
          if destinationPod ≠ "" then do
            let spm ← addSecurityPolicy a env.IsOKVersion tables.1 csp val
              destCluster destSvcNs destSvcName "" "" ""
              destCluster destSvcNs destSvcName destWlNs destWl destApp destVer
              sourcePod destinationPod
            let pm ← addPrincipal a env.IsOKVersion tables.2
              destCluster destSvcNs destSvcName "" "" "" sourcePrincipal
              destCluster destSvcNs destSvcName destWlNs destWl destApp destVer destPrincipal
            pure (spm, pm)
          else pure tables
        if sourcePod ≠ "" ∨ sourceApp = "ingress-nginx" then do
          let spm ← addSecurityPolicy a env.IsOKVersion tables1.1 csp val
            sourceCluster sourceWlNs "" sourceWl sourceApp sourceVer
            destCluster destSvcNs destSvcName "" "" "" "" sourcePod ""
          let pm ← addPrincipal a env.IsOKVersion tables1.2
            sourceCluster sourceWlNs "" sourceWl sourceApp sourceVer sourcePrincipal
            destCluster destSvcNs destSvcName "" "" "" "" destPrincipal
          pure (spm, pm)
        else pure tables1
      else if inject then do
        let spm1 ← addSecurityPolicy a env.IsOKVersion tables.1 csp val
          sourceCluster sourceWlNs "" sourceWl sourceApp sourceVer
          destCluster destSvcNs destSvcName "" "" "" "" "" ""
        let spm2 ← addSecurityPolicy a env.IsOKVersion spm1 csp val
          destCluster destSvcNs destSvcName "" "" ""
          destCluster destSvcNs destSvcName destWlNs destWl destApp destVer "" ""
        let pm1 ← addPrincipal a env.IsOKVersion tables.2
          sourceCluster sourceWlNs "" sourceWl sourceApp sourceVer sourcePrincipal
          destCluster destSvcNs destSvcName "" "" "" "" destPrincipal
        let pm2 ← addPrincipal a env.IsOKVersion pm1
          destCluster destSvcNs destSvcName "" "" "" sourcePrincipal
          destCluster destSvcNs destSvcName destWlNs destWl destApp destVer destPrincipal
        pure (spm2, pm2)
      else do
        let spm ← addSecurityPolicy a env.IsOKVersion tables.1 csp val
          sourceCluster sourceWlNs "" sourceWl sourceApp sourceVer
          destCluster destSvcNs destSvcName destWlNs destWl destApp destVer "" ""
        let pm ← addPrincipal a env.IsOKVersion tables.2
          sourceCluster sourceWlNs "" sourceWl sourceApp sourceVer sourcePrincipal
          destCluster destSvcNs destSvcName destWlNs destWl destApp destVer destPrincipal
        pure (spm, pm)

/-- Embedding of `populateSecurityPolicyMap` (`security_policy.go` lines 195-284): the rows of
the vector, in order. -/
def populateSecurityPolicyMap (a : SecurityPolicyAppender) (env : Env) (tables : PolicyTables) :
    List Sample → Except String PolicyTables
  | [] => .ok tables
  | s :: rest =>
    match populateSecurityPolicyRow a env tables s with
    | .error e => .error e
    | .ok tables1 => populateSecurityPolicyMap a env tables1 rest

/-- The arguments of one call of `addSecurityPolicy`. -/
structure PolicyCall where
  csp : String
  val : Val
  sourceCluster : String
  sourceNs : String
  sourceSvc : String
  sourceWl : String
  sourceApp : String
  sourceVer : String
  destCluster : String
  destSvcNs : String
  destSvc : String
  destWlNs : String
  destWl : String
  destApp : String
  destVer : String
  sourcePod : String
  destinationPod : String

/-- The call of `addSecurityPolicy` with the arguments `call`. -/
def PolicyCall.run (a : SecurityPolicyAppender) (IsOKVersion : String → Bool)
    (securityPolicyMap : String → Option PolicyRates) (call : PolicyCall) :
    Except String (String → Option PolicyRates) :=
  addSecurityPolicy a IsOKVersion securityPolicyMap call.csp call.val call.sourceCluster
    call.sourceNs call.sourceSvc call.sourceWl call.sourceApp call.sourceVer call.destCluster
    call.destSvcNs call.destSvc call.destWlNs call.destWl call.destApp call.destVer
    call.sourcePod call.destinationPod

/-- A sequence of calls of `addSecurityPolicy` on one table, in order. -/
def addSecurityPolicies (a : SecurityPolicyAppender) (IsOKVersion : String → Bool)
    (securityPolicyMap : String → Option PolicyRates) :
    List PolicyCall → Except String (String → Option PolicyRates)
  | [] => .ok securityPolicyMap
  | call :: rest =>
    match call.run a IsOKVersion securityPolicyMap with
    | .error e => .error e
    | .ok securityPolicyMap1 => addSecurityPolicies a IsOKVersion securityPolicyMap1 rest

/-! ### Notions used to state the properties of the appender -/

/-- The rate recorded under "mutual_tls" in a `PolicyRates` map, 0 if there is none. -/
def mtlsRate (policyRates : PolicyRates) : Val :=
  (policyRates.lookup policyMTLS).getD 0

/-- The sum of the rates of all classes other than "mutual_tls". -/
def otherRate (policyRates : PolicyRates) : Val :=
  ((policyRates.filter (fun entry => entry.1 != policyMTLS)).map (fun entry => entry.2)).sum

/-- The metadata without the three keys that `applySecurityPolicy` writes. -/
def eraseSecurity (md : Metadata) : Metadata :=
  { md with isMTLS := none, sourcePrincipal := none, destPrincipal := none }

/-- An example traffic map: the node "a" with one edge to the node "b", which has none. -/
def examplePolicyMap : TrafficMap := fun k =>
  if k = "a" then
    some { ID := "a", NodeType := NodeTypeWorkload, Cluster := "east", Namespace := "bookinfo",
           Workload := "a", App := "", Version := "", Service := "", Pod := "",
           Edges := [{ Dest := "b", Metadata := { protocol := some "http" } }],
           Metadata := {} }
  else if k = "b" then
    some { ID := "b", NodeType := NodeTypeWorkload, Cluster := "east", Namespace := "bookinfo",
           Workload := "b", App := "", Version := "", Service := "", Pod := "",
           Edges := [], Metadata := {} }
  else none

/-- An example security-policy table with the one key "a b" and the given rates. -/
def exampleTable (policyRates : PolicyRates) : String → Option PolicyRates := fun k =>
  if k = "a b" then some policyRates else none

/-- The empty principal table. -/
def noPrincipals : String → Option Principals := fun _ => none

/-- The edge key "<source id> <dest id>" under which a call of `addSecurityPolicy` records
(`security_policy.go` lines 288-290); `none` when `Id` panics. -/
def PolicyCall.key (a : SecurityPolicyAppender) (IsOKVersion : String → Bool)
    (call : PolicyCall) : Option String :=
  match Id IsOKVersion call.sourceCluster call.sourceNs call.sourceSvc call.sourceNs
      call.sourceWl call.sourceApp call.sourceVer a.GraphType call.sourcePod,
    Id IsOKVersion call.destCluster call.destSvcNs call.destSvc call.destWlNs call.destWl
      call.destApp call.destVer a.GraphType call.destinationPod with
  | .ok (sourceId, _), .ok (destId, _) => some (sourceId ++ " " ++ destId)
  | _, _ => none

/-- The entry `table[key][class]` of a security-policy table, `none` when the key or the
class is not there. -/
def rateAt (securityPolicyMap : String → Option PolicyRates) (key csp : String) : Option Val :=
  match securityPolicyMap key with
  | some policyRates => policyRates.lookup csp
  | none => none

/-- The value passed by the last call of the sequence that records under `key` and `csp`,
`none` when no call does. -/
def lastRate (a : SecurityPolicyAppender) (IsOKVersion : String → Bool) (key csp : String) :
    List PolicyCall → Option Val
  | [] => none
  | call :: rest =>
    match lastRate a IsOKVersion key csp rest with
    | some v => some v
    | none => if call.key a IsOKVersion = some key ∧ call.csp = csp then some call.val else none

/-- The tables of a result of `populateSecurityPolicyMap`, the empty tables for a panic. -/
def resultTables (r : Except String PolicyTables) : PolicyTables :=
  match r with
  | .ok tables => tables
  | .error _ => (fun _ => none, fun _ => none)

/-- The table of a result of `addSecurityPolicy`, the empty table for a panic. -/
def resultRates (r : Except String (String → Option PolicyRates)) : String → Option PolicyRates :=
  match r with
  | .ok table => table
  | .error _ => fun _ => none

/-- The example sample with the labels of the security-policy query: both principals, the
connection security policy "mutual_tls", and the given pod and reporter. -/
def examplePolicySample (pod reporter : String) : Sample :=
  { Value := 5,
    Metric := (exampleSample pod reporter).Metric ++
      [("source_principal", "spiffe://cluster.local/ns/bookinfo/sa/reviews"),
       ("destination_principal", "spiffe://cluster.local/ns/bookinfo/sa/ratings"),
       ("connection_security_policy", "mutual_tls")] }

/-- An example appender for a graph of the given type, with service injection. -/
def exampleAppender (graphType : String) : SecurityPolicyAppender :=
  { GraphType := graphType, InjectServiceNodes := true }

/-- An example call of `addSecurityPolicy`: the given class and value for the edge from
workload "reviews-v1" to workload "ratings-v1". -/
def examplePolicyCall (csp : String) (val : Val) : PolicyCall :=
  { csp := csp, val := val, sourceCluster := "east", sourceNs := "bookinfo", sourceSvc := "",
    sourceWl := "reviews-v1", sourceApp := "reviews", sourceVer := "v1", destCluster := "east",
    destSvcNs := "bookinfo", destSvc := "ratings", destWlNs := "bookinfo",
    destWl := "ratings-v1", destApp := "ratings", destVer := "v1", sourcePod := "",
    destinationPod := "" }

end appender

namespace mtls

/-! ## The mTLS status (`util/mtls/status.go`) -/

/-- The constants of `status.go` lines 12-17. -/
def MTLSEnabled : String := "MTLS_ENABLED"
def MTLSPartiallyEnabled : String := "MTLS_PARTIALLY_ENABLED"
def MTLSNotEnabled : String := "MTLS_NOT_ENABLED"
def MTLSDisabled : String := "MTLS_DISABLED"

/-- The fields of `MtlsStatus` that the embedded functions read. -/
structure MtlsStatus where
  AutoMtlsEnabled : Bool
  AllowPermissive : Bool

/-- The struct `TlsStatus`; `TlsStatus{}` has three empty strings. -/
structure TlsStatus where
  DestinationRuleStatus : String := ""
  PeerAuthenticationStatus : String := ""
  OverallStatus : String := ""
deriving DecidableEq

/-- Embedding of `finalStatus` (`status.go` lines 123-142). -/
def MtlsStatus.finalStatus (m : MtlsStatus) (drStatus paStatus : String) : TlsStatus :=
  let mtlsEnabled := drStatus == "ISTIO_MUTUAL" || drStatus == "MUTUAL" ||
    (drStatus == "" && m.AutoMtlsEnabled)
  let mtlsDisabled := drStatus == "DISABLE" || (drStatus == "" && m.AutoMtlsEnabled)
  let finalStatus :=
    if (paStatus == "STRICT" || (paStatus == "PERMISSIVE" && m.AllowPermissive)) &&
        mtlsEnabled then MTLSEnabled
    else if paStatus == "DISABLE" && mtlsDisabled then MTLSDisabled
    else if paStatus == "" && drStatus == "" then MTLSNotEnabled
    else MTLSPartiallyEnabled
  { DestinationRuleStatus := drStatus, PeerAuthenticationStatus := paStatus,
    OverallStatus := finalStatus }

/-- Embedding of `hasDefinedTls` (`status.go` lines 207-209). -/
def TlsStatus.hasDefinedTls (t : TlsStatus) : Bool :=
  t.OverallStatus == MTLSEnabled || t.OverallStatus == MTLSDisabled

/-- Embedding of `hasPartialTlsConfig` (`status.go` lines 211-213). -/
def TlsStatus.hasPartialTlsConfig (t : TlsStatus) : Bool :=
  t.OverallStatus == MTLSPartiallyEnabled

/-- Embedding of `hasHalfTlsConfigDefined` (`status.go` lines 215-227). -/
def TlsStatus.hasHalfTlsConfigDefined (t : TlsStatus) (autoMtls allowPermissive : Bool) : Bool :=
  if autoMtls then
    let defined := (t.PeerAuthenticationStatus == "STRICT" && t.DestinationRuleStatus == "") ||
      ((t.DestinationRuleStatus == "ISTIO_MUTUAL" || t.DestinationRuleStatus == "MUTUAL") &&
        t.PeerAuthenticationStatus == "")
    if !defined && allowPermissive then
      t.PeerAuthenticationStatus == "PERMISSIVE" && t.DestinationRuleStatus == ""
    else defined
  else false

/-- Embedding of `hasNoConfig` (`status.go` lines 229-231). -/
def TlsStatus.hasNoConfig (t : TlsStatus) : Bool :=
  t.PeerAuthenticationStatus == "" && t.DestinationRuleStatus == ""

/-- Embedding of `hasPartialDisabledConfig` (`status.go` lines 233-236). -/
def TlsStatus.hasPartialDisabledConfig (t : TlsStatus) : Bool :=
  (t.PeerAuthenticationStatus == "DISABLE" && t.DestinationRuleStatus == "") ||
    (t.DestinationRuleStatus == "DISABLE" && t.PeerAuthenticationStatus == "")

/-- Embedding of `inheritedOverallStatus` (`status.go` lines 192-205). Its call of
`OverallMtlsStatus` is the parameter `overall`. -/
def MtlsStatus.inheritedOverallStatus (m : MtlsStatus)
    (overall : TlsStatus → TlsStatus → Option String) (nsStatus meshStatus : TlsStatus) :
    Option String :=
  let partialDRStatus :=
    if nsStatus.DestinationRuleStatus == "" then meshStatus.DestinationRuleStatus
    else nsStatus.DestinationRuleStatus
  let partialPAStatus :=
    if nsStatus.PeerAuthenticationStatus == "" then meshStatus.PeerAuthenticationStatus
    else nsStatus.PeerAuthenticationStatus
  overall {} (m.finalStatus partialDRStatus partialPAStatus)

/-- Embedding of `OverallMtlsStatus` (`status.go` lines 172-190). The function and
`inheritedOverallStatus` call each other; `depth` bounds the number of nested calls of
`OverallMtlsStatus`, and the result is `none` when the bound is reached. -/
def MtlsStatus.OverallMtlsStatus (m : MtlsStatus) :
    (depth : Nat) → (nsStatus meshStatus : TlsStatus) → Option String
  | 0, _, _ => none
  | depth + 1, nsStatus, meshStatus =>
    if nsStatus.hasDefinedTls then some nsStatus.OverallStatus
    else if nsStatus.hasPartialTlsConfig then
      m.inheritedOverallStatus (m.OverallMtlsStatus depth) nsStatus meshStatus
    else if meshStatus.hasDefinedTls then some meshStatus.OverallStatus
    else if meshStatus.hasNoConfig then some MTLSNotEnabled
    else if meshStatus.hasPartialDisabledConfig then some MTLSDisabled
    else if meshStatus.hasHalfTlsConfigDefined m.AutoMtlsEnabled m.AllowPermissive then
      some MTLSEnabled
    else if !m.AutoMtlsEnabled && meshStatus.hasPartialTlsConfig then some MTLSPartiallyEnabled
    else some MTLSPartiallyEnabled

/-- The status is one of the four constants. -/
def isStatusConstant (status : String) : Prop :=
  status = MTLSEnabled ∨ status = MTLSPartiallyEnabled ∨ status = MTLSNotEnabled ∨
    status = MTLSDisabled

end mtls

namespace kubernetes

/-! ## The remote credentials (`kubernetes/client.go`) -/

/-- The two functions of the Go library that `UseRemoteCreds` calls and that are kept as
parameters: `base64.StdEncoding.DecodeString` (the decoded bytes, or the error) and
`strings.EqualFold`. No property of either is assumed. -/
structure Lib where
  DecodeString : String → Except String (List Nat)
  EqualFold : String → String → Bool

/-- The parts of a text between the occurrences of the separator, on lists of characters. -/
def splitChars (sep : Char) : List Char → List (List Char)
  | [] => [[]]
  | c :: cs =>
    if c = sep then [] :: splitChars sep cs
    else
      match splitChars sep cs with
      | [] => [[c]]
      | part :: parts => (c :: part) :: parts

/-- The call `strings.Split(s, ":")` of the Go library: the parts of `s` between the colons, in
order; one part more than there are colons. -/
def splitColon (s : String) : List String :=
  (splitChars ':' s.data).map String.mk

/-- The function `strings.TrimPrefix` of the Go library. -/
def TrimPrefix (s pre : String) : String :=
  if pre.data.isPrefixOf s.data then String.mk (s.data.drop pre.data.length) else s

/-- The function `net.JoinHostPort` of the Go library: "host:port", with the host in square
brackets when it contains a colon. -/
def JoinHostPort (host port : String) : String :=
  if ':' ∈ host.data then "[" ++ host ++ "]:" ++ port else host ++ ":" ++ port

/-- The fields of a cluster entry of a `RemoteSecret` that `UseRemoteCreds` reads. -/
structure RemoteSecretCluster where
  CertificateAuthorityData : String
  Server : String

/-- The field `Clusters` of a `RemoteSecret`, each entry reduced to its `Cluster` field. -/
structure RemoteSecret where
  Clusters : List RemoteSecretCluster

/-- The fields of `rest.Config` that `UseRemoteCreds` sets: `Host` and
`TLSClientConfig.CAData`. -/
structure Config where
  Host : String
  CAData : List Nat
deriving DecidableEq

/-- Embedding of `UseRemoteCreds` (`client.go` lines 81-113). The result is the
configuration, or the returned error (the text of `errors.New`, or the error of the
decoder); the index `Clusters[0]` of an empty list is a panic, also given as an error. The
two indexings `serverParse[1]` and `serverParse[2]` follow the test of the length, so the
list is matched against its two admitted shapes. -/
def UseRemoteCreds (lib : Lib) (remoteSecret : RemoteSecret) : Except String Config :=
  match remoteSecret.Clusters with
  | [] => .error "panic: runtime error: index out of range [0] with length 0"
  | first :: _ =>
    match lib.DecodeString first.CertificateAuthorityData with
    | .error err => .error err
    | .ok rootCaDecoded =>
      match splitColon first.Server with
      | [scheme, hostPart] =>
        if !lib.EqualFold scheme "https" then
          .error "Only HTTPS protocol is allowed in remote API server URL"
        else
          .ok { Host := "https://" ++ JoinHostPort (TrimPrefix hostPart "//") "443",
                CAData := rootCaDecoded }
      | [scheme, hostPart, portPart] =>
        if !lib.EqualFold scheme "https" then
          .error "Only HTTPS protocol is allowed in remote API server URL"
        else
          .ok { Host := "https://" ++ JoinHostPort (TrimPrefix hostPart "//") portPart,
                CAData := rootCaDecoded }
      | _ => .error "Invalid remote API server URL"

/-- The decoder accepts the text. -/
def validBase64 (lib : Lib) (caData : String) : Prop :=
  ∃ bytes, lib.DecodeString caData = .ok bytes

/-- The host that `UseRemoteCreds` reads from the parts of the server URL: the second part
without a leading "//". -/
def hostOf (parts : List String) : String :=
  TrimPrefix (parts.getD 1 "") "//"

/-- The port that `UseRemoteCreds` reads from the parts of the server URL: the third part
when there are three, "443" otherwise. -/
def portOf (parts : List String) : String :=
  if parts.length = 3 then parts.getD 2 "" else "443"

/-- An example library: every text decodes to the empty byte sequence, and `EqualFold`
compares the texts after mapping their upper-case ASCII letters to lower case. -/
def exampleLib : Lib :=
  { DecodeString := fun _ => .ok [],
    EqualFold := fun s t => s.data.map Char.toLower == t.data.map Char.toLower }

/-- An example remote secret: one cluster, with the API server at
"https://192.168.1.10:6443". -/
def exampleSecret : RemoteSecret :=
  { Clusters := [{ CertificateAuthorityData := "LS0tLS1CRUdJTg==",
                   Server := "https://192.168.1.10:6443" }] }

end kubernetes

namespace golang

/-! ## Go maps that are ranged over -/

/-- A Go map with string keys that is ranged over: its entries, in the order in which they
were added, which stands for the order of the `range` loop. -/
abbrev GoMap (β : Type) := List (String × β)

/-- The index expression `m[k]` on a map whose values are maps or slices: the value of an
absent key is nil, which reads as the empty map or slice. -/
def indexAt {β : Type} (m : GoMap (List β)) (k : String) : List β :=
  (m.lookup k).getD []

end golang

namespace models

/-! ## The validations that the checkers return (`models` package)

The package is not among the sources; the types are reduced to the fields that the two
checkers set. -/

/-- The struct `IstioValidationKey`. -/
structure IstioValidationKey where
  Name : String
  Namespace : String
  ObjectType : String
deriving DecidableEq

/-- Modelled from the spec: `models.Build` is not among the sources. The check it builds is
kept as the code and the path it is built from. -/
structure IstioCheck where
  Code : String
  Path : String
deriving DecidableEq

/-- The call `models.Build(code, path)`. -/
def Build (code path : String) : IstioCheck :=
  { Code := code, Path := path }

/-- The fields of `IstioValidation` that the checkers set. -/
structure IstioValidation where
  Name : String
  ObjectType : String
  Valid : Bool
  Checks : List IstioCheck
  References : List IstioValidationKey
deriving DecidableEq

/-- The validations a checker returns, kept as the sequence of the one-key validations that
were merged into the map, in call order. -/
abbrev IstioValidations := List (IstioValidationKey × IstioValidation)

/-- Modelled from the spec: `IstioValidations.MergeValidations` is not among the sources. The
embedding records the call, for a map of one key: the keys of the map are the keys that
were merged into it, and what was merged under a key is what the map holds for it. -/
def MergeValidations (validations : IstioValidations) (key : IstioValidationKey)
    (validation : IstioValidation) : IstioValidations :=
  validations ++ [(key, validation)]

/-- The keys of the validations: the objects that the checker flags. -/
def IstioValidations.keys (validations : IstioValidations) : List IstioValidationKey :=
  validations.map (fun entry => entry.1)

end models

namespace kubernetes

/-- The struct `kubernetes.Host` (not among the sources): the service, namespace and cluster
that a host name resolves to. -/
structure Host where
  Service : String
  Namespace : String
  Cluster : String
deriving DecidableEq

end kubernetes

namespace virtualservices

open models kubernetes istio golang

/-! ## The single-host checker (`business/checkers/virtualservices/single_host_checker.go`) -/

/-- The fields of a `VirtualService` that the checker reads; `Hosts` and `Gateways` are
`Spec.Hosts` and `Spec.Gateways`. -/
structure VirtualService where
  Name : String
  Namespace : String
  ClusterName : String := ""
  Hosts : List String
  Gateways : List String := []
deriving DecidableEq

/-- What `SingleHostChecker` reads besides the virtual services: the names of its
namespaces (`s.Namespaces.GetNames()`), the configured identity domain
(`config.Get().ExternalServices.Istio.IstioIdentityDomain`) and the function
`kubernetes.GetHost (hostName, namespace, cluster, validNamespaces)`, which is not among the
sources and is a parameter. -/
structure SingleHostChecker where
  NamespaceNames : List String
  IstioIdentityDomain : String
  GetHost : String → String → String → List String → Host
  ExportedVirtualServices : List VirtualService

/-- The type of `hostCounter`: gateway, cluster, namespace, service, virtual services. -/
abbrev HostCounter := GoMap (GoMap (GoMap (GoMap (List VirtualService))))

/-- The gateways under which `storeHost` stores a virtual service (`single_host_checker.go`
lines 106-109). -/
def gwListOf (vs : VirtualService) : List String :=
  if vs.Gateways.length = 0 then ["no-gateway"] else vs.Gateways

/-- The body of the loop of `storeHost` (`single_host_checker.go` lines 116-139) for the
gateway `gw`. -/
def storeHostAt (vs : VirtualService) (cluster namespace_ service : String)
    (hostCounter : HostCounter) (gw : String) : HostCounter :=
  match hostCounter.lookup gw with
  | none => mapSet hostCounter gw [(cluster, [(namespace_, [(service, [vs])])])]
  | some gateways =>
    match gateways.lookup cluster with
    | none => mapSet hostCounter gw (mapSet gateways cluster [(namespace_, [(service, [vs])])])
    | some clusterCounter =>
      match clusterCounter.lookup namespace_ with
      | none =>
        mapSet hostCounter gw
          (mapSet gateways cluster (mapSet clusterCounter namespace_ [(service, [vs])]))
      | some namespaceCounter =>
        match namespaceCounter.lookup service with
        | none =>
          mapSet hostCounter gw
            (mapSet gateways cluster
              (mapSet clusterCounter namespace_ (mapSet namespaceCounter service [vs])))
        | some serviceCounter =>
          mapSet hostCounter gw
            (mapSet gateways cluster
              (mapSet clusterCounter namespace_
                (mapSet namespaceCounter service (serviceCounter ++ [vs]))))

/-- Embedding of `storeHost` (`single_host_checker.go` lines 103-140): the map after the
call. -/
def storeHost (hostCounter : HostCounter) (vs : VirtualService) (host : Host) : HostCounter :=
  (gwListOf vs).foldl (storeHostAt vs host.Cluster host.Namespace host.Service) hostCounter

/-- Embedding of `getHosts` (`single_host_checker.go` lines 142-159). -/
def SingleHostChecker.getHosts (s : SingleHostChecker) (virtualService : VirtualService) :
    List Host :=
  let clusterName :=
    if virtualService.ClusterName = "" then s.IstioIdentityDomain
    else virtualService.ClusterName
  virtualService.Hosts.map
    (fun hostName => s.GetHost hostName virtualService.Namespace clusterName s.NamespaceNames)

/-- Embedding of `containsVirtualService` (`single_host_checker.go` lines 69-76). -/
def containsVirtualService (vs : VirtualService) (vss : List VirtualService) : Bool :=
  vss.any (fun item => vs.Name == item.Name && vs.Namespace == item.Namespace)

/-- The key of a virtual service in the validations. -/
def keyOf (vs : VirtualService) : IstioValidationKey :=
  { Name := vs.Name, Namespace := vs.Namespace, ObjectType := "virtualservice" }

/-- Embedding of `multipleVirtualServiceCheck` (`single_host_checker.go` lines 78-101). -/
def multipleVirtualServiceCheck (virtualService : VirtualService)
    (validations : IstioValidations) (references : List VirtualService) : IstioValidations :=
  let key := keyOf virtualService
  let rrValidation : IstioValidation :=
    { Name := virtualService.Name, ObjectType := "virtualservice", Valid := true,
      Checks := [Build "virtualservices.singlehost" "spec/hosts"],
      References := (references.map keyOf).filter (fun refKey => refKey != key) }
  MergeValidations validations key rrValidation

/-- The body of the innermost loop of `Check` (`single_host_checker.go` lines 34-59) for one
virtual service of `serviceCounter`. -/
def checkVirtualService (namespaceCounter : GoMap (List VirtualService))
    (serviceCounter : List VirtualService) (validations : IstioValidations)
    (virtualService : VirtualService) : IstioValidations :=
  let isNamespaceWildcard := (indexAt namespaceCounter "*").length > 0
  let targetSameHost := serviceCounter.length > 1
  let otherServiceHosts := namespaceCounter.length > 1
  let validations1 :=
    if targetSameHost then
      multipleVirtualServiceCheck virtualService validations serviceCounter
    else validations
  if isNamespaceWildcard ∧ otherServiceHosts then
    let refs :=
      if containsVirtualService virtualService (indexAt namespaceCounter "*") then
        namespaceCounter.flatMap (fun entry => entry.2)
      else indexAt namespaceCounter "*"
    multipleVirtualServiceCheck virtualService validations1 refs
  else validations1

/-- The four nested loops of `Check` over `hostCounter` (`single_host_checker.go` lines
27-63). -/
def checkHostCounter (hostCounter : HostCounter) : IstioValidations :=
  hostCounter.foldl (fun validations gateways =>
    gateways.2.foldl (fun validations clusterCounter =>
      clusterCounter.2.foldl (fun validations namespaceCounter =>
        namespaceCounter.2.foldl (fun validations serviceCounter =>
          serviceCounter.2.foldl (checkVirtualService namespaceCounter.2 serviceCounter.2)
            validations) validations) validations) validations) []

/-- The first loop of `Check` (`single_host_checker.go` lines 21-25): every host of every
exported virtual service is stored. -/
def SingleHostChecker.hostCounter (s : SingleHostChecker) : HostCounter :=
  s.ExportedVirtualServices.foldl (fun hostCounter vs =>
    (s.getHosts vs).foldl (fun hostCounter host => storeHost hostCounter vs host) hostCounter) []

/-- Embedding of `SingleHostChecker.Check` (`single_host_checker.go` lines 17-67). -/
def SingleHostChecker.Check (s : SingleHostChecker) : IstioValidations :=
  checkHostCounter s.hostCounter

/-! ### Notions used to state the properties of the checker -/

/-- The index expression `hostCounter[gateway][cluster][namespace][service]`. -/
def entriesAt (hostCounter : HostCounter) (t : String × String × String × String) :
    List VirtualService :=
  indexAt (indexAt (indexAt (indexAt hostCounter t.1) t.2.1) t.2.2.1) t.2.2.2

/-- The grouping that the nested map is compared with: a single map keyed by the tuple
(gateway, cluster, namespace, service), as a function from tuples to lists (the empty list
for an absent key), and the store with append under the tuple of every gateway of the
virtual service. -/
def tupleStore (m : String × String × String × String → List VirtualService)
    (vs : VirtualService) (host : Host) :
    String × String × String × String → List VirtualService :=
  (gwListOf vs).foldl (fun m gw =>
    Function.update m (gw, host.Cluster, host.Namespace, host.Service)
      (m (gw, host.Cluster, host.Namespace, host.Service) ++ [vs])) m

/-- The virtual services that a sequence of `storeHost` calls stores under the tuple `t`, in
call order: the virtual service of a call once for each of its gateways that, with the host of
the call, makes the tuple. -/
def storedUnder (calls : List (VirtualService × Host)) (t : String × String × String × String) :
    List VirtualService :=
  calls.flatMap (fun call =>
    (gwListOf call.1).filterMap (fun gw =>
      if (gw, call.2.Cluster, call.2.Namespace, call.2.Service) = t then some call.1 else none))

/-- A sequence of `storeHost` calls on the empty map. -/
def storeHosts (calls : List (VirtualService × Host)) : HostCounter :=
  calls.foldl (fun hostCounter call => storeHost hostCounter call.1 call.2) []

/-- An example `GetHost`: a short name is a service of the given namespace and cluster, and
the full name "reviews.bookinfo.svc.cluster.local" is the service "reviews" of namespace
"bookinfo" in cluster "svc.cluster.local". -/
def exampleGetHost (hostName namespace_ cluster : String) (_validNamespaces : List String) :
    Host :=
  if hostName = "reviews.bookinfo.svc.cluster.local" then
    { Service := "reviews", Namespace := "bookinfo", Cluster := "svc.cluster.local" }
  else { Service := hostName, Namespace := namespace_, Cluster := cluster }

/-- An example checker for the given virtual services of the namespace "bookinfo". -/
def exampleChecker (virtualServices : List VirtualService) : SingleHostChecker :=
  { NamespaceNames := ["bookinfo"], IstioIdentityDomain := "svc.cluster.local",
    GetHost := exampleGetHost, ExportedVirtualServices := virtualServices }

end virtualservices

namespace destinationrules

open models kubernetes istio golang

/-! ## The multi-match checker
(`business/checkers/destinationrules/multi_match_checker.go`) -/

/-- The constant `DestinationRulesCheckerType`. -/
def DestinationRulesCheckerType : String := "destinationrule"

/-- The fields of a `DestinationRule` that the checker reads: `Host` is `Spec.Host`,
`Subsets` holds the names of `Spec.Subsets`, and `TlsMode` is
`Spec.TrafficPolicy.Tls.Mode.String()`, `none` when the traffic policy or its TLS settings
are nil. -/
structure DestinationRule where
  Name : String
  Namespace : String
  ClusterName : String := ""
  Host : String
  TlsMode : Option String := none
  Subsets : List String := []
deriving DecidableEq

/-- The struct `subset`. -/
structure subset where
  Name : String
  Namespace : String
  RuleName : String
deriving DecidableEq

/-- The struct `rule`. -/
structure rule where
  Name : String
  Namespace : String
deriving DecidableEq

/-- What `MultiMatchChecker` reads: the exported destination rules, the names of its
namespaces (`m.Namespaces.GetNames()`), and three functions of the package `kubernetes`
that are not among the sources and are parameters: `GetHost (hostName, namespace, cluster,
validNamespaces)` and the methods `String` and `IsWildcard` of the host it returns. -/
structure MultiMatchChecker where
  NamespaceNames : List String
  GetHost : String → String → String → List String → Host
  HostString : Host → String
  IsWildcard : Host → Bool
  ExportedDestinationRules : List DestinationRule

/-- Embedding of `ismTLSEnabled` (`multi_match_checker.go` lines 85-91). -/
def ismTLSEnabled (dr : DestinationRule) : Bool :=
  match dr.TlsMode with
  | some mode => mode == "ISTIO_MUTUAL"
  | none => false

/-- Embedding of `isNonLocalmTLSForServiceEnabled` (`multi_match_checker.go` lines
81-83). -/
def isNonLocalmTLSForServiceEnabled (dr : DestinationRule) (service : String) : Bool :=
  hasPrefix service "*" && ismTLSEnabled dr

/-- Embedding of `extractSubsets` (`multi_match_checker.go` lines 93-107). -/
def extractSubsets (dr : DestinationRule) (destinationRulesName destinationRulesNamespace :
    String) : List subset :=
  if dr.Subsets.length > 0 then
    dr.Subsets.map (fun ss =>
      { Name := ss, Namespace := destinationRulesNamespace, RuleName := destinationRulesName })
  else [{ Name := "~", Namespace := destinationRulesNamespace, RuleName := destinationRulesName }]

/-- Embedding of `createError` (`multi_match_checker.go` lines 150-165). -/
def createError (errorText namespace_ destinationRuleName : String) (valid : Bool) :
    IstioValidationKey × IstioValidation :=
  ({ Name := destinationRuleName, Namespace := namespace_,
     ObjectType := DestinationRulesCheckerType },
   { Name := destinationRuleName, ObjectType := DestinationRulesCheckerType, Valid := valid,
     Checks := [Build errorText "spec/host"], References := [] })

/-- Embedding of `addError` (`multi_match_checker.go` lines 136-148), for the pair of
namespaces and the pair of names it is called with. -/
def addError (validations : IstioValidations) (namespace0 namespace1 name0 name1 : String) :
    IstioValidations :=
  let e0 := createError "destinationrules.multimatch" namespace0 name0 true
  let e1 := createError "destinationrules.multimatch" namespace1 name1 true
  let rrValidation0 := { e0.2 with References := e0.2.References ++ [e1.1] }
  let rrValidation1 := { e1.2 with References := e1.2.References ++ [e0.1] }
  MergeValidations (MergeValidations validations e0.1 rrValidation0) e1.1 rrValidation1

/-- The loop `for _, rule := range rules { addError(...) }` of `checkCollisions`. -/
def addErrors (validations : IstioValidations) (namespace_ destinationRulesName : String)
    (rules : List rule) : IstioValidations :=
  rules.foldl (fun validations e =>
    addError validations namespace_ e.Namespace destinationRulesName e.Name) validations

/-- Embedding of `checkCollisions` (`multi_match_checker.go` lines 109-134). -/
def checkCollisions (validations : IstioValidations) (namespace_ destinationRulesName : String)
    (foundSubsets : List subset) (existing : GoMap (List rule)) : IstioValidations :=
  let validations1 :=
    match foundSubsets with
    | [s] =>
      if s.Name = "~" then
        existing.foldl (fun validations v =>
          addErrors validations namespace_ destinationRulesName v.2) validations
      else validations
    | _ => validations
  let validations2 :=
    match existing.lookup "~" with
    | some rules => addErrors validations1 namespace_ destinationRulesName rules
    | none => validations1
  foundSubsets.foldl (fun validations s =>
    match existing.lookup s.Name with
    | some rules => addErrors validations namespace_ destinationRulesName rules
    | none => validations) validations2

/-- The statement `seenHostSubsets[host][s.Name] = append(seenHostSubsets[host][s.Name],
rule{name, namespace})` (`multi_match_checker.go` line 72). -/
def storeSubset (host destinationRulesName destinationRulesNamespace : String)
    (seenHostSubsets : GoMap (GoMap (List rule))) (s : subset) : GoMap (GoMap (List rule)) :=
  mapSet seenHostSubsets host
    (mapSet (indexAt seenHostSubsets host) s.Name
      (indexAt (indexAt seenHostSubsets host) s.Name ++
        [{ Name := destinationRulesName, Namespace := destinationRulesNamespace }]))

/-- The body of the loop of `Check` (`multi_match_checker.go` lines 39-75) for one
destination rule, on the validations and the map `seenHostSubsets`. -/
def checkRule (m : MultiMatchChecker)
    (state : IstioValidations × GoMap (GoMap (List rule))) (dr : DestinationRule) :
    IstioValidations × GoMap (GoMap (List rule)) :=
  let validations := state.1
  let seenHostSubsets := state.2
  let destinationRulesName := dr.Name
  let destinationRulesNamespace := dr.Namespace
  let fqdn := m.GetHost dr.Host dr.Namespace dr.ClusterName m.NamespaceNames
  if isNonLocalmTLSForServiceEnabled dr (m.HostString fqdn) then state
  else
    let foundSubsets := extractSubsets dr destinationRulesName destinationRulesNamespace
    let validations1 :=
      if m.IsWildcard fqdn then
        seenHostSubsets.foldl (fun validations h =>
          checkCollisions validations destinationRulesNamespace destinationRulesName
            foundSubsets h.2) validations
      else validations
    let validations2 :=
      match seenHostSubsets.lookup ("*." ++ fqdn.Namespace ++ "." ++ fqdn.Cluster) with
      | some previous =>
        checkCollisions validations1 destinationRulesNamespace destinationRulesName
          foundSubsets previous
      | none => validations1
    let validations3 :=
      match seenHostSubsets.lookup (m.HostString fqdn) with
      | some previous =>
        checkCollisions validations2 destinationRulesNamespace destinationRulesName
          foundSubsets previous
      | none => validations2
    let seenHostSubsets1 :=
      match seenHostSubsets.lookup (m.HostString fqdn) with
      | some _ => seenHostSubsets
      | none => mapSet seenHostSubsets (m.HostString fqdn) []
    (validations3,
      foundSubsets.foldl
        (storeSubset (m.HostString fqdn) destinationRulesName destinationRulesNamespace)
        seenHostSubsets1)

/-- Embedding of `MultiMatchChecker.Check` (`multi_match_checker.go` lines 32-79). -/
def MultiMatchChecker.Check (m : MultiMatchChecker) : IstioValidations :=
  (m.ExportedDestinationRules.foldl (checkRule m) ([], [])).1

/-! ### Notions used to state the properties of the checker -/

/-- The key of a destination rule in the validations. -/
def keyOf (dr : DestinationRule) : IstioValidationKey :=
  { Name := dr.Name, Namespace := dr.Namespace, ObjectType := DestinationRulesCheckerType }

/-- The validation that `addError` merges for the rule `dr` with a reference to the rule
`other`: the check "destinationrules.multimatch" on "spec/host". -/
def flaggedWith (dr other : DestinationRule) : IstioValidationKey × IstioValidation :=
  (keyOf dr,
   { Name := dr.Name, ObjectType := DestinationRulesCheckerType, Valid := true,
     Checks := [Build "destinationrules.multimatch" "spec/host"],
     References := [keyOf other] })

/-- The host that a destination rule resolves to. -/
def MultiMatchChecker.hostOf (m : MultiMatchChecker) (dr : DestinationRule) : Host :=
  m.GetHost dr.Host dr.Namespace dr.ClusterName m.NamespaceNames

/-- The host is no wildcard: `IsWildcard` is false of it and its text does not begin with
"*". -/
def MultiMatchChecker.nonWildcard (m : MultiMatchChecker) (h : Host) : Prop :=
  m.IsWildcard h = false ∧ hasPrefix (m.HostString h) "*" = false

/-- The two rules share a subset name, or at least one of them declares no subsets. -/
def shareOrAll (dr1 dr2 : DestinationRule) : Prop :=
  (∃ name, name ∈ dr1.Subsets ∧ name ∈ dr2.Subsets) ∨ dr1.Subsets = [] ∨ dr2.Subsets = []

/-- The entries that `k` calls of `addError` for the rule `dr2` against the stored rule `dr1`
add to the validations. -/
def pairs (dr1 dr2 : DestinationRule) : Nat → IstioValidations
  | 0 => []
  | k + 1 => pairs dr1 dr2 k ++ [flaggedWith dr2 dr1, flaggedWith dr1 dr2]

/-- The number of `addError` calls that one rule stored under the key has coming. -/
def storedCount (existing : GoMap (List rule)) (name : String) : Nat :=
  match existing.lookup name with
  | some rules => rules.length
  | none => 0

/-- The number of `addError` calls of `checkCollisions` (`multi_match_checker.go` lines
109-134). -/
def collisions (foundSubsets : List subset) (existing : GoMap (List rule)) : Nat :=
  (match foundSubsets with
    | [s] => if s.Name = "~" then (existing.map (fun v => v.2.length)).sum else 0
    | _ => 0) +
  storedCount existing "~" +
  (foundSubsets.map (fun s => storedCount existing s.Name)).sum

/-- The map `seenHostSubsets[host]` after the rule `r` was stored under the subset names
`names`, from the map `existing`. -/
def seenNames (r : rule) (names : List String) (existing : GoMap (List rule)) :
    GoMap (List rule) :=
  names.foldl (fun existing name => mapSet existing name (indexAt existing name ++ [r]))
    existing

/-- An example `GetHost`: a name of at least three parts "service.namespace.cluster..." is
split at its first two dots; any other name is a service of the given namespace and
cluster. The example covers the names used below. -/
def exampleGetHost (hostName namespace_ cluster : String) (_validNamespaces : List String) :
    Host :=
  if hostName = "*.other.svc.cluster.local" then
    { Service := "*", Namespace := "other", Cluster := "svc.cluster.local" }
  else if hostName = "reviews.bookinfo.svc.cluster.local" then
    { Service := "reviews", Namespace := "bookinfo", Cluster := "svc.cluster.local" }
  else { Service := hostName, Namespace := namespace_, Cluster := cluster }

/-- An example checker for the given destination rules: the text of a host is
"service.namespace.cluster", and a host is a wildcard when its service is "*". -/
def exampleChecker (rules : List DestinationRule) : MultiMatchChecker :=
  { NamespaceNames := ["bookinfo", "other"],
    GetHost := exampleGetHost,
    HostString := fun h => h.Service ++ "." ++ h.Namespace ++ "." ++ h.Cluster,
    IsWildcard := fun h => h.Service == "*",
    ExportedDestinationRules := rules }

/-- An example rule of namespace "bookinfo" for the host
"reviews.bookinfo.svc.cluster.local", with the given name and subset names. -/
def exampleRule (name : String) (subsets : List String) : DestinationRule :=
  { Name := name, Namespace := "bookinfo", Host := "reviews.bookinfo.svc.cluster.local",
    Subsets := subsets }

/-- An example rule of namespace "other" for the wildcard host of that namespace. -/
def exampleWildcardRule : DestinationRule :=
  { Name := "all-other", Namespace := "other", Host := "*.other.svc.cluster.local" }

end destinationrules

namespace graph

/-! ## Properties of `Id` -/

theorem String_append_right_inj (a b c : String) (h : a ++ b = a ++ c) : b = c := by
  have hd := congrArg String.data h
  simp only [String.data_append] at hd
  exact String.ext (List.append_cancel_left hd)

/-- C5. In a versionedApp graph two label tuples that differ only in their (OK, distinct)
workloads and share an OK app label get different ids, both of node type app; in an app
graph the same two tuples get one and the same id, of node type app. -/
theorem Id_versionedApp_separates_workloads (IsOKVersion : String → Bool)
    (cluster serviceNamespace service workloadNamespace workload1 workload2 app version pod : String)
    (happ : IsOK app = true) (h1 : IsOK workload1 = true) (h2 : IsOK workload2 = true)
    (hne : workload1 ≠ workload2) :
    (∃ id1 id2,
      Id IsOKVersion cluster serviceNamespace service workloadNamespace workload1 app version
          GraphTypeVersionedApp pod = .ok (id1, NodeTypeApp) ∧
      Id IsOKVersion cluster serviceNamespace service workloadNamespace workload2 app version
          GraphTypeVersionedApp pod = .ok (id2, NodeTypeApp) ∧
      id1 ≠ id2) ∧
    (∃ id,
      Id IsOKVersion cluster serviceNamespace service workloadNamespace workload1 app version
          GraphTypeApp pod = .ok (id, NodeTypeApp) ∧
      Id IsOKVersion cluster serviceNamespace service workloadNamespace workload2 app version
          GraphTypeApp pod = .ok (id, NodeTypeApp)) := by
  have ha : Unknown ≠ app := by
    intro h; subst h; simp [IsOK, Unknown] at happ
  have hw1 : Unknown ≠ workload1 := by
    intro h; subst h; simp [IsOK, Unknown] at h1
  have hw2 : Unknown ≠ workload2 := by
    intro h; subst h; simp [IsOK, Unknown] at h2
  refine ⟨⟨"vapp_" ++ cluster ++ "_" ++ preferredNamespace serviceNamespace workloadNamespace
        ++ "_" ++ workload1,
      "vapp_" ++ cluster ++ "_" ++ preferredNamespace serviceNamespace workloadNamespace
        ++ "_" ++ workload2, ?_, ?_, ?_⟩,
    ⟨"app_" ++ cluster ++ "_" ++ preferredNamespace serviceNamespace workloadNamespace
        ++ "_" ++ app, ?_, ?_⟩⟩
  · simp [Id, IdGeneral, ha, hw1, happ, h1, GraphTypeVersionedApp, GraphTypePod,
      GraphTypeWorkload, GraphTypeService]
  · simp [Id, IdGeneral, ha, hw2, happ, h2, GraphTypeVersionedApp, GraphTypePod,
      GraphTypeWorkload, GraphTypeService]
  · intro h
    exact hne (String_append_right_inj _ _ _ h)
  · simp [Id, IdGeneral, ha, hw1, happ, h1, GraphTypeApp, GraphTypeVersionedApp, GraphTypePod,
      GraphTypeWorkload, GraphTypeService]
  · simp [Id, IdGeneral, ha, hw2, happ, h2, GraphTypeApp, GraphTypeVersionedApp, GraphTypePod,
      GraphTypeWorkload, GraphTypeService]

/-- C5 (witness): the workloads "reviews-v1" and "reviews-v2" of the app "reviews" in
namespace "bookinfo" of cluster "east". -/
theorem Id_versionedApp_separates_workloads_witness :
    (∃ id1 id2,
      Id (fun _ => true) "east" "bookinfo" "reviews" "bookinfo" "reviews-v1" "reviews" "v1"
          GraphTypeVersionedApp "" = .ok (id1, NodeTypeApp) ∧
      Id (fun _ => true) "east" "bookinfo" "reviews" "bookinfo" "reviews-v2" "reviews" "v1"
          GraphTypeVersionedApp "" = .ok (id2, NodeTypeApp) ∧
      id1 ≠ id2) ∧
    (∃ id,
      Id (fun _ => true) "east" "bookinfo" "reviews" "bookinfo" "reviews-v1" "reviews" "v1"
          GraphTypeApp "" = .ok (id, NodeTypeApp) ∧
      Id (fun _ => true) "east" "bookinfo" "reviews" "bookinfo" "reviews-v2" "reviews" "v1"
          GraphTypeApp "" = .ok (id, NodeTypeApp)) :=
  Id_versionedApp_separates_workloads (fun _ => true) "east" "bookinfo" "reviews" "bookinfo"
    "reviews-v1" "reviews-v2" "reviews" "v1" "" (by decide) (by decide) (by decide) (by decide)

theorem IsOK_ne_unknown {s : String} (h : IsOK s = true) : Unknown ≠ s := by
  intro e; subst e; simp [IsOK, Unknown] at h

theorem IsOK_ne_empty {s : String} (h : IsOK s = true) : s ≠ "" := by
  intro e; subst e; simp [IsOK] at h

/-- C6 (counterexample). In a workload graph a tuple whose app label is OK while its workload
and service are empty makes `Id` panic ("Failed ID gen2"), although one of the three labels is
OK: the panic is not equivalent to "none of workload, app and service is OK". -/
theorem Id_panics_with_app_OK_in_workload_graph :
    ¬ matchesSentinel "bookinfo" "" "bookinfo" "" "reviews" ∧
    IsOK "reviews" = true ∧
    Id (fun _ => true) "east" "bookinfo" "" "bookinfo" "" "reviews" "v1" GraphTypeWorkload ""
      = .error "Failed ID gen2" ∧
    ¬ ((∃ e, Id (fun _ => true) "east" "bookinfo" "" "bookinfo" "" "reviews" "v1"
          GraphTypeWorkload "" = .error e) ↔
        (IsOK "" = false ∧ IsOK "reviews" = false ∧ IsOK "" = false)) := by
  refine ⟨?_, by decide, rfl, ?_⟩
  · simp [matchesSentinel, Unknown]
  · intro h
    have := h.mp ⟨_, rfl⟩
    exact absurd this.2.1 (by decide)

/-- C6 (amended). For a graph type other than pod and a tuple that matches neither sentinel,
`Id` panics exactly when none of workload, app and service is OK or, for the workload and
service graph types, when neither workload nor service is OK (whatever the app label is);
in every other case it returns an id and a node type. -/
theorem Id_panics_iff (IsOKVersion : String → Bool)
    (cluster serviceNamespace service workloadNamespace workload app version graphType pod : String)
    (hpod : graphType ≠ GraphTypePod)
    (hs : ¬ matchesSentinel serviceNamespace service workloadNamespace workload app) :
    ((∃ e, Id IsOKVersion cluster serviceNamespace service workloadNamespace workload app version
          graphType pod = .error e) ↔
      ((IsOK workload = false ∧ IsOK app = false ∧ IsOK service = false) ∨
        ((graphType = GraphTypeWorkload ∨ graphType = GraphTypeService) ∧
          IsOK workload = false ∧ IsOK service = false))) ∧
    ((∃ id nodeType, Id IsOKVersion cluster serviceNamespace service workloadNamespace workload
          app version graphType pod = .ok (id, nodeType)) ↔
      ¬ ((IsOK workload = false ∧ IsOK app = false ∧ IsOK service = false) ∨
        ((graphType = GraphTypeWorkload ∨ graphType = GraphTypeService) ∧
          IsOK workload = false ∧ IsOK service = false))) := by
  simp only [matchesSentinel, not_or] at hs
  obtain ⟨hs1, hs2⟩ := hs
  simp only [Id, hs1, hs2, hpod, if_false, IdGeneral]
  cases hw : IsOK workload <;> cases ha : IsOK app <;> cases hsv : IsOK service <;>
    by_cases hg : (graphType = GraphTypeWorkload ∨ graphType = GraphTypeService) <;>
    simp [hg] <;> split_ifs <;> simp

/-- C6 (witness of the amended statement): the tuple of the counterexample panics in a
workload graph, and the same tuple with a service name gets an id. -/
theorem Id_panics_iff_witness :
    (∃ e, Id (fun _ => true) "east" "bookinfo" "" "bookinfo" "" "reviews" "v1"
        GraphTypeWorkload "" = .error e) ∧
    (∃ id nodeType, Id (fun _ => true) "east" "bookinfo" "ratings" "bookinfo" "" "reviews" "v1"
        GraphTypeWorkload "" = .ok (id, nodeType)) := by
  refine ⟨?_, ?_⟩
  · exact (Id_panics_iff (fun _ => true) "east" "bookinfo" "" "bookinfo" "" "reviews" "v1"
      GraphTypeWorkload "" (by decide) (by simp [matchesSentinel, Unknown])).1.mpr
      (Or.inr ⟨Or.inl rfl, by decide, by decide⟩)
  · exact (Id_panics_iff (fun _ => true) "east" "bookinfo" "ratings" "bookinfo" "" "reviews" "v1"
      GraphTypeWorkload "" (by decide) (by simp [matchesSentinel, Unknown])).2.mpr
      (by simp [IsOK, Unknown])

/-- C7. In a workload or service graph, for every app, version and pod: an OK workload gives
the workload node "wl_<cluster>_<namespace>_<workload>"; a workload that is not OK together
with an OK service gives the service node "svc_<cluster>_<namespace>_<service>". The
namespace is the workload namespace when that is OK and the service namespace otherwise. -/
theorem Id_workload_graph (IsOKVersion : String → Bool)
    (cluster serviceNamespace service workloadNamespace workload app version graphType pod : String)
    (hg : graphType = GraphTypeWorkload ∨ graphType = GraphTypeService) :
    (IsOK workload = true →
      Id IsOKVersion cluster serviceNamespace service workloadNamespace workload app version
          graphType pod =
        .ok ("wl_" ++ cluster ++ "_" ++
            (if IsOK workloadNamespace then workloadNamespace else serviceNamespace) ++
            "_" ++ workload, NodeTypeWorkload)) ∧
    (IsOK workload = false → IsOK service = true →
      Id IsOKVersion cluster serviceNamespace service workloadNamespace workload app version
          graphType pod =
        .ok ("svc_" ++ cluster ++ "_" ++
            (if IsOK workloadNamespace then workloadNamespace else serviceNamespace) ++
            "_" ++ service, NodeTypeService)) := by
  have hp : graphType ≠ GraphTypePod := by
    rcases hg with h | h <;> subst h <;> decide
  have hns : preferredNamespace serviceNamespace workloadNamespace =
      (if IsOK workloadNamespace then workloadNamespace else serviceNamespace) := by
    unfold preferredNamespace
    cases IsOK workloadNamespace <;> simp
  refine ⟨fun hw => ?_, fun hw hsv => ?_⟩
  · simp [Id, IdGeneral, hns, IsOK_ne_unknown hw, hw, hp, hg]
  · have h1 := IsOK_ne_unknown hsv
    have h2 := IsOK_ne_empty hsv
    simp [Id, IdGeneral, hns, h1, h2, hw, hsv, hp, hg]

/-- C7 (witness): workload "reviews-v1" in namespace "bookinfo" of cluster "east", in a
workload graph. -/
theorem Id_workload_graph_witness :
    Id (fun _ => true) "east" "bookinfo" "reviews" "bookinfo" "reviews-v1" "reviews" "v1"
      GraphTypeWorkload "" = .ok ("wl_east_bookinfo_reviews-v1", NodeTypeWorkload) :=
  (Id_workload_graph (fun _ => true) "east" "bookinfo" "reviews" "bookinfo" "reviews-v1"
    "reviews" "v1" GraphTypeWorkload "" (Or.inl rfl)).1 (by decide)

/-- C8. In an app or versionedApp graph `Id` is this first-match definition. With an OK app
label: a versionedApp graph with an OK workload gives "vapp_<cluster>_<ns>_<workload>"; a
versionedApp graph with a workload that is not OK and an OK version (`IsOKVersion`) gives
"vapp_<cluster>_<ns>_<app>_<version>"; every other case gives "app_<cluster>_<ns>_<app>"; all
three of node type app. Without an OK app label: an OK workload gives the workload node
"wl_<cluster>_<ns>_<workload>", and a workload that is not OK with an OK service gives the
service node "svc_<cluster>_<ns>_<service>". -/
theorem Id_app_graph (IsOKVersion : String → Bool)
    (cluster serviceNamespace service workloadNamespace workload app version graphType pod ns : String)
    (hg : graphType = GraphTypeApp ∨ graphType = GraphTypeVersionedApp)
    (hns : ns = if IsOK workloadNamespace then workloadNamespace else serviceNamespace) :
    (IsOK app = true →
      Id IsOKVersion cluster serviceNamespace service workloadNamespace workload app version
          graphType pod =
        (if graphType = GraphTypeVersionedApp ∧ IsOK workload = true then
          .ok ("vapp_" ++ cluster ++ "_" ++ ns ++ "_" ++ workload, NodeTypeApp)
        else if graphType = GraphTypeVersionedApp ∧ IsOK workload = false ∧
            IsOKVersion version = true then
          .ok ("vapp_" ++ cluster ++ "_" ++ ns ++ "_" ++ app ++ "_" ++ version, NodeTypeApp)
        else
          .ok ("app_" ++ cluster ++ "_" ++ ns ++ "_" ++ app, NodeTypeApp))) ∧
    (IsOK app = false → IsOK workload = true →
      Id IsOKVersion cluster serviceNamespace service workloadNamespace workload app version
          graphType pod =
        .ok ("wl_" ++ cluster ++ "_" ++ ns ++ "_" ++ workload, NodeTypeWorkload)) ∧
    (IsOK app = false → IsOK workload = false → IsOK service = true →
      Id IsOKVersion cluster serviceNamespace service workloadNamespace workload app version
          graphType pod =
        .ok ("svc_" ++ cluster ++ "_" ++ ns ++ "_" ++ service, NodeTypeService)) := by
  have hp : graphType ≠ GraphTypePod := by
    rcases hg with h | h <;> subst h <;> decide
  have hw : graphType ≠ GraphTypeWorkload := by
    rcases hg with h | h <;> subst h <;> decide
  have hsv : graphType ≠ GraphTypeService := by
    rcases hg with h | h <;> subst h <;> decide
  have hpn : preferredNamespace serviceNamespace workloadNamespace = ns := by
    subst hns
    unfold preferredNamespace
    cases IsOK workloadNamespace <;> simp
  refine ⟨fun ha => ?_, fun ha hwl => ?_, fun ha hwl hs => ?_⟩
  · have hu := IsOK_ne_unknown ha
    cases hwl : IsOK workload <;> rcases hg with rfl | rfl <;>
      simp [Id, IdGeneral, hu, ha, hwl, hpn, GraphTypeApp, GraphTypeVersionedApp, GraphTypePod,
        GraphTypeWorkload, GraphTypeService]
  · simp [Id, IdGeneral, IsOK_ne_unknown hwl, ha, hwl, hp, hw, hsv, hpn]
  · have h1 := IsOK_ne_unknown hs
    have h2 := IsOK_ne_empty hs
    simp [Id, IdGeneral, h1, h2, ha, hwl, hs, hp, hw, hsv, hpn]

/-- C8 (witness): app "reviews" without workload label and with version "v1", in namespace
"bookinfo" of cluster "east", in a versionedApp graph. -/
theorem Id_app_graph_witness :
    Id (fun _ => true) "east" "bookinfo" "reviews" "bookinfo" "" "reviews" "v1"
      GraphTypeVersionedApp "" = .ok ("vapp_east_bookinfo_reviews_v1", NodeTypeApp) :=
  (Id_app_graph (fun _ => true) "east" "bookinfo" "reviews" "bookinfo" "" "reviews" "v1"
    GraphTypeVersionedApp "" "bookinfo" (Or.inr rfl) (by decide)).1 (by decide)

/-- C9. In a pod graph, for a tuple that matches neither sentinel: an OK pod gives the pod node
"pod_<cluster>_<ns>_<pod>"; a pod that is not OK with workload namespace "ingress-nginx" and
an OK workload gives the app node "vapp_<cluster>_<ns>_<workload>"; a pod that is not OK
with any other workload namespace gives the service node "svc_<cluster>_<ns>_<service>",
whatever the workload and app are. -/
theorem Id_pod_graph (IsOKVersion : String → Bool)
    (cluster serviceNamespace service workloadNamespace workload app version pod ns : String)
    (hs : ¬ matchesSentinel serviceNamespace service workloadNamespace workload app)
    (hns : ns = if IsOK workloadNamespace then workloadNamespace else serviceNamespace) :
    (IsOK pod = true →
      Id IsOKVersion cluster serviceNamespace service workloadNamespace workload app version
          GraphTypePod pod =
        .ok ("pod_" ++ cluster ++ "_" ++ ns ++ "_" ++ pod, NodeTypePod)) ∧
    (IsOK pod = false → workloadNamespace = "ingress-nginx" → IsOK workload = true →
      Id IsOKVersion cluster serviceNamespace service workloadNamespace workload app version
          GraphTypePod pod =
        .ok ("vapp_" ++ cluster ++ "_" ++ ns ++ "_" ++ workload, NodeTypeApp)) ∧
    (IsOK pod = false → workloadNamespace ≠ "ingress-nginx" →
      Id IsOKVersion cluster serviceNamespace service workloadNamespace workload app version
          GraphTypePod pod =
        .ok ("svc_" ++ cluster ++ "_" ++ ns ++ "_" ++ service, NodeTypeService)) := by
  have hpn : preferredNamespace serviceNamespace workloadNamespace = ns := by
    subst hns
    unfold preferredNamespace
    cases IsOK workloadNamespace <;> simp
  simp only [matchesSentinel, not_or, hpn] at hs
  obtain ⟨hs1, hs2⟩ := hs
  refine ⟨fun hp => ?_, fun hp hi hw => ?_, fun hp hi => ?_⟩
  · simp only [Id, hpn, hs1, hs2, if_false, hp]
    simp
  · simp only [Id, hpn, hs1, hs2, if_false, hp, hw]
    simp [hi]
  · simp only [Id, hpn, hs1, hs2, if_false, hp, hi]
    simp

/-- C9 (witness): a sample of pod "reviews-v1-abc" in a pod graph. -/
theorem Id_pod_graph_witness :
    Id (fun _ => true) "east" "bookinfo" "reviews" "bookinfo" "reviews-v1" "reviews" "v1"
      GraphTypePod "reviews-v1-abc" = .ok ("pod_east_bookinfo_reviews-v1-abc", NodeTypePod) :=
  (Id_pod_graph (fun _ => true) "east" "bookinfo" "reviews" "bookinfo" "reviews-v1" "reviews"
    "v1" "reviews-v1-abc" "bookinfo" (by simp [matchesSentinel, Unknown]) (by decide)).1
    (by decide)

/-- C10. The two sentinels come before every graph type (pod included), version and pod
value. When the preferred namespace, the workload and the app are all "unknown" and the
service is empty, `Id` returns the unknown-source node "<cluster>_unknown_source" of node
type unknown. When workload, app and service are all "unknown", it returns the service node
"svc_<cluster>_<namespace>_unknown". Either id depends on the cluster (and, for the second,
the preferred namespace) alone. -/
theorem Id_sentinels (IsOKVersion : String → Bool)
    (cluster serviceNamespace service workloadNamespace workload app version graphType pod ns : String)
    (hns : ns = if IsOK workloadNamespace then workloadNamespace else serviceNamespace) :
    (ns = "unknown" → workload = "unknown" → app = "unknown" → service = "" →
      Id IsOKVersion cluster serviceNamespace service workloadNamespace workload app version
          graphType pod = .ok (cluster ++ "_unknown_source", NodeTypeUnknown)) ∧
    (workload = "unknown" → app = "unknown" → service = "unknown" →
      Id IsOKVersion cluster serviceNamespace service workloadNamespace workload app version
          graphType pod = .ok ("svc_" ++ cluster ++ "_" ++ ns ++ "_unknown", NodeTypeService)) := by
  have hpn : preferredNamespace serviceNamespace workloadNamespace = ns := by
    subst hns
    unfold preferredNamespace
    cases IsOK workloadNamespace <;> simp
  refine ⟨fun h1 h2 h3 h4 => ?_, fun h2 h3 h4 => ?_⟩
  · subst h2 h3 h4
    simp [Id, hpn, h1, Unknown]
  · subst h2 h3 h4
    simp [Id, hpn, Unknown]

/-- C10 (witness): the unknown source of cluster "east" in a pod graph, with a pod name, and
an unknown destination of namespace "bookinfo" in an app graph. -/
theorem Id_sentinels_witness :
    Id (fun _ => true) "east" "unknown" "" "unknown" "unknown" "unknown" "v1" GraphTypePod
      "some-pod" = .ok ("east_unknown_source", NodeTypeUnknown) ∧
    Id (fun _ => false) "east" "bookinfo" "unknown" "" "unknown" "unknown" "unknown"
      GraphTypeApp "" = .ok ("svc_east_bookinfo_unknown", NodeTypeService) :=
  ⟨(Id_sentinels (fun _ => true) "east" "unknown" "" "unknown" "unknown" "unknown" "v1"
      GraphTypePod "some-pod" "unknown" (by decide)).1 rfl rfl rfl rfl,
   (Id_sentinels (fun _ => false) "east" "bookinfo" "unknown" "" "unknown" "unknown" "unknown"
      GraphTypeApp "" "bookinfo" (by decide)).2 rfl rfl rfl⟩

theorem preferredNamespace_self (ns : String) : preferredNamespace ns ns = ns := by
  unfold preferredNamespace
  split_ifs <;> rfl

theorem preferredNamespace_of_OK {serviceNamespace workloadNamespace : String}
    (h : IsOK workloadNamespace = true) :
    preferredNamespace serviceNamespace workloadNamespace = workloadNamespace := by
  simp [preferredNamespace, h]

theorem preferredNamespace_of_not_OK {serviceNamespace workloadNamespace : String}
    (h : ¬ IsOK workloadNamespace = true) :
    preferredNamespace serviceNamespace workloadNamespace = serviceNamespace := by
  simp [preferredNamespace, h]

/-- C11 (counterexample). Pod graph, no pod, service namespace "ingress-nginx", empty
workload namespace, workload "nginx": `Id` tests the workload namespace itself (empty) against
"ingress-nginx" and gives the service node "svc_east_ingress-nginx_web"; with the preferred
namespace "ingress-nginx" in both positions it gives the app node
"vapp_east_ingress-nginx_nginx". -/
theorem Id_not_through_preferred_namespace_in_pod_graph :
    Id (fun _ => true) "east" "ingress-nginx" "web" "" "nginx" "nginx" "v1" GraphTypePod "" =
      .ok ("svc_east_ingress-nginx_web", NodeTypeService) ∧
    Id (fun _ => true) "east" (preferredNamespace "ingress-nginx" "") "web"
        (preferredNamespace "ingress-nginx" "") "nginx" "nginx" "v1" GraphTypePod "" =
      .ok ("vapp_east_ingress-nginx_nginx", NodeTypeApp) ∧
    Id (fun _ => true) "east" "ingress-nginx" "web" "" "nginx" "nginx" "v1" GraphTypePod "" ≠
      Id (fun _ => true) "east" (preferredNamespace "ingress-nginx" "") "web"
        (preferredNamespace "ingress-nginx" "") "nginx" "nginx" "v1" GraphTypePod "" := by
  have h1 : Id (fun _ => true) "east" "ingress-nginx" "web" "" "nginx" "nginx" "v1"
      GraphTypePod "" = .ok ("svc_east_ingress-nginx_web", NodeTypeService) := rfl
  have h2 : Id (fun _ => true) "east" (preferredNamespace "ingress-nginx" "") "web"
      (preferredNamespace "ingress-nginx" "") "nginx" "nginx" "v1" GraphTypePod "" =
      .ok ("vapp_east_ingress-nginx_nginx", NodeTypeApp) := rfl
  refine ⟨h1, h2, ?_⟩
  rw [h1, h2]
  intro h
  simp only [Except.ok.injEq, Prod.mk.injEq] at h
  exact absurd h.1 (by decide)

/-- C11 (amended). `Id` depends on the two namespaces only through the preferred namespace,
the test of the workload namespace against "ingress-nginx" in the pod-graph block apart:
whenever the graph type is not pod, or the pod is OK, or the workload namespace is OK, or the
service namespace is not "ingress-nginx", `Id` gives the same result with the preferred
namespace in place of both namespaces. -/
theorem Id_through_preferred_namespace (IsOKVersion : String → Bool)
    (cluster serviceNamespace service workloadNamespace workload app version graphType pod : String)
    (h : graphType ≠ GraphTypePod ∨ IsOK pod = true ∨ IsOK workloadNamespace = true ∨
      serviceNamespace ≠ "ingress-nginx") :
    Id IsOKVersion cluster serviceNamespace service workloadNamespace workload app version
        graphType pod =
      Id IsOKVersion cluster (preferredNamespace serviceNamespace workloadNamespace) service
        (preferredNamespace serviceNamespace workloadNamespace) workload app version
        graphType pod := by
  unfold Id
  simp only [preferredNamespace_self]
  by_cases hg : graphType = GraphTypePod
  · by_cases hp : IsOK pod = true
    · simp only [hg, hp, if_true]
    · by_cases hw : IsOK workloadNamespace = true
      · rw [preferredNamespace_of_OK hw]
      · have hs : serviceNamespace ≠ "ingress-nginx" := by
          rcases h with h | h | h | h
          · exact absurd hg h
          · exact absurd h hp
          · exact absurd h hw
          · exact h
        have hwn : workloadNamespace ≠ "ingress-nginx" := by
          intro e
          apply hw
          rw [e]
          decide
        rw [preferredNamespace_of_not_OK hw]
        simp only [hg, hp, hs, hwn, if_true, if_false]
  · simp only [hg, if_false]

/-- C11 (witness): a workload graph, service namespace "ingress-nginx" and an empty workload
namespace. -/
theorem Id_through_preferred_namespace_witness :
    Id (fun _ => true) "east" "ingress-nginx" "web" "" "nginx" "nginx" "v1"
        GraphTypeWorkload "" =
      Id (fun _ => true) "east" (preferredNamespace "ingress-nginx" "") "web"
        (preferredNamespace "ingress-nginx" "") "nginx" "nginx" "v1" GraphTypeWorkload "" :=
  Id_through_preferred_namespace (fun _ => true) "east" "ingress-nginx" "web" "" "nginx"
    "nginx" "v1" GraphTypeWorkload "" (Or.inl (by decide))

/-! ## Properties of `NewNodeExplicit` -/

/-- C20. `NewNodeExplicit` stores the id, node type, cluster, namespace and pod as given, with
an empty edge list, for every node type. A service node has an empty App, Workload and
Version. An app node has an empty Service; its Workload and Version are empty unless the
graph type is versionedApp, and are the given ones for versionedApp. -/
theorem NewNodeExplicit_trims
    (id cluster namespace_ workload app version service nodeType graphType pod : String) :
    (NewNodeExplicit id cluster namespace_ workload app version service nodeType graphType
        pod).ID = id ∧
    (NewNodeExplicit id cluster namespace_ workload app version service nodeType graphType
        pod).NodeType = nodeType ∧
    (NewNodeExplicit id cluster namespace_ workload app version service nodeType graphType
        pod).Cluster = cluster ∧
    (NewNodeExplicit id cluster namespace_ workload app version service nodeType graphType
        pod).Namespace = namespace_ ∧
    (NewNodeExplicit id cluster namespace_ workload app version service nodeType graphType
        pod).Pod = pod ∧
    (NewNodeExplicit id cluster namespace_ workload app version service nodeType graphType
        pod).Edges = [] ∧
    (nodeType = NodeTypeService →
      (NewNodeExplicit id cluster namespace_ workload app version service nodeType graphType
          pod).App = "" ∧
      (NewNodeExplicit id cluster namespace_ workload app version service nodeType graphType
          pod).Workload = "" ∧
      (NewNodeExplicit id cluster namespace_ workload app version service nodeType graphType
          pod).Version = "") ∧
    (nodeType = NodeTypeApp →
      (NewNodeExplicit id cluster namespace_ workload app version service nodeType graphType
          pod).Service = "" ∧
      (graphType ≠ GraphTypeVersionedApp →
        (NewNodeExplicit id cluster namespace_ workload app version service nodeType graphType
            pod).Workload = "" ∧
        (NewNodeExplicit id cluster namespace_ workload app version service nodeType graphType
            pod).Version = "") ∧
      (graphType = GraphTypeVersionedApp →
        (NewNodeExplicit id cluster namespace_ workload app version service nodeType graphType
            pod).Workload = workload ∧
        (NewNodeExplicit id cluster namespace_ workload app version service nodeType graphType
            pod).Version = version)) := by
  refine ⟨?_, ?_, ?_, ?_, ?_, ?_, ?_, ?_⟩
  · unfold NewNodeExplicit; split_ifs <;> rfl
  · unfold NewNodeExplicit; split_ifs <;> rfl
  · unfold NewNodeExplicit; split_ifs <;> rfl
  · unfold NewNodeExplicit; split_ifs <;> rfl
  · unfold NewNodeExplicit; split_ifs <;> rfl
  · unfold NewNodeExplicit; split_ifs <;> rfl
  · intro h
    subst h
    have hne : NodeTypeService ≠ NodeTypeApp := by decide
    simp [NewNodeExplicit, hne]
  · intro h
    subst h
    refine ⟨by simp [NewNodeExplicit], fun hg => ?_, fun hg => ?_⟩
    · simp [NewNodeExplicit, hg]
    · simp [NewNodeExplicit, hg]

end graph

namespace istio

open graph

/-! ## Properties of the traffic-map builder -/

/-! ### Writes through node pointers -/

theorem updateNode_apply (tm : TrafficMap) (k : String) (f : Node → Node) (x : String) :
    updateNode tm k f x = if x = k then (tm x).map f else tm x := rfl

theorem updateNode_same (tm : TrafficMap) (k : String) (f : Node → Node) :
    updateNode tm k f k = (tm k).map f := by
  simp [updateNode]

theorem updateNode_other (tm : TrafficMap) (k : String) (f : Node → Node) {x : String}
    (h : x ≠ k) : updateNode tm k f x = tm x := by
  simp [updateNode, h]

theorem updateNode_eq_self (tm : TrafficMap) (k : String) (f : Node → Node)
    (h : ∀ n, tm k = some n → f n = n) : updateNode tm k f = tm := by
  funext x
  by_cases hx : x = k
  · subst hx
    rw [updateNode_same]
    cases hn : tm x with
    | none => rfl
    | some n => simp [h n hn]
  · rw [updateNode_other _ _ _ hx]

/-! ### Selection of edges -/

theorem edgeMatches_congr {d p : String} {e1 e2 : Edge} (hd : e2.Dest = e1.Dest)
    (hp : e2.Metadata.protocol = e1.Metadata.protocol) :
    edgeMatches d p e2 = edgeMatches d p e1 := by
  simp [edgeMatches, hd, hp]

theorem find_modifyFirstEdge_same (d p : String) (f : Edge → Edge)
    (hf : ∀ e, (f e).Dest = e.Dest ∧ (f e).Metadata.protocol = e.Metadata.protocol)
    (l : List Edge) :
    (modifyFirstEdge d p f l).find? (edgeMatches d p) = (l.find? (edgeMatches d p)).map f := by
  induction l with
  | nil => rfl
  | cons e rest ih =>
    by_cases hm : edgeMatches d p e = true
    · have hm2 : edgeMatches d p (f e) = true := by
        rw [edgeMatches_congr (hf e).1 (hf e).2]; exact hm
      simp [modifyFirstEdge, hm, hm2, List.find?_cons]
    · simp only [Bool.not_eq_true] at hm
      simp [modifyFirstEdge, hm, List.find?_cons, ih]

theorem modifyFirstEdge_cons_pos (d p : String) (f : Edge → Edge) (a : Edge)
    (rest : List Edge) (h : edgeMatches d p a = true) :
    modifyFirstEdge d p f (a :: rest) = f a :: rest := by
  simp [modifyFirstEdge, h]

theorem modifyFirstEdge_cons_neg (d p : String) (f : Edge → Edge) (a : Edge)
    (rest : List Edge) (h : ¬ edgeMatches d p a = true) :
    modifyFirstEdge d p f (a :: rest) = a :: modifyFirstEdge d p f rest := by
  simp [modifyFirstEdge, h]

theorem find_modifyFirstEdge (d p d2 p2 : String) (f : Edge → Edge)
    (hf : ∀ e, (f e).Dest = e.Dest ∧ (f e).Metadata.protocol = e.Metadata.protocol)
    (l : List Edge) (e : Edge) (he : l.find? (edgeMatches d2 p2) = some e) :
    (modifyFirstEdge d p f l).find? (edgeMatches d2 p2) = some e ∨
      (modifyFirstEdge d p f l).find? (edgeMatches d2 p2) = some (f e) := by
  induction l with
  | nil => simp at he
  | cons a rest ih =>
    have hfa : edgeMatches d2 p2 (f a) = edgeMatches d2 p2 a :=
      edgeMatches_congr (hf a).1 (hf a).2
    by_cases hm2 : edgeMatches d2 p2 a = true
    · rw [List.find?_cons_of_pos _ hm2] at he
      have hae : a = e := Option.some.inj he
      subst hae
      by_cases hm : edgeMatches d p a = true
      · right
        rw [modifyFirstEdge_cons_pos d p f a rest hm]
        exact List.find?_cons_of_pos _ (by rw [hfa]; exact hm2)
      · left
        rw [modifyFirstEdge_cons_neg d p f a rest hm]
        exact List.find?_cons_of_pos _ hm2
    · rw [List.find?_cons_of_neg _ hm2] at he
      by_cases hm : edgeMatches d p a = true
      · left
        rw [modifyFirstEdge_cons_pos d p f a rest hm]
        rw [List.find?_cons_of_neg _ (by rw [hfa]; exact hm2)]
        exact he
      · rw [modifyFirstEdge_cons_neg d p f a rest hm]
        rw [List.find?_cons_of_neg _ hm2]
        exact ih he

theorem EdgeGrow.grow_refl (e : Edge) : EdgeGrow e e :=
  ⟨rfl, rfl, fun hs h => ⟨hs, h, fun _ hx => hx⟩⟩

theorem EdgeGrow.grow_trans {e1 e2 e3 : Edge} (h12 : EdgeGrow e1 e2) (h23 : EdgeGrow e2 e3) :
    EdgeGrow e1 e3 := by
  refine ⟨h23.1.trans h12.1, h23.2.1.trans h12.2.1, fun hs h => ?_⟩
  obtain ⟨hs2, h2, hsub2⟩ := h12.2.2 hs h
  obtain ⟨hs3, h3, hsub3⟩ := h23.2.2 hs2 h2
  exact ⟨hs3, h3, fun x hx => hsub3 x (hsub2 x hx)⟩

theorem EdgesExt.edges_refl (l : List Edge) : EdgesExt l l :=
  fun _ _ e he => ⟨e, he, EdgeGrow.grow_refl e⟩

theorem EdgesExt.edges_trans {l1 l2 l3 : List Edge} (h12 : EdgesExt l1 l2) (h23 : EdgesExt l2 l3) :
    EdgesExt l1 l3 := by
  intro d p e he
  obtain ⟨e2, he2, g2⟩ := h12 d p e he
  obtain ⟨e3, he3, g3⟩ := h23 d p e2 he2
  exact ⟨e3, he3, g2.grow_trans g3⟩

theorem EdgesExt_append (l : List Edge) (x : Edge) : EdgesExt l (l ++ [x]) := by
  intro d p e he
  exact ⟨e, by simp [List.find?_append, he], EdgeGrow.grow_refl e⟩

theorem EdgesExt_modifyFirstEdge (d p : String) (f : Edge → Edge)
    (hf : ∀ e, EdgeGrow e (f e)) (l : List Edge) : EdgesExt l (modifyFirstEdge d p f l) := by
  intro d2 p2 e he
  rcases find_modifyFirstEdge d p d2 p2 f (fun e => ⟨(hf e).1, (hf e).2.1⟩) l e he with h | h
  · exact ⟨e, h, EdgeGrow.grow_refl e⟩
  · exact ⟨f e, h, hf e⟩

/-! ### Extension of nodes and traffic maps -/

theorem NodeExt.node_refl (n : Node) : NodeExt n n :=
  ⟨rfl, rfl, EdgesExt.edges_refl _⟩

theorem NodeExt.node_trans {n1 n2 n3 : Node} (h12 : NodeExt n1 n2) (h23 : NodeExt n2 n3) :
    NodeExt n1 n3 :=
  ⟨h23.1.trans h12.1, h23.2.1.trans h12.2.1, h12.2.2.edges_trans h23.2.2⟩

theorem Ext.ext_refl (tm : TrafficMap) : Ext tm tm :=
  fun _ n h => ⟨n, h, NodeExt.node_refl n⟩

theorem Ext.ext_trans {t1 t2 t3 : TrafficMap} (h12 : Ext t1 t2) (h23 : Ext t2 t3) : Ext t1 t3 := by
  intro k n hn
  obtain ⟨n2, hn2, e2⟩ := h12 k n hn
  obtain ⟨n3, hn3, e3⟩ := h23 k n2 hn2
  exact ⟨n3, hn3, e2.node_trans e3⟩

theorem Ext_updateNode (tm : TrafficMap) (k : String) (f : Node → Node)
    (hf : ∀ n, NodeExt n (f n)) : Ext tm (updateNode tm k f) := by
  intro x n hn
  by_cases hx : x = k
  · subst hx
    exact ⟨f n, by simp [updateNode_same, hn], hf n⟩
  · exact ⟨n, by rw [updateNode_other _ _ _ hx]; exact hn, NodeExt.node_refl n⟩

theorem Ext_insert (tm : TrafficMap) (k : String) (n : Node) (h : tm k = none) :
    Ext tm (Function.update tm k (some n)) := by
  intro x m hm
  have hx : x ≠ k := by
    intro e; subst e; rw [h] at hm; cases hm
  exact ⟨m, by rw [Function.update_noteq hx]; exact hm, NodeExt.node_refl m⟩

theorem TrafficStep.step_refl (tm : TrafficMap) : TrafficStep tm tm :=
  fun _ => ⟨fun h => h, fun n h => ⟨n, h, NodeExt.node_refl n, rfl, rfl⟩⟩

theorem TrafficStep.step_trans {t1 t2 t3 : TrafficMap} (h12 : TrafficStep t1 t2)
    (h23 : TrafficStep t2 t3) : TrafficStep t1 t3 := by
  intro k
  refine ⟨fun h => (h23 k).1 ((h12 k).1 h), fun n hn => ?_⟩
  obtain ⟨n2, hn2, e2, ts2, ds2⟩ := (h12 k).2 n hn
  obtain ⟨n3, hn3, e3, ts3, ds3⟩ := (h23 k).2 n2 hn2
  exact ⟨n3, hn3, e2.node_trans e3, ts3.trans ts2, ds3.trans ds2⟩

theorem TrafficStep_updateNode (tm : TrafficMap) (k : String) (f : Node → Node)
    (hf : KeepsNode f) : TrafficStep tm (updateNode tm k f) := by
  intro x
  by_cases hx : x = k
  · subst hx
    refine ⟨fun h => by simp [updateNode_same, h], fun n hn => ?_⟩
    exact ⟨f n, by simp [updateNode_same, hn], (hf n).1, (hf n).2.1, (hf n).2.2⟩
  · rw [updateNode_other _ _ _ hx]
    exact ⟨fun h => h, fun n hn => ⟨n, hn, NodeExt.node_refl n, rfl, rfl⟩⟩

theorem TrafficStep.ext {t1 t2 : TrafficMap} (h : TrafficStep t1 t2) : Ext t1 t2 := by
  intro k n hn
  obtain ⟨n2, hn2, e2, _, _⟩ := (h k).2 n hn
  exact ⟨n2, hn2, e2⟩

theorem TrafficStep.tsHashAt {t1 t2 : TrafficMap} (h : TrafficStep t1 t2) (k : String) :
    tsHashAt t2 k = tsHashAt t1 k := by
  unfold istio.tsHashAt
  cases hn : t1 k with
  | none => simp [(h k).1 hn]
  | some n =>
    obtain ⟨n2, hn2, _, ts2, _⟩ := (h k).2 n hn
    simp [hn2, ts2]

/-! ### The node functions of `addEdgeTraffic` -/

theorem recordOnEdge_grow (p : String) (v : Val) (c f h : String) (e : Edge) :
    EdgeGrow e (recordOnEdge p v c f h e) :=
  ⟨rfl, rfl, fun hs hh => ⟨hs, hh, fun _ hx => hx⟩⟩

theorem markEdge_grow (h : String) (e : Edge) : EdgeGrow e (markEdge h e) := by
  refine ⟨rfl, rfl, fun hs hh => ⟨hs ++ [h], ?_, fun x hx => ?_⟩⟩
  · simp [markEdge, hh]
  · simp [hx]

theorem keeps_recordOnNode (role : MetadataRole) (p : String) (v : Val) (c f h : String) :
    KeepsNode (recordOnNode role p v c f h) :=
  fun _ => ⟨⟨rfl, rfl, EdgesExt.edges_refl _⟩, rfl, rfl⟩

theorem keeps_recordOnSelectedEdge (d p : String) (v : Val) (c f h : String) :
    KeepsNode (recordOnSelectedEdge d p v c f h) :=
  fun _ => ⟨⟨rfl, rfl, EdgesExt_modifyFirstEdge d p _ (recordOnEdge_grow p v c f h) _⟩, rfl, rfl⟩

theorem keeps_markApplied (d p h : String) : KeepsNode (markApplied d p h) :=
  fun _ => ⟨⟨rfl, rfl, EdgesExt_modifyFirstEdge d p _ (markEdge_grow h) _⟩, rfl, rfl⟩

theorem keeps_ensureEdge (d p : String) : KeepsNode (ensureEdge d p) := by
  intro n
  unfold ensureEdge
  cases hfind : n.Edges.find? (edgeMatches d p) with
  | some e => exact ⟨NodeExt.node_refl n, rfl, rfl⟩
  | none => exact ⟨⟨rfl, rfl, EdgesExt_append _ _⟩, rfl, rfl⟩

theorem AddToMetadata_step (tm : TrafficMap) (p : String) (v : Val)
    (c f h s d dID : String) : TrafficStep tm (AddToMetadata tm p v c f h s d dID) := by
  unfold AddToMetadata
  exact ((TrafficStep_updateNode _ _ _ (keeps_recordOnNode _ _ _ _ _ _)).step_trans
    (TrafficStep_updateNode _ _ _ (keeps_recordOnNode _ _ _ _ _ _))).step_trans
    (TrafficStep_updateNode _ _ _ (keeps_recordOnSelectedEdge _ _ _ _ _ _))

/-! ### `addEdgeTraffic` -/

theorem addEdgeTraffic_step {o : TelemetryOptions} {tm tm2 : TrafficMap} {v : Val}
    {p c f h s d E : String} {b : Bool}
    (H : addEdgeTraffic o tm v p c f h s d E = .ok (tm2, b)) : TrafficStep tm tm2 := by
  unfold addEdgeTraffic at H
  have h1 : ∀ dID, TrafficStep tm (updateNode tm s (ensureEdge dID p)) :=
    fun dID => TrafficStep_updateNode _ _ _ (keeps_ensureEdge _ _)
  have h2 : ∀ dID, TrafficStep tm
      (updateNode (updateNode tm s (ensureEdge dID p)) s (markApplied dID p E)) :=
    fun dID => (h1 dID).step_trans (TrafficStep_updateNode _ _ _ (keeps_markApplied _ _ _))
  split at H
  · split at H
    · cases H
    · split at H
      · cases H
      · split_ifs at H <;> simp only [Except.ok.injEq, Prod.mk.injEq] at H <;>
          obtain ⟨rfl, _⟩ := H <;>
          first
          | exact h1 _
          | exact (h1 _).step_trans (AddToMetadata_step _ _ _ _ _ _ _ _ _)
          | exact (h2 _).step_trans (AddToMetadata_step _ _ _ _ _ _ _ _ _)
  · cases H

theorem edgeAt_updateNode_same (tm : TrafficMap) (s d p : String) (f : Node → Node) :
    edgeAt (updateNode tm s f) s d p =
      (tm s).bind (fun n => (f n).Edges.find? (edgeMatches d p)) := by
  unfold edgeAt
  rw [updateNode_same]
  cases tm s <;> rfl

theorem AddToMetadata_source (tm : TrafficMap) (p : String) (v : Val)
    (c f h s d dID : String) :
    ∃ g : Node → Node, (∀ n, (g n).Edges = n.Edges) ∧
      AddToMetadata tm p v c f h s d dID s =
        (tm s).map (fun n => recordOnSelectedEdge dID p v c f h (g n)) := by
  by_cases hsd : s = d
  · subst hsd
    refine ⟨fun n => recordOnNode .dest p v c f h (recordOnNode .source p v c f h n),
      fun n => rfl, ?_⟩
    simp only [AddToMetadata, updateNode_same]
    cases tm s <;> rfl
  · refine ⟨fun n => recordOnNode .source p v c f h n, fun n => rfl, ?_⟩
    simp only [AddToMetadata, updateNode_same, updateNode_other _ _ _ hsd]
    cases tm s <;> rfl

theorem AddToMetadata_edgeAt (tm : TrafficMap) (p : String) (v : Val)
    (c f h s d dID : String) :
    edgeAt (AddToMetadata tm p v c f h s d dID) s dID p =
      (edgeAt tm s dID p).map (recordOnEdge p v c f h) := by
  obtain ⟨g, hg, hs⟩ := AddToMetadata_source tm p v c f h s d dID
  unfold edgeAt
  rw [hs]
  cases tm s with
  | none => rfl
  | some n =>
    simp only [Option.map_some', recordOnSelectedEdge, hg]
    exact find_modifyFirstEdge_same dID p (recordOnEdge p v c f h) (fun e => ⟨rfl, rfl⟩)
      n.Edges

theorem find_ensureEdge (d p : String) (n : Node) :
    ∃ e, (ensureEdge d p n).Edges.find? (edgeMatches d p) = some e ∧
      (n.Edges.find? (edgeMatches d p) = some e ∨
        (n.Edges.find? (edgeMatches d p) = none ∧
          e = { Dest := d,
                Metadata := { NewMetadata with protocol := some p, tsHashMap := some [] } })) := by
  unfold ensureEdge
  cases hfind : n.Edges.find? (edgeMatches d p) with
  | some e => exact ⟨e, hfind, Or.inl rfl⟩
  | none =>
    refine ⟨_, ?_, Or.inr ⟨rfl, rfl⟩⟩
    simp [List.find?_append, hfind, edgeMatches]

theorem ensureEdge_of_found {d p : String} {n : Node} {e : Edge}
    (h : n.Edges.find? (edgeMatches d p) = some e) : ensureEdge d p n = n := by
  simp [ensureEdge, h]

theorem updateNode_updateNode_same (tm : TrafficMap) (k : String) (f g : Node → Node) :
    updateNode (updateNode tm k f) k g = updateNode tm k (fun n => g (f n)) := by
  funext x
  by_cases hx : x = k
  · subst hx
    simp only [updateNode_same]
    cases tm x <;> rfl
  · simp only [updateNode_other _ _ _ hx]

theorem edgeAt_marked (tm : TrafficMap) (s d p E : String) (sn : Node) (e : Edge)
    (hs : tm s = some sn)
    (he : (ensureEdge d p sn).Edges.find? (edgeMatches d p) = some e) :
    edgeAt (updateNode (updateNode tm s (ensureEdge d p)) s (markApplied d p E)) s d p =
      some (markEdge E e) := by
  rw [updateNode_updateNode_same, edgeAt_updateNode_same, hs]
  simp only [Option.some_bind, markApplied]
  rw [find_modifyFirstEdge_same d p (markEdge E) (fun e => ⟨rfl, rfl⟩), he]
  rfl

theorem edgeAt_ensured (tm : TrafficMap) (s d p : String) (sn : Node) (e : Edge)
    (hs : tm s = some sn)
    (he : (ensureEdge d p sn).Edges.find? (edgeMatches d p) = some e) :
    edgeAt (updateNode tm s (ensureEdge d p)) s d p = some e := by
  rw [edgeAt_updateNode_same, hs]
  exact he

/-- After a call of `addEdgeTraffic` that returns, the selected edge holds the fingerprint. -/
theorem addEdgeTraffic_holds {o : TelemetryOptions} {tm tm2 : TrafficMap} {v : Val}
    {p c f h s d E : String} {b : Bool}
    (H : addEdgeTraffic o tm v p c f h s d E = .ok (tm2, b)) :
    ∃ sn dn, tm s = some sn ∧ tm d = some dn ∧ edgeHolds tm2 s dn.ID p E := by
  unfold addEdgeTraffic at H
  split at H
  · rename_i sn dn hs hd
    refine ⟨sn, dn, hs, hd, ?_⟩
    split at H
    · cases H
    · rename_i e he
      split at H
      · cases H
      · rename_i hashes hh
        have hA : ∀ t, edgeAt t s dn.ID p = some e → E ∈ hashes →
            edgeHolds (AddToMetadata t p v c f h s d dn.ID) s dn.ID p E := by
          intro t ht hE
          refine ⟨recordOnEdge p v c f h e, hashes, ?_, hh, hE⟩
          rw [AddToMetadata_edgeAt, ht]; rfl
        have hB : edgeHolds (AddToMetadata
            (updateNode (updateNode tm s (ensureEdge dn.ID p)) s (markApplied dn.ID p E))
            p v c f h s d dn.ID) s dn.ID p E := by
          refine ⟨recordOnEdge p v c f h (markEdge E e), hashes ++ [E], ?_, ?_, by simp⟩
          · rw [AddToMetadata_edgeAt, edgeAt_marked tm s dn.ID p E sn e hs he]; rfl
          · simp [recordOnEdge, recordApplied, markEdge, hh]
        have hC : E ∈ hashes → edgeHolds (updateNode tm s (ensureEdge dn.ID p)) s dn.ID p E :=
          fun hE => ⟨e, hashes, edgeAt_ensured tm s dn.ID p sn e hs he, hh, hE⟩
        split_ifs at H <;>
          simp only [Except.ok.injEq, Prod.mk.injEq] at H <;>
          obtain ⟨rfl, _⟩ := H <;>
          first
          | exact hB
          | exact hA _ (edgeAt_ensured tm s dn.ID p sn e hs he) ‹E ∈ hashes›
          | exact hC ‹E ∈ hashes›
  · cases H

/-- A row whose fingerprint the selected edge already holds is a duplicate: nothing is
written and the call returns false, except for an "ingress-nginx" source in a pod graph. -/
theorem addEdgeTraffic_dup {o : TelemetryOptions} {tm : TrafficMap} {v : Val}
    {p c f h s d E : String} {sn dn : Node}
    (hs : tm s = some sn) (hd : tm d = some dn) (hh : edgeHolds tm s dn.ID p E)
    (hi : ¬ (o.GraphType = GraphTypePod ∧ sn.App = "ingress-nginx")) :
    addEdgeTraffic o tm v p c f h s d E = .ok (tm, false) := by
  obtain ⟨e, hashes, he, hhm, hE⟩ := hh
  unfold edgeAt at he
  rw [hs] at he
  simp only at he
  have hens : ensureEdge dn.ID p sn = sn := ensureEdge_of_found he
  have htm : updateNode tm s (ensureEdge dn.ID p) = tm :=
    updateNode_eq_self _ _ _ (fun n hn => by
      rw [hs] at hn; cases hn; exact hens)
  unfold addEdgeTraffic
  simp only [hs, hd, hens, he, hhm, htm, hE, not_true_eq_false, if_false]
  by_cases hp : o.GraphType = GraphTypePod
  · have hna : ¬ sn.App = "ingress-nginx" := fun ha => hi ⟨hp, ha⟩
    simp [hp, hna]
  · simp [hp]

theorem edgeValues_recordOnEdge (p : String) (v : Val) (c f h : String) (e : Edge) :
    edgeValues (recordOnEdge p v c f h e) = edgeValues e ++ [v] := by
  simp [edgeValues, recordOnEdge, recordApplied]

/-- C3 (counterexample). In a workload graph, a row from the ingress node (App
"ingress-nginx") whose fingerprint "fp" the selected edge already holds is dropped:
`addEdgeTraffic` returns false and the values applied to the edge stay `[3]`; the value 4 is
not accumulated. -/
theorem addEdgeTraffic_ingress_dropped_in_workload_graph :
    (match addEdgeTraffic (exampleOptions GraphTypeWorkload) heldExampleMap 4 "http" "200" "-"
        "productpage" "ingress" "svc_east_bookinfo_productpage" "fp" with
      | .ok (tm, applied) =>
        some (applied,
          (edgeAt tm "ingress" "svc_east_bookinfo_productpage" "http").map edgeValues)
      | .error _ => none) = some (false, some [3]) := by
  decide

/-- C3 (amended). When the edge selected for (source, destination, protocol) already holds
the row's fingerprint: in a pod graph an "ingress-nginx" source has the value applied again
(the values applied to the edge gain `v`, the fingerprints stay) and the call returns true;
in every other case, which includes every source of every other graph type, nothing is
written and the call returns false. -/
theorem addEdgeTraffic_fingerprint_held (o : TelemetryOptions) (tm : TrafficMap) (v : Val)
    (p c f h s d E : String) (sn dn : Node)
    (hs : tm s = some sn) (hd : tm d = some dn) (hh : edgeHolds tm s dn.ID p E) :
    (¬ (o.GraphType = GraphTypePod ∧ sn.App = "ingress-nginx") →
      addEdgeTraffic o tm v p c f h s d E = .ok (tm, false)) ∧
    (o.GraphType = GraphTypePod → sn.App = "ingress-nginx" →
      ∃ tm2 e e2, addEdgeTraffic o tm v p c f h s d E = .ok (tm2, true) ∧
        edgeAt tm s dn.ID p = some e ∧ edgeAt tm2 s dn.ID p = some e2 ∧
        edgeValues e2 = edgeValues e ++ [v] ∧
        e2.Metadata.tsHashMap = e.Metadata.tsHashMap) := by
  refine ⟨fun hi => addEdgeTraffic_dup hs hd hh hi, fun hp ha => ?_⟩
  obtain ⟨e, hashes, he, hhm, hE⟩ := hh
  have he0 := he
  unfold edgeAt at he
  rw [hs] at he
  simp only at he
  have hens : ensureEdge dn.ID p sn = sn := ensureEdge_of_found he
  have htm : updateNode tm s (ensureEdge dn.ID p) = tm :=
    updateNode_eq_self _ _ _ (fun n hn => by
      rw [hs] at hn; cases hn; exact hens)
  refine ⟨AddToMetadata tm p v c f h s d dn.ID, e, recordOnEdge p v c f h e, ?_, he0, ?_,
    edgeValues_recordOnEdge p v c f h e, rfl⟩
  · unfold addEdgeTraffic
    simp only [hs, hd, hens, he, hhm, htm, hE, not_true_eq_false, if_false]
    simp [hp, ha]
  · rw [AddToMetadata_edgeAt, he0]; rfl

/-- C3 (witness of the amended statement): in a pod graph the ingress row of the
counterexample is applied again: the call returns true and the edge has the values 3 and 4. -/
theorem addEdgeTraffic_fingerprint_held_witness :
    ∃ tm2 e e2, addEdgeTraffic (exampleOptions GraphTypePod) heldExampleMap 4 "http" "200" "-"
        "productpage" "ingress" "svc_east_bookinfo_productpage" "fp" = .ok (tm2, true) ∧
      edgeAt heldExampleMap "ingress" "svc_east_bookinfo_productpage" "http" = some e ∧
      edgeAt tm2 "ingress" "svc_east_bookinfo_productpage" "http" = some e2 ∧
      edgeValues e2 = edgeValues e ++ [4] ∧
      e2.Metadata.tsHashMap = e.Metadata.tsHashMap :=
  (addEdgeTraffic_fingerprint_held (exampleOptions GraphTypePod) heldExampleMap 4 "http" "200"
    "-" "productpage" "ingress" "svc_east_bookinfo_productpage" "fp" _ _ rfl rfl
    ⟨_, ["fp"], rfl, rfl, by simp⟩).2 rfl rfl

/-! ### Facts that later writes keep -/

theorem Ext.ext_isSome {t1 t2 : TrafficMap} (h : Ext t1 t2) {k : String}
    (hk : (t1 k).isSome) : (t2 k).isSome := by
  cases hn : t1 k with
  | none => simp [hn] at hk
  | some n =>
    obtain ⟨n2, hn2, _⟩ := h k n hn
    simp [hn2]

theorem Ext.ext_hasID {t1 t2 : TrafficMap} (h : Ext t1 t2) {k id : String}
    (hk : hasID t1 k id) : hasID t2 k id := by
  obtain ⟨n, hn, hid⟩ := hk
  obtain ⟨n2, hn2, e⟩ := h k n hn
  exact ⟨n2, hn2, e.1.trans hid⟩

theorem Ext.edgeHolds {t1 t2 : TrafficMap} (h : Ext t1 t2) {s d p E : String}
    (hh : edgeHolds t1 s d p E) : edgeHolds t2 s d p E := by
  obtain ⟨e, hs, he, hhm, hE⟩ := hh
  unfold edgeAt at he
  cases hn : t1 s with
  | none => simp [hn] at he
  | some n =>
    rw [hn] at he
    simp only at he
    obtain ⟨n2, hn2, ext⟩ := h s n hn
    obtain ⟨e2, he2, g⟩ := ext.2.2 d p e he
    obtain ⟨hs2, hhm2, hsub⟩ := g.2.2 hs hhm
    refine ⟨e2, hs2, ?_, hhm2, hsub E hE⟩
    unfold edgeAt
    rw [hn2]
    exact he2

theorem Ext.app {t1 t2 : TrafficMap} (h : Ext t1 t2) {k : String} {n n2 : Node}
    (hn : t1 k = some n) (hn2 : t2 k = some n2) : n2.App = n.App := by
  obtain ⟨m, hm, e⟩ := h k n hn
  rw [hn2] at hm
  cases hm
  exact e.2.1

/-! ### Destination services -/

theorem mapSet_mapSet {β : Type} (m : List (String × β)) (k : String) (v : β) :
    mapSet (mapSet m k v) k v = mapSet m k v := by
  induction m with
  | nil => simp [mapSet]
  | cons a rest ih =>
    obtain ⟨k0, v0⟩ := a
    by_cases hk : k0 = k
    · simp [mapSet, hk]
    · simp [mapSet, hk, ih]

theorem addToDestServices_idem (md : Metadata) (c ns sv : String) :
    addToDestServices (addToDestServices md c ns sv) c ns sv = addToDestServices md c ns sv := by
  unfold addToDestServices
  cases IsOK sv
  · simp
  · simp [mapSet_mapSet]

theorem addToDestServices_congr {md1 md2 : Metadata} (c ns sv : String)
    (h : md1.destServices = md2.destServices) :
    (addToDestServices md1 c ns sv).destServices =
      (addToDestServices md2 c ns sv).destServices := by
  unfold addToDestServices
  cases IsOK sv
  · simpa using h
  · simp [h]

theorem addToDestServices_eq_self {md : Metadata} {c ns sv : String}
    (h : (addToDestServices md c ns sv).destServices = md.destServices) :
    addToDestServices md c ns sv = md := by
  unfold addToDestServices at h ⊢
  cases hok : IsOK sv
  · simp
  · simp only [hok, Bool.not_true, Bool.false_eq_true, if_false] at h ⊢
    cases md
    simp_all

theorem addToDestServicesAt_eq_self {tm : TrafficMap} {k c ns sv : String}
    (h : dsDoneAt tm k c ns sv) : addToDestServicesAt tm k c ns sv = tm := by
  unfold addToDestServicesAt
  apply updateNode_eq_self
  intro n hn
  unfold addToDestServicesNode
  rw [addToDestServices_eq_self (h n hn)]

theorem dsDoneAt_of_destServices_eq {t1 t2 : TrafficMap} {k c ns sv : String}
    (h : ∀ n2, t2 k = some n2 → ∃ n, t1 k = some n ∧
      n2.Metadata.destServices = n.Metadata.destServices)
    (hd : dsDoneAt t1 k c ns sv) : dsDoneAt t2 k c ns sv := by
  intro n2 hn2
  obtain ⟨n, hn, hds⟩ := h n2 hn2
  rw [addToDestServices_congr c ns sv hds, hd n hn, hds]

theorem dsDoneAt_addToDestServicesAt (tm : TrafficMap) (k c ns sv : String) :
    dsDoneAt (addToDestServicesAt tm k c ns sv) k c ns sv := by
  intro n hn
  unfold addToDestServicesAt at hn
  rw [updateNode_same] at hn
  cases hm : tm k with
  | none => simp [hm] at hn
  | some m =>
    simp only [hm, Option.map_some', Option.some.injEq] at hn
    subst hn
    simp only [addToDestServicesNode]
    rw [addToDestServices_idem]

/-! ### Steps of one row -/

theorem RowStep.row_refl (c ns sv : String) (tm : TrafficMap) : RowStep c ns sv tm tm :=
  ⟨Ext.ext_refl tm, fun _ _ h => h⟩

theorem RowStep.row_trans {c ns sv : String} {t1 t2 t3 : TrafficMap}
    (h12 : RowStep c ns sv t1 t2) (h23 : RowStep c ns sv t2 t3) : RowStep c ns sv t1 t3 :=
  ⟨h12.1.ext_trans h23.1, fun k hk hd => h23.2 k (h12.1.ext_isSome hk) (h12.2 k hk hd)⟩

theorem TrafficStep.rowStep {t1 t2 : TrafficMap} (h : TrafficStep t1 t2) (c ns sv : String) :
    RowStep c ns sv t1 t2 := by
  refine ⟨h.ext, fun k hk hd => ?_⟩
  apply dsDoneAt_of_destServices_eq _ hd
  intro n2 hn2
  cases hn : t1 k with
  | none => simp [hn] at hk
  | some n =>
    obtain ⟨m, hm, _, _, hds⟩ := (h k).2 n hn
    rw [hn2] at hm
    cases hm
    exact ⟨n, rfl, hds⟩

theorem addToDestServicesAt_ext (tm : TrafficMap) (k c ns sv : String) :
    Ext tm (addToDestServicesAt tm k c ns sv) :=
  Ext_updateNode _ _ _ (fun _ => ⟨rfl, rfl, EdgesExt.edges_refl _⟩)

theorem addToDestServicesAt_rowStep (tm : TrafficMap) (k c ns sv : String) :
    RowStep c ns sv tm (addToDestServicesAt tm k c ns sv) := by
  refine ⟨addToDestServicesAt_ext tm k c ns sv, fun x _ hd => ?_⟩
  by_cases hx : x = k
  · subst hx
    exact dsDoneAt_addToDestServicesAt tm x c ns sv
  · intro n hn
    unfold addToDestServicesAt at hn
    rw [updateNode_other _ _ _ hx] at hn
    exact hd n hn

theorem tsHashAt_addToDestServicesAt (tm : TrafficMap) (k c ns sv x : String) :
    tsHashAt (addToDestServicesAt tm k c ns sv) x = tsHashAt tm x := by
  unfold tsHashAt addToDestServicesAt
  by_cases hx : x = k
  · subst hx
    rw [updateNode_same]
    cases hn : tm x with
    | none => rfl
    | some n =>
      simp only [Option.map_some', addToDestServicesNode, addToDestServices]
      cases IsOK sv <;> rfl
  · rw [updateNode_other _ _ _ hx]

theorem setTsHash_ext (h : String) (n : Node) : NodeExt n (setTsHash h n) :=
  ⟨rfl, rfl, EdgesExt.edges_refl _⟩

theorem setTs_rowStep (tm : TrafficMap) (k h c ns sv : String) :
    RowStep c ns sv tm (updateNode tm k (setTsHash h)) := by
  refine ⟨Ext_updateNode _ _ _ (setTsHash_ext h), fun x _ hd => ?_⟩
  apply dsDoneAt_of_destServices_eq _ hd
  intro n2 hn2
  by_cases hx : x = k
  · subst hx
    rw [updateNode_same] at hn2
    cases hn : tm x with
    | none => simp [hn] at hn2
    | some n =>
      simp only [hn, Option.map_some', Option.some.injEq] at hn2
      subst hn2
      exact ⟨n, rfl, rfl⟩
  · rw [updateNode_other _ _ _ hx] at hn2
    exact ⟨n2, hn2, rfl⟩

theorem tsHashAt_setTs (tm : TrafficMap) (k h x : String) :
    tsHashAt (updateNode tm k (setTsHash h)) x =
      if x = k then (tm k).map (fun _ => h) else tsHashAt tm x := by
  unfold tsHashAt
  by_cases hx : x = k
  · subst hx
    rw [updateNode_same]
    cases tm x <;> simp [setTsHash]
  · rw [updateNode_other _ _ _ hx]
    simp [hx]

/-! ### `addNode` -/

theorem insert_rowStep (tm : TrafficMap) (k : String) (n : Node) (c ns sv : String)
    (h : tm k = none) : RowStep c ns sv tm (Function.update tm k (some n)) := by
  refine ⟨Ext_insert tm k n h, fun x hx hd => ?_⟩
  have hxk : x ≠ k := by
    intro e; subst e; simp [h] at hx
  intro m hm
  rw [Function.update_noteq hxk] at hm
  exact hd m hm

/-- What a call of `addNode` that returns has done: either it returned the nil node and
wrote nothing, or `Id` gave the id under which the node now is, with its "tsHash" set. -/
theorem addNode_inv {env : Env} {o : TelemetryOptions} {tm tm2 : TrafficMap}
    {c sns sv wns w a ver pod : String} {r : Option String} {fd : Bool}
    (H : addNode env o tm c sns sv wns w a ver pod = .ok (tm2, r, fd)) :
    (nilNode sns sv wns ∧ r = none ∧ tm2 = tm) ∨
    (¬ nilNode sns sv wns ∧ ∃ id nt, r = some id ∧
      Id env.IsOKVersion c sns sv wns w a ver o.GraphType pod = .ok (id, nt) ∧
      (tm2 id).isSome ∧ (∀ C NS SV, RowStep C NS SV tm tm2) ∧
      (∀ x, tsHashAt tm2 x =
        if x = id then some (timeSeriesHash env c sns sv wns w a ver pod)
        else tsHashAt tm x)) := by
  unfold addNode at H
  by_cases hnil : sns = "unknown" ∧ wns = "unknown" ∧ sv ≠ ""
  · left
    simp only [hnil, ne_eq, not_false_eq_true, and_self, if_true] at H
    simp only [Except.ok.injEq, Prod.mk.injEq] at H
    exact ⟨hnil, H.2.1.symm, H.1.symm⟩
  · right
    refine ⟨hnil, ?_⟩
    rw [if_neg hnil] at H
    cases hid : Id env.IsOKVersion c sns sv wns w a ver o.GraphType pod with
    | error e => simp [hid] at H
    | ok res =>
      obtain ⟨id, nt⟩ := res
      simp only [hid, Except.ok.injEq, Prod.mk.injEq] at H
      obtain ⟨rfl, rfl, rfl⟩ := H
      refine ⟨id, nt, rfl, rfl, ?_, ?_, ?_⟩
      · rw [updateNode_same]
        cases hn : tm id <;> simp [hn]
      · intro C NS SV
        cases hn : tm id with
        | none =>
          simp only [hn, Option.isSome_none, Bool.false_eq_true, if_false]
          exact (insert_rowStep tm id _ C NS SV hn).row_trans (setTs_rowStep _ _ _ _ _ _)
        | some n =>
          simp only [hn, Option.isSome_some, if_true]
          exact setTs_rowStep _ _ _ _ _ _
      · intro x
        rw [tsHashAt_setTs]
        by_cases hx : x = id
        · subst hx
          cases hn : tm x <;> simp [hn]
        · simp only [hx, if_false]
          cases hn : tm id with
          | none =>
            simp only [hn, Option.isSome_none, Bool.false_eq_true, if_false]
            unfold tsHashAt
            rw [Function.update_noteq hx]
          | some n => simp [hn]

/-- `addNode` for labels whose node is already in the map: only the "tsHash" is written. -/
theorem addNode_present {env : Env} {o : TelemetryOptions} {tm : TrafficMap}
    {c sns sv wns w a ver pod id nt : String}
    (hnil : ¬ nilNode sns sv wns)
    (hid : Id env.IsOKVersion c sns sv wns w a ver o.GraphType pod = .ok (id, nt))
    (hp : (tm id).isSome) :
    addNode env o tm c sns sv wns w a ver pod =
      .ok (updateNode tm id (setTsHash (timeSeriesHash env c sns sv wns w a ver pod)),
        some id, true) := by
  unfold addNode
  unfold nilNode at hnil
  rw [if_neg hnil]
  simp only [hid, hp, if_true]

theorem addNode_nil {env : Env} {o : TelemetryOptions} {tm : TrafficMap}
    {c sns sv wns w a ver pod : String} (hnil : nilNode sns sv wns) :
    addNode env o tm c sns sv wns w a ver pod = .ok (tm, none, false) := by
  unfold addNode
  unfold nilNode at hnil
  rw [if_pos hnil]

/-! ### The branches of `addTraffic` -/

theorem addEdgeTraffic_post {o : TelemetryOptions} {tm tm2 : TrafficMap} {v : Val}
    {p c f h s d E : String} {b : Bool}
    (H : addEdgeTraffic o tm v p c f h s d E = .ok (tm2, b)) :
    TrafficStep tm tm2 ∧ (tm s).isSome ∧ ∃ did, hasID tm d did ∧ edgeHolds tm2 s did p E := by
  obtain ⟨sn, dn, hs, hd, hh⟩ := addEdgeTraffic_holds H
  exact ⟨addEdgeTraffic_step H, by simp [hs], dn.ID, ⟨dn, hd, rfl⟩, hh⟩

theorem addEdgeTraffic_absorbed {o : TelemetryOptions} {tm : TrafficMap} {v : Val}
    {p c f h s d E did : String}
    (hs : (tm s).isSome) (hd : hasID tm d did) (hh : edgeHolds tm s did p E)
    (hi : o.GraphType = GraphTypePod → ∀ sn, tm s = some sn → sn.App ≠ "ingress-nginx") :
    addEdgeTraffic o tm v p c f h s d E = .ok (tm, false) := by
  obtain ⟨dn, hdn, rfl⟩ := hd
  cases hsn : tm s with
  | none => simp [hsn] at hs
  | some sn =>
    exact addEdgeTraffic_dup hsn hdn hh (fun hpa => hi hpa.1 sn hsn hpa.2)

theorem addInjectedService_inv {env : Env} {o : TelemetryOptions} {tm tm2 : TrafficMap}
    {dc dns dsn i : String}
    (H : addInjectedService env o tm dc dns dsn = .ok (tm2, i)) :
    ∃ nt, Id env.IsOKVersion dc dns dsn "" "" "" "" o.GraphType "" = .ok (i, nt) ∧
      (tm2 i).isSome ∧ (∀ C NS SV, RowStep C NS SV tm tm2) ∧
      (∀ x, tsHashAt tm2 x =
        if x = i then some (timeSeriesHash env dc dns dsn "" "" "" "" "")
        else tsHashAt tm x) := by
  unfold addInjectedService at H
  cases hn : addNode env o tm dc dns dsn "" "" "" "" "" with
  | error e => simp [hn] at H
  | ok res =>
    obtain ⟨t, r, fd⟩ := res
    rcases addNode_inv hn with ⟨_, rfl, _⟩ | ⟨_, id, nt, rfl, hid, hp, hrow, hts⟩
    · simp [hn] at H
    · simp only [hn, Except.ok.injEq, Prod.mk.injEq] at H
      obtain ⟨rfl, rfl⟩ := H
      exact ⟨nt, hid, hp, hrow, hts⟩

theorem addInjectedService_present {env : Env} {o : TelemetryOptions} {tm : TrafficMap}
    {dc dns dsn i nt : String}
    (hid : Id env.IsOKVersion dc dns dsn "" "" "" "" o.GraphType "" = .ok (i, nt))
    (hp : (tm i).isSome) :
    addInjectedService env o tm dc dns dsn =
      .ok (updateNode tm i (setTsHash (timeSeriesHash env dc dns dsn "" "" "" "" "")), i) := by
  unfold addInjectedService
  rw [addNode_present (by simp [nilNode]) hid hp]

theorem addTrafficDirect_post {o : TelemetryOptions} {tm tm2 : TrafficMap} {v : Val}
    {p c f h dc dns dsn s d E : String}
    (H : addTrafficDirect o tm v p c f h dc dns dsn s d E = .ok tm2) :
    RowStep dc dns dsn tm tm2 ∧ (∀ x, tsHashAt tm2 x = tsHashAt tm x) ∧ (tm s).isSome ∧
      ∃ did, hasID tm d did ∧ edgeHolds tm2 s did p E := by
  unfold addTrafficDirect at H
  cases ha : addEdgeTraffic o tm v p c f h s d E with
  | error e => simp [ha] at H
  | ok res =>
    obtain ⟨t, b⟩ := res
    obtain ⟨hstep, hs, did, hd, hh⟩ := addEdgeTraffic_post ha
    cases b
    · simp only [ha, Except.ok.injEq] at H
      subst H
      exact ⟨hstep.rowStep _ _ _, hstep.tsHashAt, hs, did, hd, hh⟩
    · simp only [ha, Except.ok.injEq] at H
      subst H
      refine ⟨(hstep.rowStep _ _ _).row_trans (addToDestServicesAt_rowStep _ _ _ _ _), ?_, hs,
        did, hd, (addToDestServicesAt_ext _ _ _ _ _).edgeHolds hh⟩
      intro x
      rw [tsHashAt_addToDestServicesAt, hstep.tsHashAt]

theorem addTrafficDirect_absorbed {o : TelemetryOptions} {tm : TrafficMap} {v : Val}
    {p c f h dc dns dsn s d E did : String}
    (hg : o.GraphType ≠ GraphTypePod)
    (hs : (tm s).isSome) (hd : hasID tm d did) (hh : edgeHolds tm s did p E) :
    addTrafficDirect o tm v p c f h dc dns dsn s d E = .ok tm := by
  unfold addTrafficDirect
  rw [addEdgeTraffic_absorbed hs hd hh (fun hp => absurd hp hg)]

theorem Ext.app_ne {t1 t2 : TrafficMap} (h : Ext t1 t2) {k x : String}
    (hk : (t1 k).isSome) (ha : ∀ n, t1 k = some n → n.App ≠ x) :
    ∀ n2, t2 k = some n2 → n2.App ≠ x := by
  intro n2 hn2
  cases hn : t1 k with
  | none => simp [hn] at hk
  | some n =>
    rw [h.app hn hn2]
    exact ha n hn

theorem setTs_ext (tm : TrafficMap) (k h : String) : Ext tm (updateNode tm k (setTsHash h)) :=
  Ext_updateNode _ _ _ (setTsHash_ext h)

theorem addTrafficInjected_post {env : Env} {o : TelemetryOptions} {tm tm2 : TrafficMap}
    {v : Val} {p c f h dc dns dsn s d E : String}
    (H : addTrafficInjected env o tm v p c f h dc dns dsn s d E = .ok tm2) :
    ∃ i nt, Id env.IsOKVersion dc dns dsn "" "" "" "" o.GraphType "" = .ok (i, nt) ∧
      RowStep dc dns dsn tm tm2 ∧
      (∀ x, tsHashAt tm2 x =
        if x = i then some (timeSeriesHash env dc dns dsn "" "" "" "" "")
        else tsHashAt tm x) ∧
      ∃ iid, hasID tm2 i iid ∧ edgeHolds tm2 s iid p E := by
  unfold addTrafficInjected at H
  cases hinj : addInjectedService env o tm dc dns dsn with
  | error e => simp [hinj] at H
  | ok res =>
    obtain ⟨t1, i⟩ := res
    obtain ⟨nt, hid, _, hrow, hts⟩ := addInjectedService_inv hinj
    refine ⟨i, nt, hid, ?_⟩
    simp only [hinj] at H
    cases ha : addEdgeTraffic o t1 v p c f h s i E with
    | error e => simp [ha] at H
    | ok res =>
      obtain ⟨t2, b⟩ := res
      obtain ⟨hstep, _, iid, hiid, hh⟩ := addEdgeTraffic_post ha
      cases b
      · simp only [ha, Except.ok.injEq] at H
        subst H
        refine ⟨(hrow _ _ _).row_trans (hstep.rowStep _ _ _), ?_, iid, hstep.ext.ext_hasID hiid, hh⟩
        intro x
        rw [hstep.tsHashAt, hts]
      · simp only [ha] at H
        cases ha2 : addEdgeTraffic o (addToDestServicesAt t2 i dc dns dsn) v p c f h i d E with
        | error e => simp [ha2] at H
        | ok res =>
          obtain ⟨t4, b2⟩ := res
          simp only [ha2, Except.ok.injEq] at H
          subst H
          have hstep2 := addEdgeTraffic_step ha2
          have hext : Ext t2 (addToDestServicesAt t4 d dc dns dsn) :=
            ((addToDestServicesAt_ext _ _ _ _ _).ext_trans hstep2.ext).ext_trans
              (addToDestServicesAt_ext _ _ _ _ _)
          refine ⟨?_, ?_, iid, hext.ext_hasID (hstep.ext.ext_hasID hiid), hext.edgeHolds hh⟩
          · exact ((((hrow _ _ _).row_trans (hstep.rowStep _ _ _)).row_trans
              (addToDestServicesAt_rowStep _ _ _ _ _)).row_trans (hstep2.rowStep _ _ _)).row_trans
              (addToDestServicesAt_rowStep _ _ _ _ _)
          · intro x
            rw [tsHashAt_addToDestServicesAt, hstep2.tsHashAt, tsHashAt_addToDestServicesAt,
              hstep.tsHashAt, hts]

theorem addTrafficInjected_absorbed {env : Env} {o : TelemetryOptions} {tm : TrafficMap}
    {v : Val} {p c f h dc dns dsn s d E i nt iid : String}
    (hg : o.GraphType ≠ GraphTypePod)
    (hid : Id env.IsOKVersion dc dns dsn "" "" "" "" o.GraphType "" = .ok (i, nt))
    (hs : (tm s).isSome) (hi : hasID tm i iid) (hh : edgeHolds tm s iid p E) :
    addTrafficInjected env o tm v p c f h dc dns dsn s d E =
      .ok (updateNode tm i (setTsHash (timeSeriesHash env dc dns dsn "" "" "" "" ""))) := by
  have hp : (tm i).isSome := by
    obtain ⟨n, hn, _⟩ := hi
    simp [hn]
  have hext := setTs_ext tm i (timeSeriesHash env dc dns dsn "" "" "" "" "")
  unfold addTrafficInjected
  rw [addInjectedService_present hid hp]
  simp only
  rw [addEdgeTraffic_absorbed (hext.ext_isSome hs) (hext.ext_hasID hi) (hext.edgeHolds hh)
    (fun hpod => absurd hpod hg)]

theorem tsHashAt_setTs_present (tm : TrafficMap) (k h x : String) (hk : (tm k).isSome) :
    tsHashAt (updateNode tm k (setTsHash h)) x = if x = k then some h else tsHashAt tm x := by
  rw [tsHashAt_setTs]
  cases hn : tm k with
  | none => simp [hn] at hk
  | some n => simp

theorem hasID.id_isSome {tm : TrafficMap} {k id : String} (h : hasID tm k id) :
    (tm k).isSome := by
  obtain ⟨n, hn, _⟩ := h
  simp [hn]

theorem addTrafficPodDest_post {env : Env} {o : TelemetryOptions} {tm tm2 : TrafficMap}
    {metric : String} {v : Val} {p c f h dc dns dsn d : String}
    (H : addTrafficPodDest env o tm metric v p c f h dc dns dsn d = .ok tm2) :
    ∃ i nt, Id env.IsOKVersion dc dns dsn "" "" "" "" o.GraphType "" = .ok (i, nt) ∧
      RowStep dc dns dsn tm tm2 ∧
      (∀ x, tsHashAt tm2 x =
        if x = i then some (timeSeriesHash env dc dns dsn "" "" "" "" "")
        else tsHashAt tm x) ∧
      (tm2 i).isSome ∧ dsDoneAt tm2 d dc dns dsn ∧
      ∃ did, hasID tm2 d did ∧
        edgeHolds tm2 i did p
          (edgeTSHashOf env metric (some (timeSeriesHash env dc dns dsn "" "" "" "" ""))
            (if d = i then some (timeSeriesHash env dc dns dsn "" "" "" "" "")
              else tsHashAt tm d) c f h) := by
  unfold addTrafficPodDest at H
  cases hinj : addInjectedService env o tm dc dns dsn with
  | error e => simp [hinj] at H
  | ok res =>
    obtain ⟨t1, i⟩ := res
    obtain ⟨nt, hid, _, hrow, hts⟩ := addInjectedService_inv hinj
    refine ⟨i, nt, hid, ?_⟩
    simp only [hinj] at H
    have hE : tsHashAt t1 i = some (timeSeriesHash env dc dns dsn "" "" "" "" "") := by
      rw [hts]; simp
    rw [hE, hts d] at H
    cases ha : addEdgeTraffic o t1 v p c f h i d
        (edgeTSHashOf env metric (some (timeSeriesHash env dc dns dsn "" "" "" "" ""))
          (if d = i then some (timeSeriesHash env dc dns dsn "" "" "" "" "")
            else tsHashAt tm d) c f h) with
    | error e => simp [ha] at H
    | ok res =>
      obtain ⟨t2, b⟩ := res
      obtain ⟨hstep, hi, did, hdid, hh⟩ := addEdgeTraffic_post ha
      simp only [ha, Except.ok.injEq] at H
      subst H
      have hext := addToDestServicesAt_ext t2 d dc dns dsn
      refine ⟨((hrow _ _ _).row_trans (hstep.rowStep _ _ _)).row_trans
          (addToDestServicesAt_rowStep _ _ _ _ _), ?_, hext.ext_isSome (hstep.ext.ext_isSome hi),
        dsDoneAt_addToDestServicesAt _ _ _ _ _, did,
        hext.ext_hasID (hstep.ext.ext_hasID hdid), hext.edgeHolds hh⟩
      intro x
      rw [tsHashAt_addToDestServicesAt, hstep.tsHashAt, hts]

theorem addTrafficPodDest_absorbed {env : Env} {o : TelemetryOptions} {tm : TrafficMap}
    {metric : String} {v : Val} {p c f h dc dns dsn d i nt did : String}
    (_hg : o.GraphType = GraphTypePod)
    (hid : Id env.IsOKVersion dc dns dsn "" "" "" "" o.GraphType "" = .ok (i, nt))
    (hp : (tm i).isSome) (hApp : ∀ n, tm i = some n → n.App ≠ "ingress-nginx")
    (hd : hasID tm d did)
    (hh : edgeHolds tm i did p
      (edgeTSHashOf env metric (some (timeSeriesHash env dc dns dsn "" "" "" "" ""))
        (if d = i then some (timeSeriesHash env dc dns dsn "" "" "" "" "")
          else tsHashAt tm d) c f h))
    (hds : dsDoneAt tm d dc dns dsn) :
    addTrafficPodDest env o tm metric v p c f h dc dns dsn d =
      .ok (updateNode tm i (setTsHash (timeSeriesHash env dc dns dsn "" "" "" "" ""))) := by
  have hext := setTs_ext tm i (timeSeriesHash env dc dns dsn "" "" "" "" "")
  have hrow := setTs_rowStep tm i (timeSeriesHash env dc dns dsn "" "" "" "" "") dc dns dsn
  unfold addTrafficPodDest
  rw [addInjectedService_present hid hp]
  simp only
  rw [tsHashAt_setTs_present _ _ _ _ hp, tsHashAt_setTs_present _ _ _ _ hp]
  simp only [if_true]
  rw [addEdgeTraffic_absorbed (hext.ext_isSome hp) (hext.ext_hasID hd) (hext.edgeHolds hh)
    (fun _ => hext.app_ne hp hApp)]
  simp only
  rw [addToDestServicesAt_eq_self (hrow.2 d hd.id_isSome hds)]

theorem addTrafficPodSource_post {env : Env} {o : TelemetryOptions} {tm tm2 : TrafficMap}
    {metric : String} {v : Val} {p c f h dc dns dsn s : String}
    (H : addTrafficPodSource env o tm metric v p c f h dc dns dsn s = .ok tm2) :
    ∃ i nt, Id env.IsOKVersion dc dns dsn "" "" "" "" o.GraphType "" = .ok (i, nt) ∧
      RowStep dc dns dsn tm tm2 ∧
      (∀ x, tsHashAt tm2 x =
        if x = i then some (timeSeriesHash env dc dns dsn "" "" "" "" "")
        else tsHashAt tm x) ∧
      (tm2 s).isSome ∧ dsDoneAt tm2 i dc dns dsn ∧
      ∃ iid, hasID tm2 i iid ∧
        edgeHolds tm2 s iid p
          (edgeTSHashOf env metric
            (if s = i then some (timeSeriesHash env dc dns dsn "" "" "" "" "")
              else tsHashAt tm s)
            (some (timeSeriesHash env dc dns dsn "" "" "" "" "")) c f h) := by
  unfold addTrafficPodSource at H
  cases hinj : addInjectedService env o tm dc dns dsn with
  | error e => simp [hinj] at H
  | ok res =>
    obtain ⟨t1, i⟩ := res
    obtain ⟨nt, hid, _, hrow, hts⟩ := addInjectedService_inv hinj
    refine ⟨i, nt, hid, ?_⟩
    simp only [hinj] at H
    have hE : tsHashAt t1 i = some (timeSeriesHash env dc dns dsn "" "" "" "" "") := by
      rw [hts]; simp
    rw [hE, hts s] at H
    cases ha : addEdgeTraffic o t1 v p c f h s i
        (edgeTSHashOf env metric
          (if s = i then some (timeSeriesHash env dc dns dsn "" "" "" "" "")
            else tsHashAt tm s)
          (some (timeSeriesHash env dc dns dsn "" "" "" "" "")) c f h) with
    | error e => simp [ha] at H
    | ok res =>
      obtain ⟨t2, b⟩ := res
      obtain ⟨hstep, hs, iid, hiid, hh⟩ := addEdgeTraffic_post ha
      simp only [ha, Except.ok.injEq] at H
      subst H
      have hext := addToDestServicesAt_ext t2 i dc dns dsn
      refine ⟨((hrow _ _ _).row_trans (hstep.rowStep _ _ _)).row_trans
          (addToDestServicesAt_rowStep _ _ _ _ _), ?_, hext.ext_isSome (hstep.ext.ext_isSome hs),
        dsDoneAt_addToDestServicesAt _ _ _ _ _, iid,
        hext.ext_hasID (hstep.ext.ext_hasID hiid), hext.edgeHolds hh⟩
      intro x
      rw [tsHashAt_addToDestServicesAt, hstep.tsHashAt, hts]

theorem addTrafficPodSource_absorbed {env : Env} {o : TelemetryOptions} {tm : TrafficMap}
    {metric : String} {v : Val} {p c f h dc dns dsn s i nt iid : String}
    (_hg : o.GraphType = GraphTypePod)
    (hid : Id env.IsOKVersion dc dns dsn "" "" "" "" o.GraphType "" = .ok (i, nt))
    (hs : (tm s).isSome) (hApp : ∀ n, tm s = some n → n.App ≠ "ingress-nginx")
    (hi : hasID tm i iid)
    (hh : edgeHolds tm s iid p
      (edgeTSHashOf env metric
        (if s = i then some (timeSeriesHash env dc dns dsn "" "" "" "" "")
          else tsHashAt tm s)
        (some (timeSeriesHash env dc dns dsn "" "" "" "" "")) c f h))
    (hds : dsDoneAt tm i dc dns dsn) :
    addTrafficPodSource env o tm metric v p c f h dc dns dsn s =
      .ok (updateNode tm i (setTsHash (timeSeriesHash env dc dns dsn "" "" "" "" ""))) := by
  have hp := hi.id_isSome
  have hext := setTs_ext tm i (timeSeriesHash env dc dns dsn "" "" "" "" "")
  have hrow := setTs_rowStep tm i (timeSeriesHash env dc dns dsn "" "" "" "" "") dc dns dsn
  unfold addTrafficPodSource
  rw [addInjectedService_present hid hp]
  simp only
  rw [tsHashAt_setTs_present _ _ _ _ hp, tsHashAt_setTs_present _ _ _ _ hp]
  simp only [if_true]
  rw [addEdgeTraffic_absorbed (hext.ext_isSome hs) (hext.ext_hasID hi) (hext.edgeHolds hh)
    (fun _ => hext.app_ne hs hApp)]
  simp only
  rw [addToDestServicesAt_eq_self (hrow.2 i hp hds)]

/-! ### Traffic maps that differ in "tsHash" values only -/

theorem eraseTs_setTsHash (h : String) (n : Node) : eraseTs (setTsHash h n) = eraseTs n := rfl

theorem node_eq_of_eraseTs {n m : Node} (h1 : eraseTs n = eraseTs m)
    (h2 : n.Metadata.tsHash = m.Metadata.tsHash) : n = m :=
  calc n = { eraseTs n with
            Metadata := { (eraseTs n).Metadata with tsHash := n.Metadata.tsHash } } := rfl
    _ = { eraseTs m with
            Metadata := { (eraseTs m).Metadata with tsHash := m.Metadata.tsHash } } := by
          rw [h1, h2]
    _ = m := rfl

theorem eraseTs_updateNode_setTs (u tm : TrafficMap) (k h : String)
    (hu : ∀ x, (u x).map eraseTs = (tm x).map eraseTs) :
    ∀ x, (updateNode u k (setTsHash h) x).map eraseTs = (tm x).map eraseTs := by
  intro x
  by_cases hx : x = k
  · subst hx
    rw [updateNode_same, ← hu x]
    cases u x <;> simp [eraseTs_setTsHash]
  · rw [updateNode_other _ _ _ hx]
    exact hu x

theorem eq_of_eraseTs_of_tsHashAt {u tm : TrafficMap}
    (hu : ∀ x, (u x).map eraseTs = (tm x).map eraseTs)
    (hts : ∀ x, tsHashAt u x = tsHashAt tm x) : u = tm := by
  funext x
  have h1 := hu x
  have h2 := hts x
  unfold tsHashAt at h2
  cases hun : u x with
  | none =>
    cases htn : tm x with
    | none => rfl
    | some m => simp [hun, htn] at h1
  | some n =>
    cases htn : tm x with
    | none => simp [hun, htn] at h1
    | some m =>
      simp only [hun, htn, Option.map_some', Option.some.injEq] at h1 h2
      rw [node_eq_of_eraseTs h1 h2]

/-! ### The two registrations at the head of `addTraffic` -/

/-- The registration of the source and of the destination node, when both return a node:
what it leaves in the map, and what the same two calls do on any later traffic map. -/
theorem registration {env : Env} {o : TelemetryOptions} {tm a1 a2 : TrafficMap}
    {sc sns ssv sw sa sver dc dns dsn dwns dw da dver sp dp s d : String} {fs fd : Bool}
    (hS : addNode env o tm sc sns ssv sns sw sa sver sp = .ok (a1, some s, fs))
    (hD : addNode env o a1 dc dns dsn dwns dw da dver dp = .ok (a2, some d, fd)) :
    (∀ C NS SV, RowStep C NS SV tm a2) ∧ (a2 s).isSome ∧ (a2 d).isSome ∧
    (∀ x, tsHashAt a2 x =
      if x = d then some (timeSeriesHash env dc dns dsn dwns dw da dver dp)
      else if x = s then some (timeSeriesHash env sc sns ssv sns sw sa sver sp)
      else tsHashAt tm x) ∧
    ∀ tm1, Ext a2 tm1 →
      addNode env o tm1 sc sns ssv sns sw sa sver sp =
        .ok (updateNode tm1 s (setTsHash (timeSeriesHash env sc sns ssv sns sw sa sver sp)),
          some s, true) ∧
      addNode env o
          (updateNode tm1 s (setTsHash (timeSeriesHash env sc sns ssv sns sw sa sver sp)))
          dc dns dsn dwns dw da dver dp =
        .ok (updateNode
            (updateNode tm1 s (setTsHash (timeSeriesHash env sc sns ssv sns sw sa sver sp)))
            d (setTsHash (timeSeriesHash env dc dns dsn dwns dw da dver dp)),
          some d, true) ∧
      (∀ x, tsHashAt (updateNode
            (updateNode tm1 s (setTsHash (timeSeriesHash env sc sns ssv sns sw sa sver sp)))
            d (setTsHash (timeSeriesHash env dc dns dsn dwns dw da dver dp))) x =
        if x = d then some (timeSeriesHash env dc dns dsn dwns dw da dver dp)
        else if x = s then some (timeSeriesHash env sc sns ssv sns sw sa sver sp)
        else tsHashAt tm1 x) := by
  rcases addNode_inv hS with ⟨_, h, _⟩ | ⟨hnnS, s2, snt, hs2, hidS, hpS, hrowS, htsS⟩
  · cases h
  cases hs2
  rcases addNode_inv hD with ⟨_, h, _⟩ | ⟨hnnD, d2, dnt, hd2, hidD, hpD, hrowD, htsD⟩
  · cases h
  cases hd2
  have hs2 : (a2 s).isSome := (hrowD "" "" "").1.ext_isSome hpS
  refine ⟨fun C NS SV => (hrowS C NS SV).row_trans (hrowD C NS SV), hs2, hpD, ?_, ?_⟩
  · intro x
    rw [htsD, htsS]
  · intro tm1 hext
    have h1s : (tm1 s).isSome := hext.ext_isSome hs2
    have h1d : (tm1 d).isSome := hext.ext_isSome hpD
    have hb1d : (updateNode tm1 s
        (setTsHash (timeSeriesHash env sc sns ssv sns sw sa sver sp)) d).isSome :=
      (setTs_ext _ _ _).ext_isSome h1d
    refine ⟨addNode_present hnnS hidS h1s, addNode_present hnnD hidD hb1d, fun x => ?_⟩
    rw [tsHashAt_setTs_present _ _ _ _ hb1d, tsHashAt_setTs_present _ _ _ _ h1s]

/-! ### Applying a row twice -/

/-- Applying a row a second time writes nothing, for the graph types other than pod. -/
theorem addTraffic_twice_not_pod {env : Env} {o : TelemetryOptions} {tm tm1 : TrafficMap}
    {metric : String} {inject : Bool} {v : Val}
    {p c f h sc sns ssv sw sa sver dc dns dsn dwns dw da dver sp dp : String}
    (hg : o.GraphType ≠ GraphTypePod)
    (H : addTraffic env o tm metric inject v p c f h sc sns ssv sw sa sver
      dc dns dsn dwns dw da dver sp dp = .ok tm1) :
    addTraffic env o tm1 metric inject v p c f h sc sns ssv sw sa sver
      dc dns dsn dwns dw da dver sp dp = .ok tm1 := by
  unfold addTraffic at H
  cases hS : addNode env o tm sc sns ssv sns sw sa sver sp with
  | error e => simp [hS] at H
  | ok resS =>
    obtain ⟨a1, src, fs⟩ := resS
    simp only [hS] at H
    cases hD : addNode env o a1 dc dns dsn dwns dw da dver dp with
    | error e => simp [hD] at H
    | ok resD =>
      obtain ⟨a2, dst, fd⟩ := resD
      simp only [hD] at H
      cases dst with
      | none =>
        -- the destination is the nil node: only the source was registered
        simp only [Except.ok.injEq] at H
        subst H
        rcases addNode_inv hD with ⟨hnilD, _, rfl⟩ | ⟨_, _, _, h, _⟩
        · rcases addNode_inv hS with ⟨hnilS, rfl, rfl⟩ | ⟨hnnS, s, snt, rfl, hidS, hpS, _, htsS⟩
          · unfold addTraffic
            rw [addNode_nil hnilS]
            simp only
            rw [addNode_nil hnilD]
          · unfold addTraffic
            rw [addNode_present hnnS hidS hpS]
            simp only
            rw [addNode_nil hnilD]
            simp only [Except.ok.injEq]
            apply eq_of_eraseTs_of_tsHashAt
            · exact eraseTs_updateNode_setTs _ _ _ _ (fun _ => rfl)
            · intro x
              rw [tsHashAt_setTs_present _ _ _ _ hpS, htsS x]
              by_cases hx : x = s <;> simp [hx]
        · cases h
      | some d =>
        cases src with
        | none => simp at H
        | some s =>
          simp only [hg, if_false] at H
          obtain ⟨hrow, hs2, hd2, hts2, hrun2⟩ := registration hS hD
          cases inject with
          | false =>
            simp only [Bool.false_eq_true, if_false] at H
            obtain ⟨hrow1, hts1, _, did, hdid, hh⟩ := addTrafficDirect_post H
            obtain ⟨hn1, hn2, htsb⟩ := hrun2 tm1 hrow1.1
            have hb : updateNode (updateNode tm1 s
                (setTsHash (timeSeriesHash env sc sns ssv sns sw sa sver sp))) d
                (setTsHash (timeSeriesHash env dc dns dsn dwns dw da dver dp)) = tm1 := by
              apply eq_of_eraseTs_of_tsHashAt
              · exact eraseTs_updateNode_setTs _ _ _ _
                  (eraseTs_updateNode_setTs _ _ _ _ (fun _ => rfl))
              · intro x
                rw [htsb x, hts1 x, hts2 x]
                by_cases hxd : x = d <;> by_cases hxs : x = s <;> simp [hxd, hxs]
            unfold addTraffic
            rw [hn1]
            simp only
            rw [hn2]
            simp only [hg, if_false, Bool.false_eq_true]
            rw [hb, hts1 s, hts1 d]
            exact addTrafficDirect_absorbed hg (hrow1.1.ext_isSome hs2) (hrow1.1.ext_hasID hdid) hh
          | true =>
            simp only [if_true] at H
            obtain ⟨i, nt, hid, hrow1, hts1, iid, hiid, hh⟩ := addTrafficInjected_post H
            obtain ⟨hn1, hn2, htsb⟩ := hrun2 tm1 hrow1.1
            have hext2 : Ext tm1 (updateNode (updateNode tm1 s
                (setTsHash (timeSeriesHash env sc sns ssv sns sw sa sver sp))) d
                (setTsHash (timeSeriesHash env dc dns dsn dwns dw da dver dp))) :=
              (setTs_ext _ _ _).ext_trans (setTs_ext _ _ _)
            have hEs : tsHashAt (updateNode (updateNode tm1 s
                (setTsHash (timeSeriesHash env sc sns ssv sns sw sa sver sp))) d
                (setTsHash (timeSeriesHash env dc dns dsn dwns dw da dver dp))) s =
                tsHashAt a2 s := by
              rw [htsb s, hts2 s]
              by_cases hsd : s = d <;> simp [hsd]
            have hEd : tsHashAt (updateNode (updateNode tm1 s
                (setTsHash (timeSeriesHash env sc sns ssv sns sw sa sver sp))) d
                (setTsHash (timeSeriesHash env dc dns dsn dwns dw da dver dp))) d =
                tsHashAt a2 d := by
              rw [htsb d, hts2 d]
              simp
            unfold addTraffic
            rw [hn1]
            simp only
            rw [hn2]
            simp only [hg, if_false, if_true]
            rw [hEs, hEd]
            rw [addTrafficInjected_absorbed hg hid (hext2.ext_isSome (hrow1.1.ext_isSome hs2))
              (hext2.ext_hasID hiid) (hext2.edgeHolds hh)]
            simp only [Except.ok.injEq]
            apply eq_of_eraseTs_of_tsHashAt
            · exact eraseTs_updateNode_setTs _ _ _ _ (eraseTs_updateNode_setTs _ _ _ _
                (eraseTs_updateNode_setTs _ _ _ _ (fun _ => rfl)))
            · intro x
              rw [tsHashAt_setTs_present _ _ _ _ (hext2.ext_isSome hiid.id_isSome), htsb x, hts1 x,
                hts2 x]
              by_cases hxi : x = i <;> by_cases hxd : x = d <;> by_cases hxs : x = s <;>
                simp [hxi, hxd, hxs]

theorem edgeTSHashOf_congr_left (env : Env) (metric : String) {a b : Option String}
    (d : Option String) (c f h : String) (hab : a = b) :
    edgeTSHashOf env metric a d c f h = edgeTSHashOf env metric b d c f h := by
  rw [hab]

/-- Applying a row a second time writes nothing in a pod graph either, when neither the
source node nor the injected service node of the row has the App "ingress-nginx". -/
theorem addTraffic_twice_pod {env : Env} {o : TelemetryOptions} {tm tm1 : TrafficMap}
    {metric : String} {inject : Bool} {v : Val}
    {p c f h sc sns ssv sw sa sver dc dns dsn dwns dw da dver sp dp : String}
    (hg : o.GraphType = GraphTypePod)
    (H : addTraffic env o tm metric inject v p c f h sc sns ssv sw sa sver
      dc dns dsn dwns dw da dver sp dp = .ok tm1)
    (hApp : ∀ id nt n,
      (Id env.IsOKVersion sc sns ssv sns sw sa sver o.GraphType sp = .ok (id, nt) ∨
        Id env.IsOKVersion dc dns dsn "" "" "" "" o.GraphType "" = .ok (id, nt)) →
      tm1 id = some n → n.App ≠ "ingress-nginx") :
    addTraffic env o tm1 metric inject v p c f h sc sns ssv sw sa sver
      dc dns dsn dwns dw da dver sp dp = .ok tm1 := by
  unfold addTraffic at H
  cases hS : addNode env o tm sc sns ssv sns sw sa sver sp with
  | error e => simp [hS] at H
  | ok resS =>
    obtain ⟨a1, src, fs⟩ := resS
    simp only [hS] at H
    cases hD : addNode env o a1 dc dns dsn dwns dw da dver dp with
    | error e => simp [hD] at H
    | ok resD =>
      obtain ⟨a2, dst, fd⟩ := resD
      simp only [hD] at H
      cases dst with
      | none =>
        simp only [Except.ok.injEq] at H
        subst H
        rcases addNode_inv hD with ⟨hnilD, _, rfl⟩ | ⟨_, _, _, h, _⟩
        · rcases addNode_inv hS with ⟨hnilS, rfl, rfl⟩ | ⟨hnnS, s, snt, rfl, hidS, hpS, _, htsS⟩
          · unfold addTraffic
            rw [addNode_nil hnilS]
            simp only
            rw [addNode_nil hnilD]
          · unfold addTraffic
            rw [addNode_present hnnS hidS hpS]
            simp only
            rw [addNode_nil hnilD]
            simp only [Except.ok.injEq]
            apply eq_of_eraseTs_of_tsHashAt
            · exact eraseTs_updateNode_setTs _ _ _ _ (fun _ => rfl)
            · intro x
              rw [tsHashAt_setTs_present _ _ _ _ hpS, htsS x]
              by_cases hx : x = s <;> simp [hx]
        · cases h
      | some d =>
        cases src with
        | none => simp at H
        | some s =>
          simp only [hg, if_true] at H
          obtain ⟨hrow, hs2, hd2, hts2, hrun2⟩ := registration hS hD
          have hidS : ∃ snt, Id env.IsOKVersion sc sns ssv sns sw sa sver o.GraphType sp =
              .ok (s, snt) := by
            rcases addNode_inv hS with ⟨_, h, _⟩ | ⟨_, s2, snt, hs2, hidS, _⟩
            · cases h
            · cases hs2; exact ⟨snt, hidS⟩
          obtain ⟨snt, hidS⟩ := hidS
          have hAppS : ∀ n, tm1 s = some n → n.App ≠ "ingress-nginx" :=
            fun n hn => hApp s snt n (Or.inl hidS) hn
          -- the registration of the second application, on the final map
          have key : ∀ (_ : Ext a2 tm1), ∃ b2 : TrafficMap,
              Ext tm1 b2 ∧ RowStep dc dns dsn tm1 b2 ∧
              (∀ x, (b2 x).map eraseTs = (tm1 x).map eraseTs) ∧
              (∀ x, tsHashAt b2 x =
                if x = d then some (timeSeriesHash env dc dns dsn dwns dw da dver dp)
                else if x = s then some (timeSeriesHash env sc sns ssv sns sw sa sver sp)
                else tsHashAt tm1 x) ∧
              addTraffic env o tm1 metric inject v p c f h sc sns ssv sw sa sver
                  dc dns dsn dwns dw da dver sp dp =
                match (if dp ≠ "" then
                    addTrafficPodDest env o b2 metric v p c f h dc dns dsn d
                  else .ok b2) with
                | .error e => .error e
                | .ok t3 =>
                  if (sp ≠ "" ∨ sns = "ingress-nginx" ∨ sns = "unknown") ∧ dns ≠ "unknown" then
                    addTrafficPodSource env o t3 metric v p c f h dc dns dsn s
                  else .ok t3 := by
            intro hext
            obtain ⟨hn1, hn2, htsb⟩ := hrun2 tm1 hext
            refine ⟨_, (setTs_ext _ _ _).ext_trans (setTs_ext _ _ _),
              (setTs_rowStep _ _ _ _ _ _).row_trans (setTs_rowStep _ _ _ _ _ _),
              eraseTs_updateNode_setTs _ _ _ _ (eraseTs_updateNode_setTs _ _ _ _ (fun _ => rfl)),
              htsb, ?_⟩
            unfold addTraffic
            rw [hn1]
            simp only
            rw [hn2]
            simp only [hg, if_true]
          have ha2d : tsHashAt a2 d = some (timeSeriesHash env dc dns dsn dwns dw da dver dp) := by
            rw [hts2]; simp
          by_cases hdp : dp ≠ ""
          · rw [if_pos hdp] at H
            cases hPD : addTrafficPodDest env o a2 metric v p c f h dc dns dsn d with
            | error e => simp [hPD] at H
            | ok a3 =>
              simp only [hPD] at H
              obtain ⟨i, nt, hid, hrow3, hts3, hpi3, hds3, did, hdid3, hh3⟩ :=
                addTrafficPodDest_post hPD
              rw [ha2d] at hh3
              have hAppI : ∀ n, tm1 i = some n → n.App ≠ "ingress-nginx" :=
                fun n hn => hApp i nt n (Or.inr hid) hn
              by_cases hc : (sp ≠ "" ∨ sns = "ingress-nginx" ∨ sns = "unknown") ∧ dns ≠ "unknown"
              · rw [if_pos hc] at H
                obtain ⟨i2, nt2, hid2, hrow4, hts4, hps4, hds4, iid, hiid4, hh4⟩ :=
                  addTrafficPodSource_post H
                rw [hid] at hid2
                simp only [Except.ok.injEq, Prod.mk.injEq] at hid2
                obtain ⟨rfl, rfl⟩ := hid2
                obtain ⟨b2, hextb, hrowb, herb, htsb, hgoal⟩ := key (hrow3.1.ext_trans hrow4.1)
                have hb2d : tsHashAt b2 d =
                    some (timeSeriesHash env dc dns dsn dwns dw da dver dp) := by
                  rw [htsb]; simp
                have hpi1 : (tm1 i).isSome := hrow4.1.ext_isSome hpi3
                have hpd3 : (a3 d).isSome := hdid3.id_isSome
                rw [hgoal, if_pos hdp]
                rw [addTrafficPodDest_absorbed hg hid (hextb.ext_isSome hpi1)
                  (hextb.app_ne hpi1 hAppI) (hextb.ext_hasID (hrow4.1.ext_hasID hdid3))
                  (by rw [hb2d]; exact hextb.edgeHolds (hrow4.1.edgeHolds hh3))
                  (hrowb.2 d (hrow4.1.ext_isSome hpd3) (hrow4.2 d hpd3 hds3))]
                simp only
                rw [if_pos hc]
                have hext3 := setTs_ext b2 i (timeSeriesHash env dc dns dsn "" "" "" "" "")
                have hrow3b := setTs_rowStep b2 i (timeSeriesHash env dc dns dsn "" "" "" "" "")
                  dc dns dsn
                have hEq : (if s = i then some (timeSeriesHash env dc dns dsn "" "" "" "" "")
                    else tsHashAt (updateNode b2 i
                      (setTsHash (timeSeriesHash env dc dns dsn "" "" "" "" ""))) s) =
                    (if s = i then some (timeSeriesHash env dc dns dsn "" "" "" "" "")
                      else tsHashAt a3 s) := by
                  rw [tsHashAt_setTs_present _ _ _ _ (hextb.ext_isSome hpi1), htsb s, hts3 s, hts2 s]
                  by_cases hsi : s = i <;> by_cases hsd : s = d <;> simp [hsi, hsd]
                rw [addTrafficPodSource_absorbed hg hid (hext3.ext_isSome (hextb.ext_isSome hps4))
                  (hext3.app_ne (hextb.ext_isSome hps4) (hextb.app_ne hps4 hAppS))
                  (hext3.ext_hasID (hextb.ext_hasID hiid4))
                  (by rw [hEq]; exact hext3.edgeHolds (hextb.edgeHolds hh4))
                  (hrow3b.2 i (hextb.ext_isSome hpi1) (hrowb.2 i hpi1 hds4))]
                simp only [Except.ok.injEq]
                apply eq_of_eraseTs_of_tsHashAt
                · exact eraseTs_updateNode_setTs _ _ _ _
                    (eraseTs_updateNode_setTs _ _ _ _ herb)
                · intro x
                  rw [tsHashAt_setTs_present _ _ _ _ (hext3.ext_isSome (hextb.ext_isSome hpi1)),
                    tsHashAt_setTs_present _ _ _ _ (hextb.ext_isSome hpi1), htsb x, hts4 x, hts3 x,
                    hts2 x]
                  by_cases hxi : x = i <;> by_cases hxd : x = d <;> by_cases hxs : x = s <;>
                    simp [hxi, hxd, hxs]
              · rw [if_neg hc] at H
                simp only [Except.ok.injEq] at H
                subst H
                obtain ⟨b2, hextb, hrowb, herb, htsb, hgoal⟩ := key hrow3.1
                have hb2d : tsHashAt b2 d =
                    some (timeSeriesHash env dc dns dsn dwns dw da dver dp) := by
                  rw [htsb]; simp
                rw [hgoal, if_pos hdp]
                rw [addTrafficPodDest_absorbed hg hid (hextb.ext_isSome hpi3)
                  (hextb.app_ne hpi3 hAppI) (hextb.ext_hasID hdid3)
                  (by rw [hb2d]; exact hextb.edgeHolds hh3)
                  (hrowb.2 d hdid3.id_isSome hds3)]
                simp only
                rw [if_neg hc]
                simp only [Except.ok.injEq]
                apply eq_of_eraseTs_of_tsHashAt
                · exact eraseTs_updateNode_setTs _ _ _ _ herb
                · intro x
                  rw [tsHashAt_setTs_present _ _ _ _ (hextb.ext_isSome hpi3), htsb x, hts3 x, hts2 x]
                  by_cases hxi : x = i <;> by_cases hxd : x = d <;> by_cases hxs : x = s <;>
                    simp [hxi, hxd, hxs]
          · rw [if_neg hdp] at H
            simp only at H
            by_cases hc : (sp ≠ "" ∨ sns = "ingress-nginx" ∨ sns = "unknown") ∧ dns ≠ "unknown"
            · rw [if_pos hc] at H
              obtain ⟨i, nt, hid, hrow4, hts4, hps4, hds4, iid, hiid4, hh4⟩ :=
                addTrafficPodSource_post H
              obtain ⟨b2, hextb, hrowb, herb, htsb, hgoal⟩ := key hrow4.1
              have hEq : (if s = i then some (timeSeriesHash env dc dns dsn "" "" "" "" "")
                  else tsHashAt b2 s) =
                  (if s = i then some (timeSeriesHash env dc dns dsn "" "" "" "" "")
                    else tsHashAt a2 s) := by
                rw [htsb s, hts2 s]
                by_cases hsi : s = i <;> by_cases hsd : s = d <;> simp [hsi, hsd]
              rw [hgoal, if_neg hdp]
              simp only
              rw [if_pos hc]
              rw [addTrafficPodSource_absorbed hg hid (hextb.ext_isSome hps4)
                (hextb.app_ne hps4 hAppS) (hextb.ext_hasID hiid4)
                (by rw [hEq]; exact hextb.edgeHolds hh4)
                (hrowb.2 i hiid4.id_isSome hds4)]
              simp only [Except.ok.injEq]
              apply eq_of_eraseTs_of_tsHashAt
              · exact eraseTs_updateNode_setTs _ _ _ _ herb
              · intro x
                rw [tsHashAt_setTs_present _ _ _ _ (hextb.ext_isSome hiid4.id_isSome), htsb x, hts4 x,
                  hts2 x]
                by_cases hxi : x = i <;> by_cases hxd : x = d <;> by_cases hxs : x = s <;>
                  simp [hxi, hxd, hxs]
            · rw [if_neg hc] at H
              simp only [Except.ok.injEq] at H
              subst H
              obtain ⟨b2, hextb, hrowb, herb, htsb, hgoal⟩ := key (Ext.ext_refl _)
              rw [hgoal, if_neg hdp]
              simp only
              rw [if_neg hc]
              simp only [Except.ok.injEq]
              apply eq_of_eraseTs_of_tsHashAt herb
              intro x
              rw [htsb x, hts2 x]
              by_cases hxd : x = d <;> by_cases hxs : x = s <;> simp [hxd, hxs]

/-! ### The App of the injected service node in a pod graph -/

theorem Id_injected_pod (v : String → Bool) (dc dns dsn : String) :
    Id v dc dns dsn "" "" "" "" GraphTypePod "" =
      .ok ("svc_" ++ dc ++ "_" ++ dns ++ "_" ++ dsn, NodeTypeService) := by
  simp [graph.Id, preferredNamespace, IsOK, Unknown, GraphTypePod]

/-- In a pod graph a node whose id starts with "svc_" is not made with the App
"ingress-nginx": `Id` gives it the node type service, or unknown for the unknown source. -/
theorem NewNodeExplicit_app_of_svc_id (v : String → Bool)
    (c sns sv wns w a ver pod X nt id ns : String)
    (h : Id v c sns sv wns w a ver GraphTypePod pod = .ok ("svc_" ++ X, nt)) :
    (NewNodeExplicit id c ns w a ver sv nt GraphTypePod pod).App ≠ "ingress-nginx" := by
  have hpod : ∀ x : String, "pod_" ++ x ≠ "svc_" ++ X := by
    intro x e
    have := congrArg String.data e
    simp [String.data_append] at this
  have hvapp : ∀ x : String, "vapp_" ++ x ≠ "svc_" ++ X := by
    intro x e
    have := congrArg String.data e
    simp [String.data_append] at this
  have happ : ∀ x : String, "app_" ++ x ≠ "svc_" ++ X := by
    intro x e
    have := congrArg String.data e
    simp [String.data_append] at this
  have hwl : ∀ x : String, "wl_" ++ x ≠ "svc_" ++ X := by
    intro x e
    have := congrArg String.data e
    simp [String.data_append] at this
  have hsvc : (NewNodeExplicit id c ns w a ver sv NodeTypeService GraphTypePod pod).App ≠
      "ingress-nginx" := by
    simp [NewNodeExplicit, NodeTypeService, NodeTypeApp]
  unfold graph.Id at h
  simp only [GraphTypePod] at h
  split_ifs at h with h1 h2 h3 h4 h5
  · simp only [Except.ok.injEq, Prod.mk.injEq] at h
    obtain ⟨_, rfl⟩ := h
    obtain ⟨_, _, ha, _⟩ := h1
    subst ha
    simp [NewNodeExplicit, NodeTypeUnknown, NodeTypeApp, NodeTypeService, NodeTypeWorkload,
      NodeTypePod, Unknown]
  · simp only [Except.ok.injEq, Prod.mk.injEq] at h
    obtain ⟨_, rfl⟩ := h
    exact hsvc
  · simp only [Except.ok.injEq, Prod.mk.injEq, String.append_assoc] at h
    exact absurd h.1 (hpod _)
  · simp only [Except.ok.injEq, Prod.mk.injEq, String.append_assoc] at h
    exact absurd h.1 (hvapp _)
  · unfold IdGeneral at h
    simp only [GraphTypeWorkload, GraphTypeService, GraphTypeVersionedApp] at h
    split_ifs at h <;>
      simp only [Except.ok.injEq, Prod.mk.injEq, String.append_assoc, reduceCtorEq] at h
    all_goals first
      | exact absurd h.1 (happ _)
      | exact absurd h.1 (hwl _)
      | exact absurd h.1 (hvapp _)
      | (obtain ⟨_, rfl⟩ := h; exact hsvc)
  · simp only [Except.ok.injEq, Prod.mk.injEq] at h
    obtain ⟨_, rfl⟩ := h
    exact hsvc

theorem TrafficStep.appNotIngressAt {t1 t2 : TrafficMap} (h : TrafficStep t1 t2) {k : String}
    (hk : appNotIngressAt t1 k) : appNotIngressAt t2 k := by
  intro n2 hn2
  cases hn : t1 k with
  | none => rw [(h k).1 hn] at hn2; cases hn2
  | some n =>
    obtain ⟨m, hm, e, _, _⟩ := (h k).2 n hn
    rw [hn2] at hm
    cases hm
    rw [e.2.1]
    exact hk n hn

theorem updateNode_appNotIngressAt (tm : TrafficMap) (x k : String) (f : Node → Node)
    (hf : ∀ n, (f n).App = n.App) (hk : appNotIngressAt tm k) :
    appNotIngressAt (updateNode tm x f) k := by
  intro n2 hn2
  by_cases hx : k = x
  · subst hx
    rw [updateNode_same] at hn2
    cases hn : tm k with
    | none => simp [hn] at hn2
    | some n =>
      simp only [hn, Option.map_some', Option.some.injEq] at hn2
      subst hn2
      rw [hf]
      exact hk n hn
  · rw [updateNode_other _ _ _ hx] at hn2
    exact hk n2 hn2

theorem addToDestServicesAt_appNotIngressAt (tm : TrafficMap) (x c ns sv k : String)
    (hk : appNotIngressAt tm k) : appNotIngressAt (addToDestServicesAt tm x c ns sv) k :=
  updateNode_appNotIngressAt tm x k _ (fun _ => rfl) hk

theorem addNode_appNotIngressAt {env : Env} {o : TelemetryOptions} {tm tm2 : TrafficMap}
    {c sns sv wns w a ver pod k : String} {r : Option String} {fd : Bool}
    (H : addNode env o tm c sns sv wns w a ver pod = .ok (tm2, r, fd))
    (hk : appNotIngressAt tm k)
    (hnew : ∀ nt ns, Id env.IsOKVersion c sns sv wns w a ver o.GraphType pod = .ok (k, nt) →
      (NewNodeExplicit k c ns w a ver sv nt o.GraphType pod).App ≠ "ingress-nginx") :
    appNotIngressAt tm2 k := by
  unfold addNode at H
  by_cases hnil : sns = "unknown" ∧ wns = "unknown" ∧ sv ≠ ""
  · rw [if_pos hnil] at H
    simp only [Except.ok.injEq, Prod.mk.injEq] at H
    rw [← H.1]
    exact hk
  · rw [if_neg hnil] at H
    cases hid : Id env.IsOKVersion c sns sv wns w a ver o.GraphType pod with
    | error e => simp [hid] at H
    | ok res =>
      obtain ⟨id, nt⟩ := res
      simp only [hid, Except.ok.injEq, Prod.mk.injEq] at H
      obtain ⟨rfl, _, _⟩ := H
      refine updateNode_appNotIngressAt _ _ _ (setTsHash _) (fun _ => rfl) ?_
      cases hn : tm id with
      | some n =>
        simp only [hn, Option.isSome_some, if_true]
        exact hk
      | none =>
        simp only [hn, Option.isSome_none, Bool.false_eq_true, if_false]
        intro n2 hn2
        by_cases hx : k = id
        · subst hx
          rw [Function.update_same] at hn2
          cases hn2
          exact hnew nt _ hid
        · rw [Function.update_noteq hx] at hn2
          exact hk n2 hn2

theorem addInjectedService_appNotIngressAt {env : Env} {o : TelemetryOptions}
    {tm tm2 : TrafficMap} {dc dns dsn i k : String}
    (hg : o.GraphType = GraphTypePod)
    (H : addInjectedService env o tm dc dns dsn = .ok (tm2, i))
    (hk : appNotIngressAt tm k) : appNotIngressAt tm2 k := by
  unfold addInjectedService at H
  cases hn : addNode env o tm dc dns dsn "" "" "" "" "" with
  | error e => simp [hn] at H
  | ok res =>
    obtain ⟨t, r, fd⟩ := res
    cases r with
    | none => simp [hn] at H
    | some j =>
      simp only [hn, Except.ok.injEq, Prod.mk.injEq] at H
      obtain ⟨rfl, _⟩ := H
      apply addNode_appNotIngressAt hn hk
      intro nt ns hid
      rw [hg, Id_injected_pod] at hid
      simp only [Except.ok.injEq, Prod.mk.injEq] at hid
      obtain ⟨_, rfl⟩ := hid
      simp [NewNodeExplicit, NodeTypeService, NodeTypeApp]

theorem addTrafficPodDest_appNotIngressAt {env : Env} {o : TelemetryOptions}
    {tm tm2 : TrafficMap} {metric : String} {v : Val} {p c f h dc dns dsn d k : String}
    (hg : o.GraphType = GraphTypePod)
    (H : addTrafficPodDest env o tm metric v p c f h dc dns dsn d = .ok tm2)
    (hk : appNotIngressAt tm k) : appNotIngressAt tm2 k := by
  unfold addTrafficPodDest at H
  cases hinj : addInjectedService env o tm dc dns dsn with
  | error e => simp [hinj] at H
  | ok res =>
    obtain ⟨t1, i⟩ := res
    simp only [hinj] at H
    split at H
    · cases H
    · rename_i t2 b ha
      simp only [Except.ok.injEq] at H
      subst H
      exact addToDestServicesAt_appNotIngressAt _ _ _ _ _ _
        ((addEdgeTraffic_step ha).appNotIngressAt
          (addInjectedService_appNotIngressAt hg hinj hk))

theorem addTrafficPodSource_appNotIngressAt {env : Env} {o : TelemetryOptions}
    {tm tm2 : TrafficMap} {metric : String} {v : Val} {p c f h dc dns dsn s k : String}
    (hg : o.GraphType = GraphTypePod)
    (H : addTrafficPodSource env o tm metric v p c f h dc dns dsn s = .ok tm2)
    (hk : appNotIngressAt tm k) : appNotIngressAt tm2 k := by
  unfold addTrafficPodSource at H
  cases hinj : addInjectedService env o tm dc dns dsn with
  | error e => simp [hinj] at H
  | ok res =>
    obtain ⟨t1, i⟩ := res
    simp only [hinj] at H
    split at H
    · cases H
    · rename_i t2 b ha
      simp only [Except.ok.injEq] at H
      subst H
      exact addToDestServicesAt_appNotIngressAt _ _ _ _ _ _
        ((addEdgeTraffic_step ha).appNotIngressAt
          (addInjectedService_appNotIngressAt hg hinj hk))

/-- In a pod graph `addTraffic` never puts a node with the App "ingress-nginx" under the id
of the injected service node: a traffic map without such a node stays without one. -/
theorem addTraffic_injected_appNotIngress {env : Env} {o : TelemetryOptions}
    {tm tm1 : TrafficMap} {metric : String} {inject : Bool} {v : Val}
    {p c f h sc sns ssv sw sa sver dc dns dsn dwns dw da dver sp dp : String}
    (hg : o.GraphType = GraphTypePod)
    (H : addTraffic env o tm metric inject v p c f h sc sns ssv sw sa sver
      dc dns dsn dwns dw da dver sp dp = .ok tm1)
    (hInj : appNotIngressAt tm ("svc_" ++ dc ++ "_" ++ dns ++ "_" ++ dsn)) :
    appNotIngressAt tm1 ("svc_" ++ dc ++ "_" ++ dns ++ "_" ++ dsn) := by
  have hnew : ∀ (c sns sv wns w a ver pod nt ns : String),
      Id env.IsOKVersion c sns sv wns w a ver o.GraphType pod =
        .ok ("svc_" ++ dc ++ "_" ++ dns ++ "_" ++ dsn, nt) →
      (NewNodeExplicit ("svc_" ++ dc ++ "_" ++ dns ++ "_" ++ dsn) c ns w a ver sv nt
        o.GraphType pod).App ≠ "ingress-nginx" := by
    intro c sns sv wns w a ver pod nt ns hid
    rw [hg] at hid ⊢
    rw [String.append_assoc, String.append_assoc, String.append_assoc, String.append_assoc]
      at hid
    exact NewNodeExplicit_app_of_svc_id env.IsOKVersion c sns sv wns w a ver pod _ nt _ ns hid
  unfold addTraffic at H
  cases hS : addNode env o tm sc sns ssv sns sw sa sver sp with
  | error e => simp [hS] at H
  | ok resS =>
    obtain ⟨a1, src, fs⟩ := resS
    simp only [hS] at H
    have h1 := addNode_appNotIngressAt hS hInj (fun nt ns => hnew _ _ _ _ _ _ _ _ nt ns)
    cases hD : addNode env o a1 dc dns dsn dwns dw da dver dp with
    | error e => simp [hD] at H
    | ok resD =>
      obtain ⟨a2, dst, fd⟩ := resD
      simp only [hD] at H
      have h2 := addNode_appNotIngressAt hD h1 (fun nt ns => hnew _ _ _ _ _ _ _ _ nt ns)
      cases dst with
      | none =>
        simp only [Except.ok.injEq] at H
        subst H
        exact h2
      | some d =>
        cases src with
        | none => simp at H
        | some s =>
          simp only [hg, if_true] at H
          split at H
          · cases H
          · rename_i a3 h3eq
            have h3 : appNotIngressAt a3 ("svc_" ++ dc ++ "_" ++ dns ++ "_" ++ dsn) := by
              split_ifs at h3eq
              · exact addTrafficPodDest_appNotIngressAt hg h3eq h2
              · simp only [Except.ok.injEq] at h3eq
                subst h3eq
                exact h2
            split_ifs at H
            · exact addTrafficPodSource_appNotIngressAt hg H h3
            · simp only [Except.ok.injEq] at H
              subst H
              exact h3

/-! ### Edges and values after a row on a map without edges -/

theorem EdgesOnce.mono {v : Val} {p : String} {hops hops2 : List (String × String)}
    {tm : TrafficMap} (h : EdgesOnce v p hops tm) (hsub : ∀ x ∈ hops, x ∈ hops2) :
    EdgesOnce v p hops2 tm := by
  intro k n hn
  obtain ⟨h1, h2, h3⟩ := h k n hn
  exact ⟨h1, h2, fun e he => ⟨(h3 e he).1, (h3 e he).2.1, hsub _ (h3 e he).2.2⟩⟩

theorem EdgesOnce_updateNode {v : Val} {p : String} {hops : List (String × String)}
    {tm : TrafficMap} (h : EdgesOnce v p hops tm) (x : String) (f : Node → Node)
    (hf : ∀ n, (f n).ID = n.ID ∧ (f n).Edges = n.Edges) :
    EdgesOnce v p hops (updateNode tm x f) := by
  intro k n2 hn2
  by_cases hk : k = x
  · subst hk
    rw [updateNode_same] at hn2
    cases hn : tm k with
    | none => simp [hn] at hn2
    | some n =>
      simp only [hn, Option.map_some', Option.some.injEq] at hn2
      subst hn2
      rw [(hf n).1, (hf n).2]
      exact h k n hn
  · rw [updateNode_other _ _ _ hk] at hn2
    exact h k n2 hn2

theorem EdgesOnce_empty (v : Val) (p : String) : EdgesOnce v p [] NewTrafficMap := by
  intro k n hn
  simp [NewTrafficMap] at hn

theorem NewNodeExplicit_ID (id c ns w a ver sv nt gt pod : String) :
    (NewNodeExplicit id c ns w a ver sv nt gt pod).ID = id := by
  unfold NewNodeExplicit
  split_ifs <;> rfl

theorem NewNodeExplicit_Edges (id c ns w a ver sv nt gt pod : String) :
    (NewNodeExplicit id c ns w a ver sv nt gt pod).Edges = [] := by
  unfold NewNodeExplicit
  split_ifs <;> rfl

theorem addNode_edgesOnce {env : Env} {o : TelemetryOptions} {tm tm2 : TrafficMap}
    {c sns sv wns w a ver pod : String} {r : Option String} {fd : Bool} {v : Val} {p : String}
    {hops : List (String × String)}
    (H : addNode env o tm c sns sv wns w a ver pod = .ok (tm2, r, fd))
    (h : EdgesOnce v p hops tm) : EdgesOnce v p hops tm2 := by
  unfold addNode at H
  by_cases hnil : sns = "unknown" ∧ wns = "unknown" ∧ sv ≠ ""
  · rw [if_pos hnil] at H
    simp only [Except.ok.injEq, Prod.mk.injEq] at H
    rw [← H.1]
    exact h
  · rw [if_neg hnil] at H
    cases hid : Id env.IsOKVersion c sns sv wns w a ver o.GraphType pod with
    | error e => simp [hid] at H
    | ok res =>
      obtain ⟨id, nt⟩ := res
      simp only [hid, Except.ok.injEq, Prod.mk.injEq] at H
      obtain ⟨rfl, _, _⟩ := H
      refine EdgesOnce_updateNode ?_ _ (setTsHash _) (fun _ => ⟨rfl, rfl⟩)
      cases hn : tm id with
      | some n =>
        simp only [hn, Option.isSome_some, if_true]
        exact h
      | none =>
        simp only [hn, Option.isSome_none, Bool.false_eq_true, if_false]
        intro k n2 hn2
        by_cases hx : k = id
        · subst hx
          rw [Function.update_same] at hn2
          cases hn2
          rw [NewNodeExplicit_ID, NewNodeExplicit_Edges]
          exact ⟨rfl, List.Pairwise.nil, fun e he => by simp at he⟩
        · rw [Function.update_noteq hx] at hn2
          exact h k n2 hn2

theorem addToDestServicesAt_edgesOnce {v : Val} {p : String} {hops : List (String × String)}
    {tm : TrafficMap} (h : EdgesOnce v p hops tm) (x c ns sv : String) :
    EdgesOnce v p hops (addToDestServicesAt tm x c ns sv) :=
  EdgesOnce_updateNode h x _ (fun _ => ⟨rfl, rfl⟩)

theorem modifyFirstEdge_append_new (d p : String) (f : Edge → Edge) (l : List Edge) (e : Edge)
    (hl : l.find? (edgeMatches d p) = none) (he : edgeMatches d p e = true) :
    modifyFirstEdge d p f (l ++ [e]) = l ++ [f e] := by
  induction l with
  | nil => simp [modifyFirstEdge, he]
  | cons a rest ih =>
    have ha : ¬ edgeMatches d p a = true := by
      intro h
      rw [List.find?_cons_of_pos _ h] at hl
      cases hl
    rw [List.find?_cons_of_neg _ ha] at hl
    rw [List.cons_append, modifyFirstEdge_cons_neg d p f a _ ha, ih hl, List.cons_append]

theorem AddToMetadata_other (tm : TrafficMap) (p : String) (v : Val)
    (c f h s d dID k : String) (hk : k ≠ s) :
    ∃ g : Node → Node, (∀ n, (g n).ID = n.ID ∧ (g n).Edges = n.Edges) ∧
      AddToMetadata tm p v c f h s d dID k = (tm k).map g := by
  by_cases hkd : k = d
  · subst hkd
    refine ⟨recordOnNode .dest p v c f h, fun n => ⟨rfl, rfl⟩, ?_⟩
    simp only [AddToMetadata, updateNode_other _ _ _ hk, updateNode_same]
  · refine ⟨fun n => n, fun n => ⟨rfl, rfl⟩, ?_⟩
    simp only [AddToMetadata, updateNode_other _ _ _ hk, updateNode_other _ _ _ hkd]
    cases tm k <;> rfl

theorem AddToMetadata_source_edges (tm : TrafficMap) (p : String) (v : Val)
    (c f h s d dID : String) (n : Node) (hn : tm s = some n) :
    ∃ n2, AddToMetadata tm p v c f h s d dID s = some n2 ∧ n2.ID = n.ID ∧
      n2.Edges = modifyFirstEdge dID p (recordOnEdge p v c f h) n.Edges := by
  by_cases hsd : s = d
  · subst hsd
    refine ⟨recordOnSelectedEdge dID p v c f h
      (recordOnNode .dest p v c f h (recordOnNode .source p v c f h n)), ?_, rfl, rfl⟩
    simp only [AddToMetadata, updateNode_same, hn, Option.map_some']
  · refine ⟨recordOnSelectedEdge dID p v c f h (recordOnNode .source p v c f h n), ?_,
      rfl, rfl⟩
    simp only [AddToMetadata, updateNode_same, updateNode_other _ _ _ hsd, hn, Option.map_some']

/-- `addEdgeTraffic` for a hop whose edge is not there yet: the edge is added, with the
fingerprint and the value, and the call returns true. -/
theorem addEdgeTraffic_fresh {o : TelemetryOptions} {tm : TrafficMap} {v : Val}
    {p c f h s d E : String} {sn dn : Node}
    (hs : tm s = some sn) (hd : tm d = some dn)
    (hfind : sn.Edges.find? (edgeMatches dn.ID p) = none) :
    addEdgeTraffic o tm v p c f h s d E =
      .ok (AddToMetadata
        (updateNode (updateNode tm s (ensureEdge dn.ID p)) s (markApplied dn.ID p E))
        p v c f h s d dn.ID, true) := by
  have hmatch : edgeMatches dn.ID p
      { Dest := dn.ID,
        Metadata := { NewMetadata with protocol := some p, tsHashMap := some [] } } = true := by
    simp [edgeMatches]
  have he : (ensureEdge dn.ID p sn).Edges.find? (edgeMatches dn.ID p) =
      some { Dest := dn.ID,
             Metadata := { NewMetadata with protocol := some p, tsHashMap := some [] } } := by
    simp only [ensureEdge, hfind, List.find?_append, Option.or, List.find?_cons_of_pos _ hmatch]
  unfold addEdgeTraffic
  simp only [hs, hd, he]
  split_ifs <;> simp_all

/-- `addEdgeTraffic` on a map whose edges each had the value applied once: when the edge of
the hop, if it is there already, holds the fingerprint (and the source is not an ingress node
of a pod graph), the same is true afterwards, with the hop added; and a hop without an edge
gets one, the call returning true. -/
theorem addEdgeTraffic_edgesOnce {o : TelemetryOptions} {tm tm2 : TrafficMap} {v : Val}
    {p c f h x y E : String} {b : Bool} {hops : List (String × String)}
    (hinv : EdgesOnce v p hops tm)
    (H : addEdgeTraffic o tm v p c f h x y E = .ok (tm2, b))
    (hdup : ∀ e, edgeAt tm x y p = some e →
      edgeHolds tm x y p E ∧ (o.GraphType = GraphTypePod → appNotIngressAt tm x)) :
    EdgesOnce v p ((x, y) :: hops) tm2 ∧ (edgeAt tm x y p = none → b = true) := by
  obtain ⟨sn, dn, hs, hd, _⟩ := addEdgeTraffic_holds H
  have hdn : dn.ID = y := (hinv y dn hd).1
  have hmono : EdgesOnce v p ((x, y) :: hops) tm :=
    hinv.mono (fun _ hm => List.mem_cons_of_mem _ hm)
  cases hfind : sn.Edges.find? (edgeMatches y p) with
  | some e =>
    have hat : edgeAt tm x y p = some e := by
      unfold edgeAt; rw [hs]; exact hfind
    obtain ⟨hh, hi⟩ := hdup e hat
    rw [← hdn] at hh
    rw [addEdgeTraffic_dup hs hd hh (fun hpa => hi hpa.1 sn hs hpa.2)] at H
    simp only [Except.ok.injEq, Prod.mk.injEq] at H
    rw [← H.1]
    exact ⟨hmono, fun hnone => by rw [hat] at hnone; cases hnone⟩
  | none =>
    rw [← hdn] at hfind
    rw [addEdgeTraffic_fresh hs hd hfind] at H
    simp only [Except.ok.injEq, Prod.mk.injEq] at H
    obtain ⟨rfl, rfl⟩ := H
    refine ⟨?_, fun _ => rfl⟩
    rw [updateNode_updateNode_same]
    intro k n2 hn2
    by_cases hk : k = x
    · subst hk
      have hmid : updateNode tm k
          (fun n => markApplied dn.ID p E (ensureEdge dn.ID p n)) k =
          some (markApplied dn.ID p E (ensureEdge dn.ID p sn)) := by
        rw [updateNode_same, hs]; rfl
      obtain ⟨m, hm, hmid2, hmedges⟩ :=
        AddToMetadata_source_edges _ p v c f h k y dn.ID _ hmid
      rw [hn2] at hm
      cases hm
      have hmatch : edgeMatches dn.ID p
          { Dest := dn.ID,
            Metadata := { NewMetadata with protocol := some p, tsHashMap := some [] } } =
          true := by
        simp [edgeMatches]
      have hedges : n2.Edges = sn.Edges ++
          [recordOnEdge p v c f h (markEdge E
            { Dest := dn.ID,
              Metadata := { NewMetadata with protocol := some p, tsHashMap := some [] } })] := by
        rw [hmedges]
        simp only [markApplied, ensureEdge, hfind]
        rw [modifyFirstEdge_append_new dn.ID p _ sn.Edges _ hfind hmatch]
        rw [modifyFirstEdge_append_new dn.ID p _ sn.Edges _ hfind
          (by simp [edgeMatches, markEdge])]
      obtain ⟨hid, hpw, hall⟩ := hinv k sn hs
      have hid2 : (markApplied dn.ID p E (ensureEdge dn.ID p sn)).ID = sn.ID := by
        simp [markApplied, ensureEdge, hfind]
      refine ⟨by rw [hmid2, hid2]; exact hid, ?_, ?_⟩
      · rw [hedges, List.pairwise_append]
        refine ⟨hpw, List.pairwise_singleton _ _, fun a ha b hb => ?_⟩
        simp only [List.mem_singleton] at hb
        subst hb
        have hna := (List.find?_eq_none.mp hfind) a ha
        intro hab
        apply hna
        simp only [edgeMatches, (hall a ha).2.1, beq_self_eq_true, Bool.and_true, beq_iff_eq]
        exact hab.symm
      · intro e he
        rw [hedges, List.mem_append, List.mem_singleton] at he
        rcases he with he | he
        · exact ⟨(hall e he).1, (hall e he).2.1, List.mem_cons_of_mem _ (hall e he).2.2⟩
        · subst he
          refine ⟨?_, rfl, ?_⟩
          · rw [edgeValues_recordOnEdge]
            simp [edgeValues, markEdge, NewMetadata]
          · rw [hdn]
            exact List.mem_cons_self _ _
    · obtain ⟨g, hg, hgk⟩ := AddToMetadata_other
        (updateNode tm x (fun n => markApplied dn.ID p E (ensureEdge dn.ID p n)))
        p v c f h x y dn.ID k hk
      rw [hn2, updateNode_other _ _ _ hk] at hgk
      cases hn : tm k with
      | none => simp [hn] at hgk
      | some n =>
        simp only [hn, Option.map_some', Option.some.injEq] at hgk
        subst hgk
        rw [(hg n).1, (hg n).2]
        exact hmono k n hn

theorem EdgesOnce.edgeAt_mem {v : Val} {p : String} {hops : List (String × String)}
    {tm : TrafficMap} (h : EdgesOnce v p hops tm) {x y : String} {e : Edge}
    (he : edgeAt tm x y p = some e) : (x, y) ∈ hops := by
  unfold edgeAt at he
  cases hn : tm x with
  | none => simp [hn] at he
  | some n =>
    rw [hn] at he
    simp only at he
    have hm := List.find?_some he
    have hmem := List.mem_of_find?_eq_some he
    have hy : y = e.Dest := by
      simp only [edgeMatches, Bool.and_eq_true, beq_iff_eq] at hm
      exact hm.1
    rw [hy]
    exact ((h x n hn).2.2 e hmem).2.2

theorem EdgesOnce.edgeAt_nil {v : Val} {p : String} {tm : TrafficMap}
    (h : EdgesOnce v p [] tm) (x y : String) : edgeAt tm x y p = none := by
  cases he : edgeAt tm x y p with
  | none => rfl
  | some e => exact absurd (h.edgeAt_mem he) (by simp)

theorem EdgesOnce.once_hasID {v : Val} {p : String} {hops : List (String × String)}
    {tm : TrafficMap} (h : EdgesOnce v p hops tm) {k id : String} (hk : hasID tm k id) :
    id = k := by
  obtain ⟨n, hn, hid⟩ := hk
  rw [← hid]
  exact (h k n hn).1

theorem Ext.appNotIngressAt_back {t1 t2 : TrafficMap} (h : Ext t1 t2) {k : String}
    (hk : appNotIngressAt t2 k) : appNotIngressAt t1 k := by
  intro n hn
  obtain ⟨n2, hn2, e⟩ := h k n hn
  rw [← e.2.1]
  exact hk n2 hn2

theorem edgeHolds.exists {tm : TrafficMap} {s d p E : String} (h : edgeHolds tm s d p E) :
    ∃ e, edgeAt tm s d p = some e := by
  obtain ⟨e, _, he, _, _⟩ := h
  exact ⟨e, he⟩

theorem addInjectedService_edgesOnce {env : Env} {o : TelemetryOptions} {tm tm2 : TrafficMap}
    {dc dns dsn i : String} {v : Val} {p : String} {hops : List (String × String)}
    (H : addInjectedService env o tm dc dns dsn = .ok (tm2, i))
    (h : EdgesOnce v p hops tm) : EdgesOnce v p hops tm2 := by
  unfold addInjectedService at H
  cases hn : addNode env o tm dc dns dsn "" "" "" "" "" with
  | error e => simp [hn] at H
  | ok res =>
    obtain ⟨t, r, fd⟩ := res
    cases r with
    | none => simp [hn] at H
    | some j =>
      simp only [hn, Except.ok.injEq, Prod.mk.injEq] at H
      obtain ⟨rfl, _⟩ := H
      exact addNode_edgesOnce hn h

/-- The direct branch on a map whose edges each had the value applied once and where the
hop has no edge yet. -/
theorem addTrafficDirect_edgesOnce {o : TelemetryOptions} {tm tm2 : TrafficMap} {v : Val}
    {p c f h dc dns dsn s d E : String}
    (hinv : EdgesOnce v p [] tm)
    (H : addTrafficDirect o tm v p c f h dc dns dsn s d E = .ok tm2) :
    EdgesOnce v p [(s, d)] tm2 ∧ ∃ e, edgeAt tm2 s d p = some e := by
  obtain ⟨_, _, _, did, hdid, hh⟩ := addTrafficDirect_post H
  have hd : did = d := hinv.once_hasID hdid
  subst hd
  refine ⟨?_, hh.exists⟩
  unfold addTrafficDirect at H
  cases ha : addEdgeTraffic o tm v p c f h s did E with
  | error e => simp [ha] at H
  | ok res =>
    obtain ⟨t, b⟩ := res
    obtain ⟨h1, _⟩ := addEdgeTraffic_edgesOnce hinv ha
      (fun e he => by rw [hinv.edgeAt_nil] at he; cases he)
    cases b
    · simp only [ha, Except.ok.injEq] at H
      subst H
      exact h1
    · simp only [ha, Except.ok.injEq] at H
      subst H
      exact addToDestServicesAt_edgesOnce h1 _ _ _ _

/-- The branch with injection on a map whose edges each had the value applied once and that
has no edge yet: one edge per hop afterwards. -/
theorem addTrafficInjected_edgesOnce {env : Env} {o : TelemetryOptions} {tm tm2 : TrafficMap}
    {v : Val} {p c f h dc dns dsn s d E i nt : String}
    (hg : o.GraphType ≠ GraphTypePod)
    (hid : Id env.IsOKVersion dc dns dsn "" "" "" "" o.GraphType "" = .ok (i, nt))
    (hinv : EdgesOnce v p [] tm)
    (H : addTrafficInjected env o tm v p c f h dc dns dsn s d E = .ok tm2) :
    EdgesOnce v p [(s, i), (i, d)] tm2 ∧ (∃ e, edgeAt tm2 s i p = some e) ∧
      ∃ e, edgeAt tm2 i d p = some e := by
  unfold addTrafficInjected at H
  cases hinj : addInjectedService env o tm dc dns dsn with
  | error e => simp [hinj] at H
  | ok res =>
    obtain ⟨t1, i2⟩ := res
    obtain ⟨nt2, hid2, _, _, _⟩ := addInjectedService_inv hinj
    rw [hid] at hid2
    simp only [Except.ok.injEq, Prod.mk.injEq] at hid2
    obtain ⟨rfl, rfl⟩ := hid2
    have hinv1 := addInjectedService_edgesOnce hinj hinv
    simp only [hinj] at H
    cases ha : addEdgeTraffic o t1 v p c f h s i E with
    | error e => simp [ha] at H
    | ok res =>
      obtain ⟨t2, b⟩ := res
      obtain ⟨hinv2, hb⟩ := addEdgeTraffic_edgesOnce hinv1 ha
        (fun e he => by rw [hinv1.edgeAt_nil] at he; cases he)
      have hbt : b = true := hb (hinv1.edgeAt_nil _ _)
      subst hbt
      obtain ⟨_, _, iid, hiid, hh1⟩ := addEdgeTraffic_post ha
      have hi : iid = i := hinv1.once_hasID hiid
      subst hi
      simp only [ha] at H
      cases ha2 : addEdgeTraffic o (addToDestServicesAt t2 iid dc dns dsn) v p c f h iid d E with
      | error e => simp [ha2] at H
      | ok res =>
        obtain ⟨t4, b2⟩ := res
        simp only [ha2, Except.ok.injEq] at H
        subst H
        have hinv3 := addToDestServicesAt_edgesOnce hinv2 iid dc dns dsn
        have hext3 := addToDestServicesAt_ext t2 iid dc dns dsn
        obtain ⟨hinv4, _⟩ := addEdgeTraffic_edgesOnce hinv3 ha2 (fun e he => by
          have hmem := hinv3.edgeAt_mem he
          simp only [List.mem_singleton, Prod.mk.injEq] at hmem
          obtain ⟨h1, h2⟩ := hmem
          refine ⟨?_, fun hp => absurd hp hg⟩
          have := hext3.edgeHolds hh1
          rw [← h1, ← h2] at this
          rw [← h2]
          exact this)
        obtain ⟨hstep4, _, did, hdid, hh2⟩ := addEdgeTraffic_post ha2
        have hd : did = d := hinv3.once_hasID hdid
        subst hd
        have hext5 := addToDestServicesAt_ext t4 did dc dns dsn
        refine ⟨(addToDestServicesAt_edgesOnce hinv4 _ _ _ _).mono ?_, ?_, ?_⟩
        · intro x hx
          simp only [List.mem_cons, List.mem_singleton, List.not_mem_nil, or_false] at hx ⊢
          tauto
        · exact (hext5.edgeHolds (hstep4.ext.edgeHolds (hext3.edgeHolds hh1))).exists
        · exact (hext5.edgeHolds hh2).exists

theorem addNode_edgeAt_back {env : Env} {o : TelemetryOptions} {tm tm2 : TrafficMap}
    {c sns sv wns w a ver pod : String} {r : Option String} {fd : Bool}
    (H : addNode env o tm c sns sv wns w a ver pod = .ok (tm2, r, fd))
    {x y q : String} {e : Edge} (he : edgeAt tm2 x y q = some e) :
    edgeAt tm x y q = some e := by
  unfold addNode at H
  by_cases hnil : sns = "unknown" ∧ wns = "unknown" ∧ sv ≠ ""
  · rw [if_pos hnil] at H
    simp only [Except.ok.injEq, Prod.mk.injEq] at H
    rw [← H.1] at he
    exact he
  · rw [if_neg hnil] at H
    cases hid : Id env.IsOKVersion c sns sv wns w a ver o.GraphType pod with
    | error e => simp [hid] at H
    | ok res =>
      obtain ⟨id, nt⟩ := res
      simp only [hid, Except.ok.injEq, Prod.mk.injEq] at H
      obtain ⟨rfl, _, _⟩ := H
      unfold edgeAt at he ⊢
      by_cases hx : x = id
      · subst hx
        rw [updateNode_same] at he
        cases hn : tm x with
        | some n =>
          simp only [hn, Option.isSome_some, if_true, Option.map_some'] at he
          exact he
        | none =>
          simp only [hn, Option.isSome_none, Bool.false_eq_true, if_false,
            Function.update_same, Option.map_some'] at he
          simp [setTsHash, NewNodeExplicit_Edges] at he
      · rw [updateNode_other _ _ _ hx] at he
        cases hn : tm id with
        | some n =>
          simp only [hn, Option.isSome_some, if_true] at he
          exact he
        | none =>
          simp only [hn, Option.isSome_none, Bool.false_eq_true, if_false,
            Function.update_noteq hx] at he
          exact he

theorem addInjectedService_edgeAt_back {env : Env} {o : TelemetryOptions}
    {tm tm2 : TrafficMap} {dc dns dsn i : String}
    (H : addInjectedService env o tm dc dns dsn = .ok (tm2, i))
    {x y q : String} {e : Edge} (he : edgeAt tm2 x y q = some e) :
    edgeAt tm x y q = some e := by
  unfold addInjectedService at H
  cases hn : addNode env o tm dc dns dsn "" "" "" "" "" with
  | error e => simp [hn] at H
  | ok res =>
    obtain ⟨t, r, fd⟩ := res
    cases r with
    | none => simp [hn] at H
    | some j =>
      simp only [hn, Except.ok.injEq, Prod.mk.injEq] at H
      obtain ⟨rfl, _⟩ := H
      exact addNode_edgeAt_back hn he

theorem edgeAt_isSome {tm : TrafficMap} {x y q : String} {e : Edge}
    (he : edgeAt tm x y q = some e) : (tm x).isSome := by
  unfold edgeAt at he
  cases hn : tm x with
  | none => simp [hn] at he
  | some n => rfl

/-- The first pod-graph block on a map without edges. -/
theorem addTrafficPodDest_edgesOnce {env : Env} {o : TelemetryOptions} {tm tm2 : TrafficMap}
    {metric : String} {v : Val} {p c f h dc dns dsn d i nt : String}
    (hid : Id env.IsOKVersion dc dns dsn "" "" "" "" o.GraphType "" = .ok (i, nt))
    (hinv : EdgesOnce v p [] tm)
    (H : addTrafficPodDest env o tm metric v p c f h dc dns dsn d = .ok tm2) :
    EdgesOnce v p [(i, d)] tm2 ∧ ∃ e, edgeAt tm2 i d p = some e := by
  unfold addTrafficPodDest at H
  cases hinj : addInjectedService env o tm dc dns dsn with
  | error e => simp [hinj] at H
  | ok res =>
    obtain ⟨t1, i2⟩ := res
    obtain ⟨nt2, hid2, _, _, _⟩ := addInjectedService_inv hinj
    rw [hid] at hid2
    simp only [Except.ok.injEq, Prod.mk.injEq] at hid2
    obtain ⟨rfl, rfl⟩ := hid2
    have hinv1 := addInjectedService_edgesOnce hinj hinv
    simp only [hinj] at H
    split at H
    · cases H
    · rename_i t2 b ha
      simp only [Except.ok.injEq] at H
      subst H
      obtain ⟨hinv2, _⟩ := addEdgeTraffic_edgesOnce hinv1 ha
        (fun e he => by rw [hinv1.edgeAt_nil] at he; cases he)
      obtain ⟨_, _, did, hdid, hh⟩ := addEdgeTraffic_post ha
      have hd : did = d := hinv1.once_hasID hdid
      subst hd
      exact ⟨addToDestServicesAt_edgesOnce hinv2 _ _ _ _,
        ((addToDestServicesAt_ext _ _ _ _ _).edgeHolds hh).exists⟩

/-- The second pod-graph block on a map whose edges each had the value applied once: if the
hop has an edge already, that edge has to hold the fingerprint of this block. -/
theorem addTrafficPodSource_edgesOnce {env : Env} {o : TelemetryOptions} {tm tm2 : TrafficMap}
    {metric : String} {v : Val} {p c f h dc dns dsn s i nt : String}
    {hops : List (String × String)}
    (hid : Id env.IsOKVersion dc dns dsn "" "" "" "" o.GraphType "" = .ok (i, nt))
    (hinv : EdgesOnce v p hops tm)
    (H : addTrafficPodSource env o tm metric v p c f h dc dns dsn s = .ok tm2)
    (hdup : ∀ e, edgeAt tm s i p = some e →
      edgeHolds tm s i p
        (edgeTSHashOf env metric
          (if s = i then some (timeSeriesHash env dc dns dsn "" "" "" "" "")
            else tsHashAt tm s)
          (some (timeSeriesHash env dc dns dsn "" "" "" "" "")) c f h) ∧
      appNotIngressAt tm s) :
    EdgesOnce v p ((s, i) :: hops) tm2 ∧ ∃ e, edgeAt tm2 s i p = some e := by
  unfold addTrafficPodSource at H
  cases hinj : addInjectedService env o tm dc dns dsn with
  | error e => simp [hinj] at H
  | ok res =>
    obtain ⟨t1, i2⟩ := res
    obtain ⟨nt2, hid2, _, hrow, hts⟩ := addInjectedService_inv hinj
    rw [hid] at hid2
    simp only [Except.ok.injEq, Prod.mk.injEq] at hid2
    obtain ⟨rfl, rfl⟩ := hid2
    have hinv1 := addInjectedService_edgesOnce hinj hinv
    simp only [hinj] at H
    have hE : tsHashAt t1 i = some (timeSeriesHash env dc dns dsn "" "" "" "" "") := by
      rw [hts]; simp
    rw [hE, hts s] at H
    split at H
    · cases H
    · rename_i t2 b ha
      simp only [Except.ok.injEq] at H
      subst H
      obtain ⟨hinv2, _⟩ := addEdgeTraffic_edgesOnce hinv1 ha (fun e he => by
        have he0 := addInjectedService_edgeAt_back hinj he
        obtain ⟨hh, hi⟩ := hdup e he0
        exact ⟨(hrow "" "" "").1.edgeHolds hh,
          fun _ => (hrow "" "" "").1.app_ne (edgeAt_isSome he0) hi⟩)
      obtain ⟨_, _, iid, hiid, hh⟩ := addEdgeTraffic_post ha
      have hi : iid = i := hinv1.once_hasID hiid
      subst hi
      exact ⟨addToDestServicesAt_edgesOnce hinv2 _ _ _ _,
        ((addToDestServicesAt_ext _ _ _ _ _).edgeHolds hh).exists⟩

theorem Ext.edgeAt_exists {t1 t2 : TrafficMap} (h : Ext t1 t2) {x y q : String}
    (he : ∃ e, edgeAt t1 x y q = some e) : ∃ e, edgeAt t2 x y q = some e := by
  obtain ⟨e, he⟩ := he
  unfold edgeAt at he
  cases hn : t1 x with
  | none => simp [hn] at he
  | some n =>
    rw [hn] at he
    simp only at he
    obtain ⟨n2, hn2, ext⟩ := h x n hn
    obtain ⟨e2, he2, _⟩ := ext.2.2 y q e he
    refine ⟨e2, ?_⟩
    unfold edgeAt
    rw [hn2]
    exact he2

/-- On a traffic map whose nodes have no edges (the empty map is one), a row leaves exactly
one edge per hop it feeds, with the value applied once, and no other edge. -/
theorem addTraffic_edgesOnce {env : Env} {o : TelemetryOptions} {tm tm1 : TrafficMap}
    {metric : String} {inject : Bool} {v : Val}
    {p c f h sc sns ssv sw sa sver dc dns dsn dwns dw da dver sp dp : String}
    (hinv : EdgesOnce v p [] tm)
    (H : addTraffic env o tm metric inject v p c f h sc sns ssv sw sa sver
      dc dns dsn dwns dw da dver sp dp = .ok tm1)
    (hSrc : o.GraphType = GraphTypePod → ∀ id nt,
      Id env.IsOKVersion sc sns ssv sns sw sa sver o.GraphType sp = .ok (id, nt) →
      appNotIngressAt tm1 id) :
    (nilNode dns dsn dwns → EdgesOnce v p [] tm1) ∧
    ∀ s snt d dnt i,
      Id env.IsOKVersion sc sns ssv sns sw sa sver o.GraphType sp = .ok (s, snt) →
      Id env.IsOKVersion dc dns dsn dwns dw da dver o.GraphType dp = .ok (d, dnt) →
      ¬ nilNode dns dsn dwns →
      ((o.GraphType = GraphTypePod ∨ inject = true) →
        ∃ nt, Id env.IsOKVersion dc dns dsn "" "" "" "" o.GraphType "" = .ok (i, nt)) →
      EdgesOnce v p (hopsOf o inject s d i sns dns sp dp) tm1 ∧
      ∀ hop ∈ hopsOf o inject s d i sns dns sp dp, ∃ e, edgeAt tm1 hop.1 hop.2 p = some e := by
  unfold addTraffic at H
  cases hS : addNode env o tm sc sns ssv sns sw sa sver sp with
  | error e => simp [hS] at H
  | ok resS =>
    obtain ⟨a1, src, fs⟩ := resS
    simp only [hS] at H
    have hinv1 := addNode_edgesOnce hS hinv
    cases hD : addNode env o a1 dc dns dsn dwns dw da dver dp with
    | error e => simp [hD] at H
    | ok resD =>
      obtain ⟨a2, dst, fd⟩ := resD
      simp only [hD] at H
      have hinv2 := addNode_edgesOnce hD hinv1
      rcases addNode_inv hD with ⟨hnilD, rfl, rfl⟩ | ⟨hnnD, d2, dnt2, rfl, hidD, _, _, _⟩
      · simp only [Except.ok.injEq] at H
        subst H
        exact ⟨fun _ => hinv1, fun _ _ _ _ _ _ _ hnn => absurd hnilD hnn⟩
      · refine ⟨fun hnil => absurd hnil hnnD, ?_⟩
        intro s snt d dnt i hidS' hidD' _ hidI
        rw [hidD] at hidD'
        simp only [Except.ok.injEq, Prod.mk.injEq] at hidD'
        obtain ⟨rfl, rfl⟩ := hidD'
        rcases addNode_inv hS with ⟨_, rfl, _⟩ | ⟨_, s2, snt2, rfl, hidS, _, _, _⟩
        · simp at H
        rw [hidS] at hidS'
        simp only [Except.ok.injEq, Prod.mk.injEq] at hidS'
        obtain ⟨rfl, rfl⟩ := hidS'
        simp only at H
        by_cases hg : o.GraphType = GraphTypePod
        · obtain ⟨nt, hid⟩ := hidI (Or.inl hg)
          have hAppS : appNotIngressAt tm1 s2 := hSrc hg s2 snt2 hidS
          simp only [hg, if_true] at H
          simp only [hopsOf, hg, if_true]
          by_cases hdp : dp ≠ ""
          · rw [if_pos hdp] at H
            rw [if_pos hdp]
            cases hPD : addTrafficPodDest env o a2 metric v p c f h dc dns dsn d2 with
            | error e => simp [hPD] at H
            | ok a3 =>
              simp only [hPD] at H
              obtain ⟨hinv3, hex3⟩ := addTrafficPodDest_edgesOnce hid hinv2 hPD
              obtain ⟨i2, nt2, hid2, _, _, _, _, did, hdid3, hh3⟩ := addTrafficPodDest_post hPD
              rw [hid] at hid2
              simp only [Except.ok.injEq, Prod.mk.injEq] at hid2
              obtain ⟨rfl, rfl⟩ := hid2
              have hd : did = d2 := hinv3.once_hasID hdid3
              subst hd
              by_cases hc : (sp ≠ "" ∨ sns = "ingress-nginx" ∨ sns = "unknown") ∧ dns ≠ "unknown"
              · rw [if_pos hc] at H
                rw [if_pos hc]
                obtain ⟨_, _, _, hrow4, _⟩ := addTrafficPodSource_post H
                obtain ⟨hinv4, hex4⟩ := addTrafficPodSource_edgesOnce hid hinv3 H (fun e he => by
                  have hmem := hinv3.edgeAt_mem he
                  simp only [List.mem_singleton, Prod.mk.injEq] at hmem
                  obtain ⟨h1, h2⟩ := hmem
                  refine ⟨?_, hrow4.1.appNotIngressAt_back hAppS⟩
                  subst h1
                  subst h2
                  simpa using hh3)
                refine ⟨hinv4.mono ?_, ?_⟩
                · intro x hx
                  simp only [List.mem_cons, List.mem_singleton, List.not_mem_nil, or_false,
                    List.mem_append] at hx ⊢
                  tauto
                · intro hop hhop
                  simp only [List.mem_append, List.mem_singleton] at hhop
                  rcases hhop with rfl | rfl
                  · exact hrow4.1.edgeAt_exists hex3
                  · exact hex4
              · rw [if_neg hc] at H
                rw [if_neg hc]
                simp only [Except.ok.injEq] at H
                subst H
                refine ⟨by simpa using hinv3, ?_⟩
                intro hop hhop
                simp only [List.append_nil, List.mem_singleton] at hhop
                subst hhop
                exact hex3
          · rw [if_neg hdp] at H
            rw [if_neg hdp]
            simp only at H
            by_cases hc : (sp ≠ "" ∨ sns = "ingress-nginx" ∨ sns = "unknown") ∧ dns ≠ "unknown"
            · rw [if_pos hc] at H
              rw [if_pos hc]
              obtain ⟨hinv4, hex4⟩ := addTrafficPodSource_edgesOnce hid hinv2 H
                (fun e he => by rw [hinv2.edgeAt_nil] at he; cases he)
              refine ⟨by simpa using hinv4, ?_⟩
              intro hop hhop
              simp only [List.nil_append, List.mem_singleton] at hhop
              subst hhop
              exact hex4
            · rw [if_neg hc] at H
              rw [if_neg hc]
              simp only [Except.ok.injEq] at H
              subst H
              exact ⟨by simpa using hinv2, fun hop hhop => by simp at hhop⟩
        · simp only [hg, if_false] at H
          simp only [hopsOf, hg, if_false]
          cases inject with
          | false =>
            simp only [Bool.false_eq_true, if_false] at H ⊢
            obtain ⟨h1, h2⟩ := addTrafficDirect_edgesOnce hinv2 H
            refine ⟨h1, fun hop hhop => ?_⟩
            simp only [List.mem_singleton] at hhop
            subst hhop
            exact h2
          | true =>
            simp only [if_true] at H ⊢
            obtain ⟨nt, hid⟩ := hidI (Or.inr rfl)
            obtain ⟨h1, h2, h3⟩ := addTrafficInjected_edgesOnce hg hid hinv2 H
            refine ⟨h1, fun hop hhop => ?_⟩
            simp only [List.mem_cons, List.mem_singleton, List.not_mem_nil, or_false] at hhop
            rcases hhop with rfl | rfl
            · exact h2
            · exact h3

/-! ### The values applied by one row -/

theorem edgeMatches_iff (d p : String) (e : Edge) :
    edgeMatches d p e = true ↔ e.Dest = d ∧ e.Metadata.protocol = some p := by
  simp only [edgeMatches, Bool.and_eq_true, beq_iff_eq]
  exact ⟨fun h => ⟨h.1.symm, h.2⟩, fun h => ⟨h.1.symm, h.2⟩⟩

theorem find_modifyFirstEdge_other (d p d2 p2 : String) (f : Edge → Edge)
    (hf : ∀ e, (f e).Dest = e.Dest ∧ (f e).Metadata.protocol = e.Metadata.protocol)
    (hne : ¬ (d2 = d ∧ p2 = p)) (l : List Edge) :
    (modifyFirstEdge d p f l).find? (edgeMatches d2 p2) = l.find? (edgeMatches d2 p2) := by
  induction l with
  | nil => rfl
  | cons a rest ih =>
    by_cases ha : edgeMatches d p a = true
    · rw [modifyFirstEdge_cons_pos d p f a rest ha]
      have hna : ¬ edgeMatches d2 p2 a = true := by
        intro h2
        rw [edgeMatches_iff] at ha h2
        apply hne
        refine ⟨h2.1.symm.trans ha.1, ?_⟩
        have := h2.2.symm.trans ha.2
        exact Option.some.inj this
      have hnf : ¬ edgeMatches d2 p2 (f a) = true := by
        intro h2
        apply hna
        rw [edgeMatches_iff] at h2 ⊢
        rw [(hf a).1, (hf a).2] at h2
        exact h2
      rw [List.find?_cons_of_neg _ hnf, List.find?_cons_of_neg _ hna]
    · rw [modifyFirstEdge_cons_neg d p f a rest ha]
      by_cases h2 : edgeMatches d2 p2 a = true
      · rw [List.find?_cons_of_pos _ h2, List.find?_cons_of_pos _ h2]
      · rw [List.find?_cons_of_neg _ h2, List.find?_cons_of_neg _ h2, ih]

theorem find_ensureEdge_other (d p d2 p2 : String) (hne : ¬ (d2 = d ∧ p2 = p)) (n : Node) :
    (ensureEdge d p n).Edges.find? (edgeMatches d2 p2) = n.Edges.find? (edgeMatches d2 p2) := by
  unfold ensureEdge
  cases hfind : n.Edges.find? (edgeMatches d p) with
  | some e => rfl
  | none =>
    have hnew : ¬ edgeMatches d2 p2
        { Dest := d,
          Metadata := { NewMetadata with protocol := some p, tsHashMap := some [] } } = true := by
      intro h2
      rw [edgeMatches_iff] at h2
      exact hne ⟨h2.1.symm, (Option.some.inj h2.2).symm⟩
    simp only [List.find?_append, List.find?_cons_of_neg _ hnew, List.find?_nil, Option.or_none]

theorem edgeAt_updateNode_edges (tm : TrafficMap) (k : String) (f : Node → Node)
    (hf : ∀ n, (f n).Edges = n.Edges) (x y q : String) :
    edgeAt (updateNode tm k f) x y q = edgeAt tm x y q := by
  unfold edgeAt
  rw [updateNode_apply]
  by_cases hx : x = k
  · rw [if_pos hx]
    cases tm x with
    | none => rfl
    | some n => simp only [Option.map_some', hf]
  · rw [if_neg hx]

theorem keyedByID_updateNode {tm : TrafficMap} (h : keyedByID tm) (k : String)
    (f : Node → Node) (hf : ∀ n, (f n).ID = n.ID) : keyedByID (updateNode tm k f) := by
  intro x n hn
  rw [updateNode_apply] at hn
  by_cases hx : x = k
  · rw [if_pos hx] at hn
    cases hm : tm x with
    | none => simp [hm] at hn
    | some m =>
      simp only [hm, Option.map_some', Option.some.injEq] at hn
      rw [← hn, hf]
      exact h x m hm
  · rw [if_neg hx] at hn
    exact h x n hn

theorem TrafficStep.keyedByID {t1 t2 : TrafficMap} (hstep : TrafficStep t1 t2)
    (h : keyedByID t1) : keyedByID t2 := by
  intro k n2 hn2
  cases hn : t1 k with
  | none =>
    rw [(hstep k).1 hn] at hn2
    cases hn2
  | some n =>
    obtain ⟨m, hm, hext, _⟩ := (hstep k).2 n hn
    rw [hm] at hn2
    cases hn2
    rw [hext.1]
    exact h k n hn

/-- The writes of `addNode` touch no edge, and keep every node under its id. -/
theorem addNode_edgeAt {env : Env} {o : TelemetryOptions} {tm tm2 : TrafficMap}
    {c sns sv wns w a ver pod : String} {r : Option String} {fd : Bool}
    (H : addNode env o tm c sns sv wns w a ver pod = .ok (tm2, r, fd)) :
    (∀ x y q, edgeAt tm2 x y q = edgeAt tm x y q) ∧ (keyedByID tm → keyedByID tm2) := by
  unfold addNode at H
  by_cases hnil : sns = "unknown" ∧ wns = "unknown" ∧ sv ≠ ""
  · rw [if_pos hnil] at H
    simp only [Except.ok.injEq, Prod.mk.injEq] at H
    rw [← H.1]
    exact ⟨fun _ _ _ => rfl, fun h => h⟩
  · rw [if_neg hnil] at H
    cases hid : Id env.IsOKVersion c sns sv wns w a ver o.GraphType pod with
    | error e => simp [hid] at H
    | ok res =>
      obtain ⟨id, nt⟩ := res
      simp only [hid, Except.ok.injEq, Prod.mk.injEq] at H
      obtain ⟨rfl, _, _⟩ := H
      cases hn : tm id with
      | some n =>
        simp only [hn, Option.isSome_some, if_true]
        exact ⟨fun x y q => edgeAt_updateNode_edges _ _ (setTsHash _) (fun _ => rfl) x y q,
          fun h => keyedByID_updateNode h _ (setTsHash _) (fun _ => rfl)⟩
      | none =>
        simp only [hn, Option.isSome_none, Bool.false_eq_true, if_false]
        refine ⟨fun x y q => ?_, fun h => keyedByID_updateNode ?_ _ (setTsHash _) (fun _ => rfl)⟩
        · rw [edgeAt_updateNode_edges _ _ (setTsHash _) (fun _ => rfl)]
          unfold edgeAt
          by_cases hx : x = id
          · subst hx
            rw [Function.update_same, hn]
            simp [NewNodeExplicit_Edges]
          · rw [Function.update_noteq hx]
        · intro k n2 hn2
          by_cases hx : k = id
          · subst hx
            rw [Function.update_same] at hn2
            cases hn2
            exact NewNodeExplicit_ID _ _ _ _ _ _ _ _ _ _
          · rw [Function.update_noteq hx] at hn2
            exact h k n2 hn2

theorem addInjectedService_edgeAt {env : Env} {o : TelemetryOptions}
    {tm tm2 : TrafficMap} {dc dns dsn i : String}
    (H : addInjectedService env o tm dc dns dsn = .ok (tm2, i)) :
    (∀ x y q, edgeAt tm2 x y q = edgeAt tm x y q) ∧ (keyedByID tm → keyedByID tm2) := by
  unfold addInjectedService at H
  cases hn : addNode env o tm dc dns dsn "" "" "" "" "" with
  | error e => simp [hn] at H
  | ok res =>
    obtain ⟨t, r, fd⟩ := res
    cases r with
    | none => simp [hn] at H
    | some j =>
      simp only [hn, Except.ok.injEq, Prod.mk.injEq] at H
      obtain ⟨rfl, _⟩ := H
      exact addNode_edgeAt hn

theorem addToDestServicesAt_edgeAt (tm : TrafficMap) (k c ns sv x y q : String) :
    edgeAt (addToDestServicesAt tm k c ns sv) x y q = edgeAt tm x y q :=
  edgeAt_updateNode_edges tm k (addToDestServicesNode c ns sv) (fun _ => rfl) x y q

theorem addToDestServicesAt_keyedByID {tm : TrafficMap} (h : keyedByID tm)
    (k c ns sv : String) : keyedByID (addToDestServicesAt tm k c ns sv) :=
  keyedByID_updateNode h k (addToDestServicesNode c ns sv) (fun _ => rfl)

theorem valuesAt_congr {t1 t2 : TrafficMap} {x y q : String}
    (h : edgeAt t2 x y q = edgeAt t1 x y q) : valuesAt t2 x y q = valuesAt t1 x y q := by
  unfold valuesAt
  rw [h]

theorem edgeHolds_congr {t1 t2 : TrafficMap} {x y q E : String}
    (h : edgeAt t2 x y q = edgeAt t1 x y q) : edgeHolds t2 x y q E ↔ edgeHolds t1 x y q E := by
  unfold edgeHolds
  rw [h]

/-- `addEdgeTraffic` on an edge that does not hold the fingerprint (or is not there yet): the
call returns true, the value is applied to that edge, once, and every other edge is left as
it was. -/
theorem addEdgeTraffic_applies {o : TelemetryOptions} {tm tm2 : TrafficMap} {v : Val}
    {p c f h s d E : String} {b : Bool}
    (hk : keyedByID tm)
    (H : addEdgeTraffic o tm v p c f h s d E = .ok (tm2, b))
    (hfresh : ¬ edgeHolds tm s d p E) :
    b = true ∧ valuesAt tm2 s d p = valuesAt tm s d p ++ [v] ∧
      ∀ x y q, ¬ (x = s ∧ y = d ∧ q = p) → edgeAt tm2 x y q = edgeAt tm x y q := by
  obtain ⟨sn, dn, hs, hd, _⟩ := addEdgeTraffic_holds H
  have hdn : dn.ID = d := hk d dn hd
  have hat : edgeAt tm s d p = sn.Edges.find? (edgeMatches d p) := by
    unfold edgeAt
    rw [hs]
  obtain ⟨e, he, hcase⟩ := find_ensureEdge dn.ID p sn
  rw [hdn] at he hcase
  have hval : valuesAt tm s d p = edgeValues e := by
    unfold valuesAt
    rw [hat]
    rcases hcase with h1 | ⟨h1, h2⟩
    · rw [h1]
    · rw [h1, h2]
      rfl
  unfold addEdgeTraffic at H
  simp only [hs, hd, hdn, he] at H
  cases hm : e.Metadata.tsHashMap with
  | none => simp [hm] at H
  | some hashes =>
    have hnot : E ∉ hashes := by
      intro hmem
      rcases hcase with h1 | ⟨_, h2⟩
      · exact hfresh ⟨e, hashes, hat.trans h1, hm, hmem⟩
      · rw [h2] at hm
        simp only [Option.some.injEq] at hm
        rw [← hm] at hmem
        cases hmem
    simp only [hm, hnot, not_false_eq_true, if_true, ite_self, Except.ok.injEq,
      Prod.mk.injEq] at H
    obtain ⟨rfl, rfl⟩ := H
    refine ⟨rfl, ?_, ?_⟩
    · rw [hval]
      unfold valuesAt
      rw [AddToMetadata_edgeAt, edgeAt_marked tm s d p E sn e hs he]
      simp only [Option.map_some', edgeValues_recordOnEdge]
      rfl
    · intro x y q hne
      by_cases hx : x = s
      · subst hx
        have hne2 : ¬ (y = d ∧ q = p) := fun hyq => hne ⟨rfl, hyq.1, hyq.2⟩
        have hmid : updateNode (updateNode tm x (ensureEdge d p)) x (markApplied d p E) x =
            some (markApplied d p E (ensureEdge d p sn)) := by
          rw [updateNode_same, updateNode_same, hs]
          rfl
        obtain ⟨n2, hn2, _, hed⟩ := AddToMetadata_source_edges _ p v c f h x d d _ hmid
        unfold edgeAt
        rw [hn2, hs]
        simp only
        rw [hed]
        rw [find_modifyFirstEdge_other d p y q (recordOnEdge p v c f h) (fun _ => ⟨rfl, rfl⟩)
          hne2]
        show (modifyFirstEdge d p (markEdge E) (ensureEdge d p sn).Edges).find?
          (edgeMatches y q) = _
        rw [find_modifyFirstEdge_other d p y q (markEdge E) (fun _ => ⟨rfl, rfl⟩) hne2,
          find_ensureEdge_other d p y q hne2]
      · obtain ⟨g, hg, hmap⟩ := AddToMetadata_other
          (updateNode (updateNode tm s (ensureEdge d p)) s (markApplied d p E))
          p v c f h s d d x hx
        unfold edgeAt
        rw [hmap, updateNode_other _ _ _ hx, updateNode_other _ _ _ hx]
        cases tm x with
        | none => rfl
        | some n => simp only [Option.map_some', (hg n).2]

/-- The injection branch on a row that is no duplicate on either edge: each of the two edges
gets the value, once. -/
theorem addTrafficInjected_applies {env : Env} {o : TelemetryOptions} {tm tm2 : TrafficMap}
    {v : Val} {p c f h dc dns dsn s d E i nt : String}
    (hg : o.GraphType ≠ GraphTypePod) (hk : keyedByID tm)
    (hid : Id env.IsOKVersion dc dns dsn "" "" "" "" o.GraphType "" = .ok (i, nt))
    (H : addTrafficInjected env o tm v p c f h dc dns dsn s d E = .ok tm2)
    (hf1 : ¬ edgeHolds tm s i p E) (hf2 : ¬ edgeHolds tm i d p E) :
    valuesAt tm2 s i p = valuesAt tm s i p ++ [v] ∧
      valuesAt tm2 i d p = valuesAt tm i d p ++ [v] := by
  unfold addTrafficInjected at H
  cases hinj : addInjectedService env o tm dc dns dsn with
  | error e => simp [hinj] at H
  | ok res =>
    obtain ⟨t1, i2⟩ := res
    obtain ⟨nt2, hid2, _, _, _⟩ := addInjectedService_inv hinj
    rw [hid] at hid2
    simp only [Except.ok.injEq, Prod.mk.injEq] at hid2
    obtain ⟨rfl, rfl⟩ := hid2
    obtain ⟨he1, hk1⟩ := addInjectedService_edgeAt hinj
    simp only [hinj] at H
    cases ha : addEdgeTraffic o t1 v p c f h s i E with
    | error e => simp [ha] at H
    | ok res1 =>
      obtain ⟨t2, b1⟩ := res1
      obtain ⟨hb1, hv1, ho1⟩ := addEdgeTraffic_applies (hk1 hk) ha
        (fun hh => hf1 ((edgeHolds_congr (he1 s i p)).1 hh))
      subst hb1
      simp only [ha] at H
      have hk3 : keyedByID (addToDestServicesAt t2 i dc dns dsn) :=
        addToDestServicesAt_keyedByID ((addEdgeTraffic_step ha).keyedByID (hk1 hk)) _ _ _ _
      by_cases hne : s = i ∧ i = d
      · -- the two edges are one self-loop: the second call finds the fingerprint on it
        obtain ⟨rfl, rfl⟩ := hne
        obtain ⟨sn, dn, hs1, _, hh1⟩ := addEdgeTraffic_holds ha
        have hdn : dn.ID = s := hk1 hk s dn (by assumption)
        rw [hdn] at hh1
        cases hs3 : addToDestServicesAt t2 s dc dns dsn s with
        | none =>
          obtain ⟨e, _, he, _⟩ := hh1
          unfold edgeAt at he
          have hnone : t2 s = none := by
            cases ht : t2 s with
            | none => rfl
            | some n => simp [addToDestServicesAt, updateNode_same, ht] at hs3
          rw [hnone] at he
          cases he
        | some n3 =>
          have hid3 : n3.ID = s := hk3 s n3 hs3
          have hh3 : edgeHolds (addToDestServicesAt t2 s dc dns dsn) s n3.ID p E := by
            rw [hid3]
            exact (edgeHolds_congr (addToDestServicesAt_edgeAt t2 s dc dns dsn s s p)).2 hh1
          rw [addEdgeTraffic_dup hs3 hs3 hh3 (fun hpa => hg hpa.1)] at H
          simp only [Except.ok.injEq] at H
          subst H
          have hv : valuesAt (addToDestServicesAt (addToDestServicesAt t2 s dc dns dsn) s
              dc dns dsn) s s p = valuesAt tm s s p ++ [v] := by
            rw [valuesAt_congr (addToDestServicesAt_edgeAt _ s dc dns dsn s s p),
              valuesAt_congr (addToDestServicesAt_edgeAt t2 s dc dns dsn s s p), hv1,
              valuesAt_congr (he1 s s p)]
          exact ⟨hv, hv⟩
      · have hne1 : ¬ (i = s ∧ d = i ∧ p = p) := fun hh => hne ⟨hh.1.symm, hh.2.1.symm⟩
        have hne2 : ¬ (s = i ∧ i = d ∧ p = p) := fun hh => hne ⟨hh.1, hh.2.1⟩
        have he3 : edgeAt (addToDestServicesAt t2 i dc dns dsn) i d p = edgeAt tm i d p := by
          rw [addToDestServicesAt_edgeAt, ho1 i d p hne1, he1]
        cases ha2 : addEdgeTraffic o (addToDestServicesAt t2 i dc dns dsn) v p c f h i d E
          with
        | error e => simp [ha2] at H
        | ok res2 =>
          obtain ⟨t4, b2⟩ := res2
          obtain ⟨_, hv2, ho2⟩ := addEdgeTraffic_applies hk3 ha2
            (fun hh => hf2 ((edgeHolds_congr he3).1 hh))
          simp only [ha2, Except.ok.injEq] at H
          subst H
          constructor
          · rw [valuesAt_congr (addToDestServicesAt_edgeAt t4 d dc dns dsn s i p),
              valuesAt_congr (ho2 s i p hne2),
              valuesAt_congr (addToDestServicesAt_edgeAt t2 i dc dns dsn s i p), hv1,
              valuesAt_congr (he1 s i p)]
          · rw [valuesAt_congr (addToDestServicesAt_edgeAt t4 d dc dns dsn i d p), hv2,
              valuesAt_congr he3]

set_option maxRecDepth 100000

/-- Applying a row a second time leaves the traffic map as the first application left it,
when, in a pod graph, neither the source node of the row nor the node stored under the id of
the row's injected service node has the App "ingress-nginx"; from the empty map the result
has exactly one edge per hop, with the value applied once. -/
theorem addTraffic_twice_of_clean_service_node (env : Env) (o : TelemetryOptions) (tm tm1 : TrafficMap)
    (metric : String) (inject : Bool) (v : Val)
    (p c f h sc sns ssv sw sa sver dc dns dsn dwns dw da dver sp dp : String)
    (H : addTraffic env o tm metric inject v p c f h sc sns ssv sw sa sver
      dc dns dsn dwns dw da dver sp dp = .ok tm1)
    (hSrc : o.GraphType = GraphTypePod → ∀ id nt,
      Id env.IsOKVersion sc sns ssv sns sw sa sver o.GraphType sp = .ok (id, nt) →
      appNotIngressAt tm1 id)
    (hInj : o.GraphType = GraphTypePod →
      appNotIngressAt tm ("svc_" ++ dc ++ "_" ++ dns ++ "_" ++ dsn)) :
    addTraffic env o tm1 metric inject v p c f h sc sns ssv sw sa sver
      dc dns dsn dwns dw da dver sp dp = .ok tm1 ∧
    (tm = NewTrafficMap →
      (nilNode dns dsn dwns → EdgesOnce v p [] tm1) ∧
      ∀ s snt d dnt i,
        Id env.IsOKVersion sc sns ssv sns sw sa sver o.GraphType sp = .ok (s, snt) →
        Id env.IsOKVersion dc dns dsn dwns dw da dver o.GraphType dp = .ok (d, dnt) →
        ¬ nilNode dns dsn dwns →
        ((o.GraphType = GraphTypePod ∨ inject = true) →
          ∃ nt, Id env.IsOKVersion dc dns dsn "" "" "" "" o.GraphType "" = .ok (i, nt)) →
        EdgesOnce v p (hopsOf o inject s d i sns dns sp dp) tm1 ∧
        ∀ hop ∈ hopsOf o inject s d i sns dns sp dp,
          ∃ e, edgeAt tm1 hop.1 hop.2 p = some e) := by
  refine ⟨?_, fun htm => ?_⟩
  · by_cases hg : o.GraphType = GraphTypePod
    · refine addTraffic_twice_pod hg H (fun id nt n hid hn => ?_)
      rcases hid with hid | hid
      · exact hSrc hg id nt hid n hn
      · rw [hg, Id_injected_pod] at hid
        simp only [Except.ok.injEq, Prod.mk.injEq] at hid
        obtain ⟨rfl, _⟩ := hid
        exact addTraffic_injected_appNotIngress hg H (hInj hg) n hn
    · exact addTraffic_twice_not_pod hg H
  · subst htm
    exact addTraffic_edgesOnce (EdgesOnce_empty v p) H hSrc

/-- In a pod graph `addTraffic` never puts a node with the App "ingress-nginx" under an id
that starts with "svc_": a traffic map without such a node stays without one. -/
theorem addTraffic_svc_appNotIngress {env : Env} {o : TelemetryOptions}
    {tm tm1 : TrafficMap} {metric : String} {inject : Bool} {v : Val}
    {p c f h sc sns ssv sw sa sver dc dns dsn dwns dw da dver sp dp X : String}
    (hg : o.GraphType = GraphTypePod)
    (H : addTraffic env o tm metric inject v p c f h sc sns ssv sw sa sver
      dc dns dsn dwns dw da dver sp dp = .ok tm1)
    (hX : appNotIngressAt tm ("svc_" ++ X)) :
    appNotIngressAt tm1 ("svc_" ++ X) := by
  have hnew : ∀ (c sns sv wns w a ver pod nt ns : String),
      Id env.IsOKVersion c sns sv wns w a ver o.GraphType pod = .ok ("svc_" ++ X, nt) →
      (NewNodeExplicit ("svc_" ++ X) c ns w a ver sv nt o.GraphType pod).App ≠
        "ingress-nginx" := by
    intro c sns sv wns w a ver pod nt ns hid
    rw [hg] at hid ⊢
    exact NewNodeExplicit_app_of_svc_id env.IsOKVersion c sns sv wns w a ver pod _ nt _ ns hid
  unfold addTraffic at H
  cases hS : addNode env o tm sc sns ssv sns sw sa sver sp with
  | error e => simp [hS] at H
  | ok resS =>
    obtain ⟨a1, src, fs⟩ := resS
    simp only [hS] at H
    have h1 := addNode_appNotIngressAt hS hX (fun nt ns => hnew _ _ _ _ _ _ _ _ nt ns)
    cases hD : addNode env o a1 dc dns dsn dwns dw da dver dp with
    | error e => simp [hD] at H
    | ok resD =>
      obtain ⟨a2, dst, fd⟩ := resD
      simp only [hD] at H
      have h2 := addNode_appNotIngressAt hD h1 (fun nt ns => hnew _ _ _ _ _ _ _ _ nt ns)
      cases dst with
      | none =>
        simp only [Except.ok.injEq] at H
        subst H
        exact h2
      | some d =>
        cases src with
        | none => simp at H
        | some s =>
          simp only [hg, if_true] at H
          split at H
          · cases H
          · rename_i a3 h3eq
            have h3 : appNotIngressAt a3 ("svc_" ++ X) := by
              split_ifs at h3eq
              · exact addTrafficPodDest_appNotIngressAt hg h3eq h2
              · simp only [Except.ok.injEq] at h3eq
                subst h3eq
                exact h2
            split_ifs at H
            · exact addTrafficPodSource_appNotIngressAt hg H h3
            · simp only [Except.ok.injEq] at H
              subst H
              exact h3

/-- No traffic map of the builder of a pod graph holds a node with the App "ingress-nginx"
under an id that starts with "svc_": `addNode` is the only writer, and `NewNodeExplicit`
clears the App of a service node (`types.go` lines 120-123). -/
theorem Built.svc_appNotIngress {env : Env} {o : TelemetryOptions} {tm : TrafficMap}
    (hb : Built env o tm) (hg : o.GraphType = GraphTypePod) (X : String) :
    appNotIngressAt tm ("svc_" ++ X) := by
  induction hb with
  | empty =>
    intro n hn
    simp [NewTrafficMap] at hn
  | row _ H ih => exact addTraffic_svc_appNotIngress hg H ih

/-- C1. For every graph type, every traffic map of the builder and every metric row for
which `addTraffic` completes and whose source node does not have the App "ingress-nginx" (a
condition that only a pod graph needs): applying the row a second time leaves the traffic
map exactly as the first application left it. In particular, from the empty map the result
has exactly one edge per hop, the value has been applied to it exactly once, and there is no
other edge. -/
theorem addTraffic_twice_is_once (env : Env) (o : TelemetryOptions) (tm tm1 : TrafficMap)
    (metric : String) (inject : Bool) (v : Val)
    (p c f h sc sns ssv sw sa sver dc dns dsn dwns dw da dver sp dp : String)
    (hb : Built env o tm)
    (H : addTraffic env o tm metric inject v p c f h sc sns ssv sw sa sver
      dc dns dsn dwns dw da dver sp dp = .ok tm1)
    (hSrc : o.GraphType = GraphTypePod → ∀ id nt,
      Id env.IsOKVersion sc sns ssv sns sw sa sver o.GraphType sp = .ok (id, nt) →
      appNotIngressAt tm1 id) :
    addTraffic env o tm1 metric inject v p c f h sc sns ssv sw sa sver
      dc dns dsn dwns dw da dver sp dp = .ok tm1 ∧
    (tm = NewTrafficMap →
      (nilNode dns dsn dwns → EdgesOnce v p [] tm1) ∧
      ∀ s snt d dnt i,
        Id env.IsOKVersion sc sns ssv sns sw sa sver o.GraphType sp = .ok (s, snt) →
        Id env.IsOKVersion dc dns dsn dwns dw da dver o.GraphType dp = .ok (d, dnt) →
        ¬ nilNode dns dsn dwns →
        ((o.GraphType = GraphTypePod ∨ inject = true) →
          ∃ nt, Id env.IsOKVersion dc dns dsn "" "" "" "" o.GraphType "" = .ok (i, nt)) →
        EdgesOnce v p (hopsOf o inject s d i sns dns sp dp) tm1 ∧
        ∀ hop ∈ hopsOf o inject s d i sns dns sp dp,
          ∃ e, edgeAt tm1 hop.1 hop.2 p = some e) := by
  refine addTraffic_twice_of_clean_service_node env o tm tm1 metric inject v
    p c f h sc sns ssv sw sa sver dc dns dsn dwns dw da dver sp dp H hSrc (fun hg => ?_)
  have hX := hb.svc_appNotIngress hg (dc ++ ("_" ++ (dns ++ ("_" ++ dsn))))
  simpa only [String.append_assoc] using hX

/-- C1 (witness). Pod graph, from the empty map, the example row reported by the destination
(pod "ratings-v1-abc"): the source node has an empty App, and the second application leaves
the traffic map as the first one left it. -/
theorem addTraffic_twice_is_once_witness :
    addExampleRow (exampleOptions GraphTypePod)
      (resultMap (addExampleRow (exampleOptions GraphTypePod) NewTrafficMap false ""
        "ratings-v1-abc")) false "" "ratings-v1-abc" =
    .ok (resultMap (addExampleRow (exampleOptions GraphTypePod) NewTrafficMap false ""
        "ratings-v1-abc")) := by
  refine (addTraffic_twice_is_once exampleEnv (exampleOptions GraphTypePod) NewTrafficMap
    (resultMap (addExampleRow (exampleOptions GraphTypePod) NewTrafficMap false ""
      "ratings-v1-abc")) "istio_requests_total" false 5 "http" "200" "-"
    "ratings.bookinfo.svc.cluster.local" "east" "bookinfo" "" "reviews-v1" "reviews" "v1"
    "east" "bookinfo" "ratings" "bookinfo" "ratings-v1" "ratings" "v1" "" "ratings-v1-abc"
    Built.empty rfl ?_).1
  intro _ id nt hid
  have h0 : graph.Id exampleEnv.IsOKVersion "east" "bookinfo" "" "bookinfo" "reviews-v1"
      "reviews" "v1" (exampleOptions GraphTypePod).GraphType "" =
      .ok ("svc_east_bookinfo_", "service") := rfl
  rw [h0] at hid
  simp only [Except.ok.injEq, Prod.mk.injEq] at hid
  obtain ⟨rfl, _⟩ := hid
  intro n hn
  have h1 : ((resultMap (addExampleRow (exampleOptions GraphTypePod) NewTrafficMap false ""
      "ratings-v1-abc")) "svc_east_bookinfo_").map (fun n => n.App) = some "" := by
    decide
  rw [hn] at h1
  simp only [Option.map_some', Option.some.injEq] at h1
  rw [h1]
  decide

/-- C4 (counterexample). Workload graph, from the empty map, the example row (value 5) with
injection: the edge from the workload "reviews-v1" to the injected service "ratings" and the
edge from that service to the workload "ratings-v1" each have had the value 5 applied, so the
two values sum to 10, not to the row's value. -/
theorem addTraffic_injection_doubles_the_value :
    valuesAt (resultMap (addExampleRow (exampleOptions GraphTypeWorkload) NewTrafficMap true
        "" "")) "wl_east_bookinfo_reviews-v1" "svc_east_bookinfo_ratings" "http" = [5] ∧
    valuesAt (resultMap (addExampleRow (exampleOptions GraphTypeWorkload) NewTrafficMap true
        "" "")) "svc_east_bookinfo_ratings" "wl_east_bookinfo_ratings-v1" "http" = [5] ∧
    (valuesAt (resultMap (addExampleRow (exampleOptions GraphTypeWorkload) NewTrafficMap true
        "" "")) "wl_east_bookinfo_reviews-v1" "svc_east_bookinfo_ratings" "http").sum +
      (valuesAt (resultMap (addExampleRow (exampleOptions GraphTypeWorkload) NewTrafficMap true
        "" "")) "svc_east_bookinfo_ratings" "wl_east_bookinfo_ratings-v1" "http").sum ≠ 5 := by
  have h1 : valuesAt (resultMap (addExampleRow (exampleOptions GraphTypeWorkload)
      NewTrafficMap true "" "")) "wl_east_bookinfo_reviews-v1" "svc_east_bookinfo_ratings"
      "http" = [5] := by decide
  have h2 : valuesAt (resultMap (addExampleRow (exampleOptions GraphTypeWorkload)
      NewTrafficMap true "" "")) "svc_east_bookinfo_ratings" "wl_east_bookinfo_ratings-v1"
      "http" = [5] := by decide
  refine ⟨h1, h2, ?_⟩
  rw [h1, h2]
  norm_num

/-- C4 (amended). For every graph type other than pod, when `addTraffic` is called with
injection and completes on a traffic map whose nodes are stored under their ids, for a row
with a destination node that is no duplicate (neither of the two edges it feeds holds the
row's fingerprint): each of the two edges, source to
injected service node and injected service node to destination, has the row's whole value
applied to it, once. -/
theorem addTraffic_injection_applies_value_to_each_edge (env : Env) (o : TelemetryOptions)
    (tm tm1 : TrafficMap) (metric : String) (v : Val)
    (p c f h sc sns ssv sw sa sver dc dns dsn dwns dw da dver sp dp : String)
    (s snt d dnt i int : String)
    (hg : o.GraphType ≠ GraphTypePod)
    (hk : keyedByID tm)
    (H : addTraffic env o tm metric true v p c f h sc sns ssv sw sa sver
      dc dns dsn dwns dw da dver sp dp = .ok tm1)
    (hnil : ¬ nilNode dns dsn dwns)
    (hs : Id env.IsOKVersion sc sns ssv sns sw sa sver o.GraphType sp = .ok (s, snt))
    (hd : Id env.IsOKVersion dc dns dsn dwns dw da dver o.GraphType dp = .ok (d, dnt))
    (hi : Id env.IsOKVersion dc dns dsn "" "" "" "" o.GraphType "" = .ok (i, int))
    (hf1 : ¬ edgeHolds tm s i p (rowEdgeTSHash env metric c f h s d
      (timeSeriesHash env sc sns ssv sns sw sa sver sp)
      (timeSeriesHash env dc dns dsn dwns dw da dver dp)))
    (hf2 : ¬ edgeHolds tm i d p (rowEdgeTSHash env metric c f h s d
      (timeSeriesHash env sc sns ssv sns sw sa sver sp)
      (timeSeriesHash env dc dns dsn dwns dw da dver dp))) :
    valuesAt tm1 s i p = valuesAt tm s i p ++ [v] ∧
      valuesAt tm1 i d p = valuesAt tm i d p ++ [v] := by
  unfold addTraffic at H
  cases hS : addNode env o tm sc sns ssv sns sw sa sver sp with
  | error e => simp [hS] at H
  | ok resS =>
    obtain ⟨a1, src, fs⟩ := resS
    simp only [hS] at H
    cases hD : addNode env o a1 dc dns dsn dwns dw da dver dp with
    | error e => simp [hD] at H
    | ok resD =>
      obtain ⟨a2, dst, fd⟩ := resD
      simp only [hD] at H
      rcases addNode_inv hD with ⟨hnilD, _, _⟩ | ⟨_, d2, dnt2, rfl, hidD, _, _, _⟩
      · exact absurd hnilD hnil
      rw [hd] at hidD
      simp only [Except.ok.injEq, Prod.mk.injEq] at hidD
      obtain ⟨rfl, rfl⟩ := hidD
      rcases addNode_inv hS with ⟨_, rfl, _⟩ | ⟨_, s2, snt2, rfl, hidS, _, _, _⟩
      · simp at H
      rw [hs] at hidS
      simp only [Except.ok.injEq, Prod.mk.injEq] at hidS
      obtain ⟨rfl, rfl⟩ := hidS
      simp only [hg, if_false, if_true] at H
      obtain ⟨_, _, _, hts2, _⟩ := registration hS hD
      obtain ⟨heS, hkS⟩ := addNode_edgeAt hS
      obtain ⟨heD, hkD⟩ := addNode_edgeAt hD
      have hE : edgeTSHashOf env metric (tsHashAt a2 s) (tsHashAt a2 d) c f h =
          rowEdgeTSHash env metric c f h s d
            (timeSeriesHash env sc sns ssv sns sw sa sver sp)
            (timeSeriesHash env dc dns dsn dwns dw da dver dp) := by
        rw [hts2 s, hts2 d]
        unfold rowEdgeTSHash
        by_cases hsd : s = d <;> simp [hsd]
      rw [hE] at H
      have hall : ∀ x y q, edgeAt a2 x y q = edgeAt tm x y q := fun x y q =>
        (heD x y q).trans (heS x y q)
      obtain ⟨h1, h2⟩ := addTrafficInjected_applies hg (hkD (hkS hk)) hi H
        (fun hh => hf1 ((edgeHolds_congr (hall s i p)).1 hh))
        (fun hh => hf2 ((edgeHolds_congr (hall i d p)).1 hh))
      rw [h1, h2, valuesAt_congr (hall s i p), valuesAt_congr (hall i d p)]
      exact ⟨rfl, rfl⟩

/-- C4 (witness). Workload graph, from the empty map, the example row with injection: the
empty map holds no edge, and each of the two edges of the result has the value 5. -/
theorem addTraffic_injection_applies_value_to_each_edge_witness :
    valuesAt (resultMap (addExampleRow (exampleOptions GraphTypeWorkload) NewTrafficMap true
        "" "")) "wl_east_bookinfo_reviews-v1" "svc_east_bookinfo_ratings" "http" =
      valuesAt NewTrafficMap "wl_east_bookinfo_reviews-v1" "svc_east_bookinfo_ratings" "http"
        ++ [5] ∧
    valuesAt (resultMap (addExampleRow (exampleOptions GraphTypeWorkload) NewTrafficMap true
        "" "")) "svc_east_bookinfo_ratings" "wl_east_bookinfo_ratings-v1" "http" =
      valuesAt NewTrafficMap "svc_east_bookinfo_ratings" "wl_east_bookinfo_ratings-v1" "http"
        ++ [5] :=
  addTraffic_injection_applies_value_to_each_edge exampleEnv
    (exampleOptions GraphTypeWorkload) NewTrafficMap
    (resultMap (addExampleRow (exampleOptions GraphTypeWorkload) NewTrafficMap true "" ""))
    "istio_requests_total" 5 "http" "200" "-" "ratings.bookinfo.svc.cluster.local"
    "east" "bookinfo" "" "reviews-v1" "reviews" "v1"
    "east" "bookinfo" "ratings" "bookinfo" "ratings-v1" "ratings" "v1" "" ""
    "wl_east_bookinfo_reviews-v1" "workload" "wl_east_bookinfo_ratings-v1" "workload"
    "svc_east_bookinfo_ratings" "service"
    (by decide) (fun _ _ hn => by simp [NewTrafficMap] at hn) rfl
    (fun hn => absurd hn.1 (by decide)) rfl rfl rfl
    (fun hh => by obtain ⟨e, _, he, _⟩ := hh; simp [edgeAt, NewTrafficMap] at he)
    (fun hh => by obtain ⟨e, _, he, _⟩ := hh; simp [edgeAt, NewTrafficMap] at he)

/-- C2 (evaluation at the failing input). Workload graph without injection, from the empty
map: the example row with the pod label "p-1", reported once by the source and once by the
destination, has its value applied twice to the one edge (values `[5, 5]`), where the row
alone gives `[5]`; with an empty pod label the second row is taken for the duplicate it
is. -/
theorem populateTrafficMap_reporter_pair_applied_twice :
    valuesAt (resultMap (populateTrafficMap exampleEnv (exampleOptionsDirect GraphTypeWorkload)
        NewTrafficMap [exampleSample "p-1" "source", exampleSample "p-1" "destination"]
        "istio_requests_total"))
      "wl_east_bookinfo_reviews-v1" "wl_east_bookinfo_ratings-v1" "http" = [5, 5] ∧
    valuesAt (resultMap (populateTrafficMap exampleEnv (exampleOptionsDirect GraphTypeWorkload)
        NewTrafficMap [exampleSample "p-1" "source"] "istio_requests_total"))
      "wl_east_bookinfo_reviews-v1" "wl_east_bookinfo_ratings-v1" "http" = [5] ∧
    valuesAt (resultMap (populateTrafficMap exampleEnv (exampleOptionsDirect GraphTypeWorkload)
        NewTrafficMap [exampleSample "" "source", exampleSample "" "destination"]
        "istio_requests_total"))
      "wl_east_bookinfo_reviews-v1" "wl_east_bookinfo_ratings-v1" "http" = [5] := by
  refine ⟨?_, ?_, ?_⟩ <;> decide

/-! ### Registration of a node -/

theorem NewNodeExplicit_NodeType (id c ns w a ver sv nt gt pod : String) :
    (NewNodeExplicit id c ns w a ver sv nt gt pod).NodeType = nt := by
  unfold NewNodeExplicit
  split_ifs <;> rfl

/-- C12. On a traffic map whose nodes are stored under their ids, when `addNode` returns a
node (stored under `id`): `id` is the id that `Id` gives to the label tuple; every other
entry of the map is untouched; when `id` was absent the new entry is the node of
`NewNodeExplicit` (with that id, the resolved node type and no edges) with its "tsHash"
written, and `found` is false; when `id` was present the entry is the node that was there with
its "tsHash" written, nothing else of it changed, and `found` is true; and every node is still
stored under its id. -/
theorem addNode_registers (env : Env) (o : TelemetryOptions) (tm tm2 : TrafficMap)
    (c sns sv wns w a ver pod id : String) (fd : Bool)
    (hk : keyedByID tm)
    (H : addNode env o tm c sns sv wns w a ver pod = .ok (tm2, some id, fd)) :
    ∃ nt, Id env.IsOKVersion c sns sv wns w a ver o.GraphType pod = .ok (id, nt) ∧
      (∀ k, k ≠ id → tm2 k = tm k) ∧
      (tm id = none →
        fd = false ∧
        tm2 id = some (setTsHash (timeSeriesHash env c sns sv wns w a ver pod)
          (NewNodeExplicit id c (preferredNamespace sns wns) w a ver sv nt o.GraphType pod)) ∧
        (NewNodeExplicit id c (preferredNamespace sns wns) w a ver sv nt o.GraphType pod).ID
          = id ∧
        (NewNodeExplicit id c (preferredNamespace sns wns) w a ver sv nt o.GraphType
          pod).NodeType = nt ∧
        (NewNodeExplicit id c (preferredNamespace sns wns) w a ver sv nt o.GraphType
          pod).Edges = []) ∧
      (∀ n, tm id = some n →
        fd = true ∧
        tm2 id = some { n with Metadata := { n.Metadata with
          tsHash := some (timeSeriesHash env c sns sv wns w a ver pod) } }) ∧
      keyedByID tm2 := by
  have hkey := (addNode_edgeAt H).2 hk
  unfold addNode at H
  by_cases hnil : sns = "unknown" ∧ wns = "unknown" ∧ sv ≠ ""
  · rw [if_pos hnil] at H
    simp at H
  · rw [if_neg hnil] at H
    cases hid : Id env.IsOKVersion c sns sv wns w a ver o.GraphType pod with
    | error e => simp [hid] at H
    | ok res =>
      obtain ⟨id2, nt⟩ := res
      simp only [hid, Except.ok.injEq, Prod.mk.injEq, Option.some.injEq] at H
      obtain ⟨rfl, rfl, rfl⟩ := H
      refine ⟨nt, rfl, ?_, ?_, ?_, hkey⟩
      · intro k hne
        rw [updateNode_other _ _ _ hne]
        by_cases hp : (tm id2).isSome = true
        · rw [if_pos hp]
        · rw [if_neg hp]
          exact Function.update_noteq hne _ _
      · intro hn
        refine ⟨by simp [hn], ?_, NewNodeExplicit_ID _ _ _ _ _ _ _ _ _ _,
          NewNodeExplicit_NodeType _ _ _ _ _ _ _ _ _ _, NewNodeExplicit_Edges _ _ _ _ _ _ _ _ _ _⟩
        rw [updateNode_same]
        simp only [hn, Option.isSome_none, Bool.false_eq_true, if_false, Function.update_same,
          Option.map_some']
        rfl
      · intro n hn
        refine ⟨by simp [hn], ?_⟩
        rw [updateNode_same]
        simp only [hn, Option.isSome_some, if_true, Option.map_some']
        rfl

/-- C12 (witness). The source tuple of the example row on the empty map: the node is stored,
and found, under its id. -/
theorem addNode_registers_witness :
    keyedByID (registeredMap (addNode exampleEnv (exampleOptions GraphTypeWorkload)
      NewTrafficMap "east" "bookinfo" "" "bookinfo" "reviews-v1" "reviews" "v1" "")) ∧
    (registeredMap (addNode exampleEnv (exampleOptions GraphTypeWorkload)
      NewTrafficMap "east" "bookinfo" "" "bookinfo" "reviews-v1" "reviews" "v1" "")
      "wl_east_bookinfo_reviews-v1").isSome = true := by
  obtain ⟨nt, _, _, hnew, _, hkey⟩ := addNode_registers exampleEnv
    (exampleOptions GraphTypeWorkload) NewTrafficMap
    (registeredMap (addNode exampleEnv (exampleOptions GraphTypeWorkload)
      NewTrafficMap "east" "bookinfo" "" "bookinfo" "reviews-v1" "reviews" "v1" ""))
    "east" "bookinfo" "" "bookinfo" "reviews-v1" "reviews" "v1" ""
    "wl_east_bookinfo_reviews-v1" false
    (fun _ _ hn => by simp [NewTrafficMap] at hn) rfl
  refine ⟨hkey, ?_⟩
  rw [(hnew rfl).2.1]
  rfl

/-! ### The identity of edges -/

theorem distinctEdges_iff (l : List Edge) : distinctEdges l ↔ (l.map edgeKey).Nodup := by
  unfold distinctEdges List.Nodup
  rw [List.pairwise_map]
  refine ⟨fun h => h.imp (fun hne e => hne ?_), fun h => h.imp (fun hne e => hne ?_)⟩
  · simp only [edgeKey, Prod.mk.injEq] at e
    exact e
  · simp only [edgeKey, Prod.mk.injEq]
    exact e

theorem keys_modifyFirstEdge (d p : String) (f : Edge → Edge)
    (hf : ∀ e, (f e).Dest = e.Dest ∧ (f e).Metadata.protocol = e.Metadata.protocol)
    (l : List Edge) : (modifyFirstEdge d p f l).map edgeKey = l.map edgeKey := by
  induction l with
  | nil => rfl
  | cons a rest ih =>
    by_cases ha : edgeMatches d p a = true
    · rw [modifyFirstEdge_cons_pos d p f a rest ha]
      simp only [List.map_cons, edgeKey, (hf a).1, (hf a).2]
    · rw [modifyFirstEdge_cons_neg d p f a rest ha]
      simp only [List.map_cons, ih]

theorem keys_ensureEdge (d p : String) (n : Node) :
    (ensureEdge d p n).Edges.map edgeKey =
      n.Edges.map edgeKey ++ (if n.Edges.any (edgeMatches d p) = true then [] else [(d, some p)]) := by
  unfold ensureEdge
  cases hfind : n.Edges.find? (edgeMatches d p) with
  | some e =>
    have hany : n.Edges.any (edgeMatches d p) = true :=
      List.any_eq_true.2 ⟨e, List.mem_of_find?_eq_some hfind, List.find?_some hfind⟩
    simp only [hany, if_true, List.append_nil]
  | none =>
    have hany : ¬ n.Edges.any (edgeMatches d p) = true := by
      intro h
      obtain ⟨e, he, hm⟩ := List.any_eq_true.1 h
      exact List.find?_eq_none.1 hfind e he hm
    simp only [hany, if_false, List.map_append, List.map_cons, List.map_nil]
    rfl

/-- The edges of the nodes after `addEdgeTraffic`: the source node has the edges of
`ensureEdge`, possibly rewritten in place, and every other node has the edges it had. -/
theorem addEdgeTraffic_edges {o : TelemetryOptions} {tm tm2 : TrafficMap} {v : Val}
    {p c f h s d E : String} {b : Bool} {sn dn : Node}
    (H : addEdgeTraffic o tm v p c f h s d E = .ok (tm2, b))
    (hs : tm s = some sn) (hd : tm d = some dn) :
    (∃ sn2, tm2 s = some sn2 ∧
      sn2.Edges.map edgeKey = (ensureEdge dn.ID p sn).Edges.map edgeKey) ∧
    ∀ k, k ≠ s → ∀ n, tm k = some n → ∃ n2, tm2 k = some n2 ∧ n2.Edges = n.Edges := by
  have hbase : (∃ sn2, updateNode tm s (ensureEdge dn.ID p) s = some sn2 ∧
      sn2.Edges.map edgeKey = (ensureEdge dn.ID p sn).Edges.map edgeKey) ∧
      ∀ k, k ≠ s → ∀ n, tm k = some n →
        ∃ n2, updateNode tm s (ensureEdge dn.ID p) k = some n2 ∧ n2.Edges = n.Edges := by
    refine ⟨⟨ensureEdge dn.ID p sn, by rw [updateNode_same, hs]; rfl, rfl⟩, ?_⟩
    intro k hk n hn
    exact ⟨n, by rw [updateNode_other _ _ _ hk]; exact hn, rfl⟩
  have hmark : ∀ t : TrafficMap,
      ((∃ sn2, t s = some sn2 ∧
        sn2.Edges.map edgeKey = (ensureEdge dn.ID p sn).Edges.map edgeKey) ∧
        ∀ k, k ≠ s → ∀ n, tm k = some n → ∃ n2, t k = some n2 ∧ n2.Edges = n.Edges) →
      ((∃ sn2, updateNode t s (markApplied dn.ID p E) s = some sn2 ∧
        sn2.Edges.map edgeKey = (ensureEdge dn.ID p sn).Edges.map edgeKey) ∧
        ∀ k, k ≠ s → ∀ n, tm k = some n →
          ∃ n2, updateNode t s (markApplied dn.ID p E) k = some n2 ∧ n2.Edges = n.Edges) := by
    intro t ht
    obtain ⟨⟨m, hm, hkeys⟩, hoth⟩ := ht
    refine ⟨⟨markApplied dn.ID p E m, by rw [updateNode_same, hm]; rfl, ?_⟩, ?_⟩
    · rw [← hkeys]
      exact keys_modifyFirstEdge dn.ID p (markEdge E) (fun _ => ⟨rfl, rfl⟩) m.Edges
    · intro k hk n hn
      rw [updateNode_other _ _ _ hk]
      exact hoth k hk n hn
  have hadd : ∀ t : TrafficMap,
      ((∃ sn2, t s = some sn2 ∧
        sn2.Edges.map edgeKey = (ensureEdge dn.ID p sn).Edges.map edgeKey) ∧
        ∀ k, k ≠ s → ∀ n, tm k = some n → ∃ n2, t k = some n2 ∧ n2.Edges = n.Edges) →
      ((∃ sn2, AddToMetadata t p v c f h s d dn.ID s = some sn2 ∧
        sn2.Edges.map edgeKey = (ensureEdge dn.ID p sn).Edges.map edgeKey) ∧
        ∀ k, k ≠ s → ∀ n, tm k = some n →
          ∃ n2, AddToMetadata t p v c f h s d dn.ID k = some n2 ∧ n2.Edges = n.Edges) := by
    intro t ht
    obtain ⟨⟨m, hm, hkeys⟩, hoth⟩ := ht
    obtain ⟨m2, hm2, _, hed⟩ := AddToMetadata_source_edges t p v c f h s d dn.ID m hm
    refine ⟨⟨m2, hm2, ?_⟩, ?_⟩
    · rw [hed, ← hkeys]
      exact keys_modifyFirstEdge dn.ID p (recordOnEdge p v c f h) (fun _ => ⟨rfl, rfl⟩) m.Edges
    · intro k hk n hn
      obtain ⟨n1, hn1, hed1⟩ := hoth k hk n hn
      obtain ⟨g, hg, hmap⟩ := AddToMetadata_other t p v c f h s d dn.ID k hk
      refine ⟨g n1, by rw [hmap, hn1]; rfl, ?_⟩
      rw [(hg n1).2, hed1]
  unfold addEdgeTraffic at H
  simp only [hs, hd] at H
  split at H
  · cases H
  · split at H
    · cases H
    · split_ifs at H <;>
        simp only [Except.ok.injEq, Prod.mk.injEq] at H <;>
        obtain ⟨rfl, _⟩ := H <;>
        first
        | exact hbase
        | exact hadd _ hbase
        | exact hadd _ (hmark _ hbase)

/-- C18. The identity of an edge among the edges of its source node is (destination id,
protocol). After `addEdgeTraffic` the source node has the edge identities it had, in their
order, followed by (id of the destination, protocol) exactly when no edge of the source had
both; if the identities of its edges were distinct before, they are distinct after; and every
other node has the edges it had. -/
theorem addEdgeTraffic_edge_identity (o : TelemetryOptions) (tm tm2 : TrafficMap) (v : Val)
    (p c f h s d E : String) (b : Bool) (sn dn : Node)
    (H : addEdgeTraffic o tm v p c f h s d E = .ok (tm2, b))
    (hs : tm s = some sn) (hd : tm d = some dn) :
    (∃ sn2, tm2 s = some sn2 ∧
      sn2.Edges.map edgeKey = sn.Edges.map edgeKey ++
        (if sn.Edges.any (edgeMatches dn.ID p) = true then [] else [(dn.ID, some p)]) ∧
      (distinctEdges sn.Edges → distinctEdges sn2.Edges)) ∧
    ∀ k, k ≠ s → ∀ n, tm k = some n → ∃ n2, tm2 k = some n2 ∧ n2.Edges = n.Edges := by
  obtain ⟨⟨sn2, hs2, hkeys⟩, hoth⟩ := addEdgeTraffic_edges H hs hd
  rw [keys_ensureEdge] at hkeys
  refine ⟨⟨sn2, hs2, hkeys, fun hdist => ?_⟩, hoth⟩
  rw [distinctEdges_iff] at hdist ⊢
  rw [hkeys]
  by_cases hany : sn.Edges.any (edgeMatches dn.ID p) = true
  · rw [if_pos hany, List.append_nil]
    exact hdist
  · rw [if_neg hany]
    refine List.Nodup.append hdist (List.nodup_singleton _) ?_
    intro k hk1 hk2
    rw [List.mem_singleton] at hk2
    subst hk2
    obtain ⟨e, he, hek⟩ := List.mem_map.1 hk1
    apply hany
    refine List.any_eq_true.2 ⟨e, he, (edgeMatches_iff _ _ _).2 ?_⟩
    simp only [edgeKey, Prod.mk.injEq] at hek
    exact hek

/-- C18 (witness). The ingress node of the example map has one edge to the service node, with
protocol "http"; a row with protocol "tcp" between the same two nodes gets a second edge. -/
theorem addEdgeTraffic_edge_identity_witness :
    ∃ sn2, appliedMap (addEdgeTraffic (exampleOptions GraphTypeWorkload) heldExampleMap 4
        "tcp" "" "-" "productpage" "ingress" "svc_east_bookinfo_productpage" "fp2") "ingress" = some sn2 ∧
      sn2.Edges.map edgeKey =
        [("svc_east_bookinfo_productpage", some "http"),
         ("svc_east_bookinfo_productpage", some "tcp")] := by
  obtain ⟨⟨sn2, hs2, hkeys, _⟩, _⟩ := addEdgeTraffic_edge_identity
    (exampleOptions GraphTypeWorkload) heldExampleMap
    (appliedMap (addEdgeTraffic (exampleOptions GraphTypeWorkload) heldExampleMap 4
        "tcp" "" "-" "productpage" "ingress" "svc_east_bookinfo_productpage" "fp2"))
    4 "tcp" "" "-" "productpage" "ingress" "svc_east_bookinfo_productpage" "fp2" true _ _
    rfl rfl rfl
  exact ⟨sn2, hs2, hkeys⟩

/-! ### The rows of `populateTrafficMap` -/

/-- The loop body of `populateTrafficMap` is `rowCall`, then the injection decision, then
`addTraffic`. -/
theorem populateRow_eq (env : Env) (o : TelemetryOptions) (tm : TrafficMap) (metric : String)
    (s : Sample) :
    populateRow env o tm metric s =
      match rowCall env o metric s with
      | none => .ok tm
      | some r =>
        match injectDecision env o r.destCluster r.destSvcNs r.destSvcName r.destWlNs r.destWl
            r.destApp r.destVer r.destinationPod with
        | .error e => .error e
        | .ok inject =>
          addTraffic env o tm metric inject r.val r.protocol r.code r.flags r.host
            r.sourceCluster r.sourceWlNs r.sourceSvc r.sourceWl r.sourceApp r.sourceVer
            r.destCluster r.destSvcNs r.destSvcName r.destWlNs r.destWl r.destApp r.destVer
            r.sourcePod r.destinationPod := by
  unfold populateRow rowCall injectDecision
  lift_lets
  intro isGrpc isTcp isReq protocol0 skipG skipH val m podName reportor sourceSvc sourcePod
    destinationPod sourceWlNs sourceWl sourceApp sourceVer destSvc needsFlags flags scOk dcOk
    clusters sourceCluster protocol code host
  have hsc : sourceCluster = clusters.1 := rfl
  rw [hsc]
  generalize env.HandleDestination clusters.1 sourceWlNs sourceWl clusters.2
    (labelValue m "destination_service_namespace") destSvc
    (labelValue m "destination_service_name") (labelValue m "destination_workload_namespace")
    (labelValue m "destination_workload") (labelValue m "destination_canonical_service")
    (labelValue m "destination_canonical_revision") = hd
  obtain ⟨dc, dns, dsn, dwns, dw, da, dv⟩ := hd
  dsimp only
  by_cases h1 : (requiredLabels.any fun l => !hasLabel m l) = true
  · rw [if_pos h1, if_pos h1]
  rw [if_neg h1, if_neg h1]
  by_cases h2 : (needsFlags && !hasLabel m "response_flags") = true
  · rw [if_pos h2, if_pos h2]
  rw [if_neg h2, if_neg h2]
  by_cases h3 : env.IsBadSourceTelemetry clusters.1 scOk sourceWlNs sourceWl sourceApp = true
  · rw [if_pos h3, if_pos h3]
  rw [if_neg h3, if_neg h3]
  by_cases h4 : env.IsBadDestTelemetry dc dcOk dns destSvc dsn dw = true
  · rw [if_pos h4, if_pos h4]
  rw [if_neg h4, if_neg h4]
  by_cases h5 : (isReq && (!hasLabel m "request_protocol" || !hasLabel m "response_code")) = true
  · rw [if_pos h5, if_pos h5]
  rw [if_neg h5, if_neg h5]
  by_cases h6 : (isReq && (skipG && protocol == env.GRPC || skipH && protocol == env.HTTP)) = true
  · rw [if_pos h6, if_pos h6]
  rw [if_neg h6, if_neg h6]

/-- A defective row is skipped by one of the `continue` statements. -/
theorem rowCall_of_defective (env : Env) (o : TelemetryOptions) (metric : String) (s : Sample)
    (h : defectiveRow env metric s = true) : rowCall env o metric s = none := by
  unfold rowCall
  lift_lets
  intro isGrpc isTcp isReq protocol0 skipG skipH m podName reportor sourcePod
    destinationPod sourceWlNs sourceWl sourceApp destSvc needsFlags scOk dcOk
    clusters protocol
  generalize env.HandleDestination clusters.1 sourceWlNs sourceWl clusters.2
    (labelValue m "destination_service_namespace") destSvc
    (labelValue m "destination_service_name") (labelValue m "destination_workload_namespace")
    (labelValue m "destination_workload") (labelValue m "destination_canonical_service")
    (labelValue m "destination_canonical_revision") = hd
  obtain ⟨dc, dns, dsn, dwns, dw, da, dv⟩ := hd
  dsimp only
  have h0 : ((requiredLabels.any fun l => !hasLabel m l) ||
      ((isReq || (!isGrpc && isTcp)) && !hasLabel m "response_flags") ||
      (isReq && (!hasLabel m "request_protocol" || !hasLabel m "response_code"))) = true := h
  have hnf : (isReq || (!isGrpc && isTcp)) = true → needsFlags = true := by
    intro hh
    show (isReq || protocol0 == env.TCP) = true
    by_cases hr : isReq = true
    · rw [hr]; rfl
    · have hgt : (!isGrpc && isTcp) = true := by
        cases hq : isReq
        · rw [hq] at hh; simpa using hh
        · exact absurd hq hr
      have hg : ¬ isGrpc = true := by
        intro hg; rw [hg] at hgt; simp at hgt
      have ht : isTcp = true := by
        cases hq : isTcp
        · rw [hq] at hgt; simp at hgt
        · rfl
      have hp : protocol0 = env.TCP := by
        show (if isGrpc = true then env.GRPC else if isTcp = true then env.TCP else "") = _
        rw [if_neg hg, if_pos ht]
      rw [hp]
      simp
  by_cases h1 : (requiredLabels.any fun l => !hasLabel m l) = true
  · rw [if_pos h1]
  rw [if_neg h1]
  by_cases h2 : (needsFlags && !hasLabel m "response_flags") = true
  · rw [if_pos h2]
  rw [if_neg h2]
  by_cases h3 : env.IsBadSourceTelemetry clusters.1 scOk sourceWlNs sourceWl sourceApp = true
  · rw [if_pos h3]
  rw [if_neg h3]
  by_cases h4 : env.IsBadDestTelemetry dc dcOk dns destSvc dsn dw = true
  · rw [if_pos h4]
  rw [if_neg h4]
  by_cases h5 : (isReq && (!hasLabel m "request_protocol" || !hasLabel m "response_code")) = true
  · rw [if_pos h5]
  exfalso
  simp only [Bool.or_eq_true] at h0
  rcases h0 with (h0 | h0) | h0
  · exact h1 h0
  · apply h2
    rw [Bool.and_eq_true] at h0 ⊢
    exact ⟨hnf h0.1, h0.2⟩
  · exact h5 h0

/-- C16. A defective row is skipped: the loop body leaves the traffic map as it is and raises
no error; and `populateTrafficMap` gives the same result, traffic map or panic, on a vector
and on the vector without its defective rows. -/
theorem populateTrafficMap_skips_defective_rows (env : Env) (o : TelemetryOptions)
    (tm : TrafficMap) (vector : List Sample) (metric : String) :
    (∀ s t, defectiveRow env metric s = true → populateRow env o t metric s = .ok t) ∧
    populateTrafficMap env o tm vector metric =
      populateTrafficMap env o tm (vector.filter (fun s => !defectiveRow env metric s))
        metric := by
  have hskip : ∀ s t, defectiveRow env metric s = true →
      populateRow env o t metric s = .ok t := by
    intro s t h
    rw [populateRow_eq, rowCall_of_defective env o metric s h]
  refine ⟨hskip, ?_⟩
  induction vector generalizing tm with
  | nil => rfl
  | cons s rest ih =>
    by_cases h : defectiveRow env metric s = true
    · have hf : (s :: rest).filter (fun s => !defectiveRow env metric s) =
          rest.filter (fun s => !defectiveRow env metric s) := by
        rw [List.filter_cons_of_neg]
        simp [h]
      rw [hf, ← ih tm]
      simp only [populateTrafficMap, hskip s tm h]
    · have hf : (s :: rest).filter (fun s => !defectiveRow env metric s) =
          s :: rest.filter (fun s => !defectiveRow env metric s) := by
        rw [List.filter_cons_of_pos]
        simp [h]
      rw [hf]
      simp only [populateTrafficMap]
      cases populateRow env o tm metric s with
      | error e => rfl
      | ok t => exact ih t

/-! ### The traffic map of a node of an unsupported type -/

theorem incomingQuery_unsupported (metric destCluster ns : String) (n : Node)
    (seconds groupBy idle : String)
    (hw : n.NodeType ≠ NodeTypeWorkload) (ha : n.NodeType ≠ NodeTypeApp)
    (hs : n.NodeType ≠ NodeTypeService) :
    incomingQuery metric destCluster ns n seconds groupBy idle =
      .error ("NodeType [" ++ n.NodeType ++ "] not supported") := by
  unfold incomingQuery
  rw [if_neg hw, if_neg ha, if_neg hs]
  rfl

theorem metricTraffic_unsupported (env : Env) (o : TelemetryOptions) (client : PromAPI)
    (tm : TrafficMap) (requests : Bool) (metric sourceCluster destCluster ns : String)
    (n : Node) (seconds groupBy idle : String)
    (hw : n.NodeType ≠ NodeTypeWorkload) (ha : n.NodeType ≠ NodeTypeApp)
    (hs : n.NodeType ≠ NodeTypeService) :
    metricTraffic env o client tm requests metric sourceCluster destCluster ns n seconds
      groupBy idle = .error ("NodeType [" ++ n.NodeType ++ "] not supported") := by
  unfold metricTraffic
  rw [incomingQuery_unsupported metric destCluster ns n seconds groupBy idle hw ha hs]

theorem metricsTraffic_unsupported (env : Env) (o : TelemetryOptions) (client : PromAPI)
    (tm : TrafficMap) (metrics : List String) (sourceCluster destCluster ns : String)
    (n : Node) (seconds groupBy idle : String)
    (hw : n.NodeType ≠ NodeTypeWorkload) (ha : n.NodeType ≠ NodeTypeApp)
    (hs : n.NodeType ≠ NodeTypeService) :
    metricsTraffic env o client tm metrics sourceCluster destCluster ns n seconds groupBy
      idle =
      if metrics = [] then .ok tm
      else .error ("NodeType [" ++ n.NodeType ++ "] not supported") := by
  cases metrics with
  | nil => rfl
  | cons m rest =>
    unfold metricsTraffic
    rw [metricTraffic_unsupported env o client tm false m sourceCluster destCluster ns n
      seconds groupBy idle hw ha hs]
    simp

theorem grpcMessageMetrics_eq_nil (env : Env) (o : TelemetryOptions) :
    grpcMessageMetrics env o = [] ↔
      ¬ (o.RatesGrpc = env.RateReceived ∨ o.RatesGrpc = env.RateSent ∨
        o.RatesGrpc = env.RateTotal) := by
  unfold grpcMessageMetrics
  split_ifs <;> simp_all

theorem tcpMetrics_eq_nil (env : Env) (o : TelemetryOptions) :
    tcpMetrics env o = [] ↔
      ¬ (o.RatesTcp = env.RateReceived ∨ o.RatesTcp = env.RateSent ∨
        o.RatesTcp = env.RateTotal) := by
  unfold tcpMetrics
  split_ifs <;> simp_all

/-- C19 (counterexample). The unknown-source node as the target, with the HTTP, gRPC and TCP
rates all "none": no block of `buildNodeTrafficMap` is entered, and it returns the empty
traffic map, without an error. -/
theorem buildNodeTrafficMap_unsupported_without_rates :
    buildNodeTrafficMap exampleEnv (exampleRates "none" "none" "none") exampleClient "east"
      "unknown" unknownSourceNode = .ok NewTrafficMap ∧
    unknownSourceNode.NodeType ≠ NodeTypeWorkload ∧
    unknownSourceNode.NodeType ≠ NodeTypeApp ∧
    unknownSourceNode.NodeType ≠ NodeTypeService :=
  ⟨rfl, by decide, by decide, by decide⟩

/-- C19 (amended). For a target node whose node type is not workload, app or service:
`buildNodeTrafficMap` ends with the request error "NodeType [...] not supported", and returns
no traffic map, for every rate configuration that takes it through a `switch` on the node
type (`nodeQueriesRequested`), whatever the queries would return; for every other rate
configuration it returns the empty traffic map. -/
theorem buildNodeTrafficMap_unsupported (env : Env) (o : TelemetryOptions) (client : PromAPI)
    (cluster ns : String) (n : Node)
    (hw : n.NodeType ≠ NodeTypeWorkload) (ha : n.NodeType ≠ NodeTypeApp)
    (hs : n.NodeType ≠ NodeTypeService) :
    (nodeQueriesRequested env o →
      buildNodeTrafficMap env o client cluster ns n =
        .error ("NodeType [" ++ n.NodeType ++ "] not supported")) ∧
    (¬ nodeQueriesRequested env o →
      buildNodeTrafficMap env o client cluster ns n = .ok NewTrafficMap) := by
  unfold buildNodeTrafficMap nodeQueriesRequested
  simp only [metricTraffic_unsupported env o client _ _ _ _ _ _ n _ _ _ hw ha hs,
    metricsTraffic_unsupported env o client _ _ _ _ _ n _ _ _ hw ha hs]
  by_cases h1 : o.RatesHttp = env.RateRequests ∨ o.RatesGrpc = env.RateRequests
  · rw [if_pos h1]
    exact ⟨fun _ => rfl, fun h => absurd (Or.inl h1) h⟩
  rw [if_neg h1]
  dsimp only
  by_cases h2 : o.RatesGrpc ≠ env.RateNone ∧ o.RatesGrpc ≠ env.RateRequests
  · rw [if_pos h2]
    by_cases h2b : grpcMessageMetrics env o = []
    · rw [if_pos h2b]
      dsimp only
      have h2c := (grpcMessageMetrics_eq_nil env o).1 h2b
      by_cases h3 : o.RatesTcp ≠ env.RateNone
      · rw [if_pos h3]
        by_cases h3b : tcpMetrics env o = []
        · rw [if_pos h3b]
          have h3c := (tcpMetrics_eq_nil env o).1 h3b
          refine ⟨fun h => ?_, fun _ => rfl⟩
          rcases h with h | h | h
          · exact absurd h h1
          · exact absurd h.2.2 h2c
          · exact absurd h.2 h3c
        · rw [if_neg h3b]
          have h3c : o.RatesTcp = env.RateReceived ∨ o.RatesTcp = env.RateSent ∨
              o.RatesTcp = env.RateTotal := by
            by_contra hc
            exact h3b ((tcpMetrics_eq_nil env o).2 hc)
          exact ⟨fun _ => rfl, fun h => absurd (Or.inr (Or.inr ⟨h3, h3c⟩)) h⟩
      · rw [if_neg h3]
        refine ⟨fun h => ?_, fun _ => rfl⟩
        rcases h with h | h | h
        · exact absurd h h1
        · exact absurd h.2.2 h2c
        · exact absurd h.1 h3
    · rw [if_neg h2b]
      have h2c : o.RatesGrpc = env.RateReceived ∨ o.RatesGrpc = env.RateSent ∨
          o.RatesGrpc = env.RateTotal := by
        by_contra hc
        exact h2b ((grpcMessageMetrics_eq_nil env o).2 hc)
      exact ⟨fun _ => rfl, fun h => absurd (Or.inr (Or.inl ⟨h2.1, h2.2, h2c⟩)) h⟩
  · rw [if_neg h2]
    dsimp only
    by_cases h3 : o.RatesTcp ≠ env.RateNone
    · rw [if_pos h3]
      by_cases h3b : tcpMetrics env o = []
      · rw [if_pos h3b]
        have h3c := (tcpMetrics_eq_nil env o).1 h3b
        refine ⟨fun h => ?_, fun _ => rfl⟩
        rcases h with h | h | h
        · exact absurd h h1
        · exact absurd ⟨h.1, h.2.1⟩ h2
        · exact absurd h.2 h3c
      · rw [if_neg h3b]
        have h3c : o.RatesTcp = env.RateReceived ∨ o.RatesTcp = env.RateSent ∨
            o.RatesTcp = env.RateTotal := by
          by_contra hc
          exact h3b ((tcpMetrics_eq_nil env o).2 hc)
        exact ⟨fun _ => rfl, fun h => absurd (Or.inr (Or.inr ⟨h3, h3c⟩)) h⟩
    · rw [if_neg h3]
      refine ⟨fun h => ?_, fun _ => rfl⟩
      rcases h with h | h | h
      · exact absurd h h1
      · exact absurd ⟨h.1, h.2.1⟩ h2
      · exact absurd h.1 h3

/-- C19 (witness). The unknown-source node as the target, with the HTTP rate "requests". -/
theorem buildNodeTrafficMap_unsupported_witness :
    buildNodeTrafficMap exampleEnv (exampleRates "requests" "none" "none") exampleClient
      "east" "unknown" unknownSourceNode = .error "NodeType [unknown] not supported" :=
  (buildNodeTrafficMap_unsupported exampleEnv (exampleRates "requests" "none" "none")
    exampleClient "east" "unknown" unknownSourceNode (by decide) (by decide) (by decide)).1
    (Or.inl (Or.inl rfl))

/-! ### The pod-graph branch of `addTraffic` -/

theorem edgeAt_ensure_other (t : TrafficMap) (s d p x y q : String)
    (hne : ¬ (x = s ∧ y = d ∧ q = p)) :
    edgeAt (updateNode t s (ensureEdge d p)) x y q = edgeAt t x y q := by
  unfold edgeAt
  rw [updateNode_apply]
  by_cases hx : x = s
  · rw [if_pos hx]
    cases t x with
    | none => rfl
    | some n =>
      simp only [Option.map_some']
      exact find_ensureEdge_other d p y q (fun hyq => hne ⟨hx, hyq.1, hyq.2⟩) n
  · rw [if_neg hx]

theorem edgeAt_mark_other (t : TrafficMap) (s d p E x y q : String)
    (hne : ¬ (x = s ∧ y = d ∧ q = p)) :
    edgeAt (updateNode t s (markApplied d p E)) x y q = edgeAt t x y q := by
  unfold edgeAt
  rw [updateNode_apply]
  by_cases hx : x = s
  · rw [if_pos hx]
    cases t x with
    | none => rfl
    | some n =>
      simp only [Option.map_some']
      exact find_modifyFirstEdge_other d p y q (markEdge E) (fun _ => ⟨rfl, rfl⟩)
        (fun hyq => hne ⟨hx, hyq.1, hyq.2⟩) n.Edges
  · rw [if_neg hx]

theorem edgeAt_AddToMetadata_other (t : TrafficMap) (p : String) (v : Val)
    (c f h s d dID x y q : String) (hne : ¬ (x = s ∧ y = dID ∧ q = p)) :
    edgeAt (AddToMetadata t p v c f h s d dID) x y q = edgeAt t x y q := by
  by_cases hx : x = s
  · subst hx
    cases hn : t x with
    | none =>
      unfold edgeAt
      have hnone : AddToMetadata t p v c f h x d dID x = none := by
        simp [AddToMetadata, updateNode_apply, hn]
      rw [hnone, hn]
    | some n =>
      obtain ⟨n2, hn2, _, hed⟩ := AddToMetadata_source_edges t p v c f h x d dID n hn
      unfold edgeAt
      rw [hn2, hn]
      simp only
      rw [hed]
      exact find_modifyFirstEdge_other dID p y q (recordOnEdge p v c f h)
        (fun _ => ⟨rfl, rfl⟩) (fun hyq => hne ⟨rfl, hyq.1, hyq.2⟩) n.Edges
  · obtain ⟨g, hg, hmap⟩ := AddToMetadata_other t p v c f h s d dID x hx
    unfold edgeAt
    rw [hmap]
    cases t x with
    | none => rfl
    | some n => simp only [Option.map_some', (hg n).2]

/-- Whatever `addEdgeTraffic` does, it does to the selected edge: every other edge of the
traffic map is left as it was. -/
theorem addEdgeTraffic_frame {o : TelemetryOptions} {tm tm2 : TrafficMap} {v : Val}
    {p c f h s d E : String} {b : Bool}
    (hk : keyedByID tm)
    (H : addEdgeTraffic o tm v p c f h s d E = .ok (tm2, b))
    (x y q : String) (hne : ¬ (x = s ∧ y = d ∧ q = p)) :
    edgeAt tm2 x y q = edgeAt tm x y q := by
  obtain ⟨sn, dn, hs, hd, _⟩ := addEdgeTraffic_holds H
  have hdn : dn.ID = d := hk d dn hd
  have h1 := edgeAt_ensure_other tm s d p x y q hne
  have h2 := fun t => edgeAt_mark_other t s d p E x y q hne
  have h3 := fun t => edgeAt_AddToMetadata_other t p v c f h s d d x y q hne
  unfold addEdgeTraffic at H
  simp only [hs, hd, hdn] at H
  split at H
  · cases H
  · split at H
    · cases H
    · split_ifs at H <;> simp only [Except.ok.injEq, Prod.mk.injEq] at H <;>
        obtain ⟨rfl, _⟩ := H <;> simp only [h1, h2, h3]

/-- The first block of the pod-graph branch feeds the edge from the injected service node to
the destination and no other edge; when that edge does not hold the block's fingerprint, the
value is applied to it. -/
theorem addTrafficPodDest_applies {env : Env} {o : TelemetryOptions} {tm tm2 : TrafficMap}
    {metric : String} {v : Val} {p c f h dc dns dsn d i nt : String}
    (hk : keyedByID tm)
    (hid : Id env.IsOKVersion dc dns dsn "" "" "" "" o.GraphType "" = .ok (i, nt))
    (H : addTrafficPodDest env o tm metric v p c f h dc dns dsn d = .ok tm2) :
    keyedByID tm2 ∧
    (∀ x y q, ¬ (x = i ∧ y = d ∧ q = p) → edgeAt tm2 x y q = edgeAt tm x y q) ∧
    (¬ edgeHolds tm i d p
        (edgeTSHashOf env metric (some (timeSeriesHash env dc dns dsn "" "" "" "" ""))
          (if d = i then some (timeSeriesHash env dc dns dsn "" "" "" "" "")
            else tsHashAt tm d) c f h) →
      valuesAt tm2 i d p = valuesAt tm i d p ++ [v]) := by
  unfold addTrafficPodDest at H
  cases hinj : addInjectedService env o tm dc dns dsn with
  | error e => simp [hinj] at H
  | ok res =>
    obtain ⟨t1, i2⟩ := res
    obtain ⟨nt2, hid2, _, _, hts⟩ := addInjectedService_inv hinj
    rw [hid] at hid2
    simp only [Except.ok.injEq, Prod.mk.injEq] at hid2
    obtain ⟨rfl, rfl⟩ := hid2
    obtain ⟨he1, hk1⟩ := addInjectedService_edgeAt hinj
    simp only [hinj] at H
    have hE : tsHashAt t1 i = some (timeSeriesHash env dc dns dsn "" "" "" "" "") := by
      rw [hts]; simp
    rw [hE, hts d] at H
    cases ha : addEdgeTraffic o t1 v p c f h i d
        (edgeTSHashOf env metric (some (timeSeriesHash env dc dns dsn "" "" "" "" ""))
          (if d = i then some (timeSeriesHash env dc dns dsn "" "" "" "" "")
            else tsHashAt tm d) c f h) with
    | error e => simp [ha] at H
    | ok res =>
      obtain ⟨t2, b⟩ := res
      simp only [ha, Except.ok.injEq] at H
      subst H
      refine ⟨addToDestServicesAt_keyedByID
          ((addEdgeTraffic_step ha).keyedByID (hk1 hk)) _ _ _ _, ?_, ?_⟩
      · intro x y q hne
        rw [addToDestServicesAt_edgeAt, addEdgeTraffic_frame (hk1 hk) ha x y q hne, he1]
      · intro hfresh
        obtain ⟨_, hv, _⟩ := addEdgeTraffic_applies (hk1 hk) ha
          (fun hh => hfresh ((edgeHolds_congr (he1 i d p)).1 hh))
        rw [valuesAt_congr (addToDestServicesAt_edgeAt t2 d dc dns dsn i d p), hv,
          valuesAt_congr (he1 i d p)]

/-- The second block of the pod-graph branch feeds the edge from the source to the injected
service node and no other edge; when that edge does not hold the block's fingerprint, the
value is applied to it. -/
theorem addTrafficPodSource_applies {env : Env} {o : TelemetryOptions} {tm tm2 : TrafficMap}
    {metric : String} {v : Val} {p c f h dc dns dsn s i nt : String}
    (hk : keyedByID tm)
    (hid : Id env.IsOKVersion dc dns dsn "" "" "" "" o.GraphType "" = .ok (i, nt))
    (H : addTrafficPodSource env o tm metric v p c f h dc dns dsn s = .ok tm2) :
    keyedByID tm2 ∧
    (∀ x y q, ¬ (x = s ∧ y = i ∧ q = p) → edgeAt tm2 x y q = edgeAt tm x y q) ∧
    (¬ edgeHolds tm s i p
        (edgeTSHashOf env metric
          (if s = i then some (timeSeriesHash env dc dns dsn "" "" "" "" "")
            else tsHashAt tm s)
          (some (timeSeriesHash env dc dns dsn "" "" "" "" "")) c f h) →
      valuesAt tm2 s i p = valuesAt tm s i p ++ [v]) := by
  unfold addTrafficPodSource at H
  cases hinj : addInjectedService env o tm dc dns dsn with
  | error e => simp [hinj] at H
  | ok res =>
    obtain ⟨t1, i2⟩ := res
    obtain ⟨nt2, hid2, _, _, hts⟩ := addInjectedService_inv hinj
    rw [hid] at hid2
    simp only [Except.ok.injEq, Prod.mk.injEq] at hid2
    obtain ⟨rfl, rfl⟩ := hid2
    obtain ⟨he1, hk1⟩ := addInjectedService_edgeAt hinj
    simp only [hinj] at H
    have hE : tsHashAt t1 i = some (timeSeriesHash env dc dns dsn "" "" "" "" "") := by
      rw [hts]; simp
    rw [hE, hts s] at H
    cases ha : addEdgeTraffic o t1 v p c f h s i
        (edgeTSHashOf env metric
          (if s = i then some (timeSeriesHash env dc dns dsn "" "" "" "" "")
            else tsHashAt tm s)
          (some (timeSeriesHash env dc dns dsn "" "" "" "" "")) c f h) with
    | error e => simp [ha] at H
    | ok res =>
      obtain ⟨t2, b⟩ := res
      simp only [ha, Except.ok.injEq] at H
      subst H
      refine ⟨addToDestServicesAt_keyedByID
          ((addEdgeTraffic_step ha).keyedByID (hk1 hk)) _ _ _ _, ?_, ?_⟩
      · intro x y q hne
        rw [addToDestServicesAt_edgeAt, addEdgeTraffic_frame (hk1 hk) ha x y q hne, he1]
      · intro hfresh
        obtain ⟨_, hv, _⟩ := addEdgeTraffic_applies (hk1 hk) ha
          (fun hh => hfresh ((edgeHolds_congr (he1 s i p)).1 hh))
        rw [valuesAt_congr (addToDestServicesAt_edgeAt t2 i dc dns dsn s i p), hv,
          valuesAt_congr (he1 s i p)]

/-- The first block of the pod-graph branch on an edge that holds the block's fingerprint, the
service node not being an ingress node: the row is a duplicate and the value is not applied. -/
theorem addTrafficPodDest_held {env : Env} {o : TelemetryOptions} {tm tm2 : TrafficMap}
    {metric : String} {v : Val} {p c f h dc dns dsn d i nt : String}
    (hk : keyedByID tm)
    (hid : Id env.IsOKVersion dc dns dsn "" "" "" "" o.GraphType "" = .ok (i, nt))
    (H : addTrafficPodDest env o tm metric v p c f h dc dns dsn d = .ok tm2)
    (hh : edgeHolds tm i d p
        (edgeTSHashOf env metric (some (timeSeriesHash env dc dns dsn "" "" "" "" ""))
          (if d = i then some (timeSeriesHash env dc dns dsn "" "" "" "" "")
            else tsHashAt tm d) c f h))
    (happ : appNotIngressAt tm i) :
    valuesAt tm2 i d p = valuesAt tm i d p := by
  unfold addTrafficPodDest at H
  cases hinj : addInjectedService env o tm dc dns dsn with
  | error e => simp [hinj] at H
  | ok res =>
    obtain ⟨t1, i2⟩ := res
    obtain ⟨nt2, hid2, _, hrow, hts⟩ := addInjectedService_inv hinj
    rw [hid] at hid2
    simp only [Except.ok.injEq, Prod.mk.injEq] at hid2
    obtain ⟨rfl, rfl⟩ := hid2
    obtain ⟨he1, hk1⟩ := addInjectedService_edgeAt hinj
    simp only [hinj] at H
    have hE : tsHashAt t1 i = some (timeSeriesHash env dc dns dsn "" "" "" "" "") := by
      rw [hts]; simp
    rw [hE, hts d] at H
    cases ha : addEdgeTraffic o t1 v p c f h i d
        (edgeTSHashOf env metric (some (timeSeriesHash env dc dns dsn "" "" "" "" ""))
          (if d = i then some (timeSeriesHash env dc dns dsn "" "" "" "" "")
            else tsHashAt tm d) c f h) with
    | error e => simp [ha] at H
    | ok res =>
      obtain ⟨t2, b⟩ := res
      simp only [ha, Except.ok.injEq] at H
      subst H
      obtain ⟨sn, dn, hs, hd, _⟩ := addEdgeTraffic_holds ha
      have hdn : dn.ID = d := hk1 hk d dn hd
      have hsome : (tm i).isSome := by
        obtain ⟨e, _, he, _⟩ := hh
        exact edgeAt_isSome he
      have hna : sn.App ≠ "ingress-nginx" :=
        (hrow "" "" "").1.app_ne hsome happ sn hs
      have hh1 : edgeHolds t1 i dn.ID p
          (edgeTSHashOf env metric (some (timeSeriesHash env dc dns dsn "" "" "" "" ""))
            (if d = i then some (timeSeriesHash env dc dns dsn "" "" "" "" "")
              else tsHashAt tm d) c f h) := by
        rw [hdn]
        exact (edgeHolds_congr (he1 i d p)).2 hh
      rw [addEdgeTraffic_dup hs hd hh1 (fun hpa => hna hpa.2)] at ha
      simp only [Except.ok.injEq, Prod.mk.injEq] at ha
      rw [← ha.1, valuesAt_congr (addToDestServicesAt_edgeAt t1 d dc dns dsn i d p),
        valuesAt_congr (he1 i d p)]

/-- The second block of the pod-graph branch on an edge that holds the block's fingerprint,
the source not being an ingress node: the row is a duplicate and the value is not applied. -/
theorem addTrafficPodSource_held {env : Env} {o : TelemetryOptions} {tm tm2 : TrafficMap}
    {metric : String} {v : Val} {p c f h dc dns dsn s i nt : String}
    (hk : keyedByID tm)
    (hid : Id env.IsOKVersion dc dns dsn "" "" "" "" o.GraphType "" = .ok (i, nt))
    (H : addTrafficPodSource env o tm metric v p c f h dc dns dsn s = .ok tm2)
    (hh : edgeHolds tm s i p
        (edgeTSHashOf env metric
          (if s = i then some (timeSeriesHash env dc dns dsn "" "" "" "" "")
            else tsHashAt tm s)
          (some (timeSeriesHash env dc dns dsn "" "" "" "" "")) c f h))
    (happ : appNotIngressAt tm s) :
    valuesAt tm2 s i p = valuesAt tm s i p := by
  unfold addTrafficPodSource at H
  cases hinj : addInjectedService env o tm dc dns dsn with
  | error e => simp [hinj] at H
  | ok res =>
    obtain ⟨t1, i2⟩ := res
    obtain ⟨nt2, hid2, _, hrow, hts⟩ := addInjectedService_inv hinj
    rw [hid] at hid2
    simp only [Except.ok.injEq, Prod.mk.injEq] at hid2
    obtain ⟨rfl, rfl⟩ := hid2
    obtain ⟨he1, hk1⟩ := addInjectedService_edgeAt hinj
    simp only [hinj] at H
    have hE : tsHashAt t1 i = some (timeSeriesHash env dc dns dsn "" "" "" "" "") := by
      rw [hts]; simp
    rw [hE, hts s] at H
    cases ha : addEdgeTraffic o t1 v p c f h s i
        (edgeTSHashOf env metric
          (if s = i then some (timeSeriesHash env dc dns dsn "" "" "" "" "")
            else tsHashAt tm s)
          (some (timeSeriesHash env dc dns dsn "" "" "" "" "")) c f h) with
    | error e => simp [ha] at H
    | ok res =>
      obtain ⟨t2, b⟩ := res
      simp only [ha, Except.ok.injEq] at H
      subst H
      obtain ⟨sn, dn, hs, hd, _⟩ := addEdgeTraffic_holds ha
      have hdn : dn.ID = i := hk1 hk i dn hd
      have hsome : (tm s).isSome := by
        obtain ⟨e, _, he, _⟩ := hh
        exact edgeAt_isSome he
      have hna : sn.App ≠ "ingress-nginx" :=
        (hrow "" "" "").1.app_ne hsome happ sn hs
      have hh1 : edgeHolds t1 s dn.ID p
          (edgeTSHashOf env metric
            (if s = i then some (timeSeriesHash env dc dns dsn "" "" "" "" "")
              else tsHashAt tm s)
            (some (timeSeriesHash env dc dns dsn "" "" "" "" "")) c f h) := by
        rw [hdn]
        exact (edgeHolds_congr (he1 s i p)).2 hh
      rw [addEdgeTraffic_dup hs hd hh1 (fun hpa => hna hpa.2)] at ha
      simp only [Except.ok.injEq, Prod.mk.injEq] at ha
      rw [← ha.1, valuesAt_congr (addToDestServicesAt_edgeAt t1 i dc dns dsn s i p),
        valuesAt_congr (he1 s i p)]

/-- C23. Pod graph, a row on which `addTraffic` completes, on a traffic map whose nodes are
stored under their ids, with a destination node; `s`, `d` and `i` are the ids of the source,
of the destination and of the synthesized service node (the node of the destination cluster,
destination service namespace and destination service name alone). Every edge that the call
creates or changes is the edge from `i` to `d` (and then the destination pod is non-empty) or
the edge from `s` to `i` (and then the source pod is non-empty or the source namespace is
"ingress-nginx" or "unknown", and the destination service namespace is not "unknown"): the
service node is one of its endpoints. Under these conditions the value is applied to the edge
from `i` to `d`, and to the edge from `s` to `i`, each checked against its own fingerprint
(that of the service node and the destination, and that of the source and the service node):
an edge that does not hold its fingerprint gets the value, and an edge that holds it, from a
node that is no ingress node, does not (the two edges being two). -/
theorem addTraffic_pod_edges_through_service_node (env : Env) (o : TelemetryOptions)
    (tm tm1 : TrafficMap) (metric : String) (inject : Bool) (v : Val)
    (p c f h sc sns ssv sw sa sver dc dns dsn dwns dw da dver sp dp : String)
    (s snt d dnt i int : String)
    (hg : o.GraphType = GraphTypePod)
    (hk : keyedByID tm)
    (H : addTraffic env o tm metric inject v p c f h sc sns ssv sw sa sver
      dc dns dsn dwns dw da dver sp dp = .ok tm1)
    (hnil : ¬ nilNode dns dsn dwns)
    (hs : Id env.IsOKVersion sc sns ssv sns sw sa sver o.GraphType sp = .ok (s, snt))
    (hd : Id env.IsOKVersion dc dns dsn dwns dw da dver o.GraphType dp = .ok (d, dnt))
    (hi : Id env.IsOKVersion dc dns dsn "" "" "" "" o.GraphType "" = .ok (i, int)) :
    (∀ x y q, edgeAt tm1 x y q ≠ edgeAt tm x y q →
      (dp ≠ "" ∧ x = i ∧ y = d ∧ q = p) ∨
      (((sp ≠ "" ∨ sns = "ingress-nginx" ∨ sns = "unknown") ∧ dns ≠ "unknown") ∧
        x = s ∧ y = i ∧ q = p)) ∧
    (dp ≠ "" → ¬ (s = i ∧ d = i) →
      (¬ edgeHolds tm i d p (podDestEdgeTSHash env metric c f h d i
          (timeSeriesHash env dc dns dsn "" "" "" "" "")
          (timeSeriesHash env dc dns dsn dwns dw da dver dp)) →
        valuesAt tm1 i d p = valuesAt tm i d p ++ [v]) ∧
      (edgeHolds tm i d p (podDestEdgeTSHash env metric c f h d i
          (timeSeriesHash env dc dns dsn "" "" "" "" "")
          (timeSeriesHash env dc dns dsn dwns dw da dver dp)) →
        appNotIngressAt tm i → valuesAt tm1 i d p = valuesAt tm i d p)) ∧
    ((sp ≠ "" ∨ sns = "ingress-nginx" ∨ sns = "unknown") ∧ dns ≠ "unknown" →
      ¬ (s = i ∧ d = i) →
      (¬ edgeHolds tm s i p (podSourceEdgeTSHash env metric c f h s d i
          (timeSeriesHash env sc sns ssv sns sw sa sver sp)
          (timeSeriesHash env dc dns dsn dwns dw da dver dp)
          (timeSeriesHash env dc dns dsn "" "" "" "" "")) →
        valuesAt tm1 s i p = valuesAt tm s i p ++ [v]) ∧
      (edgeHolds tm s i p (podSourceEdgeTSHash env metric c f h s d i
          (timeSeriesHash env sc sns ssv sns sw sa sver sp)
          (timeSeriesHash env dc dns dsn dwns dw da dver dp)
          (timeSeriesHash env dc dns dsn "" "" "" "" "")) →
        appNotIngressAt tm s → valuesAt tm1 s i p = valuesAt tm s i p)) := by
  unfold addTraffic at H
  cases hS : addNode env o tm sc sns ssv sns sw sa sver sp with
  | error e => simp [hS] at H
  | ok resS =>
    obtain ⟨a1, src, fs⟩ := resS
    simp only [hS] at H
    cases hD : addNode env o a1 dc dns dsn dwns dw da dver dp with
    | error e => simp [hD] at H
    | ok resD =>
      obtain ⟨a2, dst, fd⟩ := resD
      simp only [hD] at H
      rcases addNode_inv hD with ⟨hnilD, _, _⟩ | ⟨_, d2, dnt2, rfl, hidD, _, _, _⟩
      · exact absurd hnilD hnil
      rw [hd] at hidD
      simp only [Except.ok.injEq, Prod.mk.injEq] at hidD
      obtain ⟨rfl, rfl⟩ := hidD
      rcases addNode_inv hS with ⟨_, rfl, _⟩ | ⟨_, s2, snt2, rfl, hidS, _, _, _⟩
      · simp at H
      rw [hs] at hidS
      simp only [Except.ok.injEq, Prod.mk.injEq] at hidS
      obtain ⟨rfl, rfl⟩ := hidS
      simp only [hg, if_true] at H
      obtain ⟨hrow2, _, _, hts2, _⟩ := registration hS hD
      have hext2 : Ext tm a2 := (hrow2 "" "" "").1
      obtain ⟨heS, hkS⟩ := addNode_edgeAt hS
      obtain ⟨heD, hkD⟩ := addNode_edgeAt hD
      have hall : ∀ x y q, edgeAt a2 x y q = edgeAt tm x y q := fun x y q =>
        (heD x y q).trans (heS x y q)
      have hk2 : keyedByID a2 := hkD (hkS hk)
      have hEq1 : (if d = i then some (timeSeriesHash env dc dns dsn "" "" "" "" "")
          else tsHashAt a2 d) =
          some (if d = i then timeSeriesHash env dc dns dsn "" "" "" "" ""
            else timeSeriesHash env dc dns dsn dwns dw da dver dp) := by
        by_cases hdi : d = i
        · simp [hdi]
        · rw [if_neg hdi, if_neg hdi, hts2 d, if_pos rfl]
      -- the first block
      have hfirst : ∃ a3,
          (if dp ≠ "" then addTrafficPodDest env o a2 metric v p c f h dc dns dsn d
            else .ok a2) = .ok a3 ∧ keyedByID a3 ∧ Ext tm a3 ∧
          (∀ x y q, ¬ (dp ≠ "" ∧ x = i ∧ y = d ∧ q = p) → edgeAt a3 x y q = edgeAt tm x y q) ∧
          (dp ≠ "" → ¬ edgeHolds tm i d p (podDestEdgeTSHash env metric c f h d i
              (timeSeriesHash env dc dns dsn "" "" "" "" "")
              (timeSeriesHash env dc dns dsn dwns dw da dver dp)) →
            valuesAt a3 i d p = valuesAt tm i d p ++ [v]) ∧
          (dp ≠ "" → edgeHolds tm i d p (podDestEdgeTSHash env metric c f h d i
              (timeSeriesHash env dc dns dsn "" "" "" "" "")
              (timeSeriesHash env dc dns dsn dwns dw da dver dp)) →
            appNotIngressAt tm i → valuesAt a3 i d p = valuesAt tm i d p) ∧
          (∀ x, x ≠ i → tsHashAt a3 x = tsHashAt a2 x) := by
        by_cases hdp : dp ≠ ""
        · rw [if_pos hdp] at H ⊢
          cases hB : addTrafficPodDest env o a2 metric v p c f h dc dns dsn d with
          | error e => simp [hB] at H
          | ok a3 =>
            obtain ⟨hk3, hfr, hval⟩ := addTrafficPodDest_applies hk2 hi hB
            obtain ⟨i2, nt2, hid2, hrow3, hts3, _⟩ := addTrafficPodDest_post hB
            rw [hi] at hid2
            simp only [Except.ok.injEq, Prod.mk.injEq] at hid2
            obtain ⟨rfl, rfl⟩ := hid2
            refine ⟨a3, rfl, hk3, hext2.ext_trans hrow3.1, ?_, ?_, ?_, ?_⟩
            · intro x y q hne
              rw [hfr x y q (fun hh => hne ⟨hdp, hh⟩), hall]
            · intro _ hfresh
              rw [← valuesAt_congr (hall i d p)]
              apply hval
              intro hh
              apply hfresh
              rw [← edgeHolds_congr (hall i d p)]
              rw [hEq1] at hh
              exact hh
            · intro _ hheld happ
              rw [← valuesAt_congr (hall i d p)]
              have hsome : (tm i).isSome := by
                obtain ⟨e, _, he, _⟩ := hheld
                exact edgeAt_isSome he
              apply addTrafficPodDest_held hk2 hi hB
              · rw [hEq1]
                exact (edgeHolds_congr (hall i d p)).2 hheld
              · exact hext2.app_ne hsome happ
            · intro x hx
              rw [hts3 x, if_neg hx]
        · rw [if_neg hdp] at H ⊢
          exact ⟨a2, rfl, hk2, hext2, fun x y q _ => hall x y q, fun h1 => absurd h1 hdp,
            fun h1 => absurd h1 hdp, fun _ _ => rfl⟩
      obtain ⟨a3, hA3, hk3, hext3, hfr3, hval3, hheld3, hts3⟩ := hfirst
      rw [hA3] at H
      simp only at H
      by_cases hc : (sp ≠ "" ∨ sns = "ingress-nginx" ∨ sns = "unknown") ∧ dns ≠ "unknown"
      · rw [if_pos hc] at H
        obtain ⟨_, hfr4, hval4⟩ := addTrafficPodSource_applies hk3 hi H
        have hEq2 : (if s = i then some (timeSeriesHash env dc dns dsn "" "" "" "" "")
            else tsHashAt a3 s) =
            some (if s = i then timeSeriesHash env dc dns dsn "" "" "" "" ""
              else if s = d then timeSeriesHash env dc dns dsn dwns dw da dver dp
              else timeSeriesHash env sc sns ssv sns sw sa sver sp) := by
          by_cases hsi : s = i
          · simp [hsi]
          · rw [if_neg hsi, if_neg hsi, hts3 s hsi, hts2 s]
            by_cases hsd : s = d
            · simp [hsd]
            · simp [hsd]
        refine ⟨?_, ?_, ?_⟩
        · intro x y q hch
          by_contra hno
          rw [not_or] at hno
          apply hch
          rw [hfr4 x y q (fun hh => hno.2 ⟨hc, hh⟩), hfr3 x y q hno.1]
        · intro hdp hdist
          have hother : edgeAt tm1 i d p = edgeAt a3 i d p :=
            hfr4 i d p (fun hh => hdist ⟨hh.1.symm, hh.2.1⟩)
          refine ⟨fun hfresh => ?_, fun hheld happ => ?_⟩
          · rw [valuesAt_congr hother]
            exact hval3 hdp hfresh
          · rw [valuesAt_congr hother]
            exact hheld3 hdp hheld happ
        · intro _ hdist
          have hback : edgeAt a3 s i p = edgeAt tm s i p :=
            hfr3 s i p (fun hh => hdist ⟨hh.2.1, hh.2.2.1.symm⟩)
          refine ⟨fun hfresh => ?_, fun hheld happ => ?_⟩
          · rw [← valuesAt_congr hback]
            apply hval4
            intro hh
            apply hfresh
            rw [← edgeHolds_congr hback]
            rw [hEq2] at hh
            exact hh
          · rw [← valuesAt_congr hback]
            have hsome : (tm s).isSome := by
              obtain ⟨e, _, he, _⟩ := hheld
              exact edgeAt_isSome he
            apply addTrafficPodSource_held hk3 hi H
            · rw [hEq2]
              exact (edgeHolds_congr hback).2 hheld
            · exact hext3.app_ne hsome happ
      · rw [if_neg hc] at H
        simp only [Except.ok.injEq] at H
        subst H
        refine ⟨?_, ?_, fun h1 => absurd h1 hc⟩
        · intro x y q hch
          by_contra hno
          rw [not_or] at hno
          exact hch (hfr3 x y q hno.1)
        · intro hdp _
          exact ⟨fun hfresh => hval3 hdp hfresh, fun hheld happ => hheld3 hdp hheld happ⟩

/-- C23 (witness). Pod graph, from the empty map, a row (value 5) from the ingress controller
to the pod "ratings-v1-abc" of service "ratings": the edge from the service node to the pod and
the edge from the ingress node to the service node each get the value 5. -/
theorem addTraffic_pod_edges_through_service_node_witness :
    valuesAt (resultMap (addTraffic exampleEnv (exampleOptions GraphTypePod) NewTrafficMap
        "istio_requests_total" false 5 "http" "200" "-" "ratings.bookinfo.svc.cluster.local"
        "east" "ingress-nginx" "" "ingress-nginx-controller" "ingress-nginx" ""
        "east" "bookinfo" "ratings" "bookinfo" "ratings-v1" "ratings" "v1" ""
        "ratings-v1-abc"))
      "svc_east_bookinfo_ratings" "pod_east_bookinfo_ratings-v1-abc" "http" =
      valuesAt NewTrafficMap "svc_east_bookinfo_ratings" "pod_east_bookinfo_ratings-v1-abc"
        "http" ++ [5] ∧
    valuesAt (resultMap (addTraffic exampleEnv (exampleOptions GraphTypePod) NewTrafficMap
        "istio_requests_total" false 5 "http" "200" "-" "ratings.bookinfo.svc.cluster.local"
        "east" "ingress-nginx" "" "ingress-nginx-controller" "ingress-nginx" ""
        "east" "bookinfo" "ratings" "bookinfo" "ratings-v1" "ratings" "v1" ""
        "ratings-v1-abc"))
      "vapp_east_ingress-nginx_ingress-nginx-controller" "svc_east_bookinfo_ratings" "http" =
      valuesAt NewTrafficMap "vapp_east_ingress-nginx_ingress-nginx-controller"
        "svc_east_bookinfo_ratings" "http" ++ [5] :=
  have T := addTraffic_pod_edges_through_service_node exampleEnv (exampleOptions GraphTypePod)
    NewTrafficMap
    (resultMap (addTraffic exampleEnv (exampleOptions GraphTypePod) NewTrafficMap
        "istio_requests_total" false 5 "http" "200" "-" "ratings.bookinfo.svc.cluster.local"
        "east" "ingress-nginx" "" "ingress-nginx-controller" "ingress-nginx" ""
        "east" "bookinfo" "ratings" "bookinfo" "ratings-v1" "ratings" "v1" ""
        "ratings-v1-abc"))
    "istio_requests_total" false 5 "http" "200" "-" "ratings.bookinfo.svc.cluster.local"
    "east" "ingress-nginx" "" "ingress-nginx-controller" "ingress-nginx" ""
    "east" "bookinfo" "ratings" "bookinfo" "ratings-v1" "ratings" "v1" "" "ratings-v1-abc"
    "vapp_east_ingress-nginx_ingress-nginx-controller" "app" "pod_east_bookinfo_ratings-v1-abc" "pod"
    "svc_east_bookinfo_ratings" "service"
    rfl (fun _ _ hn => by simp [NewTrafficMap] at hn) rfl
    (fun hn => absurd hn.1 (by decide)) rfl rfl rfl
  ⟨(T.2.1 (by decide) (fun hh => absurd hh.1 (by decide))).1
      (fun hh => by obtain ⟨e, _, he, _⟩ := hh; simp [edgeAt, NewTrafficMap] at he),
    (T.2.2 (by decide) (fun hh => absurd hh.1 (by decide))).1
      (fun hh => by obtain ⟨e, _, he, _⟩ := hh; simp [edgeAt, NewTrafficMap] at he)⟩

/-! ### The nil node in `addTraffic` -/

/-- C24 (evaluation at the failing input). Workload graph, from the empty map, a row whose
source has the workload namespace "unknown" and the service name "reviews": `addNode` returns
no node for the source (and a node for the destination), and `addTraffic` panics on
`source.Metadata[tsHash]` instead of returning. The same row with the "unknown" namespaces on
the destination side instead returns normally. -/
theorem addTraffic_nil_source_is_dereferenced :
    (match addNode exampleEnv (exampleOptions GraphTypeWorkload) NewTrafficMap
        "east" "unknown" "reviews" "unknown" "reviews-v1" "reviews" "v1" "" with
      | .ok (_, node, _) => some node
      | .error _ => none) = some none ∧
    (match addTraffic exampleEnv (exampleOptions GraphTypeWorkload) NewTrafficMap
        "istio_requests_total" false 5 "http" "200" "-" "ratings.bookinfo.svc.cluster.local"
        "east" "unknown" "reviews" "reviews-v1" "reviews" "v1"
        "east" "bookinfo" "ratings" "bookinfo" "ratings-v1" "ratings" "v1" "" "" with
      | .ok _ => none
      | .error e => some e) = some "nil pointer dereference" ∧
    (match addTraffic exampleEnv (exampleOptions GraphTypeWorkload) NewTrafficMap
        "istio_requests_total" false 5 "http" "200" "-" "ratings.bookinfo.svc.cluster.local"
        "east" "bookinfo" "" "reviews-v1" "reviews" "v1"
        "east" "unknown" "ratings" "unknown" "ratings-v1" "ratings" "v1" "" "" with
      | .ok _ => true
      | .error _ => false) = true := by
  refine ⟨?_, ?_, ?_⟩ <;> decide

end istio






namespace appender

open graph istio

/-! ## Properties of the security-policy appender -/

/-! ### The loop over the rates of one key -/

theorem foldl_rateStep_snd (l : PolicyRates) (acc : Val × Val) :
    (l.foldl rateStep acc).2 = acc.2 + otherRate l := by
  induction l generalizing acc with
  | nil => simp [otherRate]
  | cons a rest ih =>
    rw [List.foldl_cons, ih]
    by_cases ha : a.1 = policyMTLS
    · have hf : (a :: rest).filter (fun entry => entry.1 != policyMTLS) =
          rest.filter (fun entry => entry.1 != policyMTLS) := by
        rw [List.filter_cons_of_neg]
        simp [ha]
      simp only [rateStep, ha, if_true, otherRate, hf]
    · have hf : (a :: rest).filter (fun entry => entry.1 != policyMTLS) =
          a :: rest.filter (fun entry => entry.1 != policyMTLS) := by
        rw [List.filter_cons_of_pos]
        simp [ha]
      simp only [rateStep, ha, if_false, otherRate, hf, List.map_cons, List.sum_cons]
      ring

theorem foldl_rateStep_fst_of_not_mem (l : PolicyRates) (acc : Val × Val)
    (h : policyMTLS ∉ l.map Prod.fst) : (l.foldl rateStep acc).1 = acc.1 := by
  induction l generalizing acc with
  | nil => rfl
  | cons a rest ih =>
    rw [List.map_cons, List.mem_cons, not_or] at h
    rw [List.foldl_cons, ih _ h.2]
    have ha : ¬ a.1 = policyMTLS := fun e => h.1 e.symm
    simp only [rateStep, ha, if_false]

theorem foldl_rateStep_fst (l : PolicyRates) (acc : Val × Val)
    (h : (l.map Prod.fst).Nodup) :
    (l.foldl rateStep acc).1 = (l.lookup policyMTLS).getD acc.1 := by
  induction l generalizing acc with
  | nil => rfl
  | cons a rest ih =>
    obtain ⟨k, r⟩ := a
    rw [List.map_cons, List.nodup_cons] at h
    rw [List.foldl_cons]
    by_cases ha : k = policyMTLS
    · subst ha
      rw [foldl_rateStep_fst_of_not_mem rest _ h.1]
      simp [rateStep, List.lookup]
    · rw [ih _ h.2]
      have hb : (policyMTLS == k) = false := by
        simp only [beq_eq_false_iff_ne, ne_eq]
        exact fun e => ha e.symm
      simp only [rateStep, ha, if_false, List.lookup, hb]

theorem sumRates_eq (l : PolicyRates) (h : (l.map Prod.fst).Nodup) :
    sumRates l = (mtlsRate l, otherRate l) := by
  unfold sumRates
  refine Prod.ext ?_ ?_
  · rw [foldl_rateStep_fst l _ h]
    rfl
  · rw [foldl_rateStep_snd]
    simp

theorem otherRate_nonneg (l : PolicyRates) (h : ∀ entry ∈ l, 0 ≤ entry.2) :
    0 ≤ otherRate l := by
  unfold otherRate
  apply List.sum_nonneg
  intro x hx
  obtain ⟨entry, he, rfl⟩ := List.mem_map.1 hx
  exact h entry (List.mem_of_mem_filter he)

/-! ### The loop body on one edge -/

theorem applyToEdge_frame (spm : String → Option PolicyRates)
    (pm : String → Option Principals) (sourceID : String) (e : Edge) :
    (applyToEdge spm pm sourceID e).Dest = e.Dest ∧
    eraseSecurity (applyToEdge spm pm sourceID e).Metadata = eraseSecurity e.Metadata ∧
    (spm (sourceID ++ " " ++ e.Dest) = none → pm (sourceID ++ " " ++ e.Dest) = none →
      applyToEdge spm pm sourceID e = e) := by
  cases hs : spm (sourceID ++ " " ++ e.Dest) with
  | none =>
    cases hp : pm (sourceID ++ " " ++ e.Dest) with
    | none => simp [applyToEdge, hs, hp]
    | some kp => simp [applyToEdge, hs, hp, eraseSecurity]
  | some rates =>
    cases hp : pm (sourceID ++ " " ++ e.Dest) with
    | none =>
      simp only [applyToEdge, hs, hp]
      split_ifs <;> simp [eraseSecurity]
    | some kp =>
      simp only [applyToEdge, hs, hp]
      split_ifs <;> simp [eraseSecurity]

theorem applyToEdge_isMTLS (spm : String → Option PolicyRates)
    (pm : String → Option Principals) (sourceID : String) (e : Edge) (rates : PolicyRates)
    (hkey : spm (sourceID ++ " " ++ e.Dest) = some rates)
    (hnodup : (rates.map Prod.fst).Nodup) :
    (0 < mtlsRate rates → (applyToEdge spm pm sourceID e).Metadata.isMTLS =
      some (mtlsRate rates / (mtlsRate rates + otherRate rates) * 100)) ∧
    (¬ 0 < mtlsRate rates →
      (applyToEdge spm pm sourceID e).Metadata.isMTLS = e.Metadata.isMTLS) := by
  unfold applyToEdge
  simp only [hkey, sumRates_eq rates hnodup]
  constructor
  · intro h
    rw [if_pos h]
    cases pm (sourceID ++ " " ++ e.Dest) <;> rfl
  · intro h
    rw [if_neg h]
    cases pm (sourceID ++ " " ++ e.Dest) <;> rfl

theorem applySecurityPolicy_edge (tm : TrafficMap) (spm : String → Option PolicyRates)
    (pm : String → Option Principals) (k : String) (n : Node) (i : Nat) (e : Edge)
    (hn : tm k = some n) (he : n.Edges[i]? = some e) :
    ∃ n2, applySecurityPolicy tm spm pm k = some n2 ∧
      n2 = { n with Edges := n2.Edges } ∧
      n2.Edges.length = n.Edges.length ∧
      n2.Edges[i]? = some (applyToEdge spm pm n.ID e) := by
  refine ⟨{ n with Edges := n.Edges.map (applyToEdge spm pm n.ID) }, ?_, rfl, ?_, ?_⟩
  · simp [applySecurityPolicy, hn]
  · simp
  · simp [he]

/-! ### The mTLS percentage -/

/-- C13. For an edge whose key is in the security-policy table with non-negative rates and a
positive rate under "mutual_tls" (the edges on which `applySecurityPolicy` sets the mTLS
percentage): the percentage on the edge after `applySecurityPolicy` lies in [0, 100], and it
is 100 when the rates of the other classes sum to zero. The keys of the rates are distinct, as
the keys of a Go map are. -/
theorem applySecurityPolicy_mtls_range (tm : TrafficMap)
    (spm : String → Option PolicyRates) (pm : String → Option Principals)
    (k : String) (n : Node) (i : Nat) (e : Edge) (rates : PolicyRates)
    (hn : tm k = some n) (he : n.Edges[i]? = some e)
    (hkey : spm (n.ID ++ " " ++ e.Dest) = some rates)
    (hnodup : (rates.map Prod.fst).Nodup)
    (hnonneg : ∀ entry ∈ rates, 0 ≤ entry.2)
    (hset : 0 < mtlsRate rates) :
    ∃ n2 e2 x, applySecurityPolicy tm spm pm k = some n2 ∧ n2.Edges[i]? = some e2 ∧
      e2.Metadata.isMTLS = some x ∧ 0 ≤ x ∧ x ≤ 100 ∧ (otherRate rates = 0 → x = 100) := by
  obtain ⟨n2, hn2, _, _, he2⟩ := applySecurityPolicy_edge tm spm pm k n i e hn he
  have hoth := otherRate_nonneg rates hnonneg
  have hpos : 0 < mtlsRate rates + otherRate rates := by linarith
  refine ⟨n2, _, _, hn2, he2, (applyToEdge_isMTLS spm pm n.ID e rates hkey hnodup).1 hset,
    ?_, ?_, ?_⟩
  · positivity
  · have h1 : mtlsRate rates / (mtlsRate rates + otherRate rates) ≤ 1 :=
      (div_le_one hpos).2 (by linarith)
    linarith
  · intro h0
    rw [h0, add_zero, div_self (ne_of_gt hset)]
    norm_num

/-- C13 (witness). The edge from "a" to "b" with the rates 3 under "mutual_tls" and 1 under
"none". -/
theorem applySecurityPolicy_mtls_range_witness :
    ∃ n2 e2 x, applySecurityPolicy examplePolicyMap
        (exampleTable [("mutual_tls", 3), ("none", 1)]) noPrincipals "a" = some n2 ∧
      n2.Edges[0]? = some e2 ∧ e2.Metadata.isMTLS = some x ∧ 0 ≤ x ∧ x ≤ 100 ∧
      (otherRate [("mutual_tls", 3), ("none", 1)] = 0 → x = 100) :=
  applySecurityPolicy_mtls_range examplePolicyMap
    (exampleTable [("mutual_tls", 3), ("none", 1)]) noPrincipals "a" _ 0 _
    [("mutual_tls", 3), ("none", 1)] rfl rfl rfl (by decide)
    (fun entry h => by
      simp only [List.mem_cons, List.mem_singleton, List.not_mem_nil, or_false] at h
      rcases h with rfl | rfl <;> norm_num)
    (by norm_num [mtlsRate, policyMTLS, List.lookup])

/-- C14 (counterexample). The key "a b" of the edge from "a" to "b" is in the table, with the
one rate 5 under "none": no mTLS percentage is attached to the edge. -/
theorem applySecurityPolicy_no_mtls_without_mtls_rate :
    (applySecurityPolicy examplePolicyMap (exampleTable [("none", 5)]) noPrincipals "a").map
        (fun n => n.Edges.map (fun e => e.Metadata.isMTLS)) = some [none] ∧
    exampleTable [("none", 5)] "a b" = some [("none", 5)] := by
  constructor
  · simp [applySecurityPolicy, examplePolicyMap, applyToEdge, exampleTable, noPrincipals,
      sumRates, rateStep, policyMTLS]
  · rfl

/-- C14 (amended). For an edge whose key is in the security-policy table: when the rate
recorded under "mutual_tls" is positive, `applySecurityPolicy` attaches the mTLS percentage
mtls / (mtls + other) * 100 to the edge metadata; when it is not (no such rate, or zero), the
mTLS key of the edge is left as it was. The keys of the rates are distinct. -/
theorem applySecurityPolicy_attaches_mtls (tm : TrafficMap)
    (spm : String → Option PolicyRates) (pm : String → Option Principals)
    (k : String) (n : Node) (i : Nat) (e : Edge) (rates : PolicyRates)
    (hn : tm k = some n) (he : n.Edges[i]? = some e)
    (hkey : spm (n.ID ++ " " ++ e.Dest) = some rates)
    (hnodup : (rates.map Prod.fst).Nodup) :
    ∃ n2 e2, applySecurityPolicy tm spm pm k = some n2 ∧ n2.Edges[i]? = some e2 ∧
      (0 < mtlsRate rates → e2.Metadata.isMTLS =
        some (mtlsRate rates / (mtlsRate rates + otherRate rates) * 100)) ∧
      (¬ 0 < mtlsRate rates → e2.Metadata.isMTLS = e.Metadata.isMTLS) := by
  obtain ⟨n2, hn2, _, _, he2⟩ := applySecurityPolicy_edge tm spm pm k n i e hn he
  exact ⟨n2, _, hn2, he2, applyToEdge_isMTLS spm pm n.ID e rates hkey hnodup⟩

/-- C14 (witness). The edge from "a" to "b" with the rates 3 under "mutual_tls" and 1 under
"none" gets the percentage 75. -/
theorem applySecurityPolicy_attaches_mtls_witness :
    ∃ n2 e2, applySecurityPolicy examplePolicyMap
        (exampleTable [("mutual_tls", 3), ("none", 1)]) noPrincipals "a" = some n2 ∧
      n2.Edges[0]? = some e2 ∧ e2.Metadata.isMTLS = some 75 := by
  obtain ⟨n2, e2, h1, h2, h3, _⟩ := applySecurityPolicy_attaches_mtls examplePolicyMap
    (exampleTable [("mutual_tls", 3), ("none", 1)]) noPrincipals "a" _ 0 _
    [("mutual_tls", 3), ("none", 1)] rfl rfl rfl (by decide)
  refine ⟨n2, e2, h1, h2, ?_⟩
  rw [h3 (by norm_num [mtlsRate, policyMTLS, List.lookup])]
  have hne : ("none" != "mutual_tls") = true := by decide
  norm_num [mtlsRate, otherRate, policyMTLS, List.lookup, List.filter, hne]

/-- C15. `applySecurityPolicy` keeps the keys of the traffic map; every node keeps all its
fields but its edges, of which it has as many as before; every edge keeps its destination and
its metadata apart from the mTLS, source-principal and destination-principal keys; and an
edge whose key is in neither the security-policy table nor the principal table is exactly as
it was. -/
theorem applySecurityPolicy_frame (tm : TrafficMap)
    (spm : String → Option PolicyRates) (pm : String → Option Principals) (k : String) :
    (tm k = none → applySecurityPolicy tm spm pm k = none) ∧
    ∀ n, tm k = some n →
      ∃ n2, applySecurityPolicy tm spm pm k = some n2 ∧
        n2 = { n with Edges := n2.Edges } ∧
        n2.Edges.length = n.Edges.length ∧
        ∀ (i : Nat) (e : Edge), n.Edges[i]? = some e →
          ∃ e2, n2.Edges[i]? = some e2 ∧ e2.Dest = e.Dest ∧
            eraseSecurity e2.Metadata = eraseSecurity e.Metadata ∧
            (spm (n.ID ++ " " ++ e.Dest) = none → pm (n.ID ++ " " ++ e.Dest) = none →
              e2 = e) := by
  refine ⟨fun h => by simp [applySecurityPolicy, h], fun n hn => ?_⟩
  refine ⟨{ n with Edges := n.Edges.map (applyToEdge spm pm n.ID) }, ?_, rfl, ?_, ?_⟩
  · simp [applySecurityPolicy, hn]
  · simp
  · intro i e he
    refine ⟨applyToEdge spm pm n.ID e, by simp [he], ?_⟩
    exact applyToEdge_frame spm pm n.ID e

/-! ### The injection decision -/

theorem injectDecision_iff (env : Env) (o : TelemetryOptions)
    (dc dns dsn dwns dw da dv dp : String) :
    istio.injectDecision env o dc dns dsn dwns dw da dv dp = .ok true ↔
      o.InjectServiceNodes = true ∧ IsOK dsn = true ∧ dsn ≠ PassthroughCluster ∧
      ∃ id nt, Id env.IsOKVersion dc dns dsn dwns dw da dv o.GraphType dp = .ok (id, nt) ∧
        nt ≠ NodeTypeService := by
  unfold istio.injectDecision
  by_cases hc : (o.InjectServiceNodes && IsOK dsn && dsn != PassthroughCluster) = true
  · rw [if_pos hc]
    simp only [Bool.and_eq_true, bne_iff_ne, ne_eq] at hc
    cases hid : Id env.IsOKVersion dc dns dsn dwns dw da dv o.GraphType dp with
    | error e => simp
    | ok res =>
      obtain ⟨id, nt⟩ := res
      simp only [Except.ok.injEq, bne_iff_ne, ne_eq, Prod.mk.injEq, exists_and_left]
      constructor
      · intro h
        exact ⟨hc.1.1, hc.1.2, hc.2, id, nt, ⟨rfl, rfl⟩, fun e => h e.symm⟩
      · rintro ⟨_, _, _, id2, nt2, ⟨_, rfl⟩, hne⟩
        exact fun e => hne e.symm
  · rw [if_neg hc]
    simp only [Except.ok.injEq, Bool.false_eq_true, false_iff, not_and, not_exists]
    intro h1 h2 h3
    exfalso
    apply hc
    simp only [Bool.and_eq_true, bne_iff_ne, ne_eq]
    exact ⟨⟨h1, h2⟩, h3⟩

/-- C17. For a row that `populateTrafficMap` accepts, the loop body is the call of
`addTraffic` with the row's arguments and the inject flag of the injection decision (or the
panic of `Id` in that decision). The decision is true if and only if `InjectServiceNodes` is
set, the destination service name is OK and is not "PassthroughCluster", and `Id` gives the
destination tuple, under the graph type, a node type other than service. The security-policy
appender, with the same graph type and `InjectServiceNodes`, takes the same decision on the
same destination labels. -/
theorem populateRow_injection (env : Env) (o : TelemetryOptions) (tm : TrafficMap)
    (metric : String) (s : Sample) (r : RowCall)
    (hr : rowCall env o metric s = some r) :
    (populateRow env o tm metric s =
      match istio.injectDecision env o r.destCluster r.destSvcNs r.destSvcName r.destWlNs
          r.destWl r.destApp r.destVer r.destinationPod with
      | .error e => .error e
      | .ok inject =>
        addTraffic env o tm metric inject r.val r.protocol r.code r.flags r.host
          r.sourceCluster r.sourceWlNs r.sourceSvc r.sourceWl r.sourceApp r.sourceVer
          r.destCluster r.destSvcNs r.destSvcName r.destWlNs r.destWl r.destApp r.destVer
          r.sourcePod r.destinationPod) ∧
    (istio.injectDecision env o r.destCluster r.destSvcNs r.destSvcName r.destWlNs r.destWl
        r.destApp r.destVer r.destinationPod = .ok true ↔
      o.InjectServiceNodes = true ∧ IsOK r.destSvcName = true ∧
      r.destSvcName ≠ PassthroughCluster ∧
      ∃ id nt, Id env.IsOKVersion r.destCluster r.destSvcNs r.destSvcName r.destWlNs r.destWl
          r.destApp r.destVer o.GraphType r.destinationPod = .ok (id, nt) ∧
        nt ≠ NodeTypeService) ∧
    (∀ a : SecurityPolicyAppender, a.GraphType = o.GraphType →
      a.InjectServiceNodes = o.InjectServiceNodes →
      ∀ dc dns dsn dwns dw da dv dp : String,
        appender.injectDecision a env.IsOKVersion dc dns dsn dwns dw da dv dp =
          istio.injectDecision env o dc dns dsn dwns dw da dv dp) := by
  refine ⟨?_, injectDecision_iff env o _ _ _ _ _ _ _ _, ?_⟩
  · rw [populateRow_eq, hr]
  · intro a hg hi dc dns dsn dwns dw da dv dp
    unfold appender.injectDecision istio.injectDecision
    rw [hg, hi]

/-- C17 (witness). The example sample in a workload graph with injection: it is accepted, and
the loop body is the call of `addTraffic` with the decision taken for its destination. -/
theorem populateRow_injection_witness :
    populateRow exampleEnv (exampleOptions GraphTypeWorkload) NewTrafficMap
        "istio_requests_total" (exampleSample "" "source") =
      match istio.injectDecision exampleEnv (exampleOptions GraphTypeWorkload) "east" "bookinfo"
          "ratings" "bookinfo" "ratings-v1" "ratings" "v1" "" with
      | .error e => .error e
      | .ok inject =>
        addTraffic exampleEnv (exampleOptions GraphTypeWorkload) NewTrafficMap
          "istio_requests_total" inject 5 "http" "200" "-"
          "ratings.bookinfo.svc.cluster.local" "east" "bookinfo" "" "reviews-v1" "reviews" "v1"
          "east" "bookinfo" "ratings" "bookinfo" "ratings-v1" "ratings" "v1" "" "" :=
  (populateRow_injection exampleEnv (exampleOptions GraphTypeWorkload) NewTrafficMap
    "istio_requests_total" (exampleSample "" "source") exampleRowCall rfl).1


/-! ### The tables of `populateSecurityPolicyMap` -/

theorem lookup_cons_eq {β : Type} (k2 k0 : String) (v0 : β) (rest : List (String × β)) :
    List.lookup k2 ((k0, v0) :: rest) = if k2 = k0 then some v0 else rest.lookup k2 := by
  by_cases h : k2 = k0
  · subst h
    simp [List.lookup]
  · have hb : (k2 == k0) = false := by simpa using h
    simp [List.lookup, hb, h]

theorem lookup_mapSet {β : Type} (m : List (String × β)) (k k2 : String) (v : β) :
    (mapSet m k v).lookup k2 = if k2 = k then some v else m.lookup k2 := by
  induction m with
  | nil =>
    simp only [mapSet, lookup_cons_eq]
  | cons e rest ih =>
    obtain ⟨k0, v0⟩ := e
    by_cases h0 : k0 = k
    · subst h0
      simp only [mapSet, if_true, lookup_cons_eq]
      by_cases h : k2 = k0
      · rw [if_pos h, if_pos h]
      · rw [if_neg h, if_neg h, if_neg h]
    · simp only [mapSet, if_neg h0, lookup_cons_eq, ih]
      by_cases h : k2 = k
      · subst h
        rw [if_neg (fun hh => h0 hh.symm), if_pos rfl, if_pos rfl]
      · rw [if_neg h, if_neg h]

/-- One call of `addSecurityPolicy` that returns: it recorded under the key of the call, and
the entry of that key and class is the value of the call; every other entry is as before. -/
theorem PolicyCall.run_rateAt {a : SecurityPolicyAppender} {IsOKVersion : String → Bool}
    {spm spm1 : String → Option PolicyRates} {call : PolicyCall}
    (H : call.run a IsOKVersion spm = .ok spm1) (key csp : String) :
    rateAt spm1 key csp =
      if call.key a IsOKVersion = some key ∧ call.csp = csp then some call.val
      else rateAt spm key csp := by
  unfold PolicyCall.run addSecurityPolicy at H
  unfold PolicyCall.key
  cases hs : Id IsOKVersion call.sourceCluster call.sourceNs call.sourceSvc call.sourceNs
      call.sourceWl call.sourceApp call.sourceVer a.GraphType call.sourcePod with
  | error e => simp [hs] at H
  | ok rs =>
    obtain ⟨sid, snt⟩ := rs
    cases hd : Id IsOKVersion call.destCluster call.destSvcNs call.destSvc call.destWlNs
        call.destWl call.destApp call.destVer a.GraphType call.destinationPod with
    | error e => simp [hs, hd] at H
    | ok rd =>
      obtain ⟨did, dnt⟩ := rd
      simp only [hs, hd, Except.ok.injEq] at H
      subst H
      simp only [Option.some.injEq]
      unfold rateAt
      by_cases hk : sid ++ " " ++ did = key
      · subst hk
        rw [Function.update_same]
        simp only [lookup_mapSet, true_and]
        by_cases hc : call.csp = csp
        · rw [if_pos hc.symm, if_pos hc]
        · rw [if_neg (fun hh => hc hh.symm), if_neg hc]
          cases spm (sid ++ " " ++ did) with
          | none => rfl
          | some r => rfl
      · rw [Function.update_noteq (fun hh => hk hh.symm), if_neg (fun hh => hk hh.1)]

/-- C26. `addSecurityPolicy` keeps the value of the most recent row: a call that returns
leaves every entry of another key or class as it was, and after a sequence of calls that
return, the entry `table[key][class]` is the value passed by the last call of the sequence
with that key and class (not a sum), and is the entry of the table before the sequence when
no call of the sequence has that key and class. -/
theorem addSecurityPolicy_keeps_the_last_value (a : SecurityPolicyAppender)
    (IsOKVersion : String → Bool) (spm : String → Option PolicyRates) :
    (∀ (call : PolicyCall) (spm1 : String → Option PolicyRates),
      call.run a IsOKVersion spm = .ok spm1 →
      ∀ key csp, ¬ (call.key a IsOKVersion = some key ∧ call.csp = csp) →
        rateAt spm1 key csp = rateAt spm key csp) ∧
    (∀ (calls : List PolicyCall) (spm2 : String → Option PolicyRates),
      addSecurityPolicies a IsOKVersion spm calls = .ok spm2 →
      ∀ key csp, rateAt spm2 key csp =
        match lastRate a IsOKVersion key csp calls with
        | some v => some v
        | none => rateAt spm key csp) := by
  constructor
  · intro call spm1 H key csp hne
    rw [PolicyCall.run_rateAt H key csp, if_neg hne]
  · intro calls
    induction calls generalizing spm with
    | nil =>
      intro spm2 H key csp
      simp only [addSecurityPolicies, Except.ok.injEq] at H
      subst H
      rfl
    | cons call rest ih =>
      intro spm2 H key csp
      simp only [addSecurityPolicies] at H
      cases h1 : call.run a IsOKVersion spm with
      | error e => simp [h1] at H
      | ok spm1 =>
        simp only [h1] at H
        rw [ih spm1 spm2 H key csp, PolicyCall.run_rateAt h1 key csp]
        simp only [lastRate]
        cases lastRate a IsOKVersion key csp rest with
        | some v => rfl
        | none =>
          by_cases hc : call.key a IsOKVersion = some key ∧ call.csp = csp
          · simp only [if_pos hc]
          · simp only [if_neg hc]

/-- C26 (witness). Workload graph, three calls for the edge from "reviews-v1" to
"ratings-v1" on the empty table, with the values 3 and 2 for the class "mutual_tls" and 1 for
the class "none": the entry for "mutual_tls" is 2, the value of the last of them, and the
entry for "none" is 1. -/
theorem addSecurityPolicy_keeps_the_last_value_witness :
    rateAt (resultRates (addSecurityPolicies (exampleAppender GraphTypeWorkload)
        exampleEnv.IsOKVersion (fun _ => none)
        [examplePolicyCall "mutual_tls" 3, examplePolicyCall "none" 1,
          examplePolicyCall "mutual_tls" 2]))
      "wl_east_bookinfo_reviews-v1 wl_east_bookinfo_ratings-v1" "mutual_tls" = some 2 ∧
    rateAt (resultRates (addSecurityPolicies (exampleAppender GraphTypeWorkload)
        exampleEnv.IsOKVersion (fun _ => none)
        [examplePolicyCall "mutual_tls" 3, examplePolicyCall "none" 1,
          examplePolicyCall "mutual_tls" 2]))
      "wl_east_bookinfo_reviews-v1 wl_east_bookinfo_ratings-v1" "none" = some 1 :=
  ⟨(addSecurityPolicy_keeps_the_last_value (exampleAppender GraphTypeWorkload)
      exampleEnv.IsOKVersion (fun _ => none)).2
      [examplePolicyCall "mutual_tls" 3, examplePolicyCall "none" 1,
        examplePolicyCall "mutual_tls" 2] _ rfl
      "wl_east_bookinfo_reviews-v1 wl_east_bookinfo_ratings-v1" "mutual_tls",
    (addSecurityPolicy_keeps_the_last_value (exampleAppender GraphTypeWorkload)
      exampleEnv.IsOKVersion (fun _ => none)).2
      [examplePolicyCall "mutual_tls" 3, examplePolicyCall "none" 1,
        examplePolicyCall "mutual_tls" 2] _ rfl
      "wl_east_bookinfo_reviews-v1 wl_east_bookinfo_ratings-v1" "none"⟩

/-- C25 (evaluation at the failing input). Pod graph, from the empty tables, the example row
reported by the destination with the pod "ratings-v1-abc": `addSecurityPolicy` records under
the key of the service node and the pod node, `addPrincipal` under the key it computes with
the empty pod, so the key of the security-policy table is not in the principal table. In a
workload graph the same row gives one key in both tables. -/
theorem populateSecurityPolicyMap_pod_key_without_principals :
    ((resultTables (populateSecurityPolicyMap (exampleAppender GraphTypePod) exampleEnv
        (fun _ => none, fun _ => none) [examplePolicySample "ratings-v1-abc" "destination"])).1
      "svc_east_bookinfo_ratings pod_east_bookinfo_ratings-v1-abc").isSome = true ∧
    ((resultTables (populateSecurityPolicyMap (exampleAppender GraphTypePod) exampleEnv
        (fun _ => none, fun _ => none) [examplePolicySample "ratings-v1-abc" "destination"])).2
      "svc_east_bookinfo_ratings pod_east_bookinfo_ratings-v1-abc").isSome = false ∧
    ((resultTables (populateSecurityPolicyMap (exampleAppender GraphTypePod) exampleEnv
        (fun _ => none, fun _ => none) [examplePolicySample "ratings-v1-abc" "destination"])).2
      "svc_east_bookinfo_ratings svc_east_bookinfo_ratings").isSome = true ∧
    ((resultTables (populateSecurityPolicyMap (exampleAppender GraphTypeWorkload) exampleEnv
        (fun _ => none, fun _ => none) [examplePolicySample "ratings-v1-abc" "destination"])).1
      "svc_east_bookinfo_ratings wl_east_bookinfo_ratings-v1").isSome = true ∧
    ((resultTables (populateSecurityPolicyMap (exampleAppender GraphTypeWorkload) exampleEnv
        (fun _ => none, fun _ => none) [examplePolicySample "ratings-v1-abc" "destination"])).2
      "svc_east_bookinfo_ratings wl_east_bookinfo_ratings-v1").isSome = true := by
  refine ⟨?_, ?_, ?_, ?_, ?_⟩ <;> decide

end appender

namespace mtls

/-! ## Properties of the mTLS status -/

theorem finalStatus_constant (m : MtlsStatus) (dr pa : String) :
    isStatusConstant (m.finalStatus dr pa).OverallStatus := by
  unfold MtlsStatus.finalStatus isStatusConstant
  simp only
  split_ifs <;> simp

/-- One call of `OverallMtlsStatus` with a namespace status that is neither defined nor
partial returns without a nested call, and returns one of the four constants when the overall
status of the mesh is one. -/
theorem OverallMtlsStatus_of_mesh (m : MtlsStatus) (depth : Nat) (ns mesh : TlsStatus)
    (h1 : ns.hasDefinedTls = false) (h2 : ns.hasPartialTlsConfig = false) :
    ∃ st, m.OverallMtlsStatus (depth + 1) ns mesh = some st ∧ isStatusConstant st := by
  unfold MtlsStatus.OverallMtlsStatus
  simp only [h1, h2, Bool.false_eq_true, if_false]
  by_cases hm : mesh.hasDefinedTls = true
  · rw [if_pos hm]
    refine ⟨_, rfl, ?_⟩
    unfold TlsStatus.hasDefinedTls at hm
    simp only [Bool.or_eq_true, beq_iff_eq] at hm
    unfold isStatusConstant
    rcases hm with hm | hm
    · exact Or.inl hm
    · exact Or.inr (Or.inr (Or.inr hm))
  · rw [if_neg hm]
    unfold isStatusConstant
    split_ifs <;> exact ⟨_, rfl, by simp⟩

/-- C29. For every setting of `AutoMtlsEnabled` and `AllowPermissive` and every namespace and
mesh status, `OverallMtlsStatus` returns: two nested calls (the call itself and at most one
call through `inheritedOverallStatus`) are enough, and a larger bound gives the same status.
The status is one of the four constants, and it is the overall status of the namespace when
that is MTLS_ENABLED or MTLS_DISABLED. -/
theorem OverallMtlsStatus_returns_a_constant (m : MtlsStatus) (ns mesh : TlsStatus) :
    ∃ st, (∀ depth, m.OverallMtlsStatus (depth + 2) ns mesh = some st) ∧
      isStatusConstant st ∧
      (ns.OverallStatus = MTLSEnabled ∨ ns.OverallStatus = MTLSDisabled →
        st = ns.OverallStatus) := by
  by_cases h1 : ns.hasDefinedTls = true
  · refine ⟨ns.OverallStatus, fun depth => ?_, ?_, fun _ => rfl⟩
    · unfold MtlsStatus.OverallMtlsStatus
      rw [if_pos h1]
    · unfold TlsStatus.hasDefinedTls at h1
      simp only [Bool.or_eq_true, beq_iff_eq] at h1
      unfold isStatusConstant
      rcases h1 with h1 | h1
      · exact Or.inl h1
      · exact Or.inr (Or.inr (Or.inr h1))
  · have h1f : ns.hasDefinedTls = false := by simpa using h1
    have hnot : ¬ (ns.OverallStatus = MTLSEnabled ∨ ns.OverallStatus = MTLSDisabled) := by
      intro h
      apply h1
      unfold TlsStatus.hasDefinedTls
      simpa using h
    by_cases h2 : ns.hasPartialTlsConfig = true
    · -- the one nested call has the empty namespace status
      have hd : ({} : TlsStatus).hasDefinedTls = false := by decide
      have hp : ({} : TlsStatus).hasPartialTlsConfig = false := by decide
      have key : ∀ depth, m.OverallMtlsStatus (depth + 2) ns mesh =
          m.OverallMtlsStatus (depth + 1) {}
            (m.finalStatus
              (if ns.DestinationRuleStatus == "" then mesh.DestinationRuleStatus
                else ns.DestinationRuleStatus)
              (if ns.PeerAuthenticationStatus == "" then mesh.PeerAuthenticationStatus
                else ns.PeerAuthenticationStatus)) := by
        intro depth
        rw [MtlsStatus.OverallMtlsStatus]
        simp only [h1f, h2, Bool.false_eq_true, if_false, if_true]
        rfl
      obtain ⟨st, _, hc⟩ := OverallMtlsStatus_of_mesh m 0 {}
        (m.finalStatus
          (if ns.DestinationRuleStatus == "" then mesh.DestinationRuleStatus
            else ns.DestinationRuleStatus)
          (if ns.PeerAuthenticationStatus == "" then mesh.PeerAuthenticationStatus
            else ns.PeerAuthenticationStatus)) hd hp
      refine ⟨st, fun depth => ?_, hc, fun h => absurd h hnot⟩
      rw [key]
      have hind : ∀ d e (mesh2 : TlsStatus), m.OverallMtlsStatus (d + 1) {} mesh2 =
          m.OverallMtlsStatus (e + 1) {} mesh2 := by
        intro d e mesh2
        unfold MtlsStatus.OverallMtlsStatus
        simp only [hd, hp, Bool.false_eq_true, if_false]
      rw [hind depth 0]
      assumption
    · have h2f : ns.hasPartialTlsConfig = false := by simpa using h2
      obtain ⟨st, _, hc⟩ := OverallMtlsStatus_of_mesh m 0 ns mesh h1f h2f
      refine ⟨st, fun depth => ?_, hc, fun h => absurd h hnot⟩
      have hind : ∀ d e, m.OverallMtlsStatus (d + 1) ns mesh =
          m.OverallMtlsStatus (e + 1) ns mesh := by
        intro d e
        unfold MtlsStatus.OverallMtlsStatus
        simp only [h1f, h2f, Bool.false_eq_true, if_false]
      rw [hind (depth + 1) 0]
      assumption

/-- C29 (witness). With auto mTLS on, a namespace whose overall status is MTLS_DISABLED under a
mesh whose overall status is MTLS_ENABLED: the call returns MTLS_DISABLED. -/
theorem OverallMtlsStatus_returns_a_constant_witness :
    MtlsStatus.OverallMtlsStatus { AutoMtlsEnabled := true, AllowPermissive := false } 2
      { DestinationRuleStatus := "DISABLE", PeerAuthenticationStatus := "DISABLE",
        OverallStatus := "MTLS_DISABLED" }
      { DestinationRuleStatus := "ISTIO_MUTUAL", PeerAuthenticationStatus := "STRICT",
        OverallStatus := "MTLS_ENABLED" } = some "MTLS_DISABLED" := by
  obtain ⟨st, h1, _, h3⟩ := OverallMtlsStatus_returns_a_constant
    { AutoMtlsEnabled := true, AllowPermissive := false }
    { DestinationRuleStatus := "DISABLE", PeerAuthenticationStatus := "DISABLE",
      OverallStatus := "MTLS_DISABLED" }
    { DestinationRuleStatus := "ISTIO_MUTUAL", PeerAuthenticationStatus := "STRICT",
      OverallStatus := "MTLS_ENABLED" }
  rw [h1 0, h3 (Or.inr rfl)]

end mtls

namespace kubernetes

/-! ## Properties of `UseRemoteCreds` -/

theorem splitChars_no_sep (sep : Char) (l : List Char) :
    ∀ part ∈ splitChars sep l, sep ∉ part := by
  induction l with
  | nil =>
    intro part hp
    simp only [splitChars, List.mem_singleton] at hp
    subst hp
    simp
  | cons c cs ih =>
    intro part hp
    unfold splitChars at hp
    by_cases hc : c = sep
    · rw [if_pos hc] at hp
      rcases List.mem_cons.1 hp with h | h
      · subst h
        simp
      · exact ih part h
    · rw [if_neg hc] at hp
      cases hs : splitChars sep cs with
      | nil =>
        rw [hs] at hp
        simp only [List.mem_singleton] at hp
        subst hp
        simpa using fun h => hc h.symm
      | cons p ps =>
        rw [hs] at hp
        rcases List.mem_cons.1 hp with h | h
        · subst h
          have hpm : sep ∉ p := ih p (by rw [hs]; exact List.mem_cons_self _ _)
          intro hmem
          rcases List.mem_cons.1 hmem with h1 | h1
          · exact hc h1.symm
          · exact hpm h1
        · exact ih part (by rw [hs]; exact List.mem_cons_of_mem _ h)

theorem splitColon_no_colon (s part : String) (hp : part ∈ splitColon s) : ':' ∉ part.data := by
  unfold splitColon at hp
  obtain ⟨l, hl, rfl⟩ := List.mem_map.1 hp
  exact splitChars_no_sep ':' s.data l hl

theorem TrimPrefix_no_colon (s pre : String) (h : ':' ∉ s.data) :
    ':' ∉ (TrimPrefix s pre).data := by
  unfold TrimPrefix
  split_ifs
  · intro hmem
    exact h (List.mem_of_mem_drop hmem)
  · exact h

theorem JoinHostPort_plain (host port : String) (h : ':' ∉ host.data) :
    JoinHostPort host port = host ++ ":" ++ port := by
  unfold JoinHostPort
  rw [if_neg h]

/-- C30. For every remote secret with at least one cluster, `UseRemoteCreds` returns a
configuration if and only if the decoder accepts the CA data, the server URL splits on ":"
into exactly two or three parts, and `strings.EqualFold` holds of its first part and "https";
otherwise it returns an error. The `Host` of a returned configuration is "https://", the
host (the second part without a leading "//"), ":" and the port (the third part when there
is one, "443" otherwise): the host has no colon, so `net.JoinHostPort` adds no brackets. -/
theorem UseRemoteCreds_returns_iff (lib : Lib) (remoteSecret : RemoteSecret)
    (first : RemoteSecretCluster) (others : List RemoteSecretCluster)
    (hc : remoteSecret.Clusters = first :: others) :
    ((∃ cfg, UseRemoteCreds lib remoteSecret = .ok cfg) ↔
      validBase64 lib first.CertificateAuthorityData ∧
      ((splitColon first.Server).length = 2 ∨ (splitColon first.Server).length = 3) ∧
      lib.EqualFold ((splitColon first.Server).getD 0 "") "https" = true) ∧
    ((¬ ∃ cfg, UseRemoteCreds lib remoteSecret = .ok cfg) →
      ∃ err, UseRemoteCreds lib remoteSecret = .error err) ∧
    (∀ cfg, UseRemoteCreds lib remoteSecret = .ok cfg →
      cfg.Host = "https://" ++ (hostOf (splitColon first.Server) ++ ":" ++
        portOf (splitColon first.Server))) := by
  refine ⟨?_, ?_, ?_⟩
  · unfold UseRemoteCreds validBase64
    rw [hc]
    simp only
    cases hdec : lib.DecodeString first.CertificateAuthorityData with
    | error e => simp
    | ok bytes =>
      rcases hparts : splitColon first.Server with _ | ⟨a, _ | ⟨b, _ | ⟨c, _ | ⟨d, r⟩⟩⟩⟩
      · simp
      · simp
      · by_cases hf : lib.EqualFold a "https" = true <;> simp [hf]
      · by_cases hf : lib.EqualFold a "https" = true <;> simp [hf]
      · simp
  · intro hno
    cases hr : UseRemoteCreds lib remoteSecret with
    | error e => exact ⟨e, rfl⟩
    | ok cfg => exact absurd ⟨cfg, hr⟩ hno
  · intro cfg H
    unfold UseRemoteCreds at H
    rw [hc] at H
    simp only at H
    cases hdec : lib.DecodeString first.CertificateAuthorityData with
    | error e => simp [hdec] at H
    | ok bytes =>
      rw [hdec] at H
      simp only at H
      have hno : ∀ part ∈ splitColon first.Server, ':' ∉ part.data :=
        fun part hp => splitColon_no_colon first.Server part hp
      rcases hparts : splitColon first.Server with _ | ⟨a, _ | ⟨b, _ | ⟨c, _ | ⟨d, r⟩⟩⟩⟩
      · simp [hparts] at H
      · simp [hparts] at H
      · rw [hparts] at H hno
        simp only at H
        split_ifs at H
        simp only [Except.ok.injEq] at H
        rw [← H]
        have hb : ':' ∉ (TrimPrefix b "//").data :=
          TrimPrefix_no_colon b "//" (hno b (by simp))
        simp only [JoinHostPort_plain _ _ hb, hostOf, portOf, List.getD_cons_succ,
          List.getD_cons_zero, List.length_cons, List.length_nil]
        rfl
      · rw [hparts] at H hno
        simp only at H
        split_ifs at H
        simp only [Except.ok.injEq] at H
        rw [← H]
        have hb : ':' ∉ (TrimPrefix b "//").data :=
          TrimPrefix_no_colon b "//" (hno b (by simp))
        simp only [JoinHostPort_plain _ _ hb, hostOf, portOf, List.getD_cons_succ,
          List.getD_cons_zero, List.length_cons, List.length_nil]
        rfl
      · simp [hparts] at H

/-- C30 (witness). The example secret, whose server URL "https://192.168.1.10:6443" has
three parts: a configuration is returned, with the `Host` "https://192.168.1.10:6443". -/
theorem UseRemoteCreds_returns_iff_witness :
    (match UseRemoteCreds exampleLib exampleSecret with
      | .ok cfg => some cfg.Host
      | .error _ => none) = some "https://192.168.1.10:6443" := by
  have T := UseRemoteCreds_returns_iff exampleLib exampleSecret
    { CertificateAuthorityData := "LS0tLS1CRUdJTg==", Server := "https://192.168.1.10:6443" }
    [] rfl
  obtain ⟨cfg, hcfg⟩ := T.1.2 ⟨⟨[], rfl⟩, by decide, by decide⟩
  have hh := T.2.2 cfg hcfg
  rw [hcfg]
  simp only
  rw [hh]
  decide

end kubernetes

namespace virtualservices

open models kubernetes istio golang

/-! ## Properties of the single-host checker -/

theorem indexAt_mapSet {β : Type} (m : GoMap (List β)) (k k2 : String) (v : List β) :
    indexAt (mapSet m k v) k2 = if k2 = k then v else indexAt m k2 := by
  unfold indexAt
  rw [appender.lookup_mapSet]
  by_cases h : k2 = k
  · rw [if_pos h, if_pos h]
    rfl
  · rw [if_neg h, if_neg h]

theorem indexAt_of_none {β : Type} (m : GoMap (List β)) (k : String)
    (h : List.lookup k m = none) : indexAt m k = [] := by
  unfold indexAt
  rw [h]
  rfl

theorem indexAt_of_some {β : Type} (m : GoMap (List β)) (k : String) (v : List β)
    (h : List.lookup k m = some v) : indexAt m k = v := by
  unfold indexAt
  rw [h]
  rfl

theorem indexAt_nil {β : Type} (k : String) : indexAt ([] : GoMap (List β)) k = [] := rfl

/-- The five branches of the loop body of `storeHost` are one assignment through the four
levels, a missing level reading as the empty map. -/
theorem storeHostAt_eq (vs : VirtualService) (c n s : String) (hc : HostCounter) (gw : String) :
    storeHostAt vs c n s hc gw =
      mapSet hc gw (mapSet (indexAt hc gw) c (mapSet (indexAt (indexAt hc gw) c) n
        (mapSet (indexAt (indexAt (indexAt hc gw) c) n) s
          (indexAt (indexAt (indexAt (indexAt hc gw) c) n) s ++ [vs])))) := by
  unfold storeHostAt
  cases h1 : List.lookup gw hc with
  | none =>
    simp only [indexAt_of_none hc gw h1, indexAt_nil]
    rfl
  | some g =>
    simp only [indexAt_of_some hc gw g h1]
    cases h2 : List.lookup c g with
    | none =>
      simp only [indexAt_of_none g c h2, indexAt_nil]
      rfl
    | some cc =>
      simp only [indexAt_of_some g c cc h2]
      cases h3 : List.lookup n cc with
      | none =>
        simp only [indexAt_of_none cc n h3, indexAt_nil]
        rfl
      | some nc =>
        simp only [indexAt_of_some cc n nc h3]
        cases h4 : List.lookup s nc with
        | none =>
          simp only [indexAt_of_none nc s h4]
          rfl
        | some sc =>
          simp only [indexAt_of_some nc s sc h4]

theorem storeHostAt_entries (vs : VirtualService) (c n s : String) (hc : HostCounter)
    (gw : String) :
    entriesAt (storeHostAt vs c n s hc gw) =
      Function.update (entriesAt hc) (gw, c, n, s) (entriesAt hc (gw, c, n, s) ++ [vs]) := by
  funext t
  obtain ⟨g2, c2, n2, s2⟩ := t
  rw [storeHostAt_eq]
  by_cases hg : g2 = gw
  · subst hg
    by_cases hcc : c2 = c
    · subst hcc
      by_cases hn : n2 = n
      · subst hn
        by_cases hs : s2 = s
        · subst hs
          simp [entriesAt, indexAt_mapSet]
        · have hne : (g2, c2, n2, s2) ≠ (g2, c2, n2, s) := by
            intro h
            exact hs (by injection h with _ h; injection h with _ h; injection h)
          rw [Function.update_noteq hne]
          simp [entriesAt, indexAt_mapSet, hs]
      · have hne : (g2, c2, n2, s2) ≠ (g2, c2, n, s) := by
          intro h
          exact hn (by injection h with _ h; injection h with _ h; injection h)
        rw [Function.update_noteq hne]
        simp [entriesAt, indexAt_mapSet, hn]
    · have hne : (g2, c2, n2, s2) ≠ (g2, c, n, s) := by
        intro h
        exact hcc (by injection h with _ h; injection h)
      rw [Function.update_noteq hne]
      simp [entriesAt, indexAt_mapSet, hcc]
  · have hne : (g2, c2, n2, s2) ≠ (gw, c, n, s) := by
      intro h
      exact hg (by injection h)
    rw [Function.update_noteq hne]
    simp [entriesAt, indexAt_mapSet, hg]

theorem foldl_storeHostAt_entries (vs : VirtualService) (c n s : String) (l : List String) :
    ∀ hc : HostCounter, entriesAt (l.foldl (storeHostAt vs c n s) hc) =
      l.foldl (fun m gw => Function.update m (gw, c, n, s) (m (gw, c, n, s) ++ [vs]))
        (entriesAt hc) := by
  induction l with
  | nil => intro hc; rfl
  | cons g rest ih =>
    intro hc
    simp only [List.foldl_cons]
    rw [ih, storeHostAt_entries]

theorem foldl_update_append (vs : VirtualService) (c n s : String) (l : List String)
    (t : String × String × String × String) :
    ∀ m : String × String × String × String → List VirtualService,
      l.foldl (fun m gw => Function.update m (gw, c, n, s) (m (gw, c, n, s) ++ [vs])) m t =
        m t ++ l.filterMap (fun gw => if (gw, c, n, s) = t then some vs else none) := by
  induction l with
  | nil => intro m; simp
  | cons g rest ih =>
    intro m
    simp only [List.foldl_cons]
    rw [ih]
    by_cases h : (g, c, n, s) = t
    · subst h
      simp [List.filterMap_cons]
    · rw [Function.update_noteq (fun hh => h hh.symm)]
      simp [List.filterMap_cons, h]

theorem storeHost_entries (hc : HostCounter) (vs : VirtualService) (host : Host)
    (t : String × String × String × String) :
    entriesAt (storeHost hc vs host) t = entriesAt hc t ++
      (gwListOf vs).filterMap (fun gw =>
        if (gw, host.Cluster, host.Namespace, host.Service) = t then some vs else none) := by
  unfold storeHost
  rw [foldl_storeHostAt_entries, foldl_update_append]

theorem foldl_storeHost_entries (calls : List (VirtualService × Host))
    (t : String × String × String × String) :
    ∀ hc : HostCounter,
      entriesAt (calls.foldl (fun hostCounter call => storeHost hostCounter call.1 call.2) hc)
        t = entriesAt hc t ++ storedUnder calls t := by
  induction calls with
  | nil => intro hc; simp [storedUnder]
  | cons call rest ih =>
    intro hc
    simp only [List.foldl_cons]
    rw [ih, storeHost_entries]
    simp [storedUnder, List.flatMap_cons, List.append_assoc]

/-- C28. The nested map of `storeHost` groups like a single map keyed by the tuple (gateway,
cluster, namespace, service) with append: a call of `storeHost` is, on the lists read at the
tuples, the store with append of the tuple-keyed map; it adds the virtual service to the
list of a tuple once for each gateway of the virtual service ("no-gateway" when it has none)
that makes the tuple with the host, and leaves the list of every other tuple as it was; and
after any sequence of calls on the empty map the list at a tuple is exactly the virtual
services stored under that tuple, in call order. -/
theorem storeHost_groups_by_tuple :
    (∀ (hc : HostCounter) (vs : VirtualService) (host : Host),
      entriesAt (storeHost hc vs host) = tupleStore (entriesAt hc) vs host) ∧
    (∀ (hc : HostCounter) (vs : VirtualService) (host : Host)
      (t : String × String × String × String),
      entriesAt (storeHost hc vs host) t = entriesAt hc t ++
        (gwListOf vs).filterMap (fun gw =>
          if (gw, host.Cluster, host.Namespace, host.Service) = t then some vs else none)) ∧
    (∀ (calls : List (VirtualService × Host)) (t : String × String × String × String),
      entriesAt (storeHosts calls) t = storedUnder calls t) := by
  refine ⟨fun hc vs host => ?_, storeHost_entries, fun calls t => ?_⟩
  · unfold storeHost tupleStore
    exact foldl_storeHostAt_entries vs host.Cluster host.Namespace host.Service _ hc
  · unfold storeHosts
    rw [foldl_storeHost_entries]
    rfl

/-- C22 (evaluation at the failing input). One virtual service "reviews" of namespace
"bookinfo" for the host "reviews", whose gateway list names the gateway "bookinfo-gateway"
twice: the list of the host under that gateway holds the virtual service twice, so `Check`
flags it (one validation for each of the two entries, with no reference), although no other
virtual service targets the host. The same happens without gateways when the host list names
the host twice, as "reviews" and "reviews", or as "reviews" and
"reviews.bookinfo.svc.cluster.local", which resolve to one host. With one gateway and one host
name nothing is flagged. -/
theorem Check_flags_a_virtual_service_alone :
    (exampleChecker [{ Name := "reviews", Namespace := "bookinfo", Hosts := ["reviews"],
                       Gateways := ["bookinfo-gateway", "bookinfo-gateway"] }]).Check =
      [({ Name := "reviews", Namespace := "bookinfo", ObjectType := "virtualservice" },
        { Name := "reviews", ObjectType := "virtualservice", Valid := true,
          Checks := [{ Code := "virtualservices.singlehost", Path := "spec/hosts" }],
          References := [] }),
       ({ Name := "reviews", Namespace := "bookinfo", ObjectType := "virtualservice" },
        { Name := "reviews", ObjectType := "virtualservice", Valid := true,
          Checks := [{ Code := "virtualservices.singlehost", Path := "spec/hosts" }],
          References := [] })] ∧
    (exampleChecker [{ Name := "reviews", Namespace := "bookinfo",
                       Hosts := ["reviews", "reviews"] }]).Check.keys =
      [{ Name := "reviews", Namespace := "bookinfo", ObjectType := "virtualservice" },
       { Name := "reviews", Namespace := "bookinfo", ObjectType := "virtualservice" }] ∧
    (exampleChecker [{ Name := "reviews", Namespace := "bookinfo",
                       Hosts := ["reviews", "reviews.bookinfo.svc.cluster.local"] }]).Check.keys =
      [{ Name := "reviews", Namespace := "bookinfo", ObjectType := "virtualservice" },
       { Name := "reviews", Namespace := "bookinfo", ObjectType := "virtualservice" }] ∧
    (exampleChecker [{ Name := "reviews", Namespace := "bookinfo", Hosts := ["reviews"],
                       Gateways := ["bookinfo-gateway"] }]).Check = [] := by
  refine ⟨?_, ?_, ?_, ?_⟩ <;> decide

end virtualservices

namespace destinationrules

open models kubernetes istio golang

/-! ## Properties of the multi-match checker -/

theorem pairs_add (dr1 dr2 : DestinationRule) (a b : Nat) :
    pairs dr1 dr2 (a + b) = pairs dr1 dr2 a ++ pairs dr1 dr2 b := by
  induction b with
  | zero => simp [pairs]
  | succ b ih =>
    rw [← Nat.add_assoc]
    simp only [pairs, ih, List.append_assoc]

theorem pairs_eq_nil (dr1 dr2 : DestinationRule) (k : Nat) :
    pairs dr1 dr2 k = [] ↔ k = 0 := by
  cases k with
  | zero => simp [pairs]
  | succ k => simp [pairs]

theorem mem_pairs (dr1 dr2 : DestinationRule) (k : Nat) :
    ∀ e ∈ pairs dr1 dr2 k, e = flaggedWith dr2 dr1 ∨ e = flaggedWith dr1 dr2 := by
  induction k with
  | zero => intro e he; simp [pairs] at he
  | succ k ih =>
    intro e he
    simp only [pairs, List.mem_append, List.mem_cons, List.mem_singleton,
      List.not_mem_nil, or_false] at he
    rcases he with he | he | he
    · exact ih e he
    · exact Or.inl he
    · exact Or.inr he

theorem pairs_mem_of_pos (dr1 dr2 : DestinationRule) (k : Nat) (hk : 0 < k) :
    flaggedWith dr2 dr1 ∈ pairs dr1 dr2 k ∧ flaggedWith dr1 dr2 ∈ pairs dr1 dr2 k := by
  cases k with
  | zero => cases hk
  | succ k => simp [pairs]

/-- One `addError` call for the rule `dr2` against the stored rule of `dr1`. -/
theorem addError_eq (v : IstioValidations) (dr1 dr2 : DestinationRule) :
    addError v dr2.Namespace dr1.Namespace dr2.Name dr1.Name =
      v ++ pairs dr1 dr2 1 := by
  simp [addError, createError, MergeValidations, pairs, flaggedWith, keyOf, List.append_assoc]

theorem addErrors_eq (dr1 dr2 : DestinationRule) (rules : List rule)
    (hall : ∀ e ∈ rules, e = { Name := dr1.Name, Namespace := dr1.Namespace }) :
    ∀ v : IstioValidations, addErrors v dr2.Namespace dr2.Name rules =
      v ++ pairs dr1 dr2 rules.length := by
  induction rules with
  | nil => intro v; simp [addErrors, pairs]
  | cons e rest ih =>
    intro v
    have he : e = { Name := dr1.Name, Namespace := dr1.Namespace } :=
      hall e (List.mem_cons_self _ _)
    have hrest : ∀ x ∈ rest, x = { Name := dr1.Name, Namespace := dr1.Namespace } :=
      fun x hx => hall x (List.mem_cons_of_mem _ hx)
    have ih2 := ih hrest
    unfold addErrors at ih2 ⊢
    rw [List.foldl_cons, ih2, he]
    show addError v dr2.Namespace dr1.Namespace dr2.Name dr1.Name ++ _ = _
    rw [addError_eq, List.append_assoc, ← pairs_add, List.length_cons, Nat.add_comm]

theorem lookup_mem {β : Type} (k : String) (v : β) :
    ∀ l : List (String × β), List.lookup k l = some v → (k, v) ∈ l := by
  intro l
  induction l with
  | nil => intro h; simp [List.lookup] at h
  | cons e rest ih =>
    obtain ⟨k0, v0⟩ := e
    intro h
    rw [appender.lookup_cons_eq] at h
    by_cases hk : k = k0
    · rw [if_pos hk] at h
      simp only [Option.some.injEq] at h
      rw [hk, h]
      exact List.mem_cons_self _ _
    · rw [if_neg hk] at h
      exact List.mem_cons_of_mem _ (ih h)

theorem storedCount_eq (dr1 dr2 : DestinationRule) (existing : GoMap (List rule))
    (hall : ∀ entry ∈ existing, ∀ e ∈ entry.2,
      e = { Name := dr1.Name, Namespace := dr1.Namespace })
    (name : String) (v : IstioValidations) :
    (match existing.lookup name with
      | some rules => addErrors v dr2.Namespace dr2.Name rules
      | none => v) = v ++ pairs dr1 dr2 (storedCount existing name) := by
  unfold storedCount
  cases h : List.lookup name existing with
  | none => simp [pairs]
  | some rules =>
    simp only
    exact addErrors_eq dr1 dr2 rules (hall (name, rules) (lookup_mem name rules existing h)) v

/-- The calls of `checkCollisions` for the rule `dr2` against a map that stores the rule of
`dr1` only: every call of `addError` adds the same two entries. -/
theorem checkCollisions_eq (dr1 dr2 : DestinationRule) (foundSubsets : List subset)
    (existing : GoMap (List rule))
    (hall : ∀ entry ∈ existing, ∀ e ∈ entry.2,
      e = { Name := dr1.Name, Namespace := dr1.Namespace })
    (v : IstioValidations) :
    checkCollisions v dr2.Namespace dr2.Name foundSubsets existing =
      v ++ pairs dr1 dr2 (collisions foundSubsets existing) := by
  have hloop : ∀ (l : GoMap (List rule)), (∀ entry ∈ l, entry ∈ existing) →
      ∀ v : IstioValidations,
      l.foldl (fun validations w => addErrors validations dr2.Namespace dr2.Name w.2) v =
        v ++ pairs dr1 dr2 (l.map (fun w => w.2.length)).sum := by
    intro l
    induction l with
    | nil => intro _ v; simp [pairs]
    | cons w rest ih =>
      intro hsub v
      rw [List.foldl_cons, ih (fun entry he => hsub entry (List.mem_cons_of_mem _ he)),
        addErrors_eq dr1 dr2 w.2 (hall w (hsub w (List.mem_cons_self _ _))),
        List.append_assoc, ← pairs_add]
      simp
  have hsubsets : ∀ (l : List subset) (v : IstioValidations),
      l.foldl (fun validations s =>
        match existing.lookup s.Name with
        | some rules => addErrors validations dr2.Namespace dr2.Name rules
        | none => validations) v =
        v ++ pairs dr1 dr2 (l.map (fun s => storedCount existing s.Name)).sum := by
    intro l
    induction l with
    | nil => intro v; simp [pairs]
    | cons s rest ih =>
      intro v
      rw [List.foldl_cons, storedCount_eq dr1 dr2 existing hall, ih, List.append_assoc,
        ← pairs_add]
      simp
  unfold checkCollisions collisions
  simp only
  rw [hsubsets, storedCount_eq dr1 dr2 existing hall]
  have hfirst : (match foundSubsets with
      | [s] =>
        if s.Name = "~" then
          existing.foldl (fun validations w =>
            addErrors validations dr2.Namespace dr2.Name w.2) v
        else v
      | _ => v) = v ++ pairs dr1 dr2 (match foundSubsets with
        | [s] => if s.Name = "~" then (existing.map (fun w => w.2.length)).sum else 0
        | _ => 0) := by
    split
    · split_ifs
      · exact hloop existing (fun _ h => h) v
      · simp [pairs]
    · simp [pairs]
  rw [hfirst, List.append_assoc, List.append_assoc, ← pairs_add, ← pairs_add, Nat.add_assoc]

theorem mem_mapSet {β : Type} (k : String) (v : β) (entry : String × β) :
    ∀ m : List (String × β), entry ∈ mapSet m k v → entry = (k, v) ∨ entry ∈ m := by
  intro m
  induction m with
  | nil =>
    intro h
    simp only [mapSet, List.mem_singleton] at h
    exact Or.inl h
  | cons e rest ih =>
    obtain ⟨k0, v0⟩ := e
    intro h
    by_cases hk : k0 = k
    · simp only [mapSet, if_pos hk, List.mem_cons] at h
      rcases h with h | h
      · exact Or.inl h
      · exact Or.inr (List.mem_cons_of_mem _ h)
    · simp only [mapSet, if_neg hk, List.mem_cons] at h
      rcases h with h | h
      · exact Or.inr (by rw [h]; exact List.mem_cons_self _ _)
      · rcases ih h with h2 | h2
        · exact Or.inl h2
        · exact Or.inr (List.mem_cons_of_mem _ h2)

theorem mapSet_ne_nil {β : Type} (m : List (String × β)) (k : String) (v : β) :
    mapSet m k v ≠ [] := by
  cases m with
  | nil => simp [mapSet]
  | cons e rest =>
    obtain ⟨k0, v0⟩ := e
    by_cases hk : k0 = k <;> simp [mapSet, hk]

theorem indexAt_mem {β : Type} (m : GoMap (List β)) (k : String) (x : β)
    (hx : x ∈ indexAt m k) : ∃ entry ∈ m, x ∈ entry.2 := by
  unfold indexAt at hx
  cases h : List.lookup k m with
  | none => simp [h] at hx
  | some v =>
    simp only [h, Option.getD_some] at hx
    exact ⟨(k, v), lookup_mem k v m h, hx⟩

/-- The map of one host stores the one rule only, and no empty list, when it is filled by
`seenNames` from a map of that kind. -/
theorem seenNames_all (r : rule) (names : List String) :
    ∀ existing : GoMap (List rule),
      (∀ entry ∈ existing, entry.2 ≠ [] ∧ ∀ e ∈ entry.2, e = r) →
      ∀ entry ∈ seenNames r names existing, entry.2 ≠ [] ∧ ∀ e ∈ entry.2, e = r := by
  induction names with
  | nil => intro existing h; exact h
  | cons n rest ih =>
    intro existing h
    unfold seenNames
    rw [List.foldl_cons]
    apply ih
    intro entry he
    rcases mem_mapSet n _ entry existing he with h1 | h1
    · rw [h1]
      refine ⟨by simp, ?_⟩
      intro e hmem
      simp only [List.mem_append, List.mem_singleton] at hmem
      rcases hmem with hmem | hmem
      · obtain ⟨entry2, hin, hx⟩ := indexAt_mem existing n e hmem
        exact (h entry2 hin).2 e hx
      · exact hmem
    · exact h entry h1

theorem seenNames_ne_nil (r : rule) (names : List String) (hne : names ≠ []) :
    ∀ existing : GoMap (List rule), seenNames r names existing ≠ [] := by
  induction names with
  | nil => exact absurd rfl hne
  | cons n rest ih =>
    intro existing
    unfold seenNames
    rw [List.foldl_cons]
    cases rest with
    | nil => exact mapSet_ne_nil _ _ _
    | cons n2 rest2 => exact ih (by simp) _

theorem storedCount_mapSet (existing : GoMap (List rule)) (k n : String) (r : rule) :
    storedCount (mapSet existing k (indexAt existing k ++ [r])) n =
      storedCount existing n + (if n = k then 1 else 0) := by
  unfold storedCount
  rw [appender.lookup_mapSet]
  by_cases h : n = k
  · subst h
    simp only [if_true, List.length_append, List.length_singleton, indexAt]
    cases List.lookup n existing <;> rfl
  · simp only [if_neg h, Nat.add_zero]

theorem storedCount_seenNames (r : rule) (names : List String) (n : String) :
    ∀ existing : GoMap (List rule),
      storedCount (seenNames r names existing) n = storedCount existing n + names.count n := by
  induction names with
  | nil => intro existing; simp [seenNames]
  | cons k rest ih =>
    intro existing
    unfold seenNames
    rw [List.foldl_cons]
    have := ih (mapSet existing k (indexAt existing k ++ [r]))
    unfold seenNames at this
    rw [this, storedCount_mapSet, List.count_cons]
    by_cases h : n = k
    · subst h
      simp [Nat.add_assoc, Nat.add_comm]
    · have h2 : (k == n) = false := by simpa using fun hh => h hh.symm
      simp [h, h2]

theorem storedCount_pos_iff (r : rule) (names : List String) (n : String) :
    0 < storedCount (seenNames r names []) n ↔ n ∈ names := by
  rw [storedCount_seenNames]
  have h0 : storedCount ([] : GoMap (List rule)) n = 0 := rfl
  rw [h0, Nat.zero_add, List.count_pos_iff]

theorem foldl_storeSubset (host name namespace_ : String) (foundSubsets : List subset) :
    ∀ existing : GoMap (List rule),
      foundSubsets.foldl (storeSubset host name namespace_) [(host, existing)] =
        [(host, seenNames { Name := name, Namespace := namespace_ }
          (foundSubsets.map (fun s => s.Name)) existing)] := by
  induction foundSubsets with
  | nil => intro existing; rfl
  | cons s rest ih =>
    intro existing
    rw [List.foldl_cons]
    have hstep : storeSubset host name namespace_ [(host, existing)] s =
        [(host, mapSet existing s.Name
          (indexAt existing s.Name ++ [{ Name := name, Namespace := namespace_ }]))] := by
      simp [storeSubset, mapSet, indexAt, List.lookup]
    rw [hstep, ih]
    rfl

theorem hasPrefix_star (a b : String) : hasPrefix ("*." ++ a ++ "." ++ b) "*" = true := by
  unfold hasPrefix
  simp only [String.data_append]
  rfl

theorem names_extractSubsets (dr : DestinationRule) (name namespace_ : String) :
    (extractSubsets dr name namespace_).map (fun s => s.Name) =
      if dr.Subsets = [] then ["~"] else dr.Subsets := by
  unfold extractSubsets
  cases h : dr.Subsets with
  | nil => simp
  | cons a rest => simp [Function.comp_def]

/-- The validations of two rules with one host text that is no wildcard: the first rule is
stored, and the second is checked against it. -/
theorem Check_two_rules_eq (m : MultiMatchChecker) (dr1 dr2 : DestinationRule)
    (hrules : m.ExportedDestinationRules = [dr1, dr2])
    (hsame : m.HostString (m.hostOf dr1) = m.HostString (m.hostOf dr2))
    (hnw1 : m.nonWildcard (m.hostOf dr1)) (hnw2 : m.nonWildcard (m.hostOf dr2)) :
    m.Check = pairs dr1 dr2 (collisions (extractSubsets dr2 dr2.Name dr2.Namespace)
      (seenNames { Name := dr1.Name, Namespace := dr1.Namespace }
        (if dr1.Subsets = [] then ["~"] else dr1.Subsets) [])) := by
  unfold MultiMatchChecker.nonWildcard at hnw1 hnw2
  unfold MultiMatchChecker.hostOf at hsame hnw1 hnw2
  have hskip1 : isNonLocalmTLSForServiceEnabled dr1
      (m.HostString (m.GetHost dr1.Host dr1.Namespace dr1.ClusterName m.NamespaceNames)) =
      false := by
    unfold isNonLocalmTLSForServiceEnabled
    rw [hnw1.2]
    rfl
  have hskip2 : isNonLocalmTLSForServiceEnabled dr2
      (m.HostString (m.GetHost dr2.Host dr2.Namespace dr2.ClusterName m.NamespaceNames)) =
      false := by
    unfold isNonLocalmTLSForServiceEnabled
    rw [hnw2.2]
    rfl
  have h1 : checkRule m ([], []) dr1 =
      ([], [(m.HostString (m.GetHost dr1.Host dr1.Namespace dr1.ClusterName m.NamespaceNames),
        seenNames { Name := dr1.Name, Namespace := dr1.Namespace }
          (if dr1.Subsets = [] then ["~"] else dr1.Subsets) [])]) := by
    unfold checkRule
    simp only [hskip1, hnw1.1, Bool.false_eq_true, if_false, List.lookup, List.foldl_nil]
    rw [← names_extractSubsets dr1 dr1.Name dr1.Namespace]
    have hm : mapSet ([] : GoMap (GoMap (List rule)))
        (m.HostString (m.GetHost dr1.Host dr1.Namespace dr1.ClusterName m.NamespaceNames)) [] =
        [(m.HostString (m.GetHost dr1.Host dr1.Namespace dr1.ClusterName m.NamespaceNames),
          [])] := rfl
    rw [hm, foldl_storeSubset]
  have hW : ("*." ++ (m.GetHost dr2.Host dr2.Namespace dr2.ClusterName m.NamespaceNames).Namespace
      ++ "." ++ (m.GetHost dr2.Host dr2.Namespace dr2.ClusterName m.NamespaceNames).Cluster) ≠
      m.HostString (m.GetHost dr1.Host dr1.Namespace dr1.ClusterName m.NamespaceNames) := by
    intro h
    have h2 := hasPrefix_star
      (m.GetHost dr2.Host dr2.Namespace dr2.ClusterName m.NamespaceNames).Namespace
      (m.GetHost dr2.Host dr2.Namespace dr2.ClusterName m.NamespaceNames).Cluster
    rw [h, hnw1.2] at h2
    cases h2
  have hall : ∀ entry ∈ seenNames { Name := dr1.Name, Namespace := dr1.Namespace }
      (if dr1.Subsets = [] then ["~"] else dr1.Subsets) [],
      ∀ e ∈ entry.2, e = { Name := dr1.Name, Namespace := dr1.Namespace } :=
    fun entry he => (seenNames_all _ _ [] (fun _ h => by cases h) entry he).2
  unfold MultiMatchChecker.Check
  rw [hrules]
  simp only [List.foldl_cons, List.foldl_nil]
  rw [h1]
  unfold checkRule
  have hnone : ∀ k : String, List.lookup k ([] : GoMap (GoMap (List rule))) = none :=
    fun _ => rfl
  simp only [hskip2, hnw2.1, Bool.false_eq_true, if_false]
  rw [← hsame]
  simp only [appender.lookup_cons_eq, if_neg hW, if_true, hnone]
  rw [checkCollisions_eq dr1 dr2 _ _ hall]
  rfl

theorem sum_pos_of_all_pos (l : List Nat) (hne : l ≠ []) (hall : ∀ x ∈ l, 0 < x) :
    0 < l.sum := by
  cases l with
  | nil => exact absurd rfl hne
  | cons a rest =>
    rw [List.sum_cons]
    exact Nat.lt_of_lt_of_le (hall a (List.mem_cons_self _ _)) (Nat.le_add_right _ _)

/-- The second of two rules collides with the first exactly when they share a subset name or
one of them declares no subsets, provided no declared subset is named "~". -/
theorem collisions_pos_iff (dr1 dr2 : DestinationRule)
    (ht1 : "~" ∉ dr1.Subsets) (ht2 : "~" ∉ dr2.Subsets) :
    0 < collisions (extractSubsets dr2 dr2.Name dr2.Namespace)
      (seenNames { Name := dr1.Name, Namespace := dr1.Namespace }
        (if dr1.Subsets = [] then ["~"] else dr1.Subsets) []) ↔ shareOrAll dr1 dr2 := by
  have hnames2 := names_extractSubsets dr2 dr2.Name dr2.Namespace
  have hne1 : (if dr1.Subsets = [] then ["~"] else dr1.Subsets) ≠ [] := by
    split_ifs with h
    · simp
    · exact h
  constructor
  · intro hpos
    by_contra hno
    unfold shareOrAll at hno
    simp only [not_or, not_exists, not_and] at hno
    obtain ⟨hshare, hs1, hs2⟩ := hno
    have hc2 : storedCount (seenNames { Name := dr1.Name, Namespace := dr1.Namespace }
        (if dr1.Subsets = [] then ["~"] else dr1.Subsets) []) "~" = 0 := by
      by_contra hc
      have := (storedCount_pos_iff _ _ "~").1 (Nat.pos_of_ne_zero hc)
      rw [if_neg hs1] at this
      exact ht1 this
    have hc3 : ((extractSubsets dr2 dr2.Name dr2.Namespace).map (fun s =>
        storedCount (seenNames { Name := dr1.Name, Namespace := dr1.Namespace }
          (if dr1.Subsets = [] then ["~"] else dr1.Subsets) []) s.Name)).sum = 0 := by
      apply List.sum_eq_zero
      intro x hx
      obtain ⟨s, hs, rfl⟩ := List.mem_map.1 hx
      by_contra hc
      have hin1 := (storedCount_pos_iff _ _ s.Name).1 (Nat.pos_of_ne_zero hc)
      rw [if_neg hs1] at hin1
      have hin2 : s.Name ∈ dr2.Subsets := by
        have : s.Name ∈ (extractSubsets dr2 dr2.Name dr2.Namespace).map (fun s => s.Name) :=
          List.mem_map.2 ⟨s, hs, rfl⟩
        rw [hnames2, if_neg hs2] at this
        exact this
      exact hshare s.Name hin1 hin2
    have hc1 : (match extractSubsets dr2 dr2.Name dr2.Namespace with
        | [s] => if s.Name = "~" then
            ((seenNames { Name := dr1.Name, Namespace := dr1.Namespace }
              (if dr1.Subsets = [] then ["~"] else dr1.Subsets) []).map
                (fun v => v.2.length)).sum else 0
        | _ => 0) = 0 := by
      split
      · rename_i s hs
        have hin : s.Name ∈ dr2.Subsets := by
          have : s.Name ∈ (extractSubsets dr2 dr2.Name dr2.Namespace).map (fun s => s.Name) := by
            rw [hs]; simp
          rw [hnames2, if_neg hs2] at this
          exact this
        have hne : ¬ s.Name = "~" := by
          intro h
          rw [h] at hin
          exact ht2 hin
        rw [if_neg hne]
      · rfl
    unfold collisions at hpos
    rw [hc1, hc2, hc3] at hpos
    cases hpos
  · intro hsh
    unfold collisions
    rcases hsh with ⟨name, h1, h2⟩ | h | h
    · -- a shared subset name
      have hs1 : dr1.Subsets ≠ [] := fun h => by rw [h] at h1; cases h1
      have hs2 : dr2.Subsets ≠ [] := fun h => by rw [h] at h2; cases h2
      have hmem : name ∈ (extractSubsets dr2 dr2.Name dr2.Namespace).map (fun s => s.Name) := by
        rw [hnames2, if_neg hs2]
        exact h2
      obtain ⟨s, hs, hsn⟩ := List.mem_map.1 hmem
      have hpos : 0 < storedCount (seenNames { Name := dr1.Name, Namespace := dr1.Namespace }
          (if dr1.Subsets = [] then ["~"] else dr1.Subsets) []) s.Name := by
        rw [storedCount_pos_iff, if_neg hs1, hsn]
        exact h1
      have hle : storedCount (seenNames { Name := dr1.Name, Namespace := dr1.Namespace }
          (if dr1.Subsets = [] then ["~"] else dr1.Subsets) []) s.Name ≤
          ((extractSubsets dr2 dr2.Name dr2.Namespace).map (fun s =>
            storedCount (seenNames { Name := dr1.Name, Namespace := dr1.Namespace }
              (if dr1.Subsets = [] then ["~"] else dr1.Subsets) []) s.Name)).sum :=
        List.single_le_sum (fun _ _ => Nat.zero_le _) _ (List.mem_map.2 ⟨s, hs, rfl⟩)
      omega
    · -- the first rule declares no subsets: it is stored under "~"
      have hpos : 0 < storedCount (seenNames { Name := dr1.Name, Namespace := dr1.Namespace }
          (if dr1.Subsets = [] then ["~"] else dr1.Subsets) []) "~" := by
        rw [storedCount_pos_iff, if_pos h]
        simp
      omega
    · -- the second rule declares no subsets: it matches every stored subset
      have hfound : extractSubsets dr2 dr2.Name dr2.Namespace =
          [{ Name := "~", Namespace := dr2.Namespace, RuleName := dr2.Name }] := by
        unfold extractSubsets
        rw [h]
        rfl
      rw [hfound]
      simp only [if_true]
      have hsum : 0 < ((seenNames { Name := dr1.Name, Namespace := dr1.Namespace }
          (if dr1.Subsets = [] then ["~"] else dr1.Subsets) []).map
            (fun v => v.2.length)).sum := by
        apply sum_pos_of_all_pos
        · intro hnil
          exact seenNames_ne_nil _ _ hne1 [] (List.map_eq_nil_iff.1 hnil)
        · intro x hx
          obtain ⟨entry, he, rfl⟩ := List.mem_map.1 hx
          exact List.length_pos.2
            (seenNames_all _ _ [] (fun _ h => by cases h) entry he).1
      omega

/-- C21 (counterexample). Two rules for the host "reviews.bookinfo.svc.cluster.local", which
is no wildcard: "a" declares the subset "v1" and "b" declares the one subset "~". They share
no subset name and each declares a subset, yet `Check` flags both: the subset name "~" is
taken for the mark of a rule without subsets. -/
theorem Check_flags_rules_with_a_tilde_subset :
    (exampleChecker []).nonWildcard
      ((exampleChecker []).hostOf (exampleRule "a" ["v1"])) ∧
    (exampleChecker []).hostOf (exampleRule "a" ["v1"]) =
      (exampleChecker []).hostOf (exampleRule "b" ["~"]) ∧
    ¬ shareOrAll (exampleRule "a" ["v1"]) (exampleRule "b" ["~"]) ∧
    flaggedWith (exampleRule "a" ["v1"]) (exampleRule "b" ["~"]) ∈
      (exampleChecker [exampleRule "a" ["v1"], exampleRule "b" ["~"]]).Check ∧
    flaggedWith (exampleRule "b" ["~"]) (exampleRule "a" ["v1"]) ∈
      (exampleChecker [exampleRule "a" ["v1"], exampleRule "b" ["~"]]).Check := by
  refine ⟨⟨by decide, by decide⟩, by decide, ?_, by decide, by decide⟩
  intro h
  rcases h with ⟨name, h1, h2⟩ | h | h
  · simp only [exampleRule, List.mem_singleton] at h1 h2
    rw [h1] at h2
    exact absurd h2 (by decide)
  · exact absurd h (by decide)
  · exact absurd h (by decide)

/-- C21 (amended). For an input of exactly two exported destination rules that resolve to
hosts with one text, neither host a wildcard, and none of whose declared subsets is named
"~": if the two rules share a subset name or at least one of them declares no subsets,
`Check` flags both rules, each with a "destinationrules.multimatch" check on "spec/host" and
a reference to the other, and merges nothing else; otherwise it returns no validation. -/
theorem Check_flags_two_rules_iff (m : MultiMatchChecker) (dr1 dr2 : DestinationRule)
    (hrules : m.ExportedDestinationRules = [dr1, dr2])
    (hsame : m.HostString (m.hostOf dr1) = m.HostString (m.hostOf dr2))
    (hnw1 : m.nonWildcard (m.hostOf dr1)) (hnw2 : m.nonWildcard (m.hostOf dr2))
    (ht1 : "~" ∉ dr1.Subsets) (ht2 : "~" ∉ dr2.Subsets) :
    (shareOrAll dr1 dr2 →
      flaggedWith dr1 dr2 ∈ m.Check ∧ flaggedWith dr2 dr1 ∈ m.Check ∧
      ∀ e ∈ m.Check, e = flaggedWith dr2 dr1 ∨ e = flaggedWith dr1 dr2) ∧
    (¬ shareOrAll dr1 dr2 → m.Check = []) := by
  rw [Check_two_rules_eq m dr1 dr2 hrules hsame hnw1 hnw2]
  constructor
  · intro hsh
    have hpos := (collisions_pos_iff dr1 dr2 ht1 ht2).2 hsh
    exact ⟨(pairs_mem_of_pos dr1 dr2 _ hpos).2, (pairs_mem_of_pos dr1 dr2 _ hpos).1,
      mem_pairs dr1 dr2 _⟩
  · intro hno
    rw [pairs_eq_nil]
    by_contra hne
    exact hno ((collisions_pos_iff dr1 dr2 ht1 ht2).1 (Nat.pos_of_ne_zero hne))

/-- C21 (witness). Two rules for the host "reviews.bookinfo.svc.cluster.local": "a" declares
the subsets "v1" and "v2", "b" declares the subset "v2". Both are flagged, each with a
reference to the other. -/
theorem Check_flags_two_rules_iff_witness :
    flaggedWith (exampleRule "a" ["v1", "v2"]) (exampleRule "b" ["v2"]) ∈
      (exampleChecker [exampleRule "a" ["v1", "v2"], exampleRule "b" ["v2"]]).Check ∧
    flaggedWith (exampleRule "b" ["v2"]) (exampleRule "a" ["v1", "v2"]) ∈
      (exampleChecker [exampleRule "a" ["v1", "v2"], exampleRule "b" ["v2"]]).Check :=
  have T := (Check_flags_two_rules_iff
    (exampleChecker [exampleRule "a" ["v1", "v2"], exampleRule "b" ["v2"]])
    (exampleRule "a" ["v1", "v2"]) (exampleRule "b" ["v2"]) rfl rfl
    ⟨by decide, by decide⟩ ⟨by decide, by decide⟩ (by decide) (by decide)).1
    (Or.inl ⟨"v2", by decide, by decide⟩)
  ⟨T.1, T.2.1⟩

/-- C27 (evaluation at the failing input). The rule "reviews" for the host
"reviews.bookinfo.svc.cluster.local" and the rule "all-other" for the wildcard host
"*.other.svc.cluster.local" of another namespace, neither with subsets: listed with the
wildcard rule last, `Check` flags both (the wildcard rule is checked against every host seen);
listed with the wildcard rule first, it flags neither (the later rule looks up the wildcard
of its own namespace only). Likewise the rules "a", with the subsets "~" and "v1", and "b",
with the subset "v2", for one host: both are flagged in this order, neither in the other. -/
theorem Check_depends_on_the_order_of_the_rules :
    keyOf (exampleRule "reviews" []) ∈
      (exampleChecker [exampleRule "reviews" [], exampleWildcardRule]).Check.keys ∧
    keyOf exampleWildcardRule ∈
      (exampleChecker [exampleRule "reviews" [], exampleWildcardRule]).Check.keys ∧
    (exampleChecker [exampleWildcardRule, exampleRule "reviews" []]).Check.keys = [] ∧
    keyOf (exampleRule "a" ["~", "v1"]) ∈
      (exampleChecker [exampleRule "a" ["~", "v1"], exampleRule "b" ["v2"]]).Check.keys ∧
    keyOf (exampleRule "b" ["v2"]) ∈
      (exampleChecker [exampleRule "a" ["~", "v1"], exampleRule "b" ["v2"]]).Check.keys ∧
    (exampleChecker [exampleRule "b" ["v2"], exampleRule "a" ["~", "v1"]]).Check.keys = [] := by
  refine ⟨?_, ?_, ?_, ?_, ?_, ?_⟩ <;> decide

end destinationrules
